import Mathlib

/-!
# Texture slicing in Cogl (clutter/cogl)

A shallow embedding of the slice planner, the slice creation, the span
iterator and the upload / download paths of
`clutter/cogl/cogl/cogl-texture-2d-sliced.c` and `clutter/cogl/gl/cogl-texture.c`,
followed by the properties proved about them.

Conventions of the embedding:

* C `int` values are `Int`; `/` on `int` is `Int.tdiv` (truncation toward zero).
* A `while` loop is a function that recurses on a fuel argument and yields
  `none` when the fuel is used up; every entry point supplies a fuel that is
  computed from its arguments, and the theorems show that it is enough.
  `none` is also the result of a failed `g_assert`.
* A `GArray *` that may be `NULL` is an `Option (List _)`.
* 32-bit values are integers wrapped with `to_gint` / `to_guint` where the code can
  overflow; `ClutterFixed` positions of the span iterator count 1/65536 of a pixel.
-/

namespace Cogl

/-! ## Data model -/

/-- The `CoglSpan` / `CoglTexSliceSpan` record: one slice along one axis. -/
structure CoglSpan where
  start : Int
  size : Int
  waste : Int
deriving DecidableEq, Repr, Inhabited

/-- The statement `if (out_spans) g_array_append_val (out_spans, span);`. -/
def append_span (out_spans : Option (List CoglSpan)) (span : CoglSpan) :
    Option (List CoglSpan) :=
  match out_spans with
  | none => none
  | some arr => some (arr ++ [span])

/-! ## Slice planner: rectangular policy -/

/-- The loop `while (size_to_fill >= span.size)` of `_cogl_rect_slices_for_size`.
The result is the state `(size_to_fill, span, n_spans, out_spans)` at loop exit. -/
def rect_loop : Nat → Int → CoglSpan → Int → Option (List CoglSpan) →
    Option (Int × CoglSpan × Int × Option (List CoglSpan))
  | 0, _, _, _, _ => none
  | fuel + 1, size_to_fill, span, n_spans, out_spans =>
    if size_to_fill ≥ span.size then
      rect_loop fuel (size_to_fill - span.size)
        { span with start := span.start + span.size } (n_spans + 1)
        (append_span out_spans span)
    else
      some (size_to_fill, span, n_spans, out_spans)

/-- The function `_cogl_rect_slices_for_size`: returns `n_spans` and the array
`out_spans` after the call. The loop body runs at most `size_to_fill` times when
`max_span_size >= 1`. -/
def _cogl_rect_slices_for_size (size_to_fill max_span_size _max_waste : Int)
    (out_spans : Option (List CoglSpan)) : Option (Int × Option (List CoglSpan)) :=
  match rect_loop (size_to_fill.toNat + 1) size_to_fill
      { start := 0, size := max_span_size, waste := 0 } 0 out_spans with
  | none => none
  | some (size_to_fill, span, n_spans, out_spans) =>
    if size_to_fill > 0 then
      let span := { span with size := size_to_fill }
      some (n_spans + 1, append_span out_spans span)
    else
      some (n_spans, out_spans)

/-! ## Slice planner: power-of-two policy -/

/-- The inner loop `while (span.size - size_to_fill > max_waste)` of
`_cogl_pot_slices_for_size`, with its `g_assert (span.size > 0)`; the result is
`span.size` at loop exit. -/
def pot_shrink : Nat → Int → Int → Int → Option Int
  | 0, _, _, _ => none
  | fuel + 1, span_size, size_to_fill, max_waste =>
    if span_size - size_to_fill > max_waste then
      let span_size := Int.tdiv span_size 2
      if span_size > 0 then pot_shrink fuel span_size size_to_fill max_waste
      else none
    else
      some span_size

/-- The loop `while (TRUE)` of `_cogl_pot_slices_for_size`. -/
def pot_loop : Nat → Int → CoglSpan → Int → Int → Option (List CoglSpan) →
    Option (Int × Option (List CoglSpan))
  | 0, _, _, _, _, _ => none
  | fuel + 1, size_to_fill, span, max_waste, n_spans, out_spans =>
    if size_to_fill > span.size then
      pot_loop fuel (size_to_fill - span.size)
        { span with start := span.start + span.size } max_waste (n_spans + 1)
        (append_span out_spans span)
    else if span.size - size_to_fill ≤ max_waste then
      let span := { span with waste := span.size - size_to_fill }
      some (n_spans + 1, append_span out_spans span)
    else
      match pot_shrink (span.size.toNat + 1) span.size size_to_fill max_waste with
      | none => none
      | some span_size =>
        pot_loop fuel size_to_fill { span with size := span_size } max_waste n_spans
          out_spans

/-- The function `_cogl_pot_slices_for_size`: returns `n_spans` and the array
`out_spans` after the call. Every iteration of the outer loop lowers
`size_to_fill + span.size` by at least one. -/
def _cogl_pot_slices_for_size (size_to_fill max_span_size max_waste : Int)
    (out_spans : Option (List CoglSpan)) : Option (Int × Option (List CoglSpan)) :=
  let max_waste := if max_waste < 0 then 0 else max_waste
  pot_loop (size_to_fill.natAbs + max_span_size.natAbs + 2) size_to_fill
    { start := 0, size := max_span_size, waste := 0 } max_waste 0 out_spans

/-! ## Predicates on span lists -/

/-- Spans laid end to end from offset `st`: each starts where the previous one
ends (`start + size`). -/
def Contig : Int → List CoglSpan → Prop
  | _, [] => True
  | st, s :: rest => s.start = st ∧ Contig (st + s.size) rest

/-- The covered length of a span list: the sum of `size - waste`. -/
def covered (spans : List CoglSpan) : Int :=
  (spans.map (fun s => s.size - s.waste)).sum

/-- The total hardware length of a span list: the sum of `size`. -/
def total_size (spans : List CoglSpan) : Int :=
  (spans.map (fun s => s.size)).sum


/-- The span lists that the slice planner produces for an axis of `size` pixels: laid
end to end from 0, `0 <= waste < size` in every span, waste only in the last span, and
`size` pixels covered. -/
structure Planned (size : Int) (spans : List CoglSpan) : Prop where
  ne : spans ≠ []
  contig : Contig 0 spans
  waste : ∀ s ∈ spans, 0 ≤ s.waste ∧ s.waste < s.size
  inner : ∀ s ∈ spans.dropLast, s.waste = 0
  cover : covered spans = size

/-- A power of two. -/
def IsPow2 (n : Int) : Prop := ∃ k : Nat, n = 2 ^ k


/-! ## The GL driver

OpenGL is an external collaborator. Its state is modelled by texture objects that hold
a size and a two-dimensional array of texels, the name of the bound texture, and a log
of the calls received. A texel (and a bitmap pixel) is a value of a type `α` that stands
for the `bpp` bytes of one pixel. -/

abbrev GLuint := Nat
abbrev GLenum := Nat

def GL_FALSE : GLenum := 0
def GL_TRUE : GLenum := 1
def GL_TEXTURE_2D : GLenum := 0x0DE1
def GL_TEXTURE_RECTANGLE_ARB : GLenum := 0x84F5
def GL_LINEAR : GLenum := 0x2601
def GL_TEXTURE_MAG_FILTER : GLenum := 0x2800
def GL_TEXTURE_MIN_FILTER : GLenum := 0x2801
def GL_TEXTURE_WRAP_S : GLenum := 0x2802
def GL_TEXTURE_WRAP_T : GLenum := 0x2803
def GL_GENERATE_MIPMAP : GLenum := 0x8191

/-- One GL texture object: the size given by `glTexImage2D` and its texels. -/
structure GLTexture (α : Type) where
  width : Int
  height : Int
  texel : Int → Int → α

/-- The calls made to the driver, as recorded in the log. -/
inductive GLCall where
  | genTextures (n : Nat)
  | bindTexture (handle : GLuint)
  | texImage2D (width height : Int)
  | texSubImage2D (xoffset yoffset width height : Int)
  | getTexImage
  | texParameteri (pname : GLenum) (param : GLenum)
  | generateMipmap
deriving DecidableEq, Repr

/-- The part of the GL state the texture code depends on. -/
structure GLState (α : Type) where
  next_name : GLuint
  bound : GLuint
  textures : GLuint → GLTexture α
  log : List GLCall

/-- Replace the texture object named `handle`. -/
def GLState.set_texture {α : Type} (gl : GLState α) (handle : GLuint) (t : GLTexture α) :
    GLState α :=
  { gl with textures := fun h => if h = handle then t else gl.textures h }

/-- The call `glGenTextures (n, handles)` (`_cogl_texture_driver_gen`): `n` unused
names. -/
def glGenTextures {α : Type} (gl : GLState α) (n : Nat) : List GLuint × GLState α :=
  ((List.range n).map (fun i => gl.next_name + i),
    { gl with next_name := gl.next_name + n, log := gl.log ++ [GLCall.genTextures n] })

/-- The call `glBindTexture (target, handle)` (`_cogl_bind_gl_texture_transient`). -/
def glBindTexture {α : Type} (gl : GLState α) (handle : GLuint) : GLState α :=
  { gl with bound := handle, log := gl.log ++ [GLCall.bindTexture handle] }

/-- The call `glTexImage2D (target, 0, intformat, width, height, 0, format, type, NULL)`:
sets the size of the bound texture; its texels are left as they were (unspecified). -/
def glTexImage2D {α : Type} (gl : GLState α) (width height : Int) : GLState α :=
  { gl.set_texture gl.bound
      { width := width, height := height, texel := (gl.textures gl.bound).texel } with
    log := gl.log ++ [GLCall.texImage2D width height] }

/-- The call `glTexSubImage2D (target, 0, xoffset, yoffset, width, height, format, type,
pixels)`: texel `(xoffset + i, yoffset + j)` of the bound texture becomes pixel `(i, j)` of
the unpacked client data, for `0 <= i < width` and `0 <= j < height`. -/
def glTexSubImage2D {α : Type} (gl : GLState α) (xoffset yoffset width height : Int)
    (pixels : Int → Int → α) : GLState α :=
  let t := gl.textures gl.bound
  { gl.set_texture gl.bound
      { t with texel := fun x y =>
          if xoffset ≤ x ∧ x < xoffset + width ∧ yoffset ≤ y ∧ y < yoffset + height then
            pixels (x - xoffset) (y - yoffset)
          else t.texel x y } with
    log := gl.log ++ [GLCall.texSubImage2D xoffset yoffset width height] }

/-- The call `glTexParameteri (target, pname, param)` on the bound texture. -/
def glTexParameteri {α : Type} (gl : GLState α) (pname param : GLenum) : GLState α :=
  { gl with log := gl.log ++ [GLCall.texParameteri pname param] }

/-- A client buffer of pixels read with `GL_UNPACK_ROW_LENGTH = row_length`, as set up by
`_cogl_texture_driver_prep_gl_for_pixels_upload (row_length * bpp, bpp)`: pixel `(i, j)`
is element `j * row_length + i`. -/
def unpack {α : Type} [Inhabited α] (buf : List α) (row_length : Int) : Int → Int → α :=
  fun i j => buf.getD (j * row_length + i).toNat default

/-- What the code asks of the driver: feature flags and the proxy-texture size query
`_cogl_texture_driver_size_supported` for the format in use. -/
structure Driver where
  have_cogl_gl : Bool
  feature_texture_npot : Bool
  feature_offscreen : Bool
  size_supported : Int → Int → Bool

/-! ## Bitmaps -/

/-- Modelled from the spec: `CoglBitmap` (cogl-bitmap.c is not among the sources), a
decoded `{width, height, format, rowstride, data}` record whose data is in memory, so
that `_cogl_bitmap_map` yields it. `pixel x y` stands for the `bpp` bytes at
`data + y * rowstride + x * bpp`. -/
structure CoglBitmap (α : Type) where
  width : Int
  height : Int
  pixel : Int → Int → α

/-- The record `CoglTexturePixel`: the saved first pixel of a slice. -/
structure CoglTexturePixel (α : Type) where
  gl_format : GLenum
  gl_type : GLenum
  data : Option α

/-- The fields of `CoglTexture2DSliced` that the code reads and writes. The three arrays
are `NULL` (`none`) until the slices are created. -/
structure CoglTexture2DSliced (α : Type) where
  slice_x_spans : Option (List CoglSpan)
  slice_y_spans : Option (List CoglSpan)
  slice_gl_handles : Option (List GLuint)
  max_waste : Int
  gl_target : GLenum
  gl_format : GLenum
  format : Nat
  width : Int
  height : Int
  min_filter : GLenum
  mag_filter : GLenum
  wrap_mode_s : GLenum
  wrap_mode_t : GLenum
  is_foreign : Bool
  auto_mipmap : Bool
  mipmaps_dirty : Bool
  first_pixels : Option (List (CoglTexturePixel α))

/-- The expression `g_array_index (array, CoglSpan, i)`. -/
def span_index (array : Option (List CoglSpan)) (i : Nat) : CoglSpan :=
  (array.getD []).getD i default

/-- The expression `g_array_index (array, GLuint, i)`. -/
def handle_index (array : Option (List GLuint)) (i : Nat) : GLuint :=
  (array.getD []).getD i 0

/-- The field `array->len`. -/
def array_len {β : Type} (array : Option (List β)) : Nat :=
  (array.getD []).length

/-! ## Slice creation -/

/-- The loop `while (rval < a) rval <<= 1` behind `_cogl_util_next_p2`. -/
def next_p2_loop : Nat → Int → Int → Int
  | 0, rval, _ => rval
  | fuel + 1, rval, a => if rval < a then next_p2_loop fuel (rval * 2) a else rval

/-- Modelled from the spec: `_cogl_util_next_p2` (cogl-util.h is not among the sources),
the next power of two that is at least `a`. -/
def _cogl_util_next_p2 (a : Int) : Int :=
  next_p2_loop a.toNat 1 a

/-- The loop `while (!_cogl_texture_driver_size_supported (..., max_width, max_height))`
of `_cogl_texture_2d_sliced_slices_create`. The result is `some none` for `return FALSE`
and `some (some (max_width, max_height))` at loop exit. -/
def shrink_loop (size_supported : Int → Int → Bool) :
    Nat → Int → Int → Option (Option (Int × Int))
  | 0, _, _ => none
  | fuel + 1, max_width, max_height =>
    if !size_supported max_width max_height then
      let halved : Int × Int :=
        if max_width > max_height then (Int.tdiv max_width 2, max_height)
        else (max_width, Int.tdiv max_height 2)
      if halved.1 = 0 ∨ halved.2 = 0 then some none
      else shrink_loop size_supported fuel halved.1 halved.2
    else
      some (some (max_width, max_height))

/-- The loops `for (y = 0; y < n_y_slices; ++y) for (x = 0; x < n_x_slices; ++x)` of
`_cogl_texture_2d_sliced_slices_create` that bind every new texture object and give it
its size with `glTexImage2D` (the border colour is not part of the modelled state). -/
def init_slice_textures {α : Type} (x_spans y_spans : Option (List CoglSpan))
    (gl_handles : Option (List GLuint)) (n_x_slices n_y_slices : Int) (gl : GLState α) :
    GLState α :=
  (List.range n_y_slices.toNat).foldl (fun gl y =>
    let y_span := span_index y_spans y
    (List.range n_x_slices.toNat).foldl (fun gl x =>
      let x_span := span_index x_spans x
      let gl := glBindTexture gl (handle_index gl_handles (y * n_x_slices + x).toNat)
      glTexImage2D gl x_span.size y_span.size) gl) gl

/-- The part of `_cogl_texture_2d_sliced_slices_create` that chooses the spans: the
result is `some none` for `return FALSE` and otherwise
`(n_x_slices, n_y_slices, slice_x_spans, slice_y_spans)`. -/
def plan_slices (drv : Driver) (max_waste width height : Int) :
    Option (Option (Int × Int × List CoglSpan × List CoglSpan)) :=
  let max_width := if drv.feature_texture_npot then width else _cogl_util_next_p2 width
  let max_height := if drv.feature_texture_npot then height else _cogl_util_next_p2 height
  let slices_for_size :=
    if drv.feature_texture_npot then _cogl_rect_slices_for_size
    else _cogl_pot_slices_for_size
  if max_waste ≤ -1 then
    if !drv.size_supported max_width max_height then some none
    else
      some (some (1, 1,
        [{ start := 0, size := max_width, waste := max_width - width }],
        [{ start := 0, size := max_height, waste := max_height - height }]))
  else
    match shrink_loop drv.size_supported (max_width.natAbs + max_height.natAbs + 1)
        max_width max_height with
    | none => none
    | some none => some none
    | some (some (max_width, max_height)) =>
      (slices_for_size width max_width max_waste none).bind fun rx =>
      (slices_for_size height max_height max_waste none).bind fun ry =>
      (slices_for_size width max_width max_waste (some [])).bind fun ax =>
      (slices_for_size height max_height max_waste (some [])).bind fun ay =>
      some (some (rx.1, ry.1, ax.2.getD [], ay.2.getD []))

/-- The function `_cogl_texture_2d_sliced_slices_create`: its `gboolean` result, the
texture record and the GL state after the call. -/
def _cogl_texture_2d_sliced_slices_create {α : Type} (drv : Driver)
    (tex_2ds : CoglTexture2DSliced α) (width height : Int) (gl : GLState α) :
    Option (Bool × CoglTexture2DSliced α × GLState α) :=
  let tex_2ds := { tex_2ds with gl_target := GL_TEXTURE_2D }
  match plan_slices drv tex_2ds.max_waste width height with
  | none => none
  | some none => some (false, tex_2ds, gl)
  | some (some (n_x_slices, n_y_slices, x_spans, y_spans)) =>
    let n_slices := n_x_slices * n_y_slices
    let gen := glGenTextures gl n_slices.toNat
    let tex_2ds :=
      { tex_2ds with
        slice_x_spans := some x_spans
        slice_y_spans := some y_spans
        slice_gl_handles := some gen.1
        first_pixels :=
          if drv.feature_offscreen then none
          else some (List.replicate n_slices.toNat
            { gl_format := 0, gl_type := 0, data := none })
        wrap_mode_s := GL_FALSE
        wrap_mode_t := GL_FALSE }
    some (true, tex_2ds,
      init_slice_textures tex_2ds.slice_x_spans tex_2ds.slice_y_spans
        tex_2ds.slice_gl_handles n_x_slices n_y_slices gen.2)

/-- The function `_cogl_texture_2d_sliced_init_base`. -/
def _cogl_texture_2d_sliced_init_base {α : Type} (drv : Driver)
    (tex_2ds : CoglTexture2DSliced α) (width height : Int) (gl_intformat : GLenum)
    (internal_format : Nat) (gl : GLState α) :
    Option (Bool × CoglTexture2DSliced α × GLState α) :=
  let tex_2ds :=
    { tex_2ds with
      is_foreign := false
      auto_mipmap := false
      mipmaps_dirty := true
      first_pixels := none
      slice_x_spans := none
      slice_y_spans := none
      slice_gl_handles := none
      min_filter := GL_LINEAR
      mag_filter := GL_LINEAR }
  match _cogl_texture_2d_sliced_slices_create drv tex_2ds width height gl with
  | none => none
  | some (false, tex_2ds, gl) => some (false, tex_2ds, gl)
  | some (true, tex_2ds, gl) =>
    some (true,
      { tex_2ds with
        gl_format := gl_intformat
        width := width
        height := height
        format := internal_format }, gl)

/-! ## Foreign textures -/

/-- Conversion of a value to `GLuint` (32 bits, unsigned). -/
def to_guint (i : Int) : Int := i % 2 ^ 32

/-- Conversion of a value to `GLint` (32 bits, two's complement). -/
def to_gint (i : Int) : Int :=
  if i % 2 ^ 32 < 2 ^ 31 then i % 2 ^ 32 else i % 2 ^ 32 - 2 ^ 32

/-- The answers of the driver to the queries of `_cogl_texture_2d_sliced_new_from_foreign`
(`glIsTexture`, `glGetError` after binding, `glGetTexLevelParameteriv`,
`glGetTexParameteriv`) and of `_cogl_pixel_format_from_gl_internal`. -/
structure ForeignQuery where
  allows_foreign_gl_target : Bool
  gl_istexture : Bool
  bind_error : Bool
  gl_compressed : GLenum
  gl_int_format : GLenum
  gl_gen_mipmap : GLenum
  format_from_gl_internal : Option Nat

/-- The function `_cogl_texture_2d_sliced_new_from_foreign`; `none` is
`COGL_INVALID_HANDLE`. The `GLuint` arguments are natural numbers below `2 ^ 32`. -/
def _cogl_texture_2d_sliced_new_from_foreign {α : Type} (drv : Driver) (q : ForeignQuery)
    (gl_handle : GLuint) (gl_target : GLenum) (width height x_pot_waste y_pot_waste : Nat) :
    Option (CoglTexture2DSliced α) :=
  if !q.allows_foreign_gl_target then none
  else if drv.have_cogl_gl ∧ gl_target = GL_TEXTURE_RECTANGLE_ARB ∧
      (x_pot_waste ≠ 0 ∨ y_pot_waste ≠ 0) then none
  else if q.gl_istexture = false then none
  else if q.bind_error then none
  else
    let gl_compressed := if drv.have_cogl_gl then q.gl_compressed else GL_FALSE
    let gl_int_format := if drv.have_cogl_gl then q.gl_int_format else 0
    let gl_width : Int := to_gint (to_guint (width + x_pot_waste))
    let gl_height : Int := to_gint (to_guint (height + y_pot_waste))
    if gl_width ≤ 0 ∨ gl_height ≤ 0 then none
    else if (x_pot_waste : Int) ≥ to_guint gl_width ∨
        (y_pot_waste : Int) ≥ to_guint gl_height then none
    else if gl_compressed = GL_TRUE then none
    else
      match q.format_from_gl_internal with
      | none => none
      | some format =>
        some
          { is_foreign := true
            auto_mipmap := if q.gl_gen_mipmap = GL_TRUE then true else false
            mipmaps_dirty := true
            first_pixels := none
            format := format
            width := to_gint (to_guint (to_guint gl_width - x_pot_waste))
            height := to_gint (to_guint (to_guint gl_height - y_pot_waste))
            gl_target := gl_target
            gl_format := gl_int_format
            min_filter := GL_FALSE
            mag_filter := GL_FALSE
            max_waste := 0
            wrap_mode_s := GL_FALSE
            wrap_mode_t := GL_FALSE
            slice_x_spans :=
              some [{ start := 0, size := gl_width, waste := to_gint x_pot_waste }]
            slice_y_spans :=
              some [{ start := 0, size := gl_height, waste := to_gint y_pot_waste }]
            slice_gl_handles := some [gl_handle] }

/-! ## Queries and coordinate transformation -/

/-- The function `_cogl_texture_2d_sliced_is_sliced`. -/
def _cogl_texture_2d_sliced_is_sliced {α : Type} (tex_2ds : CoglTexture2DSliced α) : Bool :=
  match tex_2ds.slice_gl_handles with
  | none => false
  | some handles => if handles.length ≤ 1 then false else true

/-- The function `_cogl_texture_2d_sliced_can_hardware_repeat`. -/
def _cogl_texture_2d_sliced_can_hardware_repeat {α : Type} (drv : Driver)
    (tex_2ds : CoglTexture2DSliced α) : Bool :=
  let x_span := span_index tex_2ds.slice_x_spans 0
  let y_span := span_index tex_2ds.slice_y_spans 0
  if drv.have_cogl_gl ∧ tex_2ds.gl_target = GL_TEXTURE_RECTANGLE_ARB then false
  else if x_span.waste ≠ 0 ∨ y_span.waste ≠ 0 then false
  else true

/-- The function `_cogl_texture_2d_sliced_transform_coords_to_gl`, with the `float`
coordinates taken as exact rationals; the result is the new `(*s, *t)`, and `none` when
the `g_assert` fails. -/
def _cogl_texture_2d_sliced_transform_coords_to_gl {α : Type} (drv : Driver)
    (tex_2ds : CoglTexture2DSliced α) (s t : ℚ) : Option (ℚ × ℚ) :=
  if _cogl_texture_2d_sliced_is_sliced tex_2ds then none
  else
    let x_span := span_index tex_2ds.slice_x_spans 0
    let y_span := span_index tex_2ds.slice_y_spans 0
    let s := s * ((tex_2ds.width : ℚ) / (x_span.size : ℚ))
    let t := t * ((tex_2ds.height : ℚ) / (y_span.size : ℚ))
    if drv.have_cogl_gl ∧ tex_2ds.gl_target = GL_TEXTURE_RECTANGLE_ARB then
      some (s * x_span.size, t * y_span.size)
    else
      some (s, t)

/-- The enumeration `CoglTransformResult`. -/
inductive CoglTransformResult where
  | COGL_TRANSFORM_NO_REPEAT
  | COGL_TRANSFORM_HARDWARE_REPEAT
  | COGL_TRANSFORM_SOFTWARE_REPEAT
deriving DecidableEq, Repr

/-- The loop `for (i = 0; i < 4; i++) if (coords[i] < 0.0f || coords[i] > 1.0f)
need_repeat = TRUE;`. -/
def need_repeat_loop (coords : Fin 4 → ℚ) : Bool :=
  (List.finRange 4).foldl
    (fun need_repeat i => if coords i < 0 ∨ coords i > 1 then true else need_repeat) false

/-- The function `_cogl_texture_2d_sliced_transform_quad_coords_to_gl`: the result code
and the array `coords` after the call. -/
def _cogl_texture_2d_sliced_transform_quad_coords_to_gl {α : Type} (drv : Driver)
    (tex_2ds : CoglTexture2DSliced α) (coords : Fin 4 → ℚ) :
    Option (CoglTransformResult × (Fin 4 → ℚ)) :=
  if _cogl_texture_2d_sliced_is_sliced tex_2ds then
    some (CoglTransformResult.COGL_TRANSFORM_SOFTWARE_REPEAT, coords)
  else
    let need_repeat := need_repeat_loop coords
    if need_repeat ∧ !_cogl_texture_2d_sliced_can_hardware_repeat drv tex_2ds then
      some (CoglTransformResult.COGL_TRANSFORM_SOFTWARE_REPEAT, coords)
    else
      match _cogl_texture_2d_sliced_transform_coords_to_gl drv tex_2ds (coords 0) (coords 1),
          _cogl_texture_2d_sliced_transform_coords_to_gl drv tex_2ds (coords 2) (coords 3) with
      | some (s0, t0), some (s1, t1) =>
        some (if need_repeat then CoglTransformResult.COGL_TRANSFORM_HARDWARE_REPEAT
          else CoglTransformResult.COGL_TRANSFORM_NO_REPEAT, ![s0, t0, s1, t1])
      | _, _ => none


/-! ## Waste buffers

The scratch buffer `waste_buf` is the list of pixels written through `dst`, in order. -/

/-- The loops that fill `waste_buf` with copies of the rightmost pixels: for each of
`rows` rows, `waste` copies of the pixel at `src`, which starts at column `src_x`, row
`src_y` of the bitmap and moves down one row (`src += rowstride`) after each row. -/
def fill_right_waste {α : Type} (bmp : CoglBitmap α) (src_x src_y : Int) (rows waste : Nat) :
    List α :=
  (List.range rows).foldl (fun (dst : List α) (wy : Nat) =>
    (List.range waste).foldl (fun (dst : List α) (_ : Nat) =>
      dst ++ [bmp.pixel src_x (src_y + (wy : Int))]) dst) []

/-- The loops that fill `waste_buf` with copies of the bottom-most pixels: for each of
`rows` rows, `memcpy` of `n` pixels of the bitmap row `src_y` from column `src_x`, then
`extra` times a copy of the pixel before `dst` (`memcpy (dst, dst - bpp, bpp)`). -/
def fill_bottom_waste {α : Type} [Inhabited α] (bmp : CoglBitmap α) (src_x src_y : Int)
    (n extra rows : Nat) : List α :=
  (List.range rows).foldl (fun (dst : List α) (_ : Nat) =>
    let dst := dst ++ (List.range n).map (fun (i : Nat) => bmp.pixel (src_x + (i : Int)) src_y)
    (List.range extra).foldl (fun (dst : List α) (_ : Nat) =>
      dst ++ [dst.getLastD default]) dst) []

/-! ## Full upload and download (cogl-texture-2d-sliced.c) -/

/-- Modelled from the spec: `_cogl_texture_driver_upload_subregion_to_gl` (the texture
driver is not among the sources), the driver's sub-image upload: it binds `gl_handle` and
uploads the `width x height` rectangle at `(src_x, src_y)` of the bitmap to
`(dst_x, dst_y)` of the texture, as `_cogl_subregion_gl_store_rules`, `glBindTexture` and
`glTexSubImage2D` do in gl/cogl-texture.c. -/
def _cogl_texture_driver_upload_subregion_to_gl {α : Type} (gl : GLState α)
    (gl_handle : GLuint) (src_x src_y dst_x dst_y width height : Int)
    (source_bmp : CoglBitmap α) : GLState α :=
  glTexSubImage2D (glBindTexture gl gl_handle) dst_x dst_y width height
    (fun i j => source_bmp.pixel (src_x + i) (src_y + j))

/-- The statements of `_cogl_texture_2d_sliced_upload_to_gl` that keep a copy of the
first pixel of slice `slice_num`. -/
def keep_first_pixel {α : Type} (first_pixels : Option (List (CoglTexturePixel α)))
    (slice_num : Nat) (bmp : CoglBitmap α) (x y : Int) (gl_format gl_type : GLenum) :
    Option (List (CoglTexturePixel α)) :=
  match first_pixels with
  | none => none
  | some arr =>
    some (arr.set slice_num
      { gl_format := gl_format, gl_type := gl_type, data := some (bmp.pixel x y) })

/-- The waste fills of one slice in `_cogl_texture_2d_sliced_upload_to_gl`: the blocks
`if (x_span->waste > 0)` and `if (y_span->waste > 0)`, applied to the bound texture. -/
def upload_slice_waste {α : Type} [Inhabited α] (x_span y_span : CoglSpan)
    (bmp : CoglBitmap α) (gl : GLState α) : GLState α :=
  let gl :=
    if x_span.waste > 0 then
      let waste_buf :=
        fill_right_waste bmp (x_span.start + x_span.size - x_span.waste - 1) y_span.start
          (y_span.size - y_span.waste).toNat x_span.waste.toNat
      glTexSubImage2D gl (x_span.size - x_span.waste) 0 x_span.waste
        (y_span.size - y_span.waste) (unpack waste_buf x_span.waste)
    else gl
  if y_span.waste > 0 then
    let waste_buf :=
      fill_bottom_waste bmp x_span.start (y_span.start + y_span.size - y_span.waste - 1)
        (x_span.size - x_span.waste).toNat x_span.waste.toNat y_span.waste.toNat
    glTexSubImage2D gl 0 (y_span.size - y_span.waste) x_span.size y_span.waste
      (unpack waste_buf x_span.size)
  else gl

/-- The body of the two loops of `_cogl_texture_2d_sliced_upload_to_gl` for slice
`(x, y)`; the state is `first_pixels` and the GL state. -/
def upload_slice {α : Type} [Inhabited α] (tex_2ds : CoglTexture2DSliced α)
    (bmp : CoglBitmap α) (gl_format gl_type : GLenum) (y x : Nat)
    (st : Option (List (CoglTexturePixel α)) × GLState α) :
    Option (List (CoglTexturePixel α)) × GLState α :=
  let y_span := span_index tex_2ds.slice_y_spans y
  let slice_num := y * array_len tex_2ds.slice_x_spans + x
  let x_span := span_index tex_2ds.slice_x_spans x
  let gl_handle := handle_index tex_2ds.slice_gl_handles slice_num
  let gl :=
    _cogl_texture_driver_upload_subregion_to_gl st.2 gl_handle x_span.start y_span.start 0 0
      (x_span.size - x_span.waste) (y_span.size - y_span.waste) bmp
  (keep_first_pixel st.1 slice_num bmp x_span.start y_span.start gl_format gl_type,
    upload_slice_waste x_span y_span bmp gl)

/-- The function `_cogl_texture_2d_sliced_upload_to_gl`: its result, the texture record
and the GL state after the call. -/
def _cogl_texture_2d_sliced_upload_to_gl {α : Type} [Inhabited α]
    (tex_2ds : CoglTexture2DSliced α) (bmp : CoglBitmap α) (gl_format gl_type : GLenum)
    (gl : GLState α) : Bool × CoglTexture2DSliced α × GLState α :=
  let st :=
    (List.range (array_len tex_2ds.slice_y_spans)).foldl (fun st y =>
      (List.range (array_len tex_2ds.slice_x_spans)).foldl (fun st x =>
        upload_slice tex_2ds bmp gl_format gl_type y x st) st) (tex_2ds.first_pixels, gl)
  (true, { tex_2ds with first_pixels := st.1, mipmaps_dirty := true }, st.2)

/-- Modelled from the spec: the macro `CLUTTER_INT_TO_FIXED` of clutter-fixed.h, which is
not among the sources: `x << 16` on a 32-bit `int`, in two's complement. -/
def CLUTTER_INT_TO_FIXED (x : Int) : Int := to_gint (x * 65536)

/-- Modelled from the spec: the macro `CLUTTER_FIXED_TO_INT` of clutter-fixed.h, which is
not among the sources: `x >> 16`, an arithmetic shift, which rounds down (as `/` on `Int`
does for a positive divisor). -/
def CLUTTER_FIXED_TO_INT (x : Int) : Int := x / 65536

/-- The record `CoglSpanIter`. -/
structure CoglSpanIter where
  index : Int
  array : List CoglSpan
  span : Option CoglSpan
  pos : Int
  next_pos : Int
  origin : Int
  cover_start : Int
  cover_end : Int
  intersect_start : Int
  intersect_end : Int
  intersect_start_local : Int
  intersect_end_local : Int
  intersects : Bool
deriving Inhabited

/-- The function `_cogl_span_iter_update`: `next_pos` is a 32-bit sum of `ClutterFixed`
values. -/
def _cogl_span_iter_update (iter : CoglSpanIter) : CoglSpanIter :=
  let span := iter.array.getD iter.index.toNat default
  let iter :=
    { iter with
      span := some span
      next_pos := to_gint (iter.pos + CLUTTER_INT_TO_FIXED (span.size - span.waste)) }
  if iter.next_pos ≤ iter.cover_start ∨ iter.pos ≥ iter.cover_end then
    { iter with intersects := false }
  else
    let iter := { iter with intersects := true }
    let iter :=
      if iter.pos < iter.cover_start then { iter with intersect_start := iter.cover_start }
      else { iter with intersect_start := iter.pos }
    if iter.next_pos > iter.cover_end then { iter with intersect_end := iter.cover_end }
    else { iter with intersect_end := iter.next_pos }

/-- The function `_cogl_span_iter_begin`; `iter` holds whatever the variable held
before; `origin`, `cover_start` and `cover_end` are `ClutterFixed` values. -/
def _cogl_span_iter_begin (iter : CoglSpanIter) (array : List CoglSpan)
    (origin cover_start cover_end : Int) : CoglSpanIter :=
  _cogl_span_iter_update
    { iter with
      index := 0
      array := array
      span := none
      origin := origin
      cover_start := cover_start
      cover_end := cover_end
      pos := origin }

/-- The function `_cogl_span_iter_next`: the index wraps when the last span is reached. -/
def _cogl_span_iter_next (iter : CoglSpanIter) : CoglSpanIter :=
  _cogl_span_iter_update
    { iter with pos := iter.next_pos, index := (iter.index + 1) % (iter.array.length : Int) }

/-- The function `_cogl_span_iter_end`. -/
def _cogl_span_iter_end (iter : CoglSpanIter) : Bool :=
  decide (iter.pos ≥ iter.cover_end)

/-! ## The span iterator in whole pixels

The same iterator with positions counted in whole pixels and no 32-bit limit. The
fixed-point iterator computes 65536 times these positions as long as no position leaves
the 32-bit range (`fixed_update`, `fixed_next`). -/

/-- The steps of `_cogl_span_iter_update` on positions in whole pixels. -/
def pixel_span_iter_update (iter : CoglSpanIter) : CoglSpanIter :=
  let span := iter.array.getD iter.index.toNat default
  let iter := { iter with span := some span, next_pos := iter.pos + (span.size - span.waste) }
  if iter.next_pos ≤ iter.cover_start ∨ iter.pos ≥ iter.cover_end then
    { iter with intersects := false }
  else
    let iter := { iter with intersects := true }
    let iter :=
      if iter.pos < iter.cover_start then { iter with intersect_start := iter.cover_start }
      else { iter with intersect_start := iter.pos }
    if iter.next_pos > iter.cover_end then { iter with intersect_end := iter.cover_end }
    else { iter with intersect_end := iter.next_pos }

/-- The steps of `_cogl_span_iter_begin` on positions in whole pixels. -/
def pixel_span_iter_begin (iter : CoglSpanIter) (array : List CoglSpan)
    (origin cover_start cover_end : Int) : CoglSpanIter :=
  pixel_span_iter_update
    { iter with
      index := 0
      array := array
      span := none
      origin := origin
      cover_start := cover_start
      cover_end := cover_end
      pos := origin }

/-- The steps of `_cogl_span_iter_next` on positions in whole pixels. -/
def pixel_span_iter_next (iter : CoglSpanIter) : CoglSpanIter :=
  pixel_span_iter_update
    { iter with pos := iter.next_pos, index := (iter.index + 1) % (iter.array.length : Int) }

/-- The test of `_cogl_span_iter_end` on positions in whole pixels. -/
def pixel_span_iter_end (iter : CoglSpanIter) : Bool :=
  decide (iter.pos ≥ iter.cover_end)

/-! ## Sub-region upload (gl/cogl-texture.c) -/

/-- The fields of the GL backend's `CoglTexture` that the code reads and writes. -/
structure CoglTexture (α : Type) where
  bitmap : CoglBitmap α
  bitmap_owner : Bool
  gl_target : GLenum
  gl_intformat : GLenum
  gl_format : GLenum
  gl_type : GLenum
  slice_x_spans : Option (List CoglSpan)
  slice_y_spans : Option (List CoglSpan)
  slice_gl_handles : Option (List GLuint)
  max_waste : Int
  min_filter : GLenum
  mag_filter : GLenum
  is_foreign : Bool
  auto_mipmap : Bool
  wrap_mode : GLenum

/-- The local variables of `_cogl_texture_upload_subregion_to_gl` that live across loop
iterations. -/
structure SubregionLocals where
  source_x : Int
  source_y : Int
  inter_w : Int
  inter_h : Int
  local_x : Int
  local_y : Int
deriving Inhabited

/-- The body of the inner loop of `_cogl_texture_upload_subregion_to_gl` for an
intersecting slice: the upload of the intersection and the two waste fills. The
differences of `ClutterFixed` positions are 32-bit. -/
def subregion_slice {α : Type} [Inhabited α] (tex : CoglTexture α)
    (src_x src_y dst_x dst_y : Int) (source_bmp : CoglBitmap α) (y_iter : CoglSpanIter)
    (y_span : CoglSpan) (x_iter : CoglSpanIter) (v : SubregionLocals) (gl : GLState α) :
    SubregionLocals × GLState α :=
  let x_span := span_index tex.slice_x_spans x_iter.index.toNat
  let inter_w := CLUTTER_FIXED_TO_INT (to_gint (x_iter.intersect_end - x_iter.intersect_start))
  let inter_h := CLUTTER_FIXED_TO_INT (to_gint (y_iter.intersect_end - y_iter.intersect_start))
  let local_x := CLUTTER_FIXED_TO_INT (to_gint (x_iter.intersect_start - x_iter.pos))
  let local_y := CLUTTER_FIXED_TO_INT (to_gint (y_iter.intersect_start - y_iter.pos))
  let gl_handle :=
    handle_index tex.slice_gl_handles
      (y_iter.index * (array_len tex.slice_x_spans : Int) + x_iter.index).toNat
  let gl := glBindTexture gl gl_handle
  let gl :=
    glTexSubImage2D gl local_x local_y inter_w inter_h
      (fun i j => source_bmp.pixel (v.source_x + i) (v.source_y + j))
  let gl :=
    if x_span.waste > 0 ∧ local_x < x_span.size - x_span.waste ∧
        local_x + inter_w ≥ x_span.size - x_span.waste then
      let waste_buf :=
        fill_right_waste source_bmp
          (src_x + x_span.start + x_span.size - x_span.waste - dst_x - 1)
          (src_y + CLUTTER_FIXED_TO_INT y_iter.intersect_start - dst_y) inter_h.toNat
          x_span.waste.toNat
      glTexSubImage2D gl (x_span.size - x_span.waste) local_y x_span.waste inter_h
        (unpack waste_buf x_span.waste)
    else gl
  let gl :=
    if y_span.waste > 0 ∧ local_y < y_span.size - y_span.waste ∧
        local_y + inter_h ≥ y_span.size - y_span.waste then
      let copy_width :=
        if local_x + inter_w ≥ x_span.size - x_span.waste then x_span.size - local_x
        else inter_w
      let waste_buf :=
        fill_bottom_waste source_bmp (src_x + CLUTTER_FIXED_TO_INT x_iter.intersect_start - dst_x)
          (src_y + y_span.start + y_span.size - y_span.waste - dst_y - 1)
          inter_w.toNat (copy_width - inter_w).toNat y_span.waste.toNat
      glTexSubImage2D gl local_x (y_span.size - y_span.waste) copy_width y_span.waste
        (unpack waste_buf copy_width)
    else gl
  ({ v with inter_w := inter_w, inter_h := inter_h, local_x := local_x, local_y := local_y },
    gl)

/-- The inner loop of `_cogl_texture_upload_subregion_to_gl`, from the test
`!_cogl_span_iter_end (&x_iter)` on. -/
def subregion_x_loop {α : Type} [Inhabited α] (tex : CoglTexture α)
    (src_x src_y dst_x dst_y : Int) (source_bmp : CoglBitmap α) (y_iter : CoglSpanIter)
    (y_span : CoglSpan) :
    Nat → CoglSpanIter → SubregionLocals → GLState α →
      Option (CoglSpanIter × SubregionLocals × GLState α)
  | 0, _, _, _ => none
  | fuel + 1, x_iter, v, gl =>
    if _cogl_span_iter_end x_iter then some (x_iter, v, gl)
    else if !x_iter.intersects then
      let v := { v with inter_w := 0 }
      subregion_x_loop tex src_x src_y dst_x dst_y source_bmp y_iter y_span fuel
        (_cogl_span_iter_next x_iter) { v with source_x := v.source_x + v.inter_w } gl
    else
      let r := subregion_slice tex src_x src_y dst_x dst_y source_bmp y_iter y_span x_iter v gl
      subregion_x_loop tex src_x src_y dst_x dst_y source_bmp y_iter y_span fuel
        (_cogl_span_iter_next x_iter) { r.1 with source_x := r.1.source_x + r.1.inter_w } r.2

/-- The outer loop of `_cogl_texture_upload_subregion_to_gl`, from the test
`!_cogl_span_iter_end (&y_iter)` on; `fuel_x` is the fuel of each inner loop. -/
def subregion_y_loop {α : Type} [Inhabited α] (tex : CoglTexture α)
    (src_x src_y dst_x dst_y width : Int) (source_bmp : CoglBitmap α) (fuel_x : Nat) :
    Nat → CoglSpanIter → CoglSpanIter → SubregionLocals → GLState α →
      Option (CoglSpanIter × CoglSpanIter × SubregionLocals × GLState α)
  | 0, _, _, _, _ => none
  | fuel + 1, y_iter, x_iter, v, gl =>
    if _cogl_span_iter_end y_iter then some (y_iter, x_iter, v, gl)
    else if !y_iter.intersects then
      let v := { v with inter_h := 0 }
      subregion_y_loop tex src_x src_y dst_x dst_y width source_bmp fuel_x fuel
        (_cogl_span_iter_next y_iter) x_iter { v with source_y := v.source_y + v.inter_h } gl
    else
      let y_span := span_index tex.slice_y_spans y_iter.index.toNat
      let v := { v with source_x := src_x }
      let x_iter :=
        _cogl_span_iter_begin x_iter (tex.slice_x_spans.getD []) 0
          (CLUTTER_INT_TO_FIXED dst_x) (CLUTTER_INT_TO_FIXED (dst_x + width))
      match subregion_x_loop tex src_x src_y dst_x dst_y source_bmp y_iter y_span fuel_x
          x_iter v gl with
      | none => none
      | some (x_iter, v, gl) =>
        subregion_y_loop tex src_x src_y dst_x dst_y width source_bmp fuel_x fuel
          (_cogl_span_iter_next y_iter) x_iter { v with source_y := v.source_y + v.inter_h } gl

/-- The function `_cogl_texture_upload_subregion_to_gl`: its result and the GL state
after the call, `none` when a loop runs out of fuel. As long as no position leaves the
32-bit range an iterator advances by at least one pixel per step when every span has
`size - waste >= 1`, which bounds the steps by the pixel count of `cover_end`
(`upload_subregion_fixed_eq`, `pixel_upload_subregion_spec`). -/
def _cogl_texture_upload_subregion_to_gl {α : Type} [Inhabited α] (tex : CoglTexture α)
    (src_x src_y dst_x dst_y width height : Int) (source_bmp : CoglBitmap α)
    (gl : GLState α) : Option (Bool × GLState α) :=
  let v : SubregionLocals :=
    { source_x := 0, source_y := src_y, inter_w := 0, inter_h := 0, local_x := 0,
      local_y := 0 }
  let y_iter :=
    _cogl_span_iter_begin default (tex.slice_y_spans.getD []) 0
      (CLUTTER_INT_TO_FIXED dst_y) (CLUTTER_INT_TO_FIXED (dst_y + height))
  match subregion_y_loop tex src_x src_y dst_x dst_y width source_bmp
      ((dst_x + width).toNat + 1) ((dst_y + height).toNat + 1) y_iter default v gl with
  | none => none
  | some (_, _, _, gl) => some (true, gl)

/-! ## Sub-region upload in whole pixels -/

/-- The body of the inner loop of `_cogl_texture_upload_subregion_to_gl` for an
intersecting slice, on an iterator that counts in whole pixels. -/
def pixel_subregion_slice {α : Type} [Inhabited α] (tex : CoglTexture α)
    (src_x src_y dst_x dst_y : Int) (source_bmp : CoglBitmap α) (y_iter : CoglSpanIter)
    (y_span : CoglSpan) (x_iter : CoglSpanIter) (v : SubregionLocals) (gl : GLState α) :
    SubregionLocals × GLState α :=
  let x_span := span_index tex.slice_x_spans x_iter.index.toNat
  let inter_w := x_iter.intersect_end - x_iter.intersect_start
  let inter_h := y_iter.intersect_end - y_iter.intersect_start
  let local_x := x_iter.intersect_start - x_iter.pos
  let local_y := y_iter.intersect_start - y_iter.pos
  let gl_handle :=
    handle_index tex.slice_gl_handles
      (y_iter.index * (array_len tex.slice_x_spans : Int) + x_iter.index).toNat
  let gl := glBindTexture gl gl_handle
  let gl :=
    glTexSubImage2D gl local_x local_y inter_w inter_h
      (fun i j => source_bmp.pixel (v.source_x + i) (v.source_y + j))
  let gl :=
    if x_span.waste > 0 ∧ local_x < x_span.size - x_span.waste ∧
        local_x + inter_w ≥ x_span.size - x_span.waste then
      let waste_buf :=
        fill_right_waste source_bmp
          (src_x + x_span.start + x_span.size - x_span.waste - dst_x - 1)
          (src_y + y_iter.intersect_start - dst_y) inter_h.toNat x_span.waste.toNat
      glTexSubImage2D gl (x_span.size - x_span.waste) local_y x_span.waste inter_h
        (unpack waste_buf x_span.waste)
    else gl
  let gl :=
    if y_span.waste > 0 ∧ local_y < y_span.size - y_span.waste ∧
        local_y + inter_h ≥ y_span.size - y_span.waste then
      let copy_width :=
        if local_x + inter_w ≥ x_span.size - x_span.waste then x_span.size - local_x
        else inter_w
      let waste_buf :=
        fill_bottom_waste source_bmp (src_x + x_iter.intersect_start - dst_x)
          (src_y + y_span.start + y_span.size - y_span.waste - dst_y - 1)
          inter_w.toNat (copy_width - inter_w).toNat y_span.waste.toNat
      glTexSubImage2D gl local_x (y_span.size - y_span.waste) copy_width y_span.waste
        (unpack waste_buf copy_width)
    else gl
  ({ v with inter_w := inter_w, inter_h := inter_h, local_x := local_x, local_y := local_y },
    gl)

/-- The inner loop of `_cogl_texture_upload_subregion_to_gl` on iterators that count in
whole pixels. -/
def pixel_subregion_x_loop {α : Type} [Inhabited α] (tex : CoglTexture α)
    (src_x src_y dst_x dst_y : Int) (source_bmp : CoglBitmap α) (y_iter : CoglSpanIter)
    (y_span : CoglSpan) :
    Nat → CoglSpanIter → SubregionLocals → GLState α →
      Option (CoglSpanIter × SubregionLocals × GLState α)
  | 0, _, _, _ => none
  | fuel + 1, x_iter, v, gl =>
    if pixel_span_iter_end x_iter then some (x_iter, v, gl)
    else if !x_iter.intersects then
      let v := { v with inter_w := 0 }
      pixel_subregion_x_loop tex src_x src_y dst_x dst_y source_bmp y_iter y_span fuel
        (pixel_span_iter_next x_iter) { v with source_x := v.source_x + v.inter_w } gl
    else
      let r :=
        pixel_subregion_slice tex src_x src_y dst_x dst_y source_bmp y_iter y_span x_iter v gl
      pixel_subregion_x_loop tex src_x src_y dst_x dst_y source_bmp y_iter y_span fuel
        (pixel_span_iter_next x_iter) { r.1 with source_x := r.1.source_x + r.1.inter_w } r.2

/-- The outer loop of `_cogl_texture_upload_subregion_to_gl` on iterators that count in
whole pixels; `fuel_x` is the fuel of each inner loop. -/
def pixel_subregion_y_loop {α : Type} [Inhabited α] (tex : CoglTexture α)
    (src_x src_y dst_x dst_y width : Int) (source_bmp : CoglBitmap α) (fuel_x : Nat) :
    Nat → CoglSpanIter → CoglSpanIter → SubregionLocals → GLState α →
      Option (CoglSpanIter × CoglSpanIter × SubregionLocals × GLState α)
  | 0, _, _, _, _ => none
  | fuel + 1, y_iter, x_iter, v, gl =>
    if pixel_span_iter_end y_iter then some (y_iter, x_iter, v, gl)
    else if !y_iter.intersects then
      let v := { v with inter_h := 0 }
      pixel_subregion_y_loop tex src_x src_y dst_x dst_y width source_bmp fuel_x fuel
        (pixel_span_iter_next y_iter) x_iter { v with source_y := v.source_y + v.inter_h } gl
    else
      let y_span := span_index tex.slice_y_spans y_iter.index.toNat
      let v := { v with source_x := src_x }
      let x_iter :=
        pixel_span_iter_begin x_iter (tex.slice_x_spans.getD []) 0 dst_x (dst_x + width)
      match pixel_subregion_x_loop tex src_x src_y dst_x dst_y source_bmp y_iter y_span fuel_x
          x_iter v gl with
      | none => none
      | some (x_iter, v, gl) =>
        pixel_subregion_y_loop tex src_x src_y dst_x dst_y width source_bmp fuel_x fuel
          (pixel_span_iter_next y_iter) x_iter { v with source_y := v.source_y + v.inter_h } gl

/-- The steps of `_cogl_texture_upload_subregion_to_gl` on iterators that count in whole
pixels: what the function computes as long as no position leaves the 32-bit range
(`upload_subregion_fixed_eq`). An iterator advances by at least one pixel per step when
every span has `size - waste >= 1`, which bounds the steps by `cover_end`. -/
def pixel_upload_subregion_to_gl {α : Type} [Inhabited α] (tex : CoglTexture α)
    (src_x src_y dst_x dst_y width height : Int) (source_bmp : CoglBitmap α)
    (gl : GLState α) : Option (Bool × GLState α) :=
  let v : SubregionLocals :=
    { source_x := 0, source_y := src_y, inter_w := 0, inter_h := 0, local_x := 0,
      local_y := 0 }
  let y_iter :=
    pixel_span_iter_begin default (tex.slice_y_spans.getD []) 0 dst_y (dst_y + height)
  match pixel_subregion_y_loop tex src_x src_y dst_x dst_y width source_bmp
      ((dst_x + width).toNat + 1) ((dst_y + height).toNat + 1) y_iter default v gl with
  | none => none
  | some (_, _, _, gl) => some (true, gl)

/-- The texel `(i, j)` of a slice after a sub-region upload, given the texel before: the
source pixel for the clamped position when that position lies in the destination
rectangle, and the old texel otherwise. -/
def subregion_texel {α : Type} (source_bmp : CoglBitmap α)
    (src_x src_y dst_x dst_y width height : Int) (x_span y_span : CoglSpan) (old : α)
    (i j : Int) : α :=
  let X := x_span.start + min i (x_span.size - x_span.waste - 1)
  let Y := y_span.start + min j (y_span.size - y_span.waste - 1)
  if dst_x ≤ X ∧ X < dst_x + width ∧ dst_y ≤ Y ∧ Y < dst_y + height then
    source_bmp.pixel (src_x + X - dst_x) (src_y + Y - dst_y)
  else old


/-- The arithmetic of one axis of a sub-region upload, for a span `(s, size, w)` that
intersects the cover `[cs, ce)` and a texel index `i` of the slice: how the ranges written
by the upload and by the waste fills relate to whether the clamped position
`s + min (i, size - w - 1)` lies in the cover. -/
structure AxisFacts (s size w cs ce i : Int) : Prop where
  basic : 0 ≤ max s cs - s ∧ 0 ≤ min (s + (size - w)) ce - max s cs ∧
    max s cs - s + (min (s + (size - w)) ce - max s cs) ≤ size - w
  pos : (cs ≤ s + min i (size - w - 1) ∧ s + min i (size - w - 1) < ce) →
    0 < min (s + (size - w)) ce - max s cs
  main : i < size - w →
    ((max s cs - s ≤ i ∧ i < max s cs - s + (min (s + (size - w)) ce - max s cs)) ↔
      (cs ≤ s + min i (size - w - 1) ∧ s + min i (size - w - 1) < ce))
  edge : size - w ≤ i →
    ((w > 0 ∧ max s cs - s < size - w ∧
        max s cs - s + (min (s + (size - w)) ce - max s cs) ≥ size - w) ↔
      (cs ≤ s + min i (size - w - 1) ∧ s + min i (size - w - 1) < ce))
  copy :
    ((max s cs - s ≤ i ∧
        i < max s cs - s +
          (if max s cs - s + (min (s + (size - w)) ce - max s cs) ≥ size - w then
            size - (max s cs - s)
          else min (s + (size - w)) ce - max s cs)) ↔
      (cs ≤ s + min i (size - w - 1) ∧ s + min i (size - w - 1) < ce))
  extra : 0 ≤
    (if max s cs - s + (min (s + (size - w)) ce - max s cs) ≥ size - w then
        size - (max s cs - s)
      else min (s + (size - w)) ce - max s cs) - (min (s + (size - w)) ce - max s cs)
  clamp_lo : i < size - w → min i (size - w - 1) = i
  clamp_hi : size - w ≤ i → min i (size - w - 1) = size - w - 1
  value : (cs ≤ s + min i (size - w - 1) ∧ s + min i (size - w - 1) < ce) →
    min (i - (max s cs - s)) (min (s + (size - w)) ce - max s cs - 1) + max s cs =
      s + min i (size - w - 1)


/-- The state of an iterator in whole pixels that stands on span `k` of a planned span
list: what `pixel_span_iter_update` has just computed for the span `s` at that index. -/
structure IterAt (xs : List CoglSpan) (cs ce : Int) (k : Nat) (s : CoglSpan)
    (it : CoglSpanIter) : Prop where
  array : it.array = xs
  cover_start : it.cover_start = cs
  cover_end : it.cover_end = ce
  index : it.index = (k : Int)
  pos : it.pos = s.start
  next_pos : it.next_pos = s.start + (s.size - s.waste)
  intersects : it.intersects = true ↔ (cs < s.start + (s.size - s.waste) ∧ s.start < ce)
  intersect_start : it.intersects = true → it.intersect_start = max s.start cs
  intersect_end : it.intersects = true →
    it.intersect_end = min (s.start + (s.size - s.waste)) ce


/-- Waste replication of the slice textures of a grid: every texel of every slice equals
the texel at the nearest valid position of that slice (clamp-to-edge extension). -/
def WasteReplicated {α : Type} (gl : GLState α) (xs ys : List CoglSpan)
    (handles : List GLuint) : Prop :=
  ∀ (yi xi : Nat) (sy sx : CoglSpan), ys[yi]? = some sy → xs[xi]? = some sx →
    ∀ i j : Int, 0 ≤ i → i < sx.size → 0 ≤ j → j < sy.size →
      (gl.textures (handles.getD (yi * xs.length + xi) 0)).texel i j =
        (gl.textures (handles.getD (yi * xs.length + xi) 0)).texel
          (min i (sx.size - sx.waste - 1)) (min j (sy.size - sy.waste - 1))

/-- What one step of the span iterator has computed, on the iterator it leaves behind:
the current span is the one at `index`, `next_pos` is the 32-bit sum of `pos` and the
fixed-point length of the span without its waste, which is `pos + 65536 * (size - waste)`
when that number fits in 32 bits, `intersects` tells whether `[pos, next_pos)` meets the
cover, the intersection is that range clipped to the cover, and `_cogl_span_iter_end`
tells whether `pos` has reached `cover_end`. -/
def SpanIterStep (it : CoglSpanIter) : Prop :=
  it.span = some (it.array.getD it.index.toNat default) ∧
  it.next_pos =
    to_gint (it.pos + CLUTTER_INT_TO_FIXED ((it.array.getD it.index.toNat default).size -
      (it.array.getD it.index.toNat default).waste)) ∧
  (-(2 ^ 31) ≤ it.pos + 65536 * ((it.array.getD it.index.toNat default).size -
      (it.array.getD it.index.toNat default).waste) ∧
    it.pos + 65536 * ((it.array.getD it.index.toNat default).size -
      (it.array.getD it.index.toNat default).waste) < 2 ^ 31 →
    it.next_pos = it.pos + 65536 * ((it.array.getD it.index.toNat default).size -
      (it.array.getD it.index.toNat default).waste)) ∧
  (it.intersects = true ↔ ¬ (it.next_pos ≤ it.cover_start ∨ it.pos ≥ it.cover_end)) ∧
  (it.intersects = true →
    it.intersect_start = max it.pos it.cover_start ∧
    it.intersect_end = min it.next_pos it.cover_end) ∧
  (_cogl_span_iter_end it = true ↔ it.pos ≥ it.cover_end)

/-- The span indices met by a loop `for (_cogl_span_iter_begin (&iter, ...);
!_cogl_span_iter_end (&iter); _cogl_span_iter_next (&iter))` of gl/cogl-texture.c, in
order, from the loop test on: the index the iterator has in each execution of the body. -/
def span_iter_visits : Nat → CoglSpanIter → Option (List Int)
  | 0, _ => none
  | fuel + 1, iter =>
    if _cogl_span_iter_end iter then some []
    else (span_iter_visits fuel (_cogl_span_iter_next iter)).map (fun l => iter.index :: l)

/-- The span indices met by the same loop on an iterator that counts in whole pixels. -/
def pixel_span_iter_visits : Nat → CoglSpanIter → Option (List Int)
  | 0, _ => none
  | fuel + 1, iter =>
    if pixel_span_iter_end iter then some []
    else
      (pixel_span_iter_visits fuel (pixel_span_iter_next iter)).map (fun l => iter.index :: l)

/-- An iterator in whole pixels `a` and a fixed-point iterator `b` that stand at the same
place before `_cogl_span_iter_update`: same index and array, positions scaled by 65536. -/
structure FixedPre (a b : CoglSpanIter) : Prop where
  index : b.index = a.index
  array : b.array = a.array
  pos : b.pos = 65536 * a.pos
  cover_start : b.cover_start = 65536 * a.cover_start
  cover_end : b.cover_end = 65536 * a.cover_end

/-- An iterator in whole pixels `a` and a fixed-point iterator `b` that stand at the same
place after `_cogl_span_iter_update`: as `FixedPre`, with the same `intersects`, the
intersection scaled by 65536 when there is one, and `next_pos` scaled by 65536 as long as
the loop has not ended. -/
structure FixedOf (a b : CoglSpanIter) : Prop where
  index : b.index = a.index
  array : b.array = a.array
  pos : b.pos = 65536 * a.pos
  cover_start : b.cover_start = 65536 * a.cover_start
  cover_end : b.cover_end = 65536 * a.cover_end
  intersects : b.intersects = a.intersects
  intersect_start : a.intersects = true → b.intersect_start = 65536 * a.intersect_start
  intersect_end : a.intersects = true → b.intersect_end = 65536 * a.intersect_end
  next_pos : a.pos < a.cover_end → b.next_pos = 65536 * a.next_pos

/-- The positions of an iterator in whole pixels that has not ended fit the 16 integer
bits of a `ClutterFixed`: `next_pos`, and the width and the offset of the intersection
when there is one. -/
structure InFixedRange (it : CoglSpanIter) : Prop where
  next_lo : it.pos < it.cover_end → -32768 ≤ it.next_pos
  next_hi : it.pos < it.cover_end → it.next_pos ≤ 32767
  width_lo : it.pos < it.cover_end → it.intersects = true →
    -32768 ≤ it.intersect_end - it.intersect_start
  width_hi : it.pos < it.cover_end → it.intersects = true →
    it.intersect_end - it.intersect_start ≤ 32767
  local_lo : it.pos < it.cover_end → it.intersects = true →
    -32768 ≤ it.intersect_start - it.pos
  local_hi : it.pos < it.cover_end → it.intersects = true →
    it.intersect_start - it.pos ≤ 32767

/-- The iterator in whole pixels stays in the range of `ClutterFixed` for the next `n`
steps of a loop. -/
def PixelRunSafe : Nat → CoglSpanIter → Prop
  | 0, it => InFixedRange it
  | n + 1, it =>
    InFixedRange it ∧ (it.pos < it.cover_end → PixelRunSafe n (pixel_span_iter_next it))

/-- The handles bound by the calls of a log, in order. -/
def bound_handles (log : List GLCall) : List GLuint :=
  log.filterMap (fun c =>
    match c with
    | GLCall.bindTexture handle => some handle
    | _ => none)

/-- The halving of the claim on the shrink loop, as the claim words it: the strictly
larger of the two sizes is halved, the height on ties. -/
def halve_larger (p : Int × Int) : Int × Int :=
  if p.1 > p.2 then (p.1 / 2, p.2) else (p.1, p.2 / 2)

/-- The pair that is probed after `n` unsupported probes, starting from
`(max_width, max_height)`. -/
def halving_sequence (max_width max_height : Int) (n : Nat) : Int × Int :=
  halve_larger^[n] (max_width, max_height)

/-! ## Filters, wrap modes and mipmaps (cogl-texture-2d-sliced.c) -/

/-- The function `_cogl_texture_2d_sliced_set_wrap_mode_parameters`: the texture record
and the GL state after the call; `none` when the loop reads the length of a `NULL`
`slice_gl_handles`. -/
def _cogl_texture_2d_sliced_set_wrap_mode_parameters {α : Type}
    (tex_2ds : CoglTexture2DSliced α) (wrap_mode_s wrap_mode_t _wrap_mode_p : GLenum)
    (gl : GLState α) : Option (CoglTexture2DSliced α × GLState α) :=
  if tex_2ds.wrap_mode_s ≠ wrap_mode_s ∨ tex_2ds.wrap_mode_t ≠ wrap_mode_t then
    match tex_2ds.slice_gl_handles with
    | none => none
    | some handles =>
      let gl :=
        (List.range handles.length).foldl (fun gl (i : Nat) =>
          let texnum := handle_index tex_2ds.slice_gl_handles i
          let gl := glBindTexture gl texnum
          let gl := glTexParameteri gl GL_TEXTURE_WRAP_S wrap_mode_s
          glTexParameteri gl GL_TEXTURE_WRAP_T wrap_mode_t) gl
      some ({ tex_2ds with wrap_mode_s := wrap_mode_s, wrap_mode_t := wrap_mode_t }, gl)
  else some (tex_2ds, gl)

/-- The function `_cogl_texture_2d_sliced_set_filters`: the texture record and the GL
state after the call. -/
def _cogl_texture_2d_sliced_set_filters {α : Type} (tex_2ds : CoglTexture2DSliced α)
    (min_filter mag_filter : GLenum) (gl : GLState α) : CoglTexture2DSliced α × GLState α :=
  match tex_2ds.slice_gl_handles with
  | none => (tex_2ds, gl)
  | some handles =>
    if min_filter = tex_2ds.min_filter ∧ mag_filter = tex_2ds.mag_filter then (tex_2ds, gl)
    else
      let tex_2ds := { tex_2ds with min_filter := min_filter, mag_filter := mag_filter }
      (tex_2ds,
        (List.range handles.length).foldl (fun gl (i : Nat) =>
          let gl_handle := handle_index tex_2ds.slice_gl_handles i
          let gl := glBindTexture gl gl_handle
          let gl := glTexParameteri gl GL_TEXTURE_MAG_FILTER tex_2ds.mag_filter
          glTexParameteri gl GL_TEXTURE_MIN_FILTER tex_2ds.min_filter) gl)

/-- The body of the loop of `_cogl_texture_2d_sliced_pre_paint` for slice `i`. -/
def regenerate_slice_mipmaps {α : Type} [Inhabited α] (drv : Driver)
    (tex_2ds : CoglTexture2DSliced α) (gl : GLState α) (i : Nat) : GLState α :=
  let gl_handle := handle_index tex_2ds.slice_gl_handles i
  let gl := glBindTexture gl gl_handle
  if drv.feature_offscreen then
    { gl with log := gl.log ++ [GLCall.generateMipmap] }
  else
    match tex_2ds.first_pixels with
    | some first_pixels =>
      let pixel := first_pixels.getD i { gl_format := 0, gl_type := 0, data := none }
      let gl := glTexParameteri gl GL_GENERATE_MIPMAP GL_TRUE
      let gl := glTexSubImage2D gl 0 0 1 1 (fun _ _ => pixel.data.getD default)
      glTexParameteri gl GL_GENERATE_MIPMAP GL_FALSE
    | none => gl

/-- The function `_cogl_texture_2d_sliced_pre_paint`: the texture record and the GL state
after the call. The value of the flag `COGL_TEXTURE_NEEDS_MIPMAP` (its header is not among
the sources) is a parameter; `_cogl_texture_driver_gl_generate_mipmaps` is recorded in the
log. -/
def _cogl_texture_2d_sliced_pre_paint {α : Type} [Inhabited α] (drv : Driver)
    (COGL_TEXTURE_NEEDS_MIPMAP : Nat) (tex_2ds : CoglTexture2DSliced α) (flags : Nat)
    (gl : GLState α) : CoglTexture2DSliced α × GLState α :=
  if flags &&& COGL_TEXTURE_NEEDS_MIPMAP = 0 then (tex_2ds, gl)
  else if !tex_2ds.auto_mipmap ∨ !tex_2ds.mipmaps_dirty then (tex_2ds, gl)
  else
    match tex_2ds.slice_gl_handles with
    | none => (tex_2ds, gl)
    | some handles =>
      ({ tex_2ds with mipmaps_dirty := false },
        (List.range handles.length).foldl (regenerate_slice_mipmaps drv tex_2ds) gl)

/-! ## Sub-region upload (cogl-texture-2d-sliced.c)

The span iterator this function uses is the one of cogl-spans.c, which is not among the
sources. Its three functions are parameters of the model, and so are the bounds on the
number of iterations of the two loops. -/

/-- The functions `_cogl_span_iter_begin`, `_cogl_span_iter_next` and
`_cogl_span_iter_end` of cogl-spans.c, as the sub-region upload calls them: `iter_begin`
takes the iterator, the span array and the three numbers passed after it. -/
structure SpanIterFns where
  iter_begin : CoglSpanIter → List CoglSpan → Int → Int → Int → CoglSpanIter
  iter_next : CoglSpanIter → CoglSpanIter
  iter_end : CoglSpanIter → Bool

/-- The body of the inner loop of `_cogl_texture_2d_sliced_upload_subregion_to_gl` for an
intersecting slice; the state is `first_pixels` and the GL state. -/
def sliced_subregion_slice {α : Type} [Inhabited α] (tex_2ds : CoglTexture2DSliced α)
    (src_x src_y dst_x dst_y : Int) (source_bmp : CoglBitmap α)
    (source_gl_format source_gl_type : GLenum) (y_iter : CoglSpanIter) (y_span : CoglSpan)
    (x_iter : CoglSpanIter) (v : SubregionLocals)
    (st : Option (List (CoglTexturePixel α)) × GLState α) :
    SubregionLocals × Option (List (CoglTexturePixel α)) × GLState α :=
  let x_span := span_index tex_2ds.slice_x_spans x_iter.index.toNat
  let inter_w := x_iter.intersect_end - x_iter.intersect_start
  let inter_h := y_iter.intersect_end - y_iter.intersect_start
  let local_x := x_iter.intersect_start - x_iter.pos
  let local_y := y_iter.intersect_start - y_iter.pos
  let slice_num := y_iter.index * (array_len tex_2ds.slice_x_spans : Int) + x_iter.index
  let gl_handle := handle_index tex_2ds.slice_gl_handles slice_num.toNat
  let gl :=
    _cogl_texture_driver_upload_subregion_to_gl st.2 gl_handle v.source_x v.source_y local_x
      local_y inter_w inter_h source_bmp
  let first_pixels :=
    if st.1.isSome ∧ local_x = 0 ∧ local_y = 0 then
      keep_first_pixel st.1 slice_num.toNat source_bmp v.source_x v.source_y source_gl_format
        source_gl_type
    else st.1
  let gl :=
    if x_span.waste > 0 ∧ local_x < x_span.size - x_span.waste ∧
        local_x + inter_w ≥ x_span.size - x_span.waste then
      let waste_buf :=
        fill_right_waste source_bmp
          (src_x + x_span.start + x_span.size - x_span.waste - dst_x - 1)
          (src_y + y_iter.intersect_start - dst_y) inter_h.toNat x_span.waste.toNat
      glTexSubImage2D gl (x_span.size - x_span.waste) local_y x_span.waste inter_h
        (unpack waste_buf x_span.waste)
    else gl
  let gl :=
    if y_span.waste > 0 ∧ local_y < y_span.size - y_span.waste ∧
        local_y + inter_h ≥ y_span.size - y_span.waste then
      let copy_width :=
        if local_x + inter_w ≥ x_span.size - x_span.waste then x_span.size - local_x
        else inter_w
      let waste_buf :=
        fill_bottom_waste source_bmp (src_x + x_iter.intersect_start - dst_x)
          (src_y + y_span.start + y_span.size - y_span.waste - dst_y - 1)
          inter_w.toNat (copy_width - inter_w).toNat y_span.waste.toNat
      glTexSubImage2D gl local_x (y_span.size - y_span.waste) copy_width y_span.waste
        (unpack waste_buf copy_width)
    else gl
  ({ v with inter_w := inter_w, inter_h := inter_h, local_x := local_x, local_y := local_y },
    first_pixels, gl)

/-- The inner loop of `_cogl_texture_2d_sliced_upload_subregion_to_gl`, from the test
`!_cogl_span_iter_end (&x_iter)` on. -/
def sliced_subregion_x_loop {α : Type} [Inhabited α] (fns : SpanIterFns)
    (tex_2ds : CoglTexture2DSliced α) (src_x src_y dst_x dst_y : Int)
    (source_bmp : CoglBitmap α) (source_gl_format source_gl_type : GLenum)
    (y_iter : CoglSpanIter) (y_span : CoglSpan) :
    Nat → CoglSpanIter → SubregionLocals → Option (List (CoglTexturePixel α)) × GLState α →
      Option (CoglSpanIter × SubregionLocals × Option (List (CoglTexturePixel α)) × GLState α)
  | 0, _, _, _ => none
  | fuel + 1, x_iter, v, st =>
    if fns.iter_end x_iter then some (x_iter, v, st)
    else if !x_iter.intersects then
      let v := { v with inter_w := 0 }
      sliced_subregion_x_loop fns tex_2ds src_x src_y dst_x dst_y source_bmp source_gl_format
        source_gl_type y_iter y_span fuel (fns.iter_next x_iter)
        { v with source_x := v.source_x + v.inter_w } st
    else
      let r :=
        sliced_subregion_slice tex_2ds src_x src_y dst_x dst_y source_bmp source_gl_format
          source_gl_type y_iter y_span x_iter v st
      sliced_subregion_x_loop fns tex_2ds src_x src_y dst_x dst_y source_bmp source_gl_format
        source_gl_type y_iter y_span fuel (fns.iter_next x_iter)
        { r.1 with source_x := r.1.source_x + r.1.inter_w } r.2

/-- The outer loop of `_cogl_texture_2d_sliced_upload_subregion_to_gl`, from the test
`!_cogl_span_iter_end (&y_iter)` on; `fuel_x` bounds each inner loop. -/
def sliced_subregion_y_loop {α : Type} [Inhabited α] (fns : SpanIterFns)
    (tex_2ds : CoglTexture2DSliced α) (src_x src_y dst_x dst_y width : Int)
    (source_bmp : CoglBitmap α) (source_gl_format source_gl_type : GLenum) (fuel_x : Nat) :
    Nat → CoglSpanIter → CoglSpanIter → SubregionLocals →
      Option (List (CoglTexturePixel α)) × GLState α →
      Option (CoglSpanIter × CoglSpanIter × SubregionLocals ×
        Option (List (CoglTexturePixel α)) × GLState α)
  | 0, _, _, _, _ => none
  | fuel + 1, y_iter, x_iter, v, st =>
    if fns.iter_end y_iter then some (y_iter, x_iter, v, st)
    else if !y_iter.intersects then
      let v := { v with inter_h := 0 }
      sliced_subregion_y_loop fns tex_2ds src_x src_y dst_x dst_y width source_bmp
        source_gl_format source_gl_type fuel_x fuel (fns.iter_next y_iter) x_iter
        { v with source_y := v.source_y + v.inter_h } st
    else
      let y_span := span_index tex_2ds.slice_y_spans y_iter.index.toNat
      let v := { v with source_x := src_x }
      let x_iter :=
        fns.iter_begin x_iter (tex_2ds.slice_x_spans.getD []) tex_2ds.width dst_x
          (dst_x + width)
      match sliced_subregion_x_loop fns tex_2ds src_x src_y dst_x dst_y source_bmp
          source_gl_format source_gl_type y_iter y_span fuel_x x_iter v st with
      | none => none
      | some (x_iter, v, st) =>
        sliced_subregion_y_loop fns tex_2ds src_x src_y dst_x dst_y width source_bmp
          source_gl_format source_gl_type fuel_x fuel (fns.iter_next y_iter) x_iter
          { v with source_y := v.source_y + v.inter_h } st

/-- The function `_cogl_texture_2d_sliced_upload_subregion_to_gl`: its result, the
texture record and the GL state after the call; `none` when a loop has not ended within
`fuel_y` (outer) or `fuel_x` (inner) iterations. -/
def _cogl_texture_2d_sliced_upload_subregion_to_gl {α : Type} [Inhabited α]
    (fns : SpanIterFns) (fuel_y fuel_x : Nat) (tex_2ds : CoglTexture2DSliced α)
    (src_x src_y dst_x dst_y width height : Int) (source_bmp : CoglBitmap α)
    (source_gl_format source_gl_type : GLenum) (gl : GLState α) :
    Option (Bool × CoglTexture2DSliced α × GLState α) :=
  let v : SubregionLocals :=
    { source_x := 0, source_y := src_y, inter_w := 0, inter_h := 0, local_x := 0,
      local_y := 0 }
  let y_iter :=
    fns.iter_begin default (tex_2ds.slice_y_spans.getD []) tex_2ds.height dst_y
      (dst_y + height)
  match sliced_subregion_y_loop fns tex_2ds src_x src_y dst_x dst_y width source_bmp
      source_gl_format source_gl_type fuel_x fuel_y y_iter default v
      (tex_2ds.first_pixels, gl) with
  | none => none
  | some (_, _, _, first_pixels, gl) =>
    some (true, { tex_2ds with first_pixels := first_pixels, mipmaps_dirty := true }, gl)

/-! ## Manual repeat of texture coordinates (cogl-texture.c)

The `float` coordinates are exact rationals. -/

/-- Intervals laid end to end from `a` to `e`, none of them empty: each begins where the
previous one ends. -/
def ChainFrom {β : Type} [LT β] (a e : β) : List (β × β) → Prop
  | [] => a = e
  | p :: rest => p.1 = a ∧ a < p.2 ∧ ChainFrom p.2 e rest

/-- The record `CoglTextureIter`; `end_` is its field `end`. -/
structure CoglTextureIter where
  pos : ℚ
  end_ : ℚ
  next_pos : ℚ
  flipped : Bool
  t_1 : ℚ
  t_2 : ℚ
deriving Inhabited

/-- The C library function `modff`: the fractional part (the result) and the integral
part (stored through the pointer) of `x`, the integral part rounded towards zero. -/
def modff (x : ℚ) : ℚ × ℚ :=
  let iptr : ℚ := if 0 ≤ x then (⌊x⌋ : ℚ) else (⌈x⌉ : ℚ)
  (x - iptr, iptr)

/-- The function `_cogl_texture_iter_update`. -/
def _cogl_texture_iter_update (iter : CoglTextureIter) : CoglTextureIter :=
  let r := modff iter.pos
  let frac_part := r.1
  let iter := { iter with next_pos := r.2 }
  let iter :=
    if iter.pos ≥ 0 ∨ frac_part = 0 then { iter with next_pos := iter.next_pos + 1 }
    else iter
  let t_2 := if iter.next_pos > iter.end_ then iter.end_ else iter.next_pos
  if iter.flipped then
    { iter with
      t_1 := t_2
      t_2 := iter.pos }
  else
    { iter with
      t_1 := iter.pos
      t_2 := t_2 }

/-- The function `_cogl_texture_iter_begin`; `iter` holds whatever the variable held
before. -/
def _cogl_texture_iter_begin (iter : CoglTextureIter) (t_1 t_2 : ℚ) : CoglTextureIter :=
  let iter :=
    if t_1 ≤ t_2 then
      { iter with
        pos := t_1
        end_ := t_2
        flipped := false }
    else
      { iter with
        pos := t_2
        end_ := t_1
        flipped := true }
  _cogl_texture_iter_update iter

/-- The function `_cogl_texture_iter_next`. -/
def _cogl_texture_iter_next (iter : CoglTextureIter) : CoglTextureIter :=
  _cogl_texture_iter_update { iter with pos := iter.next_pos }

/-- The function `_cogl_texture_iter_end`. -/
def _cogl_texture_iter_end (iter : CoglTextureIter) : Bool :=
  decide (iter.pos ≥ iter.end_)

/-- The pairs `(t_1, t_2)` that the iterator holds in the executions of the body of a
loop `for (...; !_cogl_texture_iter_end (&iter); _cogl_texture_iter_next (&iter))`, in
order, from the loop test on; `none` when the loop has not ended within `fuel` tests. -/
def texture_iter_loop : Nat → CoglTextureIter → Option (List (ℚ × ℚ))
  | 0, _ => none
  | fuel + 1, iter =>
    if _cogl_texture_iter_end iter then some []
    else
      (texture_iter_loop fuel (_cogl_texture_iter_next iter)).map
        (fun l => (iter.t_1, iter.t_2) :: l)

/-- A number of loop tests that suffices for an iterator: the position moves to the next
integer in every step. -/
def texture_iter_fuel (iter : CoglTextureIter) : Nat :=
  (⌈iter.end_⌉ - ⌊iter.pos⌋).toNat + 1

/-- The sub-ranges emitted by one axis of `_cogl_texture_iterate_manual_repeats` for the
coordinates `t_1`, `t_2`. -/
def texture_iter_ranges (t_1 t_2 : ℚ) : Option (List (ℚ × ℚ)) :=
  let iter := _cogl_texture_iter_begin default t_1 t_2
  texture_iter_loop (texture_iter_fuel iter) iter

/-- The function `_cogl_texture_iterate_manual_repeats`: the coordinate arrays
`{ x_iter.t_1, y_iter.t_1, x_iter.t_2, y_iter.t_2 }` passed to the callback, in order
(`y` in the outer loop, `x` in the inner loop). -/
def _cogl_texture_iterate_manual_repeats (tx_1 ty_1 tx_2 ty_2 : ℚ) :
    Option (List (List ℚ)) :=
  (texture_iter_ranges ty_1 ty_2).bind fun ys =>
  (texture_iter_ranges tx_1 tx_2).map fun xs =>
    ys.flatMap fun y => xs.map fun x => [x.1, y.1, x.2, y.2]

/-- The intervals `[intersect_start, intersect_end)` of the steps flagged `intersects` in
a loop `for (_cogl_span_iter_begin (&iter, ...); !_cogl_span_iter_end (&iter);
_cogl_span_iter_next (&iter))` of gl/cogl-texture.c whose body skips the other steps
(`if (!iter.intersects) continue;`), in order, from the loop test on; `none` when the
loop has not ended within `fuel` tests. -/
def span_iter_intersections : Nat → CoglSpanIter → Option (List (Int × Int))
  | 0, _ => none
  | fuel + 1, iter =>
    if _cogl_span_iter_end iter then some []
    else
      (span_iter_intersections fuel (_cogl_span_iter_next iter)).map (fun l =>
        if iter.intersects then (iter.intersect_start, iter.intersect_end) :: l else l)

/-! ## The vertex batcher (gl/cogl-texture.c)

The batcher keeps its arrays in the Cogl context. `ClutterFixed` values are integers and
`GLfloat` values are exact rationals; `CFX_ONE` and `CLUTTER_FIXED_TO_FLOAT`
(clutter-fixed.h is not among the sources) are parameters. The calls made to the driver
are kept in a log next to the context. -/

def GL_TRIANGLES : GLenum := 0x0004
def GL_UNSIGNED_SHORT : GLenum := 0x1403
def GL_REPEAT : GLenum := 0x2901
def GL_CLAMP_TO_EDGE : GLenum := 0x812F

/-- The record `CoglTextureGLVertex`: `GLfloat v[2]` and `GLfloat t[2]`. -/
structure CoglTextureGLVertex where
  v : ℚ × ℚ
  t : ℚ × ℚ
deriving DecidableEq

/-- The calls that the batcher makes to the driver: `glBindTexture (target, handle)`,
`glTexParameteri (target, pname, param)` and
`pf_glDrawRangeElements (mode, start, end, count, type, indices)`. The client arrays that
`glVertexPointer` and `glTexCoordPointer` announce are the vertices queued at that
moment. -/
inductive BatchCall where
  | bindTexture (target : GLenum) (handle : GLuint)
  | texParameteri (target pname param : GLenum)
  | drawRangeElements (mode : GLenum) (start end_ count : Int) (typ : GLenum)
deriving DecidableEq

/-- The fields of the Cogl context that the batcher reads and writes; `texture_indices`
holds `GLushort` values. -/
structure CoglContext where
  texture_vertices : List CoglTextureGLVertex
  texture_indices : List Nat
  texture_current : GLuint
  texture_target : GLenum
  texture_wrap_mode : GLenum

/-- Conversion of a value to `GLushort` (16 bits, unsigned). -/
def to_gushort (i : Nat) : Nat := i % 2 ^ 16

/-- The six stores `*(q++) = vert_num + ...` of one iteration of the loop of
`_cogl_texture_flush_vertices`, `q` pointing at element `i`. -/
def store_quad_indices (indices : List Nat) (i vert_num : Nat) : List Nat :=
  (((((indices.set i (to_gushort (vert_num + 0))).set (i + 1)
    (to_gushort (vert_num + 1))).set (i + 2) (to_gushort (vert_num + 3))).set (i + 3)
    (to_gushort (vert_num + 1))).set (i + 4) (to_gushort (vert_num + 2))).set (i + 5)
    (to_gushort (vert_num + 3))

/-- The loop `for (i = old_len; i < ctx->texture_indices->len; i += 6, vert_num += 4)` of
`_cogl_texture_flush_vertices`, with `n` iterations left. -/
def index_loop : Nat → Nat → Nat → List Nat → List Nat
  | 0, _, _, indices => indices
  | n + 1, i, vert_num, indices =>
    index_loop n (i + 6) (vert_num + 4) (store_quad_indices indices i vert_num)

/-- The function `_cogl_texture_flush_vertices`: the context and the log after the
call. `g_array_set_size` lengthens the index array with elements that the loop then
overwrites; the loop runs while `i` is below the new length. -/
def _cogl_texture_flush_vertices (st : CoglContext × List BatchCall) :
    CoglContext × List BatchCall :=
  let ctx := st.1
  if ctx.texture_vertices.length > 0 then
    let needed_indices := ctx.texture_vertices.length / 4 * 6
    let ctx :=
      if needed_indices > ctx.texture_indices.length then
        let old_len := ctx.texture_indices.length
        let vert_num := old_len / 6 * 4
        let indices := ctx.texture_indices ++ List.replicate (needed_indices - old_len) 0
        { ctx with
          texture_indices :=
            index_loop ((indices.length - old_len + 5) / 6) old_len vert_num indices }
      else ctx
    let log :=
      st.2 ++
        [BatchCall.bindTexture ctx.texture_target ctx.texture_current,
          BatchCall.drawRangeElements GL_TRIANGLES 0 ((ctx.texture_vertices.length : Int) - 1)
            needed_indices GL_UNSIGNED_SHORT]
    ({ ctx with texture_vertices := [] }, log)
  else st

/-- The function `_cogl_texture_add_quad_vertices`: `first_vert` is a `GLushort`, the
array is resized to `first_vert + 4` elements and the four vertices are stored from
element `first_vert` on. -/
def _cogl_texture_add_quad_vertices (x1 y1 x2 y2 tx1 ty1 tx2 ty2 : ℚ) (ctx : CoglContext) :
    CoglContext :=
  let first_vert := to_gushort ctx.texture_vertices.length
  { ctx with
    texture_vertices :=
      ctx.texture_vertices.take first_vert ++
        [{ v := (x1, y1), t := (tx1, ty1) }, { v := (x1, y2), t := (tx1, ty2) },
          { v := (x2, y2), t := (tx2, ty2) }, { v := (x2, y1), t := (tx2, ty1) }] }

/-- The function `_cogl_texture_set_wrap_mode_parameter` of gl/cogl-texture.c. -/
def _cogl_texture_set_wrap_mode_parameter {α : Type} (tex : CoglTexture α)
    (wrap_mode : GLenum) (log : List BatchCall) : CoglTexture α × List BatchCall :=
  if tex.wrap_mode ≠ wrap_mode then
    ({ tex with wrap_mode := wrap_mode },
      (List.range (array_len tex.slice_gl_handles)).foldl (fun log (i : Nat) =>
        let texnum := handle_index tex.slice_gl_handles i
        log ++
          [BatchCall.bindTexture tex.gl_target texnum,
            BatchCall.texParameteri tex.gl_target GL_TEXTURE_WRAP_S wrap_mode,
            BatchCall.texParameteri tex.gl_target GL_TEXTURE_WRAP_T wrap_mode]) log)
  else (tex, log)

/-- The wrap mode that `_cogl_texture_quad_hw` chooses for the texture coordinates of a
quad. -/
def quad_hw_wrap_mode (CFX_ONE : Int) (tx1 ty1 tx2 ty2 : Int) : GLenum :=
  if tx1 ≥ 0 ∧ tx1 ≤ CFX_ONE ∧ tx2 ≥ 0 ∧ tx2 ≤ CFX_ONE ∧ ty1 ≥ 0 ∧ ty1 ≤ CFX_ONE ∧
      ty2 ≥ 0 ∧ ty2 ≤ CFX_ONE then GL_CLAMP_TO_EDGE
  else GL_REPEAT

/-- The function `_cogl_texture_quad_hw`: the texture record, the context and the log
after the call. The products of `ClutterFixed` values are 32-bit. -/
def _cogl_texture_quad_hw {α : Type} (CFX_ONE : Int) (CLUTTER_FIXED_TO_FLOAT : Int → ℚ)
    (tex : CoglTexture α) (x1 y1 x2 y2 tx1 ty1 tx2 ty2 : Int)
    (st : CoglContext × List BatchCall) : CoglTexture α × CoglContext × List BatchCall :=
  let wrap_mode := quad_hw_wrap_mode CFX_ONE tx1 ty1 tx2 ty2
  let gl_handle := handle_index tex.slice_gl_handles 0
  let st :=
    if st.1.texture_vertices.length > 0 ∧
        (gl_handle ≠ st.1.texture_current ∨ st.1.texture_wrap_mode ≠ wrap_mode) then
      _cogl_texture_flush_vertices st
    else st
  let ctx :=
    { st.1 with
      texture_target := tex.gl_target
      texture_current := gl_handle
      texture_wrap_mode := wrap_mode }
  let r := _cogl_texture_set_wrap_mode_parameter tex wrap_mode st.2
  let x_span := span_index tex.slice_x_spans 0
  let y_span := span_index tex.slice_y_spans 0
  let tx1 := Int.tdiv (to_gint (tx1 * (x_span.size - x_span.waste))) x_span.size
  let tx2 := Int.tdiv (to_gint (tx2 * (x_span.size - x_span.waste))) x_span.size
  let ty1 := Int.tdiv (to_gint (ty1 * (y_span.size - y_span.waste))) y_span.size
  let ty2 := Int.tdiv (to_gint (ty2 * (y_span.size - y_span.waste))) y_span.size
  let tx1 :=
    if tex.gl_target = GL_TEXTURE_RECTANGLE_ARB then to_gint (tx1 * x_span.size) else tx1
  let tx2 :=
    if tex.gl_target = GL_TEXTURE_RECTANGLE_ARB then to_gint (tx2 * x_span.size) else tx2
  let ty1 :=
    if tex.gl_target = GL_TEXTURE_RECTANGLE_ARB then to_gint (ty1 * y_span.size) else ty1
  let ty2 :=
    if tex.gl_target = GL_TEXTURE_RECTANGLE_ARB then to_gint (ty2 * y_span.size) else ty2
  (r.1,
    _cogl_texture_add_quad_vertices (CLUTTER_FIXED_TO_FLOAT x1) (CLUTTER_FIXED_TO_FLOAT y1)
      (CLUTTER_FIXED_TO_FLOAT x2) (CLUTTER_FIXED_TO_FLOAT y2) (CLUTTER_FIXED_TO_FLOAT tx1)
      (CLUTTER_FIXED_TO_FLOAT ty1) (CLUTTER_FIXED_TO_FLOAT tx2) (CLUTTER_FIXED_TO_FLOAT ty2)
      ctx,
    r.2)

/-- The calls `pf_glDrawRangeElements` of a log, in order: `(start, end, count)` of
each. -/
def draw_calls (log : List BatchCall) : List (Int × Int × Int) :=
  log.filterMap fun c =>
    match c with
    | BatchCall.drawRangeElements _ start end_ count _ => some (start, end_, count)
    | _ => none

def GL_UNSIGNED_BYTE : GLenum := 0x1401

/-- The answers of the driver to the queries of `cogl_texture_new_from_foreign` of
gl/cogl-texture.c (`glIsTexture`, `glGetError` after binding, `glGetTexLevelParameteriv`,
`glGetTexParameteriv`). -/
structure GLForeignQuery where
  gl_istexture : Bool
  bind_error : Bool
  gl_compressed : GLenum
  gl_int_format : GLenum
  gl_width : Int
  gl_height : Int
  gl_min_filter : GLenum
  gl_mag_filter : GLenum
  gl_gen_mipmap : GLenum

def GL_ALPHA : GLenum := 0x1906
def GL_RGB : GLenum := 0x1907
def GL_RGBA : GLenum := 0x1908
def GL_LUMINANCE : GLenum := 0x1909
def GL_R3_G3_B2 : GLenum := 0x2A10
def GL_ALPHA4 : GLenum := 0x803B
def GL_ALPHA8 : GLenum := 0x803C
def GL_ALPHA12 : GLenum := 0x803D
def GL_ALPHA16 : GLenum := 0x803E
def GL_LUMINANCE4 : GLenum := 0x803F
def GL_LUMINANCE8 : GLenum := 0x8040
def GL_LUMINANCE12 : GLenum := 0x8041
def GL_LUMINANCE16 : GLenum := 0x8042
def GL_RGB4 : GLenum := 0x804F
def GL_RGB5 : GLenum := 0x8050
def GL_RGB8 : GLenum := 0x8051
def GL_RGB10 : GLenum := 0x8052
def GL_RGB12 : GLenum := 0x8053
def GL_RGB16 : GLenum := 0x8054
def GL_RGBA2 : GLenum := 0x8055
def GL_RGBA4 : GLenum := 0x8056
def GL_RGB5_A1 : GLenum := 0x8057
def GL_RGBA8 : GLenum := 0x8058
def GL_RGB10_A2 : GLenum := 0x8059
def GL_RGBA12 : GLenum := 0x805A
def GL_RGBA16 : GLenum := 0x805B

/-- The values of `CoglPixelFormat` that `_cogl_pixel_format_from_gl_internal` gives;
their numbers are in cogl-types.h, which is not among the sources. -/
inductive CoglPixelFormat where
  | COGL_PIXEL_FORMAT_A_8
  | COGL_PIXEL_FORMAT_G_8
  | COGL_PIXEL_FORMAT_RGB_888
  | COGL_PIXEL_FORMAT_RGBA_8888
deriving DecidableEq

/-- The function `_cogl_pixel_format_from_gl_internal` of gl/cogl-texture.c: `none` is the
result `FALSE`, `some format` is `TRUE` with `*out_format = format`. -/
def _cogl_pixel_format_from_gl_internal (gl_int_format : GLenum) : Option CoglPixelFormat :=
  if gl_int_format = GL_ALPHA ∨ gl_int_format = GL_ALPHA4 ∨ gl_int_format = GL_ALPHA8 ∨
      gl_int_format = GL_ALPHA12 ∨ gl_int_format = GL_ALPHA16 then
    some CoglPixelFormat.COGL_PIXEL_FORMAT_A_8
  else if gl_int_format = GL_LUMINANCE ∨ gl_int_format = GL_LUMINANCE4 ∨
      gl_int_format = GL_LUMINANCE8 ∨ gl_int_format = GL_LUMINANCE12 ∨
      gl_int_format = GL_LUMINANCE16 then
    some CoglPixelFormat.COGL_PIXEL_FORMAT_G_8
  else if gl_int_format = GL_RGB ∨ gl_int_format = GL_RGB4 ∨ gl_int_format = GL_RGB5 ∨
      gl_int_format = GL_RGB8 ∨ gl_int_format = GL_RGB10 ∨ gl_int_format = GL_RGB12 ∨
      gl_int_format = GL_RGB16 ∨ gl_int_format = GL_R3_G3_B2 then
    some CoglPixelFormat.COGL_PIXEL_FORMAT_RGB_888
  else if gl_int_format = GL_RGBA ∨ gl_int_format = GL_RGBA2 ∨ gl_int_format = GL_RGBA4 ∨
      gl_int_format = GL_RGB5_A1 ∨ gl_int_format = GL_RGBA8 ∨ gl_int_format = GL_RGB10_A2 ∨
      gl_int_format = GL_RGBA12 ∨ gl_int_format = GL_RGBA16 then
    some CoglPixelFormat.COGL_PIXEL_FORMAT_RGBA_8888
  else none

/-- The function `cogl_texture_new_from_foreign` of gl/cogl-texture.c; `none` is
`COGL_INVALID_HANDLE`. The `GLuint` arguments are natural numbers below `2 ^ 32`; the
size is the one queried from the driver. The bitmap of the record has no data. -/
def cogl_texture_new_from_foreign {α : Type} [Inhabited α] (q : GLForeignQuery)
    (gl_handle : GLuint) (gl_target : GLenum) (_width _height x_pot_waste y_pot_waste : Nat) :
    Option (CoglTexture α) :=
  if gl_target ≠ GL_TEXTURE_2D ∧ gl_target ≠ GL_TEXTURE_RECTANGLE_ARB then none
  else if q.gl_istexture = false then none
  else if q.bind_error then none
  else if q.gl_width ≤ 0 ∨ q.gl_height ≤ 0 then none
  else if (x_pot_waste : Int) ≥ to_guint q.gl_width ∨
      (y_pot_waste : Int) ≥ to_guint q.gl_height then none
  else if q.gl_compressed = GL_TRUE then none
  else
    match _cogl_pixel_format_from_gl_internal q.gl_int_format with
    | none => none
    | some _format =>
      some
        { is_foreign := true
          auto_mipmap := if q.gl_gen_mipmap = GL_TRUE then true else false
          bitmap :=
            { width := to_gint (to_guint (to_guint q.gl_width - x_pot_waste))
              height := to_gint (to_guint (to_guint q.gl_height - y_pot_waste))
              pixel := fun _ _ => default }
          bitmap_owner := false
          gl_target := gl_target
          gl_intformat := q.gl_int_format
          gl_format := q.gl_int_format
          gl_type := GL_UNSIGNED_BYTE
          min_filter := q.gl_min_filter
          mag_filter := q.gl_mag_filter
          max_waste := 0
          wrap_mode := GL_FALSE
          slice_x_spans :=
            some [{ start := 0, size := q.gl_width, waste := to_gint x_pot_waste }]
          slice_y_spans :=
            some [{ start := 0, size := q.gl_height, waste := to_gint y_pot_waste }]
          slice_gl_handles := some [gl_handle] }

/-- The test of `cogl_texture_multiple_rectangles` that sends a rectangle with the
texture coordinates `(tx1, ty1)`, `(tx2, ty2)` (`verts[4]` to `verts[7]`) to
`_cogl_texture_quad_hw`. -/
def rectangle_uses_hw {α : Type} (drv : Driver) (CFX_ONE : Int) (tex : CoglTexture α)
    (tx1 ty1 tx2 ty2 : Int) : Bool :=
  decide (array_len tex.slice_gl_handles = 1 ∧
    ((drv.feature_texture_npot = true ∧ tex.gl_target = GL_TEXTURE_2D) ∨
      (tx1 ≥ 0 ∧ tx1 ≤ CFX_ONE ∧ tx2 ≥ 0 ∧ tx2 ≤ CFX_ONE ∧
        ty1 ≥ 0 ∧ ty1 ≤ CFX_ONE ∧ ty2 ≥ 0 ∧ ty2 ≤ CFX_ONE)))

/-- The function `cogl_texture_multiple_rectangles` for a valid texture handle: the
texture record, the context and the log after the call. `verts` holds 8 values for each
of the `n_rects` rectangles. The software path `_cogl_texture_quad_sw` is not unfolded:
it is the parameter `quad_sw`. The flags given to `cogl_enable` are not part of the
state. -/
def cogl_texture_multiple_rectangles {α : Type} (drv : Driver) (CFX_ONE : Int)
    (CLUTTER_FIXED_TO_FLOAT : Int → ℚ)
    (quad_sw : CoglTexture α → Int → Int → Int → Int → Int → Int → Int → Int →
      CoglContext × List BatchCall → CoglTexture α × CoglContext × List BatchCall)
    (tex : CoglTexture α) (verts : List Int) (n_rects : Nat)
    (st : CoglContext × List BatchCall) : CoglTexture α × CoglContext × List BatchCall :=
  match tex.slice_gl_handles with
  | none => (tex, st)
  | some handles =>
    if handles.length = 0 then (tex, st)
    else
      let st : CoglContext × List BatchCall := ({ st.1 with texture_vertices := [] }, st.2)
      let r :=
        (List.range n_rects).foldl (fun (r : CoglTexture α × CoglContext × List BatchCall)
            (k : Nat) =>
          let v := fun (i : Nat) => verts.getD (8 * k + i) 0
          if v 4 ≠ v 6 ∧ v 5 ≠ v 7 then
            if rectangle_uses_hw drv CFX_ONE r.1 (v 4) (v 5) (v 6) (v 7) then
              _cogl_texture_quad_hw CFX_ONE CLUTTER_FIXED_TO_FLOAT r.1 (v 0) (v 1) (v 2) (v 3)
                (v 4) (v 5) (v 6) (v 7) r.2
            else quad_sw r.1 (v 0) (v 1) (v 2) (v 3) (v 4) (v 5) (v 6) (v 7) r.2
          else r) (tex, st)
      (r.1, _cogl_texture_flush_vertices r.2)

/-! ## Reading a texture back (gl/cogl-texture.c)

Here a bitmap is kept as bytes, as `cogl_texture_get_data` copies bytes. -/

/-- The record `CoglBitmap` with its data as bytes: byte `i` of row `y` is element
`y * rowstride + i` of `data`. -/
structure CoglBitmapBytes where
  data : List Nat
  format : Nat
  width : Int
  height : Int
  rowstride : Int

/-- The helpers of `cogl_texture_get_data` that are not unfolded: the constants of
cogl-types.h and the functions `_cogl_get_format_bpp` and
`_cogl_bitmap_convert_and_premult` (not among the sources; `none` is failure), and the
bytes that `_cogl_texture_download_from_gl` stores in the target bitmap. -/
structure GetDataEnv where
  COGL_PIXEL_FORMAT_ANY : Nat
  COGL_PREMULT_BIT : Nat
  COGL_UNPREMULT_MASK : Nat
  _cogl_get_format_bpp : Nat → Int
  download_from_gl : CoglBitmapBytes → List Nat
  _cogl_bitmap_convert_and_premult : CoglBitmapBytes → Nat → Option CoglBitmapBytes

/-- The result of `_cogl_pixel_format_to_gl`: the format without the premultiplication
bit. -/
def _cogl_pixel_format_to_gl (env : GetDataEnv) (format : Nat) : Nat :=
  if format &&& env.COGL_PREMULT_BIT ≠ 0 then format &&& env.COGL_UNPREMULT_MASK else format

/-- The C library function `memcpy (dst + dst_off, src + src_off, n)` on byte arrays. -/
def memcpy (dst : List Nat) (dst_off : Int) (src : List Nat) (src_off : Int) (n : Int) :
    List Nat :=
  (List.range n.toNat).foldl (fun (d : List Nat) (i : Nat) =>
    d.set (dst_off.toNat + i) (src.getD (src_off.toNat + i) 0)) dst

/-- The loop `for (y = 0; y < new_bmp.height; ++y)` of `cogl_texture_get_data` that
copies the converted bitmap to the user buffer. -/
def get_data_copy (new_bmp : CoglBitmapBytes) (rowstride : Int) (data : List Nat) :
    List Nat :=
  (List.range new_bmp.height.toNat).foldl (fun (data : List Nat) (y : Nat) =>
    memcpy data (y * rowstride) new_bmp.data (y * new_bmp.rowstride) new_bmp.width) data

/-- The function `cogl_texture_get_data` for a valid texture handle: the result and the
user buffer `data` (`none` is `NULL`) after the call; `bitmap_format` is
`tex->bitmap.format`. -/
def cogl_texture_get_data {α : Type} (env : GetDataEnv) (tex : CoglTexture α)
    (bitmap_format : Nat) (format : Nat) (rowstride : Int) (data : Option (List Nat)) :
    Int × Option (List Nat) :=
  let format := if format = env.COGL_PIXEL_FORMAT_ANY then bitmap_format else format
  let bpp := env._cogl_get_format_bpp format
  let rowstride := if rowstride = 0 then tex.bitmap.width * bpp else rowstride
  let byte_size := tex.bitmap.height * rowstride
  match data with
  | none => (byte_size, none)
  | some data =>
    let closest_format := _cogl_pixel_format_to_gl env format
    let closest_bpp := env._cogl_get_format_bpp closest_format
    if closest_format = format then
      let target_bmp : CoglBitmapBytes :=
        { data := data, format := format, width := tex.bitmap.width,
          height := tex.bitmap.height, rowstride := rowstride }
      (byte_size, some (env.download_from_gl target_bmp))
    else
      let target_bmp : CoglBitmapBytes :=
        { data := List.replicate (tex.bitmap.height * (tex.bitmap.width * closest_bpp)).toNat 0,
          format := closest_format, width := tex.bitmap.width, height := tex.bitmap.height,
          rowstride := tex.bitmap.width * closest_bpp }
      let target_bmp := { target_bmp with data := env.download_from_gl target_bmp }
      match env._cogl_bitmap_convert_and_premult target_bmp format with
      | none => (0, some data)
      | some new_bmp => (byte_size, some (get_data_copy new_bmp rowstride data))

/-! ## The size of the waste buffer (cogl-texture-2d-sliced.c) -/

/-- The function `_cogl_texture_2d_sliced_allocate_waste_buffer`: `none` is `NULL`,
otherwise the number of bytes given to `g_malloc`; `right_size` and `bottom_size` are
`unsigned int`. The function `_cogl_get_format_bpp` (not among the sources) is a
parameter. -/
def _cogl_texture_2d_sliced_allocate_waste_buffer {α : Type}
    (_cogl_get_format_bpp : Nat → Int) (tex_2ds : CoglTexture2DSliced α) (format : Nat) :
    Option Int :=
  let last_x_span :=
    span_index tex_2ds.slice_x_spans (array_len tex_2ds.slice_x_spans - 1)
  let last_y_span :=
    span_index tex_2ds.slice_y_spans (array_len tex_2ds.slice_y_spans - 1)
  if last_x_span.waste > 0 ∨ last_y_span.waste > 0 then
    let bpp := _cogl_get_format_bpp format
    let first_x_span := span_index tex_2ds.slice_x_spans 0
    let first_y_span := span_index tex_2ds.slice_y_spans 0
    let right_size := to_guint (first_y_span.size * last_x_span.waste)
    let bottom_size := to_guint (first_x_span.size * last_y_span.waste)
    some (to_guint (max right_size bottom_size * bpp))
  else none

/-- The contents of `waste_buf` after each fill that
`_cogl_texture_2d_sliced_upload_to_gl` makes for the slice of `x_span` and `y_span`: the
right-edge fill, then the bottom-edge fill. -/
def upload_slice_waste_fills {α : Type} [Inhabited α] (x_span y_span : CoglSpan)
    (bmp : CoglBitmap α) : List (List α) :=
  (if x_span.waste > 0 then
    [fill_right_waste bmp (x_span.start + x_span.size - x_span.waste - 1) y_span.start
      (y_span.size - y_span.waste).toNat x_span.waste.toNat]
  else []) ++
  (if y_span.waste > 0 then
    [fill_bottom_waste bmp x_span.start (y_span.start + y_span.size - y_span.waste - 1)
      (x_span.size - x_span.waste).toNat x_span.waste.toNat y_span.waste.toNat]
  else [])

/-- The contents of `waste_buf` after each fill that
`_cogl_texture_2d_sliced_upload_subregion_to_gl` makes for an intersecting slice: the
right-edge fill, then the bottom-edge fill. -/
def sliced_subregion_waste_fills {α : Type} [Inhabited α] (tex_2ds : CoglTexture2DSliced α)
    (src_x src_y dst_x dst_y : Int) (source_bmp : CoglBitmap α) (y_iter : CoglSpanIter)
    (y_span : CoglSpan) (x_iter : CoglSpanIter) : List (List α) :=
  let x_span := span_index tex_2ds.slice_x_spans x_iter.index.toNat
  let inter_w := x_iter.intersect_end - x_iter.intersect_start
  let inter_h := y_iter.intersect_end - y_iter.intersect_start
  let local_x := x_iter.intersect_start - x_iter.pos
  let local_y := y_iter.intersect_start - y_iter.pos
  (if x_span.waste > 0 ∧ local_x < x_span.size - x_span.waste ∧
      local_x + inter_w ≥ x_span.size - x_span.waste then
    [fill_right_waste source_bmp
      (src_x + x_span.start + x_span.size - x_span.waste - dst_x - 1)
      (src_y + y_iter.intersect_start - dst_y) inter_h.toNat x_span.waste.toNat]
  else []) ++
  (if y_span.waste > 0 ∧ local_y < y_span.size - y_span.waste ∧
      local_y + inter_h ≥ y_span.size - y_span.waste then
    let copy_width :=
      if local_x + inter_w ≥ x_span.size - x_span.waste then x_span.size - local_x
      else inter_w
    [fill_bottom_waste source_bmp (src_x + x_iter.intersect_start - dst_x)
      (src_y + y_span.start + y_span.size - y_span.waste - dst_y - 1)
      inter_w.toNat (copy_width - inter_w).toNat y_span.waste.toNat]
  else [])

/-- The first span of a list is at least as large as every span of the list. -/
def FirstLargest (spans : List CoglSpan) : Prop :=
  ∀ s ∈ spans, s.size ≤ (spans.getD 0 default).size

/-- An iterator step of an in-bounds sub-region upload over `spans`: the index is in
range and the intersection lies in the used part of the span at that index, which begins
at `pos`. -/
structure IterInBounds (spans : List CoglSpan) (iter : CoglSpanIter) : Prop where
  index_nonneg : 0 ≤ iter.index
  index_lt : iter.index < spans.length
  start_ge : iter.pos ≤ iter.intersect_start
  start_le : iter.intersect_start ≤ iter.intersect_end
  end_le : iter.intersect_end ≤
    iter.pos + ((spans.getD iter.index.toNat default).size -
      (spans.getD iter.index.toNat default).waste)

/-- A fill of `buf.length` pixels fits the waste buffer of the texture: it has at most
`MAX (first_y_span.size * last_x_span.waste, first_x_span.size * last_y_span.waste)`
pixels, and the buffer is allocated with at least as many bytes as the fill writes. -/
def FitsWasteBuffer {α : Type} (_cogl_get_format_bpp : Nat → Int)
    (tex_2ds : CoglTexture2DSliced α) (format : Nat) (buf : List α) : Prop :=
  (buf.length : Int) ≤
    max ((span_index tex_2ds.slice_y_spans 0).size *
        (span_index tex_2ds.slice_x_spans (array_len tex_2ds.slice_x_spans - 1)).waste)
      ((span_index tex_2ds.slice_x_spans 0).size *
        (span_index tex_2ds.slice_y_spans (array_len tex_2ds.slice_y_spans - 1)).waste) ∧
  ∃ size : Int,
    _cogl_texture_2d_sliced_allocate_waste_buffer _cogl_get_format_bpp tex_2ds format =
      some size ∧
    (buf.length : Int) * _cogl_get_format_bpp format ≤ size

/-- What the waste fills need of the two span lists of a texture. -/
structure WastePlan (xs ys : List CoglSpan) : Prop where
  x_ne : xs ≠ []
  y_ne : ys ≠ []
  x_waste : ∀ s ∈ xs, 0 ≤ s.waste ∧ s.waste < s.size
  y_waste : ∀ s ∈ ys, 0 ≤ s.waste ∧ s.waste < s.size
  x_inner : ∀ s ∈ xs.dropLast, s.waste = 0
  y_inner : ∀ s ∈ ys.dropLast, s.waste = 0
  x_first : FirstLargest xs
  y_first : FirstLargest ys

/-- The span lists `xs` and `ys` of a texture come from the slice planner: they are the
lists chosen by slice creation for a surface of at least 1 x 1 pixels (either policy, or
the single spans when slicing is disabled), or the texture is one made by
`_cogl_texture_2d_sliced_new_from_foreign` from `GLuint` arguments. -/
def SlicesPlanned {α : Type} (tex_2ds : CoglTexture2DSliced α) (xs ys : List CoglSpan) :
    Prop :=
  tex_2ds.slice_x_spans = some xs ∧ tex_2ds.slice_y_spans = some ys ∧
  ((∃ (drv : Driver) (max_waste width height n_x n_y : Int), 1 ≤ width ∧ 1 ≤ height ∧
      plan_slices drv max_waste width height = some (some (n_x, n_y, xs, ys))) ∨
    (∃ (drv : Driver) (q : ForeignQuery) (gl_handle : GLuint) (gl_target : GLenum)
        (width height x_pot_waste y_pot_waste : Nat),
      (width : Int) < 2 ^ 32 ∧ (height : Int) < 2 ^ 32 ∧ (x_pot_waste : Int) < 2 ^ 32 ∧
      (y_pot_waste : Int) < 2 ^ 32 ∧
      _cogl_texture_2d_sliced_new_from_foreign drv q gl_handle gl_target width height
        x_pot_waste y_pot_waste = some tex_2ds))

/-! ## Concrete inputs used to exercise the theorems -/

/-- A driver without NPOT support whose textures are at most 4 x 4. -/
def example_driver : Driver :=
  { have_cogl_gl := true
    feature_texture_npot := false
    feature_offscreen := true
    size_supported := fun w h => decide (w ≤ 4 ∧ h ≤ 4) }

/-- A GL state in which no texture has been created. -/
def example_gl : GLState Nat :=
  { next_name := 1
    bound := 0
    textures := fun _ => { width := 0, height := 0, texel := fun _ _ => 0 }
    log := [] }

/-- A texture record before its slices are created, with `max_waste = 1`. -/
def example_texture : CoglTexture2DSliced Nat :=
  { slice_x_spans := none
    slice_y_spans := none
    slice_gl_handles := none
    max_waste := 1
    gl_target := GL_TEXTURE_2D
    gl_format := 0
    format := 0
    width := 0
    height := 0
    min_filter := GL_LINEAR
    mag_filter := GL_LINEAR
    wrap_mode_s := GL_FALSE
    wrap_mode_t := GL_FALSE
    is_foreign := false
    auto_mipmap := false
    mipmaps_dirty := true
    first_pixels := none }

/-- Driver answers that accept a foreign texture. -/
def example_query : ForeignQuery :=
  { allows_foreign_gl_target := true
    gl_istexture := true
    bind_error := false
    gl_compressed := GL_FALSE
    gl_int_format := 0
    gl_gen_mipmap := GL_FALSE
    format_from_gl_internal := some 0 }

/-- The texture record that slice creation makes of `example_texture` for a 7 x 3
surface on `example_driver`: two slices along x, one along y. -/
def example_created : CoglTexture2DSliced Nat :=
  { example_texture with
    slice_x_spans :=
      some [{ start := 0, size := 4, waste := 0 }, { start := 4, size := 4, waste := 1 }]
    slice_y_spans := some [{ start := 0, size := 4, waste := 1 }]
    slice_gl_handles := some [1, 2] }

/-- The GL state after that slice creation. -/
def example_created_gl : GLState Nat :=
  init_slice_textures example_created.slice_x_spans example_created.slice_y_spans
    example_created.slice_gl_handles 2 1 (glGenTextures example_gl 2).2

/-- The record made by `_cogl_texture_2d_sliced_new_from_foreign` for handle 5, a 6 x 3
surface and waste 2 and 1. -/
def example_foreign : CoglTexture2DSliced Nat :=
  { slice_x_spans := some [{ start := 0, size := 8, waste := 2 }]
    slice_y_spans := some [{ start := 0, size := 4, waste := 1 }]
    slice_gl_handles := some [5]
    max_waste := 0
    gl_target := GL_TEXTURE_2D
    gl_format := 0
    format := 0
    width := 6
    height := 3
    min_filter := GL_FALSE
    mag_filter := GL_FALSE
    wrap_mode_s := GL_FALSE
    wrap_mode_t := GL_FALSE
    is_foreign := true
    auto_mipmap := false
    mipmaps_dirty := true
    first_pixels := none }

/-- The texture record that slice creation makes of `example_texture` for an 8 x 4
surface on `example_driver`: two slices along x, one along y, no waste. -/
def example_sliced : CoglTexture2DSliced Nat :=
  { example_texture with
    slice_x_spans :=
      some [{ start := 0, size := 4, waste := 0 }, { start := 4, size := 4, waste := 0 }]
    slice_y_spans := some [{ start := 0, size := 4, waste := 0 }]
    slice_gl_handles := some [1, 2] }

/-- The GL state after that slice creation. -/
def example_sliced_gl : GLState Nat :=
  init_slice_textures example_sliced.slice_x_spans example_sliced.slice_y_spans
    example_sliced.slice_gl_handles 2 1 (glGenTextures example_gl 2).2


/-- A 7 x 3 bitmap whose pixel `(x, y)` is `10 * y + x`. -/
def example_bitmap : CoglBitmap Nat :=
  { width := 7, height := 3, pixel := fun x y => (10 * y + x).toNat }

/-- A 7 x 3 texture of the GL backend with `max_waste = 1`, sliced as `example_created`. -/
def example_subtexture : CoglTexture Nat :=
  { bitmap := example_bitmap
    bitmap_owner := false
    gl_target := GL_TEXTURE_2D
    gl_intformat := 0
    gl_format := 0
    gl_type := 0
    slice_x_spans :=
      some [{ start := 0, size := 4, waste := 0 }, { start := 4, size := 4, waste := 1 }]
    slice_y_spans := some [{ start := 0, size := 4, waste := 1 }]
    slice_gl_handles := some [1, 2]
    max_waste := 1
    min_filter := GL_LINEAR
    mag_filter := GL_LINEAR
    is_foreign := false
    auto_mipmap := false
    wrap_mode := GL_FALSE }

/-- A GL state in which every texture is 4 x 4 and holds 0 in every texel. -/
def example_blank_gl : GLState Nat :=
  { next_name := 3
    bound := 0
    textures := fun _ => { width := 4, height := 4, texel := fun _ _ => 0 }
    log := [] }

/-- An iterator for the examples: the span iterator in whole pixels, started at origin 0
whatever the third argument is. -/
def example_iter_fns : SpanIterFns :=
  { iter_begin := fun iter array _ cover_start cover_end =>
      pixel_span_iter_begin iter array 0 cover_start cover_end
    iter_next := pixel_span_iter_next
    iter_end := pixel_span_iter_end }

/-- A context in which nothing is queued. -/
def example_context : CoglContext :=
  { texture_vertices := []
    texture_indices := []
    texture_current := 0
    texture_target := 0
    texture_wrap_mode := 0 }

/-- The conversion of a 16.16 fixed-point value to a rational. -/
def example_fixed_to_float (i : Int) : ℚ := (i : ℚ) / 65536

/-- Driver answers for a foreign texture of 128 x 128 texels with the internal format
`GL_RGBA`. -/
def example_gl_query : GLForeignQuery :=
  { gl_istexture := true
    bind_error := false
    gl_compressed := GL_FALSE
    gl_int_format := GL_RGBA
    gl_width := 128
    gl_height := 128
    gl_min_filter := GL_LINEAR
    gl_mag_filter := GL_LINEAR
    gl_gen_mipmap := GL_FALSE }

/-- A driver with NPOT support. -/
def example_npot_driver : Driver :=
  { have_cogl_gl := true
    feature_texture_npot := true
    feature_offscreen := true
    size_supported := fun w h => decide (w ≤ 2048 ∧ h ≤ 2048) }

/-- The record made by `cogl_texture_new_from_foreign` for handle 7, a 100 x 100 surface
and waste 28 and 28 in a texture of 128 x 128. -/
def example_gl_foreign : CoglTexture Nat :=
  { bitmap := { width := 100, height := 100, pixel := fun _ _ => 0 }
    bitmap_owner := false
    gl_target := GL_TEXTURE_2D
    gl_intformat := GL_RGBA
    gl_format := GL_RGBA
    gl_type := GL_UNSIGNED_BYTE
    slice_x_spans := some [{ start := 0, size := 128, waste := 28 }]
    slice_y_spans := some [{ start := 0, size := 128, waste := 28 }]
    slice_gl_handles := some [7]
    max_waste := 0
    min_filter := GL_LINEAR
    mag_filter := GL_LINEAR
    is_foreign := true
    auto_mipmap := false
    wrap_mode := GL_FALSE }

/-- Helpers for reading back a texture of 4 bytes per pixel: the premultiplication bit
is 128, the driver returns the bytes 10, 20, ..., 80 and the conversion yields a bitmap
of the same size with the bytes 1, 2, ..., 8. -/
def example_get_data_env : GetDataEnv :=
  { COGL_PIXEL_FORMAT_ANY := 0
    COGL_PREMULT_BIT := 128
    COGL_UNPREMULT_MASK := 127
    _cogl_get_format_bpp := fun _ => 4
    download_from_gl := fun _ => [10, 20, 30, 40, 50, 60, 70, 80]
    _cogl_bitmap_convert_and_premult := fun bmp format =>
      some { bmp with data := [1, 2, 3, 4, 5, 6, 7, 8], format := format } }

/-- A texture of the GL backend of 2 x 1 pixels. -/
def example_small_texture : CoglTexture Nat :=
  { example_subtexture with bitmap := { width := 2, height := 1, pixel := fun _ _ => 0 } }

/-- A driver with NPOT support that accepts every texture size. -/
def example_wide_driver : Driver :=
  { have_cogl_gl := true
    feature_texture_npot := true
    feature_offscreen := true
    size_supported := fun _ _ => true }

/-- A bitmap of 40000 x 1 pixels: pixel `(x, y)` holds `x + 1`. -/
def example_wide_bitmap : CoglBitmap Nat :=
  { width := 40000, height := 1, pixel := fun x _ => (x + 1).toNat }

/-- A 40000 x 1 texture of the GL backend with `max_waste = 0`, in the single slice that
is planned on `example_wide_driver`. -/
def example_wide_texture : CoglTexture Nat :=
  { bitmap := example_wide_bitmap
    bitmap_owner := false
    gl_target := GL_TEXTURE_2D
    gl_intformat := 0
    gl_format := 0
    gl_type := 0
    slice_x_spans := some [{ start := 0, size := 40000, waste := 0 }]
    slice_y_spans := some [{ start := 0, size := 1, waste := 0 }]
    slice_gl_handles := some [1]
    max_waste := 0
    min_filter := GL_LINEAR
    mag_filter := GL_LINEAR
    is_foreign := false
    auto_mipmap := false
    wrap_mode := GL_FALSE }

/-- A driver without NPOT support whose textures are at most 32768 x 32768. -/
def example_large_driver : Driver :=
  { have_cogl_gl := true
    feature_texture_npot := false
    feature_offscreen := true
    size_supported := fun w h => decide (w ≤ 32768 ∧ h ≤ 32768) }

/-- A bitmap of 32771 x 1 pixels: pixel `(x, y)` holds `x + 1`. -/
def example_long_bitmap : CoglBitmap Nat :=
  { width := 32771, height := 1, pixel := fun x _ => (x + 1).toNat }

/-- A 32771 x 1 texture of the GL backend with `max_waste = 1`, in the two slices that
are planned on `example_large_driver`: 32768 texels, then 4 texels of which the last is
waste. -/
def example_long_texture : CoglTexture Nat :=
  { bitmap := example_long_bitmap
    bitmap_owner := false
    gl_target := GL_TEXTURE_2D
    gl_intformat := 0
    gl_format := 0
    gl_type := 0
    slice_x_spans :=
      some [{ start := 0, size := 32768, waste := 0 }, { start := 32768, size := 4, waste := 1 }]
    slice_y_spans := some [{ start := 0, size := 1, waste := 0 }]
    slice_gl_handles := some [1, 2]
    max_waste := 1
    min_filter := GL_LINEAR
    mag_filter := GL_LINEAR
    is_foreign := false
    auto_mipmap := false
    wrap_mode := GL_FALSE }

/-- The record made by `_cogl_texture_2d_sliced_new_from_foreign` for handle 7, a
49151 x 65536 surface and waste 16385 and 0: a texture of 65536 x 65536 texels. -/
def example_huge_foreign : CoglTexture2DSliced Nat :=
  { slice_x_spans := some [{ start := 0, size := 65536, waste := 16385 }]
    slice_y_spans := some [{ start := 0, size := 65536, waste := 0 }]
    slice_gl_handles := some [7]
    max_waste := 0
    gl_target := GL_TEXTURE_2D
    gl_format := 0
    format := 0
    width := 49151
    height := 65536
    min_filter := GL_FALSE
    mag_filter := GL_FALSE
    wrap_mode_s := GL_FALSE
    wrap_mode_t := GL_FALSE
    is_foreign := true
    auto_mipmap := false
    mipmaps_dirty := true
    first_pixels := none }

/-- The x iterator of a sub-region upload to `example_huge_foreign` on its one span, for
the destination columns 49141 to 49150. -/
def example_huge_x_iter : CoglSpanIter :=
  { (default : CoglSpanIter) with
    index := 0
    pos := 0
    intersect_start := 49141
    intersect_end := 49151
    intersects := true }

/-- The y iterator of a sub-region upload to `example_huge_foreign` on its one span, for
the destination rows 0 to 9. -/
def example_huge_y_iter : CoglSpanIter :=
  { (default : CoglSpanIter) with
    index := 0
    pos := 0
    intersect_start := 0
    intersect_end := 10
    intersects := true }

/-! ## Lemmas on span lists -/

theorem total_size_append (a b : List CoglSpan) :
    total_size (a ++ b) = total_size a + total_size b := by
  simp [total_size]

theorem covered_append (a b : List CoglSpan) :
    covered (a ++ b) = covered a + covered b := by
  simp [covered]

theorem contig_append (a b : List CoglSpan) (st : Int) :
    Contig st (a ++ b) ↔ Contig st a ∧ Contig (st + total_size a) b := by
  induction a generalizing st with
  | nil => simp [Contig, total_size]
  | cons s rest ih =>
    have hsum : st + total_size (s :: rest) = st + s.size + total_size rest := by
      simp [total_size]; ring
    show (s.start = st ∧ Contig (st + s.size) (rest ++ b)) ↔
      (s.start = st ∧ Contig (st + s.size) rest) ∧ Contig (st + total_size (s :: rest)) b
    rw [ih, hsum, and_assoc]

theorem contig_head (l : List CoglSpan) (st : Int) (h : Contig st l) (a : CoglSpan)
    (ha : l[0]? = some a) : a.start = st := by
  cases l with
  | nil => simp at ha
  | cons s rest =>
    simp at ha
    subst ha
    exact h.1

theorem contig_index (l : List CoglSpan) (st : Int) (h : Contig st l) (i : Nat)
    (a b : CoglSpan) (ha : l[i]? = some a) (hb : l[i + 1]? = some b) :
    b.start = a.start + a.size := by
  induction l generalizing st i with
  | nil => simp at ha
  | cons s rest ih =>
    cases i with
    | zero =>
      simp at ha
      subst ha
      have h2 := contig_head rest _ h.2 b (by simpa using hb)
      rw [h2, h.1]
    | succ j =>
      exact ih _ h.2 j (by simpa using ha) (by simpa using hb)

theorem contig_lower (l : List CoglSpan) (st : Int) (h : Contig st l)
    (hpos : ∀ s ∈ l, 0 < s.size) : ∀ s ∈ l, st ≤ s.start := by
  induction l generalizing st with
  | nil => simp
  | cons s rest ih =>
    intro t ht
    rcases List.mem_cons.1 ht with rfl | ht
    · exact le_of_eq h.1.symm
    · have := ih _ h.2 (fun s hs => hpos s (List.mem_cons_of_mem _ hs)) t ht
      have := hpos s (List.mem_cons_self _ _)
      omega

theorem contig_pairwise (l : List CoglSpan) (st : Int) (h : Contig st l)
    (hpos : ∀ s ∈ l, 0 < s.size) :
    (l.map (fun s => s.start)).Pairwise (fun a b => a < b) := by
  induction l generalizing st with
  | nil => simp
  | cons s rest ih =>
    simp only [List.map_cons, List.pairwise_cons, List.mem_map, forall_exists_index, and_imp,
      forall_apply_eq_imp_iff₂]
    refine ⟨?_, ih _ h.2 (fun s hs => hpos s (List.mem_cons_of_mem _ hs))⟩
    intro t ht
    have := contig_lower rest _ h.2 (fun s hs => hpos s (List.mem_cons_of_mem _ hs)) t ht
    have := hpos s (List.mem_cons_self _ _)
    have := h.1
    omega

/-! ## The rectangular policy -/

theorem rect_loop_spec (fuel : Nat) (size_to_fill : Int) (span : CoglSpan) (n_spans : Int)
    (out : List CoglSpan) (hsize : 1 ≤ span.size) (hfill : 0 ≤ size_to_fill)
    (hfuel : size_to_fill.toNat < fuel) :
    ∃ (spans : List CoglSpan) (rest : Int),
      rect_loop fuel size_to_fill span n_spans (some out) =
        some (rest, { span with start := span.start + total_size spans },
          n_spans + spans.length, some (out ++ spans)) ∧
      0 ≤ rest ∧ rest < span.size ∧ Contig span.start spans ∧
      (∀ s ∈ spans, s.size = span.size ∧ s.waste = span.waste) ∧
      total_size spans + rest = size_to_fill := by
  induction fuel generalizing size_to_fill span n_spans out with
  | zero => omega
  | succ k ih =>
    unfold rect_loop
    by_cases hc : size_to_fill ≥ span.size
    · rw [if_pos hc]
      obtain ⟨spans, rest, heq, h0, h1, h2, h3, h4⟩ :=
        ih (size_to_fill - span.size) { span with start := span.start + span.size }
          (n_spans + 1) (out ++ [span]) hsize (by omega) (by omega)
      refine ⟨span :: spans, rest, ?_, h0, h1, ⟨rfl, h2⟩, ?_, ?_⟩
      · simp only [append_span, heq]
        simp [total_size]
        constructor <;> ring
      · intro s hs
        rcases List.mem_cons.1 hs with rfl | hs
        · exact ⟨rfl, rfl⟩
        · exact h3 s hs
      · simp [total_size] at h4 ⊢
        omega
    · rw [if_neg hc]
      exact ⟨[], size_to_fill, by simp [total_size], hfill, by omega, trivial, by simp,
        by simp [total_size]⟩

theorem rect_loop_null (fuel : Nat) (size_to_fill : Int) (span : CoglSpan) (n_spans : Int)
    (out : List CoglSpan) :
    rect_loop fuel size_to_fill span n_spans none =
      (rect_loop fuel size_to_fill span n_spans (some out)).map
        (fun r => (r.1, r.2.1, r.2.2.1, none)) := by
  induction fuel generalizing size_to_fill span n_spans out with
  | zero => simp [rect_loop]
  | succ k ih =>
    unfold rect_loop
    by_cases hc : size_to_fill ≥ span.size
    · rw [if_pos hc, if_pos hc]
      simpa [append_span] using ih _ _ _ (out ++ [span])
    · rw [if_neg hc, if_neg hc]
      rfl

/-- Full description of the result of the rectangular policy on valid inputs. -/
theorem rect_slices_spec (size_to_fill max_span_size max_waste : Int)
    (out : List CoglSpan) (hfill : 0 < size_to_fill) (hmax : 0 < max_span_size) :
    ∃ spans : List CoglSpan,
      _cogl_rect_slices_for_size size_to_fill max_span_size max_waste (some out) =
        some ((spans.length : Int), some (out ++ spans)) ∧
      spans ≠ [] ∧ Contig 0 spans ∧
      (∀ s ∈ spans, 0 < s.size ∧ s.size ≤ max_span_size ∧ s.waste = 0) ∧
      total_size spans = size_to_fill := by
  obtain ⟨spans, rest, heq, h0, h1, h2, h3, h4⟩ :=
    rect_loop_spec (size_to_fill.toNat + 1) size_to_fill
      { start := 0, size := max_span_size, waste := 0 } 0 out (by simpa using hmax)
      (le_of_lt hfill) (Nat.lt_succ_self _)
  simp only at heq h1 h2 h3
  unfold _cogl_rect_slices_for_size
  rw [heq]
  by_cases hr : rest > 0
  · refine ⟨spans ++ [{ start := 0 + total_size spans, size := rest, waste := 0 }], ?_, by simp,
      ?_, ?_, ?_⟩
    · simp [append_span, hr]
    · rw [contig_append]
      exact ⟨h2, by simp [Contig]⟩
    · intro s hs
      rcases List.mem_append.1 hs with hs | hs
      · have := h3 s hs
        omega
      · simp at hs
        subst hs
        simp
        omega
    · rw [total_size_append]
      simp [total_size] at h4 ⊢
      omega
  · have hr0 : rest = 0 := by omega
    subst hr0
    refine ⟨spans, by simp [append_span], ?_, h2, ?_, by omega⟩
    · rintro rfl
      simp [total_size] at h4
      omega
    · intro s hs
      have := h3 s hs
      omega

/-! ## The power-of-two policy -/

theorem isPow2_half (n : Int) (h : IsPow2 n) (h2 : 2 ≤ n) : IsPow2 (Int.tdiv n 2) := by
  obtain ⟨k, rfl⟩ := h
  cases k with
  | zero => simp at h2
  | succ j =>
    refine ⟨j, ?_⟩
    rw [Int.tdiv_eq_ediv (by positivity) (by decide), pow_succ]
    simp

theorem pot_shrink_spec (fuel : Nat) (span_size size_to_fill max_waste : Int)
    (hsize : 1 ≤ span_size) (hfill : 1 ≤ size_to_fill) (hw : 0 ≤ max_waste)
    (hfuel : span_size.toNat < fuel) :
    ∃ r : Int, pot_shrink fuel span_size size_to_fill max_waste = some r ∧
      1 ≤ r ∧ r ≤ span_size ∧ r - size_to_fill ≤ max_waste ∧
      (span_size - size_to_fill > max_waste → r < span_size) ∧
      (IsPow2 span_size → IsPow2 r) := by
  induction fuel generalizing span_size with
  | zero => omega
  | succ k ih =>
    unfold pot_shrink
    by_cases hc : span_size - size_to_fill > max_waste
    · rw [if_pos hc]
      have hdiv : Int.tdiv span_size 2 = span_size / 2 :=
        Int.tdiv_eq_ediv (by omega) (by decide)
      have h2 : 2 ≤ span_size := by omega
      have hpos : Int.tdiv span_size 2 > 0 := by rw [hdiv]; omega
      simp only [hpos, if_true]
      obtain ⟨r, heq, h1, h3, h4, _, h6⟩ :=
        ih (Int.tdiv span_size 2) (by omega) (by rw [hdiv]; omega)
      refine ⟨r, heq, h1, by rw [hdiv] at h3; omega, h4, fun _ => by rw [hdiv] at h3; omega, ?_⟩
      intro hp
      exact h6 (isPow2_half _ hp h2)
    · rw [if_neg hc]
      exact ⟨span_size, rfl, hsize, le_refl _, by omega, fun h => absurd h hc, id⟩

theorem pot_loop_spec (fuel : Nat) (size_to_fill : Int) (span : CoglSpan)
    (max_waste n_spans : Int) (out : List CoglSpan)
    (hfill : 1 ≤ size_to_fill) (hsize : 1 ≤ span.size) (hw : 0 ≤ max_waste)
    (hwaste : span.waste = 0) (hfuel : (size_to_fill + span.size).toNat < fuel) :
    ∃ spans : List CoglSpan,
      pot_loop fuel size_to_fill span max_waste n_spans (some out) =
        some (n_spans + spans.length, some (out ++ spans)) ∧
      spans ≠ [] ∧ Contig span.start spans ∧
      (∀ s ∈ spans, 1 ≤ s.size ∧ s.size ≤ span.size ∧ 0 ≤ s.waste ∧ s.waste < s.size ∧
        s.waste ≤ max_waste ∧ (IsPow2 span.size → IsPow2 s.size)) ∧
      (∀ s ∈ spans.dropLast, s.waste = 0) ∧
      covered spans = size_to_fill := by
  induction fuel generalizing size_to_fill span n_spans out with
  | zero => omega
  | succ k ih =>
    unfold pot_loop
    by_cases hc : size_to_fill > span.size
    · rw [if_pos hc]
      obtain ⟨spans, heq, hne, hcon, hall, hdrop, hcov⟩ :=
        ih (size_to_fill - span.size) { span with start := span.start + span.size }
          (n_spans + 1) (out ++ [span]) (by omega) hsize hwaste (by simp only; omega)
      refine ⟨span :: spans, ?_, by simp, ⟨rfl, hcon⟩, ?_, ?_, ?_⟩
      · simp only [append_span, heq]
        simp
        ring
      · intro s hs
        rcases List.mem_cons.1 hs with rfl | hs
        · exact ⟨hsize, le_refl _, by omega, by omega, by omega, id⟩
        · exact hall s hs
      · intro s hs
        rw [List.dropLast_cons_of_ne_nil hne] at hs
        rcases List.mem_cons.1 hs with rfl | hs
        · exact hwaste
        · exact hdrop s hs
      · simp [covered] at hcov ⊢
        omega
    · rw [if_neg hc]
      by_cases hc2 : span.size - size_to_fill ≤ max_waste
      · rw [if_pos hc2]
        refine ⟨[{ span with waste := span.size - size_to_fill }], by simp [append_span], by simp,
          ⟨rfl, trivial⟩, ?_, by simp, by simp [covered]⟩
        intro s hs
        simp at hs
        subst hs
        exact ⟨hsize, le_refl _, by simp only; omega, by simp only; omega, hc2, id⟩
      · rw [if_neg hc2]
        obtain ⟨r, hr, h1, h2, h3, h4, h5⟩ :=
          pot_shrink_spec (span.size.toNat + 1) span.size size_to_fill max_waste hsize hfill hw
            (Nat.lt_succ_self _)
        have hlt : r < span.size := h4 (by omega)
        rw [hr]
        obtain ⟨spans, heq, hne, hcon, hall, hdrop, hcov⟩ :=
          ih size_to_fill { span with size := r } n_spans out hfill h1 hwaste
            (by simp only; omega)
        refine ⟨spans, heq, hne, hcon, ?_, hdrop, hcov⟩
        intro s hs
        obtain ⟨a, b, c, d, e, f⟩ := hall s hs
        exact ⟨a, by simp only at b; omega, c, d, e, fun hp => f (h5 hp)⟩


theorem pot_loop_null (fuel : Nat) (size_to_fill : Int) (span : CoglSpan)
    (max_waste n_spans : Int) (out : List CoglSpan) :
    pot_loop fuel size_to_fill span max_waste n_spans none =
      (pot_loop fuel size_to_fill span max_waste n_spans (some out)).map
        (fun r => (r.1, none)) := by
  induction fuel generalizing size_to_fill span n_spans out with
  | zero => simp [pot_loop]
  | succ k ih =>
    unfold pot_loop
    by_cases hc : size_to_fill > span.size
    · rw [if_pos hc, if_pos hc]
      simpa [append_span] using ih _ _ _ (out ++ [span])
    · rw [if_neg hc, if_neg hc]
      by_cases hc2 : span.size - size_to_fill ≤ max_waste
      · rw [if_pos hc2, if_pos hc2]
        rfl
      · rw [if_neg hc2, if_neg hc2]
        cases pot_shrink (span.size.toNat + 1) span.size size_to_fill max_waste with
        | none => rfl
        | some r => exact ih _ _ _ out

/-- Full description of the result of the power-of-two policy on valid inputs. -/
theorem pot_slices_spec (size_to_fill max_span_size max_waste : Int)
    (out : List CoglSpan) (hfill : 1 ≤ size_to_fill) (hmax : 1 ≤ max_span_size) :
    ∃ spans : List CoglSpan,
      _cogl_pot_slices_for_size size_to_fill max_span_size max_waste (some out) =
        some ((spans.length : Int), some (out ++ spans)) ∧
      spans ≠ [] ∧ Contig 0 spans ∧
      (∀ s ∈ spans, 1 ≤ s.size ∧ s.size ≤ max_span_size ∧ 0 ≤ s.waste ∧ s.waste < s.size ∧
        s.waste ≤ max max_waste 0 ∧ (IsPow2 max_span_size → IsPow2 s.size)) ∧
      (∀ s ∈ spans.dropLast, s.waste = 0) ∧
      covered spans = size_to_fill := by
  unfold _cogl_pot_slices_for_size
  have hw : (0 : Int) ≤ (if max_waste < 0 then 0 else max_waste) := by
    split <;> omega
  have hweq : (if max_waste < 0 then 0 else max_waste) = max max_waste 0 := by
    split <;> omega
  obtain ⟨spans, heq, hne, hcon, hall, hdrop, hcov⟩ :=
    pot_loop_spec (size_to_fill.natAbs + max_span_size.natAbs + 2) size_to_fill
      { start := 0, size := max_span_size, waste := 0 }
      (if max_waste < 0 then 0 else max_waste) 0 out hfill hmax hw rfl
      (by simp only; omega)
  refine ⟨spans, by simpa using heq, hne, hcon, ?_, hdrop, hcov⟩
  intro s hs
  have := hall s hs
  rw [hweq] at this
  exact this

/-! ## Contracts of the slice planner -/

/-- C1: for `size_to_fill >= 1`, a power-of-two `max_span_size` and any `max_waste`,
`_cogl_pot_slices_for_size` returns; every span it appends has a power-of-two size, the
final span has `0 <= waste <= max (max_waste, 0)`, and the sum of `size - waste` over the
spans is `size_to_fill`. -/
theorem pot_slices_contract (size_to_fill max_span_size max_waste : Int)
    (hfill : 1 ≤ size_to_fill) (hpot : IsPow2 max_span_size) :
    ∃ spans : List CoglSpan,
      _cogl_pot_slices_for_size size_to_fill max_span_size max_waste (some []) =
        some ((spans.length : Int), some spans) ∧
      (∀ s ∈ spans, IsPow2 s.size) ∧
      (∃ last, spans.getLast? = some last ∧ 0 ≤ last.waste ∧
        last.waste ≤ max max_waste 0) ∧
      (spans.map (fun s => s.size - s.waste)).sum = size_to_fill := by
  have hmax : 1 ≤ max_span_size := by
    obtain ⟨k, rfl⟩ := hpot
    exact one_le_pow₀ (by decide)
  obtain ⟨spans, heq, hne, _, hall, _, hcov⟩ :=
    pot_slices_spec size_to_fill max_span_size max_waste [] hfill hmax
  refine ⟨spans, by simpa using heq, fun s hs => (hall s hs).2.2.2.2.2 hpot, ?_, hcov⟩
  refine ⟨spans.getLast hne, List.getLast?_eq_getLast _ hne, ?_⟩
  have := hall _ (List.getLast_mem hne)
  exact ⟨this.2.2.1, this.2.2.2.2.1⟩

theorem pot_slices_contract_witness :
    (1 : Int) ≤ 300 ∧ IsPow2 256 ∧
    ∃ spans : List CoglSpan,
      _cogl_pot_slices_for_size 300 256 16 (some []) =
        some ((spans.length : Int), some spans) ∧
      (∀ s ∈ spans, IsPow2 s.size) ∧
      (∃ last, spans.getLast? = some last ∧ 0 ≤ last.waste ∧
        last.waste ≤ max 16 0) ∧
      (spans.map (fun s => s.size - s.waste)).sum = 300 :=
  ⟨by decide, ⟨8, by norm_num⟩, pot_slices_contract 300 256 16 (by decide) ⟨8, by norm_num⟩⟩

/-- C2: for `size_to_fill > 0` and `max_span_size > 0`, `_cogl_rect_slices_for_size`
returns; the sizes of the spans it appends sum to `size_to_fill`, the first start is 0,
starts are contiguous (`start[i+1] = start[i] + size[i]`) and strictly increasing, and the
last span has waste 0. -/
theorem rect_slices_contract (size_to_fill max_span_size max_waste : Int)
    (hfill : 0 < size_to_fill) (hmax : 0 < max_span_size) :
    ∃ spans : List CoglSpan,
      _cogl_rect_slices_for_size size_to_fill max_span_size max_waste (some []) =
        some ((spans.length : Int), some spans) ∧
      (spans.map (fun s => s.size)).sum = size_to_fill ∧
      (∃ first, spans[0]? = some first ∧ first.start = 0) ∧
      (∀ (i : Nat) (a b : CoglSpan), spans[i]? = some a → spans[i + 1]? = some b →
        b.start = a.start + a.size) ∧
      (spans.map (fun s => s.start)).Pairwise (fun a b => a < b) ∧
      (∃ last, spans.getLast? = some last ∧ last.waste = 0) := by
  obtain ⟨spans, heq, hne, hcon, hall, htot⟩ :=
    rect_slices_spec size_to_fill max_span_size max_waste [] hfill hmax
  refine ⟨spans, by simpa using heq, htot, ?_, contig_index spans 0 hcon,
    contig_pairwise spans 0 hcon (fun s hs => (hall s hs).1),
    ⟨spans.getLast hne, List.getLast?_eq_getLast _ hne, (hall _ (List.getLast_mem hne)).2.2⟩⟩
  cases spans with
  | nil => exact absurd rfl hne
  | cons s rest => exact ⟨s, by simp, hcon.1⟩

theorem rect_slices_contract_witness :
    (0 : Int) < 300 ∧ (0 : Int) < 256 ∧
    ∃ spans : List CoglSpan,
      _cogl_rect_slices_for_size 300 256 16 (some []) =
        some ((spans.length : Int), some spans) ∧
      (spans.map (fun s => s.size)).sum = 300 ∧
      (∃ first, spans[0]? = some first ∧ first.start = 0) ∧
      (∀ (i : Nat) (a b : CoglSpan), spans[i]? = some a → spans[i + 1]? = some b →
        b.start = a.start + a.size) ∧
      (spans.map (fun s => s.start)).Pairwise (fun a b => a < b) ∧
      (∃ last, spans.getLast? = some last ∧ last.waste = 0) :=
  ⟨by decide, by decide, rect_slices_contract 300 256 16 (by decide) (by decide)⟩

/-- C3: for `size_to_fill >= 1`, `max_span_size >= 1` and any `max_waste`, the spans
appended by `_cogl_pot_slices_for_size` satisfy the span invariant: `start[0] = 0`,
`start[i+1] = start[i] + size[i]` for consecutive spans, and `0 <= waste < size` for every
span. -/
theorem pot_slices_invariant (size_to_fill max_span_size max_waste : Int)
    (hfill : 1 ≤ size_to_fill) (hmax : 1 ≤ max_span_size) :
    ∃ spans : List CoglSpan,
      _cogl_pot_slices_for_size size_to_fill max_span_size max_waste (some []) =
        some ((spans.length : Int), some spans) ∧
      (∃ first, spans[0]? = some first ∧ first.start = 0) ∧
      (∀ (i : Nat) (a b : CoglSpan), spans[i]? = some a → spans[i + 1]? = some b →
        b.start = a.start + a.size) ∧
      (∀ s ∈ spans, 0 ≤ s.waste ∧ s.waste < s.size) := by
  obtain ⟨spans, heq, hne, hcon, hall, _, _⟩ :=
    pot_slices_spec size_to_fill max_span_size max_waste [] hfill hmax
  refine ⟨spans, by simpa using heq, ?_, contig_index spans 0 hcon,
    fun s hs => ⟨(hall s hs).2.2.1, (hall s hs).2.2.2.1⟩⟩
  cases spans with
  | nil => exact absurd rfl hne
  | cons s rest => exact ⟨s, by simp, hcon.1⟩

theorem pot_slices_invariant_witness :
    (1 : Int) ≤ 300 ∧ (1 : Int) ≤ 100 ∧
    ∃ spans : List CoglSpan,
      _cogl_pot_slices_for_size 300 100 (-1) (some []) =
        some ((spans.length : Int), some spans) ∧
      (∃ first, spans[0]? = some first ∧ first.start = 0) ∧
      (∀ (i : Nat) (a b : CoglSpan), spans[i]? = some a → spans[i + 1]? = some b →
        b.start = a.start + a.size) ∧
      (∀ s ∈ spans, 0 ≤ s.waste ∧ s.waste < s.size) :=
  ⟨by decide, by decide, pot_slices_invariant 300 100 (-1) (by decide) (by decide)⟩

/-! ## The returned count and the appended spans -/

theorem rect_slices_null (size_to_fill max_span_size max_waste : Int) (out : List CoglSpan) :
    _cogl_rect_slices_for_size size_to_fill max_span_size max_waste none =
      (_cogl_rect_slices_for_size size_to_fill max_span_size max_waste (some out)).map
        (fun r => (r.1, none)) := by
  unfold _cogl_rect_slices_for_size
  rw [rect_loop_null _ _ _ _ out]
  cases rect_loop (size_to_fill.toNat + 1) size_to_fill
      { start := 0, size := max_span_size, waste := 0 } 0 (some out) with
  | none => rfl
  | some q =>
    obtain ⟨rest, span, n, arr⟩ := q
    simp only [Option.map_some']
    by_cases hr : rest > 0
    · simp [hr, append_span]
    · simp [hr]

theorem pot_slices_null (size_to_fill max_span_size max_waste : Int) (out : List CoglSpan) :
    _cogl_pot_slices_for_size size_to_fill max_span_size max_waste none =
      (_cogl_pot_slices_for_size size_to_fill max_span_size max_waste (some out)).map
        (fun r => (r.1, none)) := by
  unfold _cogl_pot_slices_for_size
  exact pot_loop_null _ _ _ _ _ out

/-- C9, as stated, fails: slice creation for an 8 x 4 surface on `example_driver` yields
`example_sliced`, which satisfies the grid invariant with a `GL_TEXTURE_2D` target and is
sliced (two handles), yet `_cogl_texture_2d_sliced_can_hardware_repeat` returns `TRUE` for
it, because the function reads the waste of the first x and y span only. -/
theorem can_hardware_repeat_sliced_counterexample :
    _cogl_texture_2d_sliced_slices_create example_driver example_texture 8 4 example_gl =
        some (true, example_sliced, example_sliced_gl) ∧
      array_len example_sliced.slice_gl_handles =
        array_len example_sliced.slice_x_spans * array_len example_sliced.slice_y_spans ∧
      example_sliced.gl_target = GL_TEXTURE_2D ∧
      _cogl_texture_2d_sliced_is_sliced example_sliced = true ∧
      array_len example_sliced.slice_gl_handles = 2 ∧
      _cogl_texture_2d_sliced_can_hardware_repeat example_driver example_sliced = true ∧
      ¬ (_cogl_texture_2d_sliced_can_hardware_repeat example_driver example_sliced = true ↔
        (array_len example_sliced.slice_gl_handles = 1 ∧
          (span_index example_sliced.slice_x_spans 0).waste = 0 ∧
          (span_index example_sliced.slice_y_spans 0).waste = 0)) :=
  ⟨rfl, by decide, by decide, by decide, by decide, by decide, by decide⟩

/-- C9, amended: for every surface with a `GL_TEXTURE_2D` target,
`_cogl_texture_2d_sliced_can_hardware_repeat` returns `TRUE` if and only if the first x
span and the first y span have zero waste, whether or not the surface is sliced; so for an
unsliced surface (one x span, one y span) it returns `TRUE` if and only if its single slice
has zero waste on both axes. -/
theorem can_hardware_repeat_spec {α : Type} (drv : Driver) (tex_2ds : CoglTexture2DSliced α)
    (htarget : tex_2ds.gl_target = GL_TEXTURE_2D) :
    (_cogl_texture_2d_sliced_can_hardware_repeat drv tex_2ds = true ↔
      ((span_index tex_2ds.slice_x_spans 0).waste = 0 ∧
        (span_index tex_2ds.slice_y_spans 0).waste = 0)) ∧
    (∀ x_span y_span : CoglSpan, tex_2ds.slice_x_spans = some [x_span] →
      tex_2ds.slice_y_spans = some [y_span] →
      (_cogl_texture_2d_sliced_can_hardware_repeat drv tex_2ds = true ↔
        (x_span.waste = 0 ∧ y_span.waste = 0))) := by
  have hne : ¬ (drv.have_cogl_gl = true ∧ tex_2ds.gl_target = GL_TEXTURE_RECTANGLE_ARB) := by
    rw [htarget]
    rintro ⟨-, h⟩
    exact absurd h (by decide)
  have main : _cogl_texture_2d_sliced_can_hardware_repeat drv tex_2ds = true ↔
      ((span_index tex_2ds.slice_x_spans 0).waste = 0 ∧
        (span_index tex_2ds.slice_y_spans 0).waste = 0) := by
    unfold _cogl_texture_2d_sliced_can_hardware_repeat
    simp only [hne, if_false]
    by_cases hx : (span_index tex_2ds.slice_x_spans 0).waste = 0 <;>
      by_cases hy : (span_index tex_2ds.slice_y_spans 0).waste = 0 <;> simp [hx, hy]
  refine ⟨main, ?_⟩
  intro x_span y_span hxs hys
  rw [main, hxs, hys]
  simp [span_index]

theorem can_hardware_repeat_spec_witness :
    example_foreign.gl_target = GL_TEXTURE_2D ∧
    ((_cogl_texture_2d_sliced_can_hardware_repeat example_driver example_foreign = true ↔
      ((span_index example_foreign.slice_x_spans 0).waste = 0 ∧
        (span_index example_foreign.slice_y_spans 0).waste = 0)) ∧
    (∀ x_span y_span : CoglSpan, example_foreign.slice_x_spans = some [x_span] →
      example_foreign.slice_y_spans = some [y_span] →
      (_cogl_texture_2d_sliced_can_hardware_repeat example_driver example_foreign = true ↔
        (x_span.waste = 0 ∧ y_span.waste = 0)))) :=
  ⟨rfl, can_hardware_repeat_spec example_driver example_foreign rfl⟩

theorem need_repeat_loop_iff (coords : Fin 4 → ℚ) :
    need_repeat_loop coords = true ↔ ∃ i, coords i < 0 ∨ coords i > 1 := by
  have h4 : List.finRange 4 = [0, 1, 2, 3] := by decide
  unfold need_repeat_loop
  rw [h4]
  simp only [List.foldl_cons, List.foldl_nil]
  constructor
  · intro h
    by_contra hcon
    push_neg at hcon
    have e0 := hcon 0
    have e1 := hcon 1
    have e2 := hcon 2
    have e3 := hcon 3
    simp [not_lt.2 e0.1, not_lt.2 e0.2, not_lt.2 e1.1, not_lt.2 e1.2, not_lt.2 e2.1,
      not_lt.2 e2.2, not_lt.2 e3.1, not_lt.2 e3.2] at h
  · rintro ⟨i, hi⟩
    fin_cases i
    · by_cases h1 : coords 1 < 0 ∨ coords 1 > 1 <;> by_cases h2 : coords 2 < 0 ∨ coords 2 > 1 <;>
        by_cases h3 : coords 3 < 0 ∨ coords 3 > 1 <;> simp_all
    · by_cases h2 : coords 2 < 0 ∨ coords 2 > 1 <;>
        by_cases h3 : coords 3 < 0 ∨ coords 3 > 1 <;> simp_all
    · by_cases h3 : coords 3 < 0 ∨ coords 3 > 1 <;> simp_all
    · simp_all

/-- C10: `_cogl_texture_2d_sliced_transform_quad_coords_to_gl` (coordinates as exact
rationals) returns `SOFTWARE_REPEAT` with the four coordinates unchanged when the surface is
sliced, or some coordinate is outside `[0,1]` and `can_hardware_repeat` is false; otherwise
it replaces both `(s, t)` pairs by their `transform_coords_to_gl` images and returns
`HARDWARE_REPEAT` if some coordinate was outside `[0,1]` and `NO_REPEAT` if none was; so
`SOFTWARE_REPEAT` is returned exactly in the first case. -/
theorem transform_quad_coords_spec {α : Type} (drv : Driver) (tex_2ds : CoglTexture2DSliced α)
    (coords : Fin 4 → ℚ) :
    (if _cogl_texture_2d_sliced_is_sliced tex_2ds = true ∨
        ((∃ i, coords i < 0 ∨ coords i > 1) ∧
          _cogl_texture_2d_sliced_can_hardware_repeat drv tex_2ds = false) then
      _cogl_texture_2d_sliced_transform_quad_coords_to_gl drv tex_2ds coords =
        some (CoglTransformResult.COGL_TRANSFORM_SOFTWARE_REPEAT, coords)
    else
      ∃ s0 t0 s1 t1 : ℚ,
        _cogl_texture_2d_sliced_transform_coords_to_gl drv tex_2ds (coords 0) (coords 1) =
          some (s0, t0) ∧
        _cogl_texture_2d_sliced_transform_coords_to_gl drv tex_2ds (coords 2) (coords 3) =
          some (s1, t1) ∧
        _cogl_texture_2d_sliced_transform_quad_coords_to_gl drv tex_2ds coords =
          some (if ∃ i, coords i < 0 ∨ coords i > 1 then
              CoglTransformResult.COGL_TRANSFORM_HARDWARE_REPEAT
            else CoglTransformResult.COGL_TRANSFORM_NO_REPEAT, ![s0, t0, s1, t1])) ∧
    ((∃ c, _cogl_texture_2d_sliced_transform_quad_coords_to_gl drv tex_2ds coords =
        some (CoglTransformResult.COGL_TRANSFORM_SOFTWARE_REPEAT, c)) ↔
      (_cogl_texture_2d_sliced_is_sliced tex_2ds = true ∨
        ((∃ i, coords i < 0 ∨ coords i > 1) ∧
          _cogl_texture_2d_sliced_can_hardware_repeat drv tex_2ds = false))) := by
  have hfirst : (if _cogl_texture_2d_sliced_is_sliced tex_2ds = true ∨
        ((∃ i, coords i < 0 ∨ coords i > 1) ∧
          _cogl_texture_2d_sliced_can_hardware_repeat drv tex_2ds = false) then
      _cogl_texture_2d_sliced_transform_quad_coords_to_gl drv tex_2ds coords =
        some (CoglTransformResult.COGL_TRANSFORM_SOFTWARE_REPEAT, coords)
    else
      ∃ s0 t0 s1 t1 : ℚ,
        _cogl_texture_2d_sliced_transform_coords_to_gl drv tex_2ds (coords 0) (coords 1) =
          some (s0, t0) ∧
        _cogl_texture_2d_sliced_transform_coords_to_gl drv tex_2ds (coords 2) (coords 3) =
          some (s1, t1) ∧
        _cogl_texture_2d_sliced_transform_quad_coords_to_gl drv tex_2ds coords =
          some (if ∃ i, coords i < 0 ∨ coords i > 1 then
              CoglTransformResult.COGL_TRANSFORM_HARDWARE_REPEAT
            else CoglTransformResult.COGL_TRANSFORM_NO_REPEAT, ![s0, t0, s1, t1])) := by
    by_cases hs : _cogl_texture_2d_sliced_is_sliced tex_2ds = true
    · rw [if_pos (Or.inl hs)]
      simp [_cogl_texture_2d_sliced_transform_quad_coords_to_gl, hs]
    · by_cases hn : (∃ i, coords i < 0 ∨ coords i > 1) ∧
          _cogl_texture_2d_sliced_can_hardware_repeat drv tex_2ds = false
      · rw [if_pos (Or.inr hn)]
        have h1 := (need_repeat_loop_iff coords).2 hn.1
        simp [_cogl_texture_2d_sliced_transform_quad_coords_to_gl, hs, h1, hn.2]
      · rw [if_neg (fun h => h.elim hs hn)]
        have hs2 : _cogl_texture_2d_sliced_is_sliced tex_2ds = false := by simpa using hs
        have hcond : ¬ (need_repeat_loop coords = true ∧
            (!_cogl_texture_2d_sliced_can_hardware_repeat drv tex_2ds) = true) := by
          rw [need_repeat_loop_iff]
          intro hc
          exact hn ⟨hc.1, by simpa using hc.2⟩
        obtain ⟨p0, hp0⟩ : ∃ p, _cogl_texture_2d_sliced_transform_coords_to_gl drv tex_2ds
            (coords 0) (coords 1) = some p := by
          unfold _cogl_texture_2d_sliced_transform_coords_to_gl
          simp only [hs2, Bool.false_eq_true, if_false]
          split <;> exact ⟨_, rfl⟩
        obtain ⟨p1, hp1⟩ : ∃ p, _cogl_texture_2d_sliced_transform_coords_to_gl drv tex_2ds
            (coords 2) (coords 3) = some p := by
          unfold _cogl_texture_2d_sliced_transform_coords_to_gl
          simp only [hs2, Bool.false_eq_true, if_false]
          split <;> exact ⟨_, rfl⟩
        refine ⟨p0.1, p0.2, p1.1, p1.2, hp0, hp1, ?_⟩
        unfold _cogl_texture_2d_sliced_transform_quad_coords_to_gl
        simp only [hs2, Bool.false_eq_true, if_false, hcond, hp0, hp1]
        by_cases hnr : need_repeat_loop coords = true
        · have := (need_repeat_loop_iff coords).1 hnr
          simp [hnr, this]
        · have : ¬ ∃ i, coords i < 0 ∨ coords i > 1 := fun h =>
            hnr ((need_repeat_loop_iff coords).2 h)
          simp [hnr, this]
  refine ⟨hfirst, ?_⟩
  constructor
  · rintro ⟨c, hc⟩
    by_contra hcon
    rw [if_neg hcon] at hfirst
    obtain ⟨s0, t0, s1, t1, -, -, h⟩ := hfirst
    rw [h] at hc
    simp only [Option.some.injEq, Prod.mk.injEq] at hc
    split at hc <;> exact absurd hc.1 (by decide)
  · intro h
    rw [if_pos h] at hfirst
    exact ⟨coords, hfirst⟩



/-! ## Waste buffers -/

theorem foldl_push_const {α : Type} (p : α) (n : Nat) (dst : List α) :
    (List.range n).foldl (fun dst _ => dst ++ [p]) dst = dst ++ List.replicate n p := by
  induction n with
  | zero => simp
  | succ k ih =>
    rw [List.range_succ, List.foldl_append, ih]
    simp [List.replicate_succ']

theorem getLastD_append_replicate {α : Type} (dst : List α) (n : Nat) (d : α) :
    (dst ++ List.replicate n (dst.getLastD d)).getLastD d = dst.getLastD d := by
  cases n with
  | zero => simp
  | succ k =>
    rw [List.getLastD_eq_getLast?, List.getLast?_append]
    simp [List.getLast?_replicate]

theorem foldl_push_last {α : Type} (d : α) (n : Nat) (dst : List α) :
    (List.range n).foldl (fun dst _ => dst ++ [dst.getLastD d]) dst =
      dst ++ List.replicate n (dst.getLastD d) := by
  induction n with
  | zero => simp
  | succ k ih =>
    rw [List.range_succ, List.foldl_append, ih]
    simp only [List.foldl_cons, List.foldl_nil]
    rw [getLastD_append_replicate]
    simp [List.replicate_succ']

theorem fill_right_waste_succ {α : Type} (bmp : CoglBitmap α) (src_x src_y : Int)
    (rows waste : Nat) :
    fill_right_waste bmp src_x src_y (rows + 1) waste =
      fill_right_waste bmp src_x src_y rows waste ++
        List.replicate waste (bmp.pixel src_x (src_y + rows)) := by
  unfold fill_right_waste
  rw [List.range_succ, List.foldl_append]
  simp only [List.foldl_cons, List.foldl_nil]
  rw [foldl_push_const]

theorem fill_right_waste_length {α : Type} (bmp : CoglBitmap α) (src_x src_y : Int)
    (rows waste : Nat) :
    (fill_right_waste bmp src_x src_y rows waste).length = rows * waste := by
  induction rows with
  | zero => simp [fill_right_waste]
  | succ k ih =>
    rw [fill_right_waste_succ, List.length_append, ih, List.length_replicate]
    ring

theorem fill_right_waste_getD {α : Type} (bmp : CoglBitmap α) (src_x src_y : Int)
    (rows waste : Nat) (d : α) (j i : Nat) (hj : j < rows) (hi : i < waste) :
    (fill_right_waste bmp src_x src_y rows waste).getD (j * waste + i) d =
      bmp.pixel src_x (src_y + j) := by
  induction rows with
  | zero => omega
  | succ k ih =>
    rw [fill_right_waste_succ]
    by_cases hjk : j < k
    · have hlt : j * waste + i < k * waste := by
        have : (j + 1) * waste ≤ k * waste := Nat.mul_le_mul_right _ hjk
        rw [Nat.add_mul] at this
        omega
      rw [List.getD_append _ _ _ _ (by rw [fill_right_waste_length]; exact hlt)]
      exact ih hjk
    · have hjk2 : j = k := by omega
      subst hjk2
      rw [List.getD_append_right _ _ _ _ (by rw [fill_right_waste_length]; omega),
        fill_right_waste_length]
      have : j * waste + i - j * waste = i := by omega
      rw [this, List.getD_eq_getElem _ _ (by simpa using hi)]
      simp

theorem fill_bottom_waste_succ {α : Type} [Inhabited α] (bmp : CoglBitmap α)
    (src_x src_y : Int) (n extra rows : Nat) (hn : 0 < n) :
    fill_bottom_waste bmp src_x src_y n extra (rows + 1) =
      fill_bottom_waste bmp src_x src_y n extra rows ++
        ((List.range n).map (fun (i : Nat) => bmp.pixel (src_x + (i : Int)) src_y) ++
          List.replicate extra (bmp.pixel (src_x + (n - 1 : Nat)) src_y)) := by
  unfold fill_bottom_waste
  rw [List.range_succ, List.foldl_append]
  simp only [List.foldl_cons, List.foldl_nil]
  rw [foldl_push_last]
  have hlast : ∀ pre : List α,
      (pre ++ (List.range n).map (fun (i : Nat) => bmp.pixel (src_x + (i : Int)) src_y)).getLastD default =
        bmp.pixel (src_x + (n - 1 : Nat)) src_y := by
    intro pre
    obtain ⟨m, rfl⟩ : ∃ m, n = m + 1 := ⟨n - 1, by omega⟩
    rw [List.range_succ]
    simp [List.getLastD_eq_getLast?, List.getLast?_append]
  rw [hlast, List.append_assoc]

theorem fill_bottom_waste_length {α : Type} [Inhabited α] (bmp : CoglBitmap α)
    (src_x src_y : Int) (n extra rows : Nat) (hn : 0 < n) :
    (fill_bottom_waste bmp src_x src_y n extra rows).length = rows * (n + extra) := by
  induction rows with
  | zero => simp [fill_bottom_waste]
  | succ k ih =>
    rw [fill_bottom_waste_succ _ _ _ _ _ _ hn, List.length_append, ih]
    simp
    ring

theorem fill_bottom_waste_getD {α : Type} [Inhabited α] (bmp : CoglBitmap α)
    (src_x src_y : Int) (n extra rows : Nat) (hn : 0 < n) (d : α) (j i : Nat)
    (hj : j < rows) (hi : i < n + extra) :
    (fill_bottom_waste bmp src_x src_y n extra rows).getD (j * (n + extra) + i) d =
      bmp.pixel (src_x + (min i (n - 1) : Nat)) src_y := by
  induction rows with
  | zero => omega
  | succ k ih =>
    rw [fill_bottom_waste_succ _ _ _ _ _ _ hn]
    by_cases hjk : j < k
    · have hlt : j * (n + extra) + i < k * (n + extra) := by
        have : (j + 1) * (n + extra) ≤ k * (n + extra) := Nat.mul_le_mul_right _ hjk
        rw [Nat.add_mul] at this
        omega
      rw [List.getD_append _ _ _ _ (by rw [fill_bottom_waste_length _ _ _ _ _ _ hn]; exact hlt)]
      exact ih hjk
    · have hjk2 : j = k := by omega
      subst hjk2
      rw [List.getD_append_right _ _ _ _
        (by rw [fill_bottom_waste_length _ _ _ _ _ _ hn]; omega),
        fill_bottom_waste_length _ _ _ _ _ _ hn]
      have : j * (n + extra) + i - j * (n + extra) = i := by omega
      rw [this]
      by_cases hin : i < n
      · rw [List.getD_append _ _ _ _ (by simpa using hin),
          List.getD_eq_getElem _ _ (by simpa using hin)]
        have : min i (n - 1) = i := by omega
        simp [this]
      · rw [List.getD_append_right _ _ _ _ (by simp; omega)]
        have : min i (n - 1) = n - 1 := by omega
        rw [this, List.getD_eq_getElem _ _ (by simp; omega)]
        simp

theorem unpack_fill_right {α : Type} [Inhabited α] (bmp : CoglBitmap α) (src_x src_y : Int)
    (rows waste i j : Int) (hi : 0 ≤ i) (hiw : i < waste) (hj : 0 ≤ j) (hjr : j < rows) :
    unpack (fill_right_waste bmp src_x src_y rows.toNat waste.toNat) waste i j =
      bmp.pixel src_x (src_y + j) := by
  unfold unpack
  obtain ⟨i, rfl⟩ := Int.eq_ofNat_of_zero_le hi
  obtain ⟨j, rfl⟩ := Int.eq_ofNat_of_zero_le hj
  obtain ⟨waste, rfl⟩ := Int.eq_ofNat_of_zero_le (by omega : 0 ≤ waste)
  obtain ⟨rows, rfl⟩ := Int.eq_ofNat_of_zero_le (by omega : 0 ≤ rows)
  have : ((j : Int) * (waste : Int) + (i : Int)).toNat = j * waste + i := by
    rw [← Nat.cast_mul, ← Nat.cast_add, Int.toNat_ofNat]
  rw [this]
  simp only [Int.toNat_ofNat]
  exact fill_right_waste_getD bmp src_x src_y rows waste default j i (by omega) (by omega)

theorem unpack_fill_bottom {α : Type} [Inhabited α] (bmp : CoglBitmap α) (src_x src_y : Int)
    (n extra rows total i j : Int) (ht : total = n + extra) (hn : 0 < n) (he : 0 ≤ extra)
    (hi : 0 ≤ i) (hiw : i < n + extra) (hj : 0 ≤ j) (hjr : j < rows) :
    unpack (fill_bottom_waste bmp src_x src_y n.toNat extra.toNat rows.toNat) total i j =
      bmp.pixel (src_x + min i (n - 1)) src_y := by
  subst ht
  unfold unpack
  obtain ⟨i, rfl⟩ := Int.eq_ofNat_of_zero_le hi
  obtain ⟨j, rfl⟩ := Int.eq_ofNat_of_zero_le hj
  obtain ⟨n, rfl⟩ := Int.eq_ofNat_of_zero_le (by omega : 0 ≤ n)
  obtain ⟨extra, rfl⟩ := Int.eq_ofNat_of_zero_le he
  obtain ⟨rows, rfl⟩ := Int.eq_ofNat_of_zero_le (by omega : 0 ≤ rows)
  have : ((j : Int) * ((n : Int) + (extra : Int)) + (i : Int)).toNat = j * (n + extra) + i := by
    rw [← Nat.cast_add, ← Nat.cast_mul, ← Nat.cast_add, Int.toNat_ofNat]
  rw [this]
  simp only [Int.toNat_ofNat]
  rw [fill_bottom_waste_getD bmp src_x src_y n extra rows (by omega) default j i (by omega)
    (by omega)]
  congr 2
  omega

/-! ## The GL state after a call -/

theorem glTexSubImage2D_other {α : Type} (gl : GLState α) (xo yo w h : Int)
    (pixels : Int → Int → α) (handle : GLuint) (hne : handle ≠ gl.bound) :
    (glTexSubImage2D gl xo yo w h pixels).textures handle = gl.textures handle := by
  simp [glTexSubImage2D, GLState.set_texture, hne]

theorem glTexSubImage2D_bound {α : Type} (gl : GLState α) (xo yo w h : Int)
    (pixels : Int → Int → α) :
    (glTexSubImage2D gl xo yo w h pixels).bound = gl.bound := rfl

theorem glTexSubImage2D_size {α : Type} (gl : GLState α) (xo yo w h : Int)
    (pixels : Int → Int → α) (handle : GLuint) :
    ((glTexSubImage2D gl xo yo w h pixels).textures handle).width =
        (gl.textures handle).width ∧
      ((glTexSubImage2D gl xo yo w h pixels).textures handle).height =
        (gl.textures handle).height := by
  by_cases hb : handle = gl.bound
  · subst hb
    simp [glTexSubImage2D, GLState.set_texture]
  · rw [glTexSubImage2D_other _ _ _ _ _ _ _ hb]
    exact ⟨rfl, rfl⟩

theorem glTexSubImage2D_texel {α : Type} (gl : GLState α) (xo yo w h : Int)
    (pixels : Int → Int → α) (x y : Int) :
    ((glTexSubImage2D gl xo yo w h pixels).textures gl.bound).texel x y =
      if xo ≤ x ∧ x < xo + w ∧ yo ≤ y ∧ y < yo + h then pixels (x - xo) (y - yo)
      else (gl.textures gl.bound).texel x y := by
  simp [glTexSubImage2D, GLState.set_texture]

/-! ## Full upload of one slice -/

theorem upload_slice_waste_bound {α : Type} [Inhabited α] (x_span y_span : CoglSpan)
    (bmp : CoglBitmap α) (gl : GLState α) :
    (upload_slice_waste x_span y_span bmp gl).bound = gl.bound := by
  unfold upload_slice_waste
  split <;> split <;> rfl

theorem upload_slice_waste_other {α : Type} [Inhabited α] (x_span y_span : CoglSpan)
    (bmp : CoglBitmap α) (gl : GLState α) (handle : GLuint) (hne : handle ≠ gl.bound) :
    (upload_slice_waste x_span y_span bmp gl).textures handle = gl.textures handle := by
  unfold upload_slice_waste
  split <;> split <;>
    simp only [glTexSubImage2D_other _ _ _ _ _ _ _ hne,
      glTexSubImage2D_other _ _ _ _ _ _ _
        (show handle ≠ (glTexSubImage2D gl _ _ _ _ _).bound from hne)]

theorem upload_slice_waste_size {α : Type} [Inhabited α] (x_span y_span : CoglSpan)
    (bmp : CoglBitmap α) (gl : GLState α) (handle : GLuint) :
    ((upload_slice_waste x_span y_span bmp gl).textures handle).width =
        (gl.textures handle).width ∧
      ((upload_slice_waste x_span y_span bmp gl).textures handle).height =
        (gl.textures handle).height := by
  unfold upload_slice_waste
  split <;> split <;> simp only [glTexSubImage2D_size, and_self]

/-- The texels of a slice after the body of the upload loops: the clamp-to-edge extension
of the part of the bitmap that the slice covers. This is the content of C5 for one
slice. -/
theorem upload_slice_texel {α : Type} [Inhabited α] (x_span y_span : CoglSpan)
    (bmp : CoglBitmap α) (gl : GLState α) (handle : GLuint)
    (hxw : 0 ≤ x_span.waste) (hxs : x_span.waste < x_span.size)
    (hyw : 0 ≤ y_span.waste)
    (i j : Int) (hi : 0 ≤ i) (hix : i < x_span.size) (hj : 0 ≤ j) (hjy : j < y_span.size) :
    ((upload_slice_waste x_span y_span bmp
        (_cogl_texture_driver_upload_subregion_to_gl gl handle x_span.start y_span.start 0 0
          (x_span.size - x_span.waste) (y_span.size - y_span.waste) bmp)).textures
        handle).texel i j =
      bmp.pixel (x_span.start + min i (x_span.size - x_span.waste - 1))
        (y_span.start + min j (y_span.size - y_span.waste - 1)) := by
  unfold upload_slice_waste _cogl_texture_driver_upload_subregion_to_gl
  have hb : (glBindTexture gl handle).bound = handle := rfl
  by_cases hjb : y_span.size - y_span.waste ≤ j
  · -- bottom waste rows
    have hyp : y_span.waste > 0 := by omega
    simp only [hyp, if_true]
    have hbound : ∀ g : GLState α, g.bound = handle →
        ((glTexSubImage2D g 0 (y_span.size - y_span.waste) x_span.size y_span.waste
          (unpack (fill_bottom_waste bmp x_span.start
            (y_span.start + y_span.size - y_span.waste - 1)
            (x_span.size - x_span.waste).toNat x_span.waste.toNat y_span.waste.toNat)
            x_span.size)).textures handle).texel i j =
        bmp.pixel (x_span.start + min i (x_span.size - x_span.waste - 1))
          (y_span.start + min j (y_span.size - y_span.waste - 1)) := by
      intro g hg
      have := glTexSubImage2D_texel g 0 (y_span.size - y_span.waste) x_span.size y_span.waste
        (unpack (fill_bottom_waste bmp x_span.start
            (y_span.start + y_span.size - y_span.waste - 1)
            (x_span.size - x_span.waste).toNat x_span.waste.toNat y_span.waste.toNat)
            x_span.size) i j
      rw [hg] at this
      rw [this, if_pos ⟨hi, by omega, hjb, by omega⟩]
      rw [unpack_fill_bottom _ _ _ (x_span.size - x_span.waste) x_span.waste _ x_span.size _ _
        (by ring) (by omega) hxw (by omega) (by omega) (by omega) (by omega)]
      have h1 : min j (y_span.size - y_span.waste - 1) = y_span.size - y_span.waste - 1 := by
        omega
      rw [h1]
      congr 1
      · congr 1
        omega
      · ring
    split
    · exact hbound _ rfl
    · exact hbound _ rfl
  · by_cases hib : x_span.size - x_span.waste ≤ i
    · -- right waste columns
      have hxp : x_span.waste > 0 := by omega
      simp only [hxp, if_true]
      have hright :
          ((glTexSubImage2D (glTexSubImage2D (glBindTexture gl handle) 0 0
              (x_span.size - x_span.waste) (y_span.size - y_span.waste)
              (fun i j => bmp.pixel (x_span.start + i) (y_span.start + j)))
            (x_span.size - x_span.waste) 0 x_span.waste (y_span.size - y_span.waste)
            (unpack (fill_right_waste bmp (x_span.start + x_span.size - x_span.waste - 1)
              y_span.start (y_span.size - y_span.waste).toNat x_span.waste.toNat)
              x_span.waste)).textures handle).texel i j =
          bmp.pixel (x_span.start + min i (x_span.size - x_span.waste - 1))
            (y_span.start + min j (y_span.size - y_span.waste - 1)) := by
        have := glTexSubImage2D_texel (glTexSubImage2D (glBindTexture gl handle) 0 0
              (x_span.size - x_span.waste) (y_span.size - y_span.waste)
              (fun i j => bmp.pixel (x_span.start + i) (y_span.start + j)))
            (x_span.size - x_span.waste) 0 x_span.waste (y_span.size - y_span.waste)
            (unpack (fill_right_waste bmp (x_span.start + x_span.size - x_span.waste - 1)
              y_span.start (y_span.size - y_span.waste).toNat x_span.waste.toNat)
              x_span.waste) i j
        rw [glTexSubImage2D_bound, hb] at this
        rw [this, if_pos ⟨hib, by omega, hj, by omega⟩]
        rw [unpack_fill_right _ _ _ _ _ _ _ (by omega) (by omega) (by omega) (by omega)]
        have h1 : min i (x_span.size - x_span.waste - 1) = x_span.size - x_span.waste - 1 := by
          omega
        have h2 : min j (y_span.size - y_span.waste - 1) = j := by omega
        rw [h1, h2]
        congr 1
        · ring
        · ring
      split
      · have := glTexSubImage2D_texel (glTexSubImage2D (glTexSubImage2D (glBindTexture gl handle)
            0 0 (x_span.size - x_span.waste) (y_span.size - y_span.waste)
              (fun i j => bmp.pixel (x_span.start + i) (y_span.start + j)))
            (x_span.size - x_span.waste) 0 x_span.waste (y_span.size - y_span.waste)
            (unpack (fill_right_waste bmp (x_span.start + x_span.size - x_span.waste - 1)
              y_span.start (y_span.size - y_span.waste).toNat x_span.waste.toNat)
              x_span.waste))
            0 (y_span.size - y_span.waste) x_span.size y_span.waste
            (unpack (fill_bottom_waste bmp x_span.start
              (y_span.start + y_span.size - y_span.waste - 1)
              (x_span.size - x_span.waste).toNat x_span.waste.toNat y_span.waste.toNat)
              x_span.size) i j
        rw [glTexSubImage2D_bound, glTexSubImage2D_bound, hb] at this
        rw [this, if_neg (by omega)]
        exact hright
      · exact hright
    · -- valid texels
      have hmain :
          ((glTexSubImage2D (glBindTexture gl handle) 0 0
              (x_span.size - x_span.waste) (y_span.size - y_span.waste)
              (fun i j => bmp.pixel (x_span.start + i) (y_span.start + j))).textures
              handle).texel i j =
          bmp.pixel (x_span.start + min i (x_span.size - x_span.waste - 1))
            (y_span.start + min j (y_span.size - y_span.waste - 1)) := by
        have := glTexSubImage2D_texel (glBindTexture gl handle) 0 0
              (x_span.size - x_span.waste) (y_span.size - y_span.waste)
              (fun i j => bmp.pixel (x_span.start + i) (y_span.start + j)) i j
        rw [hb] at this
        rw [this, if_pos ⟨hi, by omega, hj, by omega⟩]
        have h1 : min i (x_span.size - x_span.waste - 1) = i := by omega
        have h2 : min j (y_span.size - y_span.waste - 1) = j := by omega
        rw [h1, h2]
        simp
      have step : ∀ (g : GLState α) xo yo w h (px : Int → Int → α), g.bound = handle →
          ¬ (xo ≤ i ∧ i < xo + w ∧ yo ≤ j ∧ j < yo + h) →
          ((glTexSubImage2D g xo yo w h px).textures handle).texel i j =
            (g.textures handle).texel i j := by
        intro g xo yo w h px hg hn
        have := glTexSubImage2D_texel g xo yo w h px i j
        rw [hg] at this
        rw [this, if_neg hn]
      split
      · split
        · rw [step _ _ _ _ _ _ rfl (by omega), step _ _ _ _ _ _ rfl (by omega)]
          exact hmain
        · rw [step _ _ _ _ _ _ rfl (by omega)]
          exact hmain
      · split
        · rw [step _ _ _ _ _ _ rfl (by omega)]
          exact hmain
        · exact hmain

/-! ## Loops over the grid of slices -/

/-- A loop over a list whose steps each touch one key of the state: a key is changed by
its own step only. `R a old new` relates the value under the key of `a` before and after
the step of `a`. -/
theorem foldl_keyed {S A K T : Type} (step : S → A → S) (key : A → K) (get : S → K → T)
    (R : A → T → T → Prop)
    (hother : ∀ s a k, k ≠ key a → get (step s a) k = get s k)
    (hown : ∀ s a, R a (get s (key a)) (get (step s a) (key a)))
    (l : List A) (hnodup : (l.map key).Nodup) (s : S) :
    (∀ a ∈ l, R a (get s (key a)) (get (l.foldl step s) (key a))) ∧
    (∀ k, k ∉ l.map key → get (l.foldl step s) k = get s k) := by
  induction l generalizing s with
  | nil => simp
  | cons a rest ih =>
    simp only [List.map_cons, List.nodup_cons] at hnodup
    obtain ⟨ih1, ih2⟩ := ih hnodup.2 (step s a)
    simp only [List.foldl_cons]
    constructor
    · intro b hb
      rcases List.mem_cons.1 hb with rfl | hb
      · rw [ih2 _ hnodup.1]
        exact hown s b
      · have hne : key b ≠ key a := by
          intro h
          exact hnodup.1 (h ▸ List.mem_map_of_mem key hb)
        have := ih1 b hb
        rwa [hother s a _ hne] at this
    · intro k hk
      simp only [List.map_cons, List.mem_cons, not_or] at hk
      rw [ih2 k hk.2, hother s a k hk.1]

/-- Two nested loops are one loop over the pairs of indices. -/
theorem foldl_nested {S A B : Type} (step : A → B → S → S) (la : List A) (lb : List B) (s : S) :
    la.foldl (fun s a => lb.foldl (fun s b => step a b s) s) s =
      (la.flatMap (fun a => lb.map (fun b => (a, b)))).foldl (fun s p => step p.1 p.2 s) s := by
  induction la generalizing s with
  | nil => rfl
  | cons a rest ih =>
    simp only [List.foldl_cons, List.flatMap_cons, List.foldl_append, List.foldl_map]
    exact ih _

theorem grid_index_inj (nx : Nat) (y x y2 x2 : Nat) (hx : x < nx) (hx2 : x2 < nx)
    (h : y * nx + x = y2 * nx + x2) : y = y2 ∧ x = x2 := by
  have h1 : (y * nx + x) / nx = (y2 * nx + x2) / nx := by rw [h]
  have h2 : (y * nx + x) % nx = (y2 * nx + x2) % nx := by rw [h]
  have hpos : 0 < nx := by omega
  rw [Nat.mul_comm y, Nat.mul_comm y2, Nat.mul_add_div hpos, Nat.mul_add_div hpos,
    Nat.div_eq_of_lt hx, Nat.div_eq_of_lt hx2] at h1
  rw [Nat.mul_comm y, Nat.mul_comm y2, Nat.mul_add_mod, Nat.mul_add_mod,
    Nat.mod_eq_of_lt hx, Nat.mod_eq_of_lt hx2] at h2
  omega

theorem grid_index_lt (nx ny : Nat) (y x : Nat) (hy : y < ny) (hx : x < nx) :
    y * nx + x < nx * ny := by
  have : (y + 1) * nx ≤ ny * nx := Nat.mul_le_mul_right _ hy
  rw [Nat.add_mul] at this
  rw [Nat.mul_comm nx ny]
  omega

/-- The handles of the slices of a grid with distinct handles are pairwise distinct. -/
theorem grid_keys_nodup (handles : List GLuint) (nx ny : Nat)
    (hgrid : handles.length = nx * ny) (hnodup : handles.Nodup) :
    (((List.range ny).flatMap (fun y => (List.range nx).map (fun x => (y, x)))).map
      (fun p => handles.getD (p.1 * nx + p.2) 0)).Nodup := by
  have hpairs : ((List.range ny).flatMap
      (fun y => (List.range nx).map (fun x => (y, x)))).Nodup := by
    have := List.Nodup.product (List.nodup_range ny) (List.nodup_range nx)
    exact this
  refine List.Nodup.map_on ?_ hpairs
  intro p hp q hq hpq
  simp only [List.mem_flatMap, List.mem_range, List.mem_map] at hp hq
  obtain ⟨y, hy, x, hx, rfl⟩ := hp
  obtain ⟨y2, hy2, x2, hx2, rfl⟩ := hq
  simp only at hpq
  have h1 := grid_index_lt nx ny y x hy hx
  have h2 := grid_index_lt nx ny y2 x2 hy2 hx2
  rw [List.getD_eq_getElem _ _ (by omega), List.getD_eq_getElem _ _ (by omega)] at hpq
  have := (List.Nodup.getElem_inj_iff hnodup).1 hpq
  obtain ⟨rfl, rfl⟩ := grid_index_inj nx y x y2 x2 hx hx2 this
  rfl

theorem mem_grid_pairs (nx ny y x : Nat) (hy : y < ny) (hx : x < nx) :
    (y, x) ∈ (List.range ny).flatMap (fun y => (List.range nx).map (fun x => (y, x))) := by
  simp only [List.mem_flatMap, List.mem_range, List.mem_map]
  exact ⟨y, hy, x, hx, rfl⟩

theorem span_index_eq (xs : List CoglSpan) (i : Nat) (s : CoglSpan) (h : xs[i]? = some s) :
    span_index (some xs) i = s := by
  simp only [span_index, Option.getD_some]
  rw [List.getD_eq_getElem?_getD, h]
  rfl

theorem getElem?_lt {β : Type} (xs : List β) (i : Nat) (s : β) (h : xs[i]? = some s) :
    i < xs.length := by
  by_contra hc
  rw [List.getElem?_eq_none (by omega)] at h
  cases h

/-! ## Slice creation -/

theorem next_p2_loop_ge (fuel : Nat) (rval a : Int) (hr : 1 ≤ rval) (hf : a ≤ rval + fuel) :
    a ≤ next_p2_loop fuel rval a ∧ 1 ≤ next_p2_loop fuel rval a := by
  induction fuel generalizing rval with
  | zero =>
    simp only [next_p2_loop]
    simp at hf
    exact ⟨hf, hr⟩
  | succ k ih =>
    unfold next_p2_loop
    by_cases hc : rval < a
    · rw [if_pos hc]
      exact ih (rval * 2) (by omega) (by push_cast at hf; omega)
    · rw [if_neg hc]
      exact ⟨by omega, hr⟩

theorem next_p2_ge (a : Int) : a ≤ _cogl_util_next_p2 a ∧ 1 ≤ _cogl_util_next_p2 a := by
  unfold _cogl_util_next_p2
  exact next_p2_loop_ge _ _ _ (le_refl _) (by omega)

theorem shrink_loop_pos (size_supported : Int → Int → Bool) (fuel : Nat)
    (max_width max_height w h : Int) (hw : 1 ≤ max_width) (hh : 1 ≤ max_height)
    (hs : shrink_loop size_supported fuel max_width max_height = some (some (w, h))) :
    1 ≤ w ∧ 1 ≤ h := by
  induction fuel generalizing max_width max_height with
  | zero => simp [shrink_loop] at hs
  | succ k ih =>
    unfold shrink_loop at hs
    by_cases hc : (!size_supported max_width max_height) = true
    · rw [if_pos hc] at hs
      simp only at hs
      by_cases hgt : max_width > max_height
      · simp only [hgt, if_true] at hs
        have hd : Int.tdiv max_width 2 = max_width / 2 :=
          Int.tdiv_eq_ediv (by omega) (by decide)
        split at hs
        · cases hs
        · rename_i hz
          exact ih _ _ (by rw [hd] at hz ⊢; omega) hh hs
      · simp only [hgt, if_false] at hs
        have hd : Int.tdiv max_height 2 = max_height / 2 :=
          Int.tdiv_eq_ediv (by omega) (by decide)
        split at hs
        · cases hs
        · rename_i hz
          exact ih _ _ hw (by rw [hd] at hz ⊢; omega) hs
    · rw [if_neg hc] at hs
      simp only [Option.some.injEq, Prod.mk.injEq] at hs
      omega

theorem covered_eq_total_size (spans : List CoglSpan) (h : ∀ s ∈ spans, s.waste = 0) :
    covered spans = total_size spans := by
  induction spans with
  | nil => rfl
  | cons s rest ih =>
    have h1 := h s (List.mem_cons_self _ _)
    have h2 := ih (fun t ht => h t (List.mem_cons_of_mem _ ht))
    simp only [covered, total_size, List.map_cons, List.sum_cons] at h2 ⊢
    omega

theorem planned_single (size span_size : Int) (h1 : 1 ≤ size) (h2 : size ≤ span_size) :
    Planned size [{ start := 0, size := span_size, waste := span_size - size }] := by
  refine ⟨by simp, ⟨rfl, trivial⟩, ?_, by simp, by simp [covered]⟩
  intro s hs
  simp at hs
  subst hs
  simp only
  omega

theorem planned_rect (size_to_fill max_span_size max_waste : Int) (r : Int × Option (List CoglSpan))
    (hfill : 1 ≤ size_to_fill) (hmax : 1 ≤ max_span_size)
    (h : _cogl_rect_slices_for_size size_to_fill max_span_size max_waste (some []) = some r) :
    Planned size_to_fill (r.2.getD []) := by
  obtain ⟨spans, heq, hne, hcon, hall, htot⟩ :=
    rect_slices_spec size_to_fill max_span_size max_waste [] (by omega) (by omega)
  rw [heq] at h
  cases h
  simp only [List.nil_append, Option.getD_some]
  refine ⟨hne, hcon, fun s hs => ?_, fun s hs => (hall s (List.dropLast_subset _ hs)).2.2, ?_⟩
  · have := hall s hs
    omega
  · rw [covered_eq_total_size _ (fun s hs => (hall s hs).2.2), htot]

theorem planned_pot (size_to_fill max_span_size max_waste : Int) (r : Int × Option (List CoglSpan))
    (hfill : 1 ≤ size_to_fill) (hmax : 1 ≤ max_span_size)
    (h : _cogl_pot_slices_for_size size_to_fill max_span_size max_waste (some []) = some r) :
    Planned size_to_fill (r.2.getD []) := by
  obtain ⟨spans, heq, hne, hcon, hall, hdrop, hcov⟩ :=
    pot_slices_spec size_to_fill max_span_size max_waste [] hfill hmax
  rw [heq] at h
  cases h
  simp only [List.nil_append, Option.getD_some]
  exact ⟨hne, hcon, fun s hs => ⟨(hall s hs).2.2.1, (hall s hs).2.2.2.1⟩, hdrop, hcov⟩

/-- The spans chosen by slice creation for a surface of at least 1 x 1 pixels are planned
spans, and the two counts are the lengths of the two lists. -/
theorem plan_slices_planned (drv : Driver) (max_waste width height : Int)
    (n_x n_y : Int) (xs ys : List CoglSpan) (hw : 1 ≤ width) (hh : 1 ≤ height)
    (h : plan_slices drv max_waste width height = some (some (n_x, n_y, xs, ys))) :
    Planned width xs ∧ Planned height ys := by
  have fin : ∀ (f : Int → Int → Int → Option (List CoglSpan) →
        Option (Int × Option (List CoglSpan))) (w0 h0 : Int),
      (∀ a b c r, 1 ≤ a → 1 ≤ b → f a b c (some []) = some r → Planned a (r.2.getD [])) →
      width ≤ w0 → 1 ≤ w0 → height ≤ h0 → 1 ≤ h0 →
      (if max_waste ≤ -1 then
        if (!drv.size_supported w0 h0) = true then some none
        else
          some (some ((1 : Int), (1 : Int),
            [({ start := 0, size := w0, waste := w0 - width } : CoglSpan)],
            [({ start := 0, size := h0, waste := h0 - height } : CoglSpan)]))
      else
        match shrink_loop drv.size_supported (w0.natAbs + h0.natAbs + 1) w0 h0 with
        | none => none
        | some none => some none
        | some (some (max_width, max_height)) =>
          (f width max_width max_waste none).bind fun rx =>
          (f height max_height max_waste none).bind fun ry =>
          (f width max_width max_waste (some [])).bind fun ax =>
          (f height max_height max_waste (some [])).bind fun ay =>
          some (some (rx.1, ry.1, ax.2.getD [], ay.2.getD []))) =
        some (some (n_x, n_y, xs, ys)) →
      Planned width xs ∧ Planned height ys := by
    intro f w0 h0 hplan hw0 hw1 hh0 hh1 h
    by_cases hmw : max_waste ≤ -1
    · rw [if_pos hmw] at h
      by_cases hs : (!drv.size_supported w0 h0) = true
      · rw [if_pos hs] at h
        cases h
      · rw [if_neg hs] at h
        simp only [Option.some.injEq, Prod.mk.injEq] at h
        obtain ⟨-, -, rfl, rfl⟩ := h
        exact ⟨planned_single _ _ hw hw0, planned_single _ _ hh hh0⟩
    · rw [if_neg hmw] at h
      split at h
      · cases h
      · cases h
      · rename_i mw mh hsl
        obtain ⟨hmw1, hmh1⟩ := shrink_loop_pos _ _ _ _ _ _ hw1 hh1 hsl
        cases hx0 : f width mw max_waste none with
        | none => simp [hx0] at h
        | some rx =>
          cases hy0 : f height mh max_waste none with
          | none => simp [hx0, hy0] at h
          | some ry =>
            cases hx : f width mw max_waste (some []) with
            | none => simp [hx0, hy0, hx] at h
            | some ax =>
              cases hy : f height mh max_waste (some []) with
              | none => simp [hx0, hy0, hx, hy] at h
              | some ay =>
                simp [hx0, hy0, hx, hy] at h
                obtain ⟨-, -, rfl, rfl⟩ := h
                exact ⟨hplan _ _ _ _ hw hmw1 hx, hplan _ _ _ _ hh hmh1 hy⟩
  unfold plan_slices at h
  by_cases hn : drv.feature_texture_npot = true
  · simp only [hn, if_true] at h
    exact fin _ _ _ planned_rect (le_refl _) hw (le_refl _) hh h
  · have hn2 : drv.feature_texture_npot = false := by simpa using hn
    simp only [hn2, Bool.false_eq_true, if_false] at h
    exact fin _ _ _ planned_pot (next_p2_ge width).1 (next_p2_ge width).2
      (next_p2_ge height).1 (next_p2_ge height).2 h

theorem contig_mono (l : List CoglSpan) (st : Int) (h : Contig st l)
    (hpos : ∀ s ∈ l, 0 < s.size) (i j : Nat) (a b : CoglSpan) (hij : i < j)
    (ha : l[i]? = some a) (hb : l[j]? = some b) : a.start + a.size ≤ b.start := by
  induction l generalizing st i j with
  | nil => simp at ha
  | cons s rest ih =>
    obtain ⟨j, rfl⟩ : ∃ k, j = k + 1 := ⟨j - 1, by omega⟩
    simp only [List.getElem?_cons_succ] at hb
    cases i with
    | zero =>
      simp at ha
      subst ha
      have := contig_lower rest _ h.2 (fun s hs => hpos s (List.mem_cons_of_mem _ hs)) b
        (List.mem_iff_getElem?.2 ⟨j, hb⟩)
      rw [h.1]
      exact this
    | succ i =>
      simp only [List.getElem?_cons_succ] at ha
      exact ih _ h.2 (fun s hs => hpos s (List.mem_cons_of_mem _ hs)) i j (by omega) ha hb

theorem contig_cover (l : List CoglSpan) (st : Int) (h : Contig st l)
    (hw : ∀ s ∈ l, 0 ≤ s.waste ∧ s.waste < s.size) (hin : ∀ s ∈ l.dropLast, s.waste = 0)
    (X : Int) (h1 : st ≤ X) (h2 : X < st + covered l) :
    ∃ (i : Nat) (a : CoglSpan), l[i]? = some a ∧ a.start ≤ X ∧
      X < a.start + (a.size - a.waste) := by
  induction l generalizing st with
  | nil => simp [covered] at h2; omega
  | cons s rest ih =>
    by_cases hX : X < s.start + (s.size - s.waste)
    · exact ⟨0, s, by simp, by rw [h.1]; exact h1, hX⟩
    · have hne : rest ≠ [] := by
        rintro rfl
        simp [covered] at h2
        have := h.1
        omega
      have hs0 : s.waste = 0 := by
        apply hin
        rw [List.dropLast_cons_of_ne_nil hne]
        exact List.mem_cons_self _ _
      obtain ⟨i, a, hi, ha1, ha2⟩ := ih (st + s.size) h.2
        (fun t ht => hw t (List.mem_cons_of_mem _ ht))
        (fun t ht => hin t (by
          rw [List.dropLast_cons_of_ne_nil hne]
          exact List.mem_cons_of_mem _ ht))
        (by have := h.1; omega)
        (by
          simp only [covered, List.map_cons, List.sum_cons] at h2 ⊢
          omega)
      exact ⟨i + 1, a, by simpa using hi, ha1, ha2⟩

theorem planned_cover (size : Int) (xs : List CoglSpan) (hp : Planned size xs)
    (X : Int) (h1 : 0 ≤ X) (h2 : X < size) :
    ∃ (i : Nat) (a : CoglSpan), xs[i]? = some a ∧ a.start ≤ X ∧
      X < a.start + (a.size - a.waste) :=
  contig_cover xs 0 hp.contig hp.waste hp.inner X h1 (by rw [hp.cover]; omega)

/-! ## The download -/

theorem upload_slice_other {α : Type} [Inhabited α] (tex_2ds : CoglTexture2DSliced α)
    (bmp : CoglBitmap α) (gl_format gl_type : GLenum) (y x : Nat)
    (st : Option (List (CoglTexturePixel α)) × GLState α) (handle : GLuint)
    (hne : handle ≠
      handle_index tex_2ds.slice_gl_handles (y * array_len tex_2ds.slice_x_spans + x)) :
    (upload_slice tex_2ds bmp gl_format gl_type y x st).2.textures handle =
      st.2.textures handle := by
  unfold upload_slice
  simp only
  rw [upload_slice_waste_other _ _ _ _ _ hne]
  unfold _cogl_texture_driver_upload_subregion_to_gl
  rw [glTexSubImage2D_other _ _ _ _ _ _ _ hne]
  rfl

theorem upload_slice_size {α : Type} [Inhabited α] (tex_2ds : CoglTexture2DSliced α)
    (bmp : CoglBitmap α) (gl_format gl_type : GLenum) (y x : Nat)
    (st : Option (List (CoglTexturePixel α)) × GLState α) (handle : GLuint) :
    ((upload_slice tex_2ds bmp gl_format gl_type y x st).2.textures handle).width =
        (st.2.textures handle).width ∧
      ((upload_slice tex_2ds bmp gl_format gl_type y x st).2.textures handle).height =
        (st.2.textures handle).height := by
  unfold upload_slice
  simp only
  rw [(upload_slice_waste_size _ _ _ _ _).1, (upload_slice_waste_size _ _ _ _ _).2]
  unfold _cogl_texture_driver_upload_subregion_to_gl
  rw [(glTexSubImage2D_size _ _ _ _ _ _ _).1, (glTexSubImage2D_size _ _ _ _ _ _ _).2]
  exact ⟨rfl, rfl⟩

/-- The GL state after `_cogl_texture_2d_sliced_upload_to_gl`: every slice keeps its size
and holds the clamp-to-edge extension of its part of the bitmap. -/
theorem upload_to_gl_state {α : Type} [Inhabited α] (tex_2ds : CoglTexture2DSliced α)
    (bmp : CoglBitmap α) (gl_format gl_type : GLenum) (gl : GLState α)
    (xs ys : List CoglSpan) (handles : List GLuint)
    (hxs : tex_2ds.slice_x_spans = some xs) (hys : tex_2ds.slice_y_spans = some ys)
    (hhs : tex_2ds.slice_gl_handles = some handles)
    (hgrid : handles.length = xs.length * ys.length) (hnodup : handles.Nodup)
    (yi xi : Nat) (x_span y_span : CoglSpan)
    (hxi : xs[xi]? = some x_span) (hyi : ys[yi]? = some y_span) :
    let gl_new := (_cogl_texture_2d_sliced_upload_to_gl tex_2ds bmp gl_format gl_type gl).2.2
    let handle := handles.getD (yi * xs.length + xi) 0
    (gl_new.textures handle).width = (gl.textures handle).width ∧
    (gl_new.textures handle).height = (gl.textures handle).height ∧
    (0 ≤ x_span.waste → x_span.waste < x_span.size → 0 ≤ y_span.waste →
      ∀ i j : Int, 0 ≤ i → i < x_span.size → 0 ≤ j → j < y_span.size →
        (gl_new.textures handle).texel i j =
          bmp.pixel (x_span.start + min i (x_span.size - x_span.waste - 1))
            (y_span.start + min j (y_span.size - y_span.waste - 1))) := by
  intro gl_new handle
  have hfold : gl_new =
      (((List.range ys.length).flatMap
        (fun y => (List.range xs.length).map (fun x => (y, x)))).foldl
        (fun st p => upload_slice tex_2ds bmp gl_format gl_type p.1 p.2 st)
        (tex_2ds.first_pixels, gl)).2 := by
    show (_cogl_texture_2d_sliced_upload_to_gl tex_2ds bmp gl_format gl_type gl).2.2 = _
    unfold _cogl_texture_2d_sliced_upload_to_gl
    simp only [hxs, hys, array_len, Option.getD_some]
    rw [foldl_nested (fun y x st => upload_slice tex_2ds bmp gl_format gl_type y x st)]
  have hkey : ∀ p : Nat × Nat,
      handle_index tex_2ds.slice_gl_handles (p.1 * array_len tex_2ds.slice_x_spans + p.2) =
        handles.getD (p.1 * xs.length + p.2) 0 := by
    intro p
    simp [handle_index, array_len, hxs, hhs]
  have hxl := getElem?_lt _ _ _ hxi
  have hyl := getElem?_lt _ _ _ hyi
  obtain ⟨h1, -⟩ := foldl_keyed
    (fun (st : Option (List (CoglTexturePixel α)) × GLState α) (p : Nat × Nat) =>
      upload_slice tex_2ds bmp gl_format gl_type p.1 p.2 st)
    (fun p => handles.getD (p.1 * xs.length + p.2) 0)
    (fun st k => st.2.textures k)
    (fun p told tnew => tnew.width = told.width ∧ tnew.height = told.height ∧
      (0 ≤ (span_index (some xs) p.2).waste →
        (span_index (some xs) p.2).waste < (span_index (some xs) p.2).size →
        0 ≤ (span_index (some ys) p.1).waste →
        ∀ i j : Int, 0 ≤ i → i < (span_index (some xs) p.2).size → 0 ≤ j →
          j < (span_index (some ys) p.1).size →
          tnew.texel i j =
            bmp.pixel ((span_index (some xs) p.2).start +
                min i ((span_index (some xs) p.2).size - (span_index (some xs) p.2).waste - 1))
              ((span_index (some ys) p.1).start +
                min j ((span_index (some ys) p.1).size - (span_index (some ys) p.1).waste - 1))))
    (by
      intro st p k hk
      exact upload_slice_other _ _ _ _ _ _ _ _ (by rw [hkey]; exact hk))
    (by
      intro st p
      refine ⟨(upload_slice_size _ _ _ _ _ _ _ _).1, (upload_slice_size _ _ _ _ _ _ _ _).2, ?_⟩
      intro hw1 hw2 hw3 i j hi hix hj hjy
      have := upload_slice_texel (span_index (some xs) p.2) (span_index (some ys) p.1) bmp st.2
        (handles.getD (p.1 * xs.length + p.2) 0) hw1 hw2 hw3 i j hi hix hj hjy
      rw [← this]
      unfold upload_slice
      simp only [hxs, hys]
      simp [handle_index, array_len, hhs])
    _ (grid_keys_nodup handles xs.length ys.length hgrid hnodup) (tex_2ds.first_pixels, gl)
  have := h1 (yi, xi) (mem_grid_pairs _ _ _ _ hyl hxl)
  simp only [span_index_eq xs xi x_span hxi, span_index_eq ys yi y_span hyi] at this
  rw [hfold]
  exact this

/-- C5: after `_cogl_texture_2d_sliced_upload_to_gl`, for every slice with spans `x_span`,
`y_span` and every texel `(i, j)` with `0 <= i < x_span.size`, `0 <= j < y_span.size`, the
texel is the bitmap pixel at `(x_span.start + min (i, x_span.size - x_span.waste - 1),
y_span.start + min (j, y_span.size - y_span.waste - 1))`: the right, bottom and corner
waste hold copies of the last valid column, row and corner pixel. The surface satisfies
the invariants of the data model: one distinct handle per grid cell and
`0 <= waste < size` for every span. -/
theorem upload_to_gl_texels {α : Type} [Inhabited α] (tex_2ds : CoglTexture2DSliced α)
    (bmp : CoglBitmap α) (gl_format gl_type : GLenum) (gl : GLState α)
    (xs ys : List CoglSpan) (handles : List GLuint)
    (hxs : tex_2ds.slice_x_spans = some xs) (hys : tex_2ds.slice_y_spans = some ys)
    (hhs : tex_2ds.slice_gl_handles = some handles)
    (hgrid : handles.length = xs.length * ys.length) (hnodup : handles.Nodup)
    (hxw : ∀ s ∈ xs, 0 ≤ s.waste ∧ s.waste < s.size)
    (hyw : ∀ s ∈ ys, 0 ≤ s.waste ∧ s.waste < s.size)
    (yi xi : Nat) (x_span y_span : CoglSpan)
    (hxi : xs[xi]? = some x_span) (hyi : ys[yi]? = some y_span)
    (i j : Int) (hi : 0 ≤ i ∧ i < x_span.size) (hj : 0 ≤ j ∧ j < y_span.size) :
    (((_cogl_texture_2d_sliced_upload_to_gl tex_2ds bmp gl_format gl_type gl).2.2).textures
        (handles.getD (yi * xs.length + xi) 0)).texel i j =
      bmp.pixel (x_span.start + min i (x_span.size - x_span.waste - 1))
        (y_span.start + min j (y_span.size - y_span.waste - 1)) := by
  have hx := hxw x_span (List.mem_iff_getElem?.2 ⟨xi, hxi⟩)
  have hy := hyw y_span (List.mem_iff_getElem?.2 ⟨yi, hyi⟩)
  exact (upload_to_gl_state tex_2ds bmp gl_format gl_type gl xs ys handles hxs hys hhs hgrid
    hnodup yi xi x_span y_span hxi hyi).2.2 hx.1 hx.2 hy.1 i j hi.1 hi.2 hj.1 hj.2

theorem upload_to_gl_texels_witness :
    example_created.slice_x_spans =
      some [{ start := 0, size := 4, waste := 0 }, { start := 4, size := 4, waste := 1 }] ∧
    example_created.slice_y_spans = some [{ start := 0, size := 4, waste := 1 }] ∧
    example_created.slice_gl_handles = some [1, 2] ∧
    (((_cogl_texture_2d_sliced_upload_to_gl example_created example_bitmap 0 0
        example_created_gl).2.2).textures 2).texel 3 3 = example_bitmap.pixel 6 2 :=
  ⟨rfl, rfl, rfl,
    upload_to_gl_texels example_created example_bitmap 0 0 example_created_gl
      [{ start := 0, size := 4, waste := 0 }, { start := 4, size := 4, waste := 1 }]
      [{ start := 0, size := 4, waste := 1 }] [1, 2] rfl rfl rfl (by decide) (by decide)
      (by decide) (by decide) 0 1 { start := 4, size := 4, waste := 1 }
      { start := 0, size := 4, waste := 1 } rfl rfl 3 3 (by decide) (by decide)⟩

theorem axis_facts (s size w cs ce i : Int) (hw : 0 ≤ w) (hws : w < size) (hi : 0 ≤ i)
    (his : i < size) (h1 : s + (size - w) > cs) (h2 : s < ce) (hc : cs ≤ ce) :
    AxisFacts s size w cs ce i := by
  obtain ⟨A, hA, hA1⟩ : ∃ A, max s cs = A ∧ ((A = s ∧ cs ≤ s) ∨ (A = cs ∧ s ≤ cs)) := by
    rcases le_total s cs with h | h
    · exact ⟨cs, max_eq_right h, Or.inr ⟨rfl, h⟩⟩
    · exact ⟨s, max_eq_left h, Or.inl ⟨rfl, h⟩⟩
  obtain ⟨B, hB, hB1⟩ : ∃ B, min (s + (size - w)) ce = B ∧
      ((B = s + (size - w) ∧ s + (size - w) ≤ ce) ∨ (B = ce ∧ ce ≤ s + (size - w))) := by
    rcases le_total (s + (size - w)) ce with h | h
    · exact ⟨_, min_eq_left h, Or.inl ⟨rfl, h⟩⟩
    · exact ⟨_, min_eq_right h, Or.inr ⟨rfl, h⟩⟩
  obtain ⟨E, hE, hE1⟩ : ∃ E, min i (size - w - 1) = E ∧
      ((E = i ∧ i ≤ size - w - 1) ∨ (E = size - w - 1 ∧ size - w - 1 ≤ i)) := by
    rcases le_total i (size - w - 1) with h | h
    · exact ⟨_, min_eq_left h, Or.inl ⟨rfl, h⟩⟩
    · exact ⟨_, min_eq_right h, Or.inr ⟨rfl, h⟩⟩
  have hval : (cs ≤ s + E ∧ s + E < ce) → min (i - (A - s)) (B - A - 1) + A = s + E := by
    intro h
    rcases le_total (i - (A - s)) (B - A - 1) with hm | hm
    · rw [min_eq_left hm]
      omega
    · rw [min_eq_right hm]
      omega
  constructor
  all_goals simp only [hA, hB, hE]
  · omega
  · omega
  · intro h
    constructor <;> intro h3 <;> omega
  · intro h
    constructor <;> intro h3 <;> omega
  · constructor
    · intro h3
      split at h3 <;> omega
    · intro h3
      split <;> omega
  · split <;> omega
  · omega
  · omega
  · exact hval

/-! ## Sub-region upload in whole pixels: one slice -/

theorem texel_after_sub {α : Type} (g : GLState α) (handle : GLuint) (hg : g.bound = handle)
    (xo yo w h : Int) (px : Int → Int → α) (i j : Int) :
    ((glTexSubImage2D g xo yo w h px).textures handle).texel i j =
      if xo ≤ i ∧ i < xo + w ∧ yo ≤ j ∧ j < yo + h then px (i - xo) (j - yo)
      else (g.textures handle).texel i j := by
  have := glTexSubImage2D_texel g xo yo w h px i j
  rw [hg] at this
  exact this

theorem cond_write {α : Type} (g : GLState α) (handle : GLuint) (hg : g.bound = handle)
    (c : Prop) [Decidable c] (xo yo w h : Int) (px : Int → Int → α) (i j : Int) :
    ((if c then glTexSubImage2D g xo yo w h px else g).textures handle).texel i j =
      if c ∧ (xo ≤ i ∧ i < xo + w ∧ yo ≤ j ∧ j < yo + h) then px (i - xo) (j - yo)
      else (g.textures handle).texel i j := by
  by_cases hc : c
  · rw [if_pos hc, texel_after_sub g handle hg]
    simp [hc]
  · rw [if_neg hc, if_neg (fun h => hc h.1)]

/-- The body of the inner loop for a slice that intersects the rectangle on both axes:
only the texture of that slice changes, and its texels follow `subregion_texel`. -/
theorem subregion_slice_spec {α : Type} [Inhabited α] (tex : CoglTexture α)
    (src_x src_y dst_x dst_y width height : Int) (source_bmp : CoglBitmap α)
    (y_iter x_iter : CoglSpanIter) (x_span y_span : CoglSpan) (v : SubregionLocals)
    (gl : GLState α) (handle : GLuint)
    (hx : span_index tex.slice_x_spans x_iter.index.toNat = x_span)
    (hh : handle_index tex.slice_gl_handles
      (y_iter.index * (array_len tex.slice_x_spans : Int) + x_iter.index).toNat = handle)
    (hxw : 0 ≤ x_span.waste ∧ x_span.waste < x_span.size)
    (hyw : 0 ≤ y_span.waste ∧ y_span.waste < y_span.size)
    (hxp : x_iter.pos = x_span.start) (hyp : y_iter.pos = y_span.start)
    (hxi : x_span.start + (x_span.size - x_span.waste) > dst_x ∧ x_span.start < dst_x + width)
    (hyi : y_span.start + (y_span.size - y_span.waste) > dst_y ∧ y_span.start < dst_y + height)
    (hxs : x_iter.intersect_start = max x_span.start dst_x)
    (hxe : x_iter.intersect_end =
      min (x_span.start + (x_span.size - x_span.waste)) (dst_x + width))
    (hys : y_iter.intersect_start = max y_span.start dst_y)
    (hye : y_iter.intersect_end =
      min (y_span.start + (y_span.size - y_span.waste)) (dst_y + height))
    (hsx : 0 < width → 0 < height → v.source_x = src_x + (x_iter.intersect_start - dst_x))
    (hsy : 0 < width → 0 < height → v.source_y = src_y + (y_iter.intersect_start - dst_y))
    (hwidth : 0 ≤ width) (hheight : 0 ≤ height) :
    let r := pixel_subregion_slice tex src_x src_y dst_x dst_y source_bmp y_iter y_span x_iter v gl
    r.1.source_x = v.source_x ∧ r.1.source_y = v.source_y ∧
    r.1.inter_w = x_iter.intersect_end - x_iter.intersect_start ∧
    r.1.inter_h = y_iter.intersect_end - y_iter.intersect_start ∧
    (∀ k, k ≠ handle → r.2.textures k = gl.textures k) ∧
    ∀ i j : Int, 0 ≤ i → i < x_span.size → 0 ≤ j → j < y_span.size →
      (r.2.textures handle).texel i j =
        subregion_texel source_bmp src_x src_y dst_x dst_y width height x_span y_span
          ((gl.textures handle).texel i j) i j := by
  intro r
  refine ⟨rfl, rfl, rfl, rfl, ?_, ?_⟩
  · intro k hk
    show (pixel_subregion_slice tex src_x src_y dst_x dst_y source_bmp y_iter y_span x_iter v
      gl).2.textures k = gl.textures k
    suffices h : (pixel_subregion_slice tex src_x src_y dst_x dst_y source_bmp y_iter y_span x_iter v
        gl).2.bound = handle ∧
        (pixel_subregion_slice tex src_x src_y dst_x dst_y source_bmp y_iter y_span x_iter v
          gl).2.textures k = gl.textures k from h.2
    unfold pixel_subregion_slice
    simp only [hx, hh]
    have P0 : (glBindTexture gl handle).bound = handle ∧
        (glBindTexture gl handle).textures k = gl.textures k := ⟨rfl, rfl⟩
    have hP : ∀ (g : GLState α) (xo yo w h : Int) (px : Int → Int → α),
        (g.bound = handle ∧ g.textures k = gl.textures k) →
        ((glTexSubImage2D g xo yo w h px).bound = handle ∧
          (glTexSubImage2D g xo yo w h px).textures k = gl.textures k) := by
      intro g xo yo w h px hg
      refine ⟨hg.1, ?_⟩
      rw [glTexSubImage2D_other g xo yo w h px k (by rw [hg.1]; exact hk)]
      exact hg.2
    have hI : ∀ (c : Prop) [Decidable c] (a b : GLState α),
        (a.bound = handle ∧ a.textures k = gl.textures k) →
        (b.bound = handle ∧ b.textures k = gl.textures k) →
        ((if c then a else b).bound = handle ∧
          (if c then a else b).textures k = gl.textures k) := by
      intro c _ a b ha hb
      split <;> assumption
    repeat' (first | exact P0 | apply hI | apply hP)
  · intro i j hi hix hj hjy
    show ((pixel_subregion_slice tex src_x src_y dst_x dst_y source_bmp y_iter y_span x_iter v
      gl).2.textures handle).texel i j = _
    unfold pixel_subregion_slice subregion_texel
    rw [hxs] at hsx
    rw [hys] at hsy
    simp only [hx, hh, hxp, hyp, hxs, hxe, hys, hye]
    have hb : (glBindTexture gl handle).bound = handle := rfl
    have hold : (gl.textures handle) = ((glBindTexture gl handle).textures handle) := rfl
    rw [hold]
    generalize glBindTexture gl handle = g0 at hb ⊢
    have X := axis_facts x_span.start x_span.size x_span.waste dst_x (dst_x + width) i
      hxw.1 hxw.2 hi hix hxi.1 hxi.2 (by omega)
    have Y := axis_facts y_span.start y_span.size y_span.waste dst_y (dst_y + height) j
      hyw.1 hyw.2 hj hjy hyi.1 hyi.2 (by omega)
    clear hold hx hh hxp hyp hxs hxe hys hye
    have xb := X.basic
    have yb := Y.basic
    rw [cond_write _ handle (by split <;> exact hb),
      cond_write (glTexSubImage2D g0 _ _ _ _ _) handle hb, texel_after_sub _ handle hb]
    by_cases hjb : y_span.size - y_span.waste ≤ j
    · -- bottom waste rows
      have hF := Y.clamp_hi hjb
      by_cases hin : (dst_x ≤ x_span.start + min i (x_span.size - x_span.waste - 1) ∧
          x_span.start + min i (x_span.size - x_span.waste - 1) < dst_x + width) ∧
          (dst_y ≤ y_span.start + min j (y_span.size - y_span.waste - 1) ∧
            y_span.start + min j (y_span.size - y_span.waste - 1) < dst_y + height)
      · have hcopy := X.copy.2 hin.1
        have hval := X.value hin.1
        have hex := X.extra
        rw [if_pos (c := _ ∧ _), if_pos (c := _ ∧ _)]
        · rw [unpack_fill_bottom _ _ _
            (min (x_span.start + (x_span.size - x_span.waste)) (dst_x + width) -
              max x_span.start dst_x)
            ((if max x_span.start dst_x - x_span.start +
                  (min (x_span.start + (x_span.size - x_span.waste)) (dst_x + width) -
                    max x_span.start dst_x) ≥ x_span.size - x_span.waste then
                x_span.size - (max x_span.start dst_x - x_span.start)
              else min (x_span.start + (x_span.size - x_span.waste)) (dst_x + width) -
                max x_span.start dst_x) -
              (min (x_span.start + (x_span.size - x_span.waste)) (dst_x + width) -
                max x_span.start dst_x)) _ _ _ _ (by ring) (X.pos hin.1) hex (by omega)
            (by
              have := hcopy.2
              omega) (by omega) (by omega)]
          congr 1 <;> omega
        · exact ⟨hin.1.1, hin.1.2, hin.2.1, hin.2.2⟩
        · exact ⟨(Y.edge hjb).2 hin.2, hcopy.1, hcopy.2, hjb, by omega⟩
      · rw [if_neg (c := _ ∧ _), if_neg (c := _ ∧ _), if_neg (c := _ ∧ _), if_neg (c := _ ∧ _)]
        · exact fun h => hin ⟨⟨h.1, h.2.1⟩, ⟨h.2.2.1, h.2.2.2⟩⟩
        · intro h
          have := h.2.2
          omega
        · intro h
          have := h.2.2.2
          omega
        · intro h
          exact hin ⟨X.copy.1 ⟨h.2.1, h.2.2.1⟩, (Y.edge hjb).1 h.1⟩
    · -- valid rows
      have hjm : j < y_span.size - y_span.waste := by omega
      have hF := Y.clamp_lo hjm
      rw [if_neg (fun h => hjb h.2.2.2.1)]
      by_cases hib : x_span.size - x_span.waste ≤ i
      · -- right waste columns
        have hE := X.clamp_hi hib
        by_cases hin : (dst_x ≤ x_span.start + min i (x_span.size - x_span.waste - 1) ∧
            x_span.start + min i (x_span.size - x_span.waste - 1) < dst_x + width) ∧
            (dst_y ≤ y_span.start + min j (y_span.size - y_span.waste - 1) ∧
              y_span.start + min j (y_span.size - y_span.waste - 1) < dst_y + height)
        · have hrow := (Y.main hjm).2 hin.2
          rw [if_pos (c := _ ∧ _), if_pos (c := _ ∧ _)]
          · rw [unpack_fill_right _ _ _ _ _ _ _ (by omega) (by omega) (by omega) (by omega)]
            congr 1 <;> omega
          · exact ⟨hin.1.1, hin.1.2, hin.2.1, hin.2.2⟩
          · exact ⟨(X.edge hib).2 hin.1, hib, by omega, hrow.1, hrow.2⟩
        · rw [if_neg (c := _ ∧ _), if_neg (c := _ ∧ _), if_neg (c := _ ∧ _)]
          · exact fun h => hin ⟨⟨h.1, h.2.1⟩, ⟨h.2.2.1, h.2.2.2⟩⟩
          · intro h
            have := h.2.1
            omega
          · exact fun h => hin ⟨(X.edge hib).1 h.1, (Y.main hjm).1 ⟨h.2.2.2.1, h.2.2.2.2⟩⟩
      · -- valid texels
        have him : i < x_span.size - x_span.waste := by omega
        have hE := X.clamp_lo him
        rw [if_neg (fun h => hib h.2.1)]
        by_cases hin : (dst_x ≤ x_span.start + min i (x_span.size - x_span.waste - 1) ∧
            x_span.start + min i (x_span.size - x_span.waste - 1) < dst_x + width) ∧
            (dst_y ≤ y_span.start + min j (y_span.size - y_span.waste - 1) ∧
              y_span.start + min j (y_span.size - y_span.waste - 1) < dst_y + height)
        · have hcol := (X.main him).2 hin.1
          have hrow := (Y.main hjm).2 hin.2
          have ex := hsx (by omega) (by omega)
          have ey := hsy (by omega) (by omega)
          rw [if_pos (c := _ ∧ _), if_pos (c := _ ∧ _)]
          · congr 1 <;> omega
          · exact ⟨hin.1.1, hin.1.2, hin.2.1, hin.2.2⟩
          · exact ⟨hcol.1, hcol.2, hrow.1, hrow.2⟩
        · rw [if_neg (c := _ ∧ _), if_neg (c := _ ∧ _)]
          · exact fun h => hin ⟨⟨h.1, h.2.1⟩, ⟨h.2.2.1, h.2.2.2⟩⟩
          · exact fun h => hin ⟨(X.main him).1 ⟨h.1, h.2.1⟩, (Y.main hjm).1 ⟨h.2.2.1, h.2.2.2⟩⟩

/-! ## The span iterator in whole pixels on a planned span list -/

theorem mem_dropLast_of_succ {β : Type} (l : List β) (k : Nat) (a b : β)
    (ha : l[k]? = some a) (hb : l[k + 1]? = some b) : a ∈ l.dropLast := by
  induction l generalizing k with
  | nil => simp at ha
  | cons s rest ih =>
    simp only [List.getElem?_cons_succ] at hb
    have hne : rest ≠ [] := by
      rintro rfl
      simp at hb
    rw [List.dropLast_cons_of_ne_nil hne]
    cases k with
    | zero =>
      simp at ha
      subst ha
      exact List.mem_cons_self _ _
    | succ k =>
      simp only [List.getElem?_cons_succ] at ha
      exact List.mem_cons_of_mem _ (ih k ha hb)

theorem planned_step (size : Int) (xs : List CoglSpan) (hp : Planned size xs) (k : Nat)
    (a b : CoglSpan) (ha : xs[k]? = some a) (hb : xs[k + 1]? = some b) :
    a.waste = 0 ∧ b.start = a.start + a.size :=
  ⟨hp.inner a (mem_dropLast_of_succ xs k a b ha hb), contig_index xs 0 hp.contig k a b ha hb⟩

theorem contig_last (l : List CoglSpan) (st : Int) (h : Contig st l)
    (hin : ∀ s ∈ l.dropLast, s.waste = 0) (k : Nat) (a : CoglSpan) (ha : l[k]? = some a)
    (hk : k + 1 = l.length) : a.start + (a.size - a.waste) = st + covered l := by
  induction l generalizing st k with
  | nil => simp at ha
  | cons s rest ih =>
    cases k with
    | zero =>
      simp at ha
      subst ha
      have hr : rest = [] := by
        simp at hk
        exact hk
      subst hr
      simp [covered]
      have := h.1
      omega
    | succ k =>
      simp only [List.getElem?_cons_succ] at ha
      have hne : rest ≠ [] := by
        rintro rfl
        simp at ha
      have hs0 : s.waste = 0 := by
        apply hin
        rw [List.dropLast_cons_of_ne_nil hne]
        exact List.mem_cons_self _ _
      have := ih (st + s.size) h.2 (fun t ht => hin t (by
        rw [List.dropLast_cons_of_ne_nil hne]
        exact List.mem_cons_of_mem _ ht)) k ha (by simpa using hk)
      simp only [covered, List.map_cons, List.sum_cons] at this ⊢
      omega

theorem planned_last (size : Int) (xs : List CoglSpan) (hp : Planned size xs) (k : Nat)
    (a : CoglSpan) (ha : xs[k]? = some a) (hk : k + 1 = xs.length) :
    a.start + (a.size - a.waste) = size := by
  have := contig_last xs 0 hp.contig hp.inner k a ha hk
  rw [hp.cover] at this
  omega

theorem planned_span_bounds (size : Int) (xs : List CoglSpan) (hp : Planned size xs) (k : Nat)
    (a : CoglSpan) (ha : xs[k]? = some a) :
    0 ≤ a.waste ∧ a.waste < a.size ∧ 0 ≤ a.start := by
  have hm := List.mem_iff_getElem?.2 ⟨k, ha⟩
  have hw := hp.waste a hm
  have := contig_lower xs 0 hp.contig (fun s hs => by have := hp.waste s hs; omega) a hm
  exact ⟨hw.1, hw.2, this⟩

theorem iter_update_at (xs : List CoglSpan) (cs ce : Int) (k : Nat) (s : CoglSpan)
    (it : CoglSpanIter) (ha : it.array = xs) (hcs : it.cover_start = cs)
    (hce : it.cover_end = ce) (hi : it.index = (k : Int)) (hk : xs[k]? = some s)
    (hp : it.pos = s.start) : IterAt xs cs ce k s (pixel_span_iter_update it) := by
  have hget : it.array.getD it.index.toNat default = s := by
    rw [ha, hi, Int.toNat_ofNat, List.getD_eq_getElem?_getD, hk]
    rfl
  unfold pixel_span_iter_update
  simp only [hget, hcs, hce, hp]
  by_cases h1 : s.start + (s.size - s.waste) ≤ cs ∨ s.start ≥ ce
  · rw [if_pos h1]
    refine ⟨ha, rfl, rfl, hi, rfl, rfl, ?_, ?_, ?_⟩
    · constructor
      · intro h
        cases h
      · intro h
        omega
    · intro h
      cases h
    · intro h
      cases h
  · rw [if_neg h1]
    have h2 : cs < s.start + (s.size - s.waste) ∧ s.start < ce := by omega
    by_cases h3 : s.start < cs <;> by_cases h4 : s.start + (s.size - s.waste) > ce
    all_goals
      simp only [h3, h4, if_true, if_false]
      refine ⟨ha, rfl, rfl, hi, rfl, rfl, ⟨fun _ => h2, fun _ => rfl⟩, fun _ => ?_, fun _ => ?_⟩
    all_goals
      show _ = _
      first
      | (rw [max_eq_left (by omega)])
      | (rw [max_eq_right (by omega)])
      | (rw [min_eq_left (by omega)])
      | (rw [min_eq_right (by omega)])

theorem iter_begin_at (size : Int) (xs : List CoglSpan) (hpl : Planned size xs) (cs ce : Int)
    (it : CoglSpanIter) :
    ∃ s, xs[0]? = some s ∧ s.start = 0 ∧ IterAt xs cs ce 0 s (pixel_span_iter_begin it xs 0 cs ce) := by
  obtain ⟨s, rest, rfl⟩ := List.exists_cons_of_ne_nil hpl.ne
  have h0 : s.start = 0 := hpl.contig.1
  refine ⟨s, by simp, h0, ?_⟩
  unfold pixel_span_iter_begin
  exact iter_update_at _ cs ce 0 s _ rfl rfl rfl rfl (by simp) h0.symm

theorem iter_next_at (size : Int) (xs : List CoglSpan) (hpl : Planned size xs) (cs ce : Int)
    (k : Nat) (s s2 : CoglSpan) (it : CoglSpanIter) (h : IterAt xs cs ce k s it)
    (hk : xs[k]? = some s) (hk2 : xs[k + 1]? = some s2) :
    IterAt xs cs ce (k + 1) s2 (pixel_span_iter_next it) := by
  have hstep := planned_step size xs hpl k s s2 hk hk2
  have hlt := getElem?_lt xs (k + 1) s2 hk2
  unfold pixel_span_iter_next
  refine iter_update_at xs cs ce (k + 1) s2 _ h.array h.cover_start h.cover_end ?_ hk2 ?_
  · show (it.index + 1) % (it.array.length : Int) = ((k + 1 : Nat) : Int)
    rw [h.index, h.array]
    rw [Int.emod_eq_of_lt (by omega) (by omega)]
    push_cast
    rfl
  · show it.next_pos = s2.start
    rw [h.next_pos, hstep.2, hstep.1]
    omega

theorem iter_next_end (size : Int) (xs : List CoglSpan) (hpl : Planned size xs) (cs ce : Int)
    (hce : ce ≤ size) (k : Nat) (s : CoglSpan) (it : CoglSpanIter)
    (h : IterAt xs cs ce k s it) (hk : xs[k]? = some s) (hlast : k + 1 = xs.length) :
    pixel_span_iter_end (pixel_span_iter_next it) = true := by
  have hl := planned_last size xs hpl k s hk hlast
  have hpos : (pixel_span_iter_next it).pos = it.next_pos := by
    unfold pixel_span_iter_next pixel_span_iter_update
    simp only
    repeat' split
    all_goals rfl
  have hcov : (pixel_span_iter_next it).cover_end = it.cover_end := by
    unfold pixel_span_iter_next pixel_span_iter_update
    simp only
    repeat' split
    all_goals rfl
  unfold pixel_span_iter_end
  rw [hpos, hcov, h.next_pos, h.cover_end, hl]
  exact decide_eq_true hce

/-! ## Sub-region upload in whole pixels: the inner loop -/

theorem nodup_getD_inj (handles : List GLuint) (hn : handles.Nodup) (a b : Nat)
    (ha : a < handles.length) (hb : b < handles.length)
    (h : handles.getD a 0 = handles.getD b 0) : a = b := by
  rw [List.getD_eq_getElem _ _ ha, List.getD_eq_getElem _ _ hb] at h
  exact (List.Nodup.getElem_inj_iff hn).1 h

theorem grid_lt (nx ny yi k : Nat) (hy : yi < ny) (hk : k < nx) : yi * nx + k < nx * ny := by
  have : (yi + 1) * nx ≤ ny * nx := Nat.mul_le_mul_right nx hy
  have h2 : (yi + 1) * nx = yi * nx + nx := by ring
  have h3 : ny * nx = nx * ny := Nat.mul_comm _ _
  omega

theorem subregion_texel_outside {α : Type} (source_bmp : CoglBitmap α)
    (src_x src_y dst_x dst_y width height : Int) (x_span y_span : CoglSpan) (old : α)
    (i j : Int)
    (h : ¬ (dst_x ≤ x_span.start + min i (x_span.size - x_span.waste - 1) ∧
      x_span.start + min i (x_span.size - x_span.waste - 1) < dst_x + width ∧
      dst_y ≤ y_span.start + min j (y_span.size - y_span.waste - 1) ∧
      y_span.start + min j (y_span.size - y_span.waste - 1) < dst_y + height)) :
    subregion_texel source_bmp src_x src_y dst_x dst_y width height x_span y_span old i j =
      old := if_neg h

theorem clamp_bounds (s : CoglSpan) (i : Int) (hw : 0 ≤ s.waste ∧ s.waste < s.size)
    (hi : 0 ≤ i) :
    s.start ≤ s.start + min i (s.size - s.waste - 1) ∧
      s.start + min i (s.size - s.waste - 1) < s.start + (s.size - s.waste) := by
  omega

theorem subregion_x_loop_end {α : Type} [Inhabited α] (tex : CoglTexture α)
    (src_x src_y dst_x dst_y : Int) (source_bmp : CoglBitmap α) (y_iter : CoglSpanIter)
    (y_span : CoglSpan) (fuel : Nat) (x_iter : CoglSpanIter) (v : SubregionLocals)
    (gl : GLState α) (hf : 0 < fuel) (he : pixel_span_iter_end x_iter = true) :
    pixel_subregion_x_loop tex src_x src_y dst_x dst_y source_bmp y_iter y_span fuel x_iter v gl =
      some (x_iter, v, gl) := by
  obtain ⟨f, rfl⟩ : ∃ f, fuel = f + 1 := ⟨fuel - 1, by omega⟩
  unfold pixel_subregion_x_loop
  rw [if_pos he]

theorem iter_end_iff (xs : List CoglSpan) (cs ce : Int) (k : Nat) (s : CoglSpan)
    (it : CoglSpanIter) (h : IterAt xs cs ce k s it) :
    pixel_span_iter_end it = true ↔ ce ≤ s.start := by
  unfold pixel_span_iter_end
  rw [h.pos, h.cover_end]
  simp

theorem handle_at {α : Type} (tex : CoglTexture α) (xs : List CoglSpan)
    (handles : List GLuint) (hxs : tex.slice_x_spans = some xs)
    (hhs : tex.slice_gl_handles = some handles) (y_iter x_iter : CoglSpanIter) (yi k : Nat)
    (hy : y_iter.index = (yi : Int)) (hx : x_iter.index = (k : Int)) :
    handle_index tex.slice_gl_handles
      (y_iter.index * (array_len tex.slice_x_spans : Int) + x_iter.index).toNat =
      handles.getD (yi * xs.length + k) 0 := by
  rw [hxs, hhs, hy, hx]
  show handles.getD (((yi : Int) * (xs.length : Int) + (k : Int)).toNat) 0 = _
  congr 1

/-- The inner loop from span `k` on: it returns, every slice of the row from `k` on
follows `subregion_texel`, and no other texture changes. -/
theorem subregion_x_loop_spec {α : Type} [Inhabited α] (tex : CoglTexture α)
    (src_x src_y dst_x dst_y width height : Int) (source_bmp : CoglBitmap α)
    (y_iter : CoglSpanIter) (y_span : CoglSpan) (W : Int) (xs : List CoglSpan)
    (handles : List GLuint) (ny yi : Nat)
    (hxs : tex.slice_x_spans = some xs) (hhs : tex.slice_gl_handles = some handles)
    (hpl : Planned W xs) (hnodup : handles.Nodup)
    (hgrid : handles.length = xs.length * ny) (hyi : yi < ny)
    (hwidth : 0 ≤ width) (hdw : dst_x + width ≤ W) (hheight : 0 ≤ height)
    (hyidx : y_iter.index = (yi : Int)) (hyp : y_iter.pos = y_span.start)
    (hyw : 0 ≤ y_span.waste ∧ y_span.waste < y_span.size)
    (hyint : y_span.start + (y_span.size - y_span.waste) > dst_y ∧
      y_span.start < dst_y + height)
    (hys : y_iter.intersect_start = max y_span.start dst_y)
    (hye : y_iter.intersect_end =
      min (y_span.start + (y_span.size - y_span.waste)) (dst_y + height)) :
    ∀ (fuel k : Nat) (s : CoglSpan) (x_iter : CoglSpanIter) (v : SubregionLocals)
      (gl : GLState α),
      xs[k]? = some s → IterAt xs dst_x (dst_x + width) k s x_iter →
      (0 < width → 0 < height → s.start < dst_x + width →
        v.source_x = src_x + (max s.start dst_x - dst_x)) →
      (0 < width → 0 < height → v.source_y = src_y + (y_iter.intersect_start - dst_y)) →
      0 < fuel → dst_x + width - s.start < (fuel : Int) →
      ∃ r, pixel_subregion_x_loop tex src_x src_y dst_x dst_y source_bmp y_iter y_span fuel x_iter
          v gl = some r ∧
        r.2.1.source_y = v.source_y ∧
        (v.inter_h = y_iter.intersect_end - y_iter.intersect_start →
          r.2.1.inter_h = y_iter.intersect_end - y_iter.intersect_start) ∧
        (0 < width → s.start ≤ dst_x →
          r.2.1.inter_h = y_iter.intersect_end - y_iter.intersect_start) ∧
        (∀ h, (∀ m, k ≤ m → m < xs.length → h ≠ handles.getD (yi * xs.length + m) 0) →
          r.2.2.textures h = gl.textures h) ∧
        ∀ (m : Nat) (sm : CoglSpan), k ≤ m → xs[m]? = some sm →
          ∀ i j : Int, 0 ≤ i → i < sm.size → 0 ≤ j → j < y_span.size →
            (r.2.2.textures (handles.getD (yi * xs.length + m) 0)).texel i j =
              subregion_texel source_bmp src_x src_y dst_x dst_y width height sm y_span
                ((gl.textures (handles.getD (yi * xs.length + m) 0)).texel i j) i j := by
  have hpos : ∀ t ∈ xs, 0 < t.size := fun t ht => by
    have := hpl.waste t ht
    omega
  have hne : ∀ (a b : Nat), a < xs.length → b < xs.length → a ≠ b →
      handles.getD (yi * xs.length + a) 0 ≠ handles.getD (yi * xs.length + b) 0 := by
    intro a b ha hb hab heq
    have := nodup_getD_inj handles hnodup _ _ (by rw [hgrid]; exact grid_lt _ _ _ _ hyi ha)
      (by rw [hgrid]; exact grid_lt _ _ _ _ hyi hb) heq
    omega
  intro fuel
  induction fuel with
  | zero =>
    intro k s x_iter v gl _ _ _ _ hf
    omega
  | succ fuel ih =>
    intro k s x_iter v gl hk hit hsx hsy _ hfuel
    have hklt := getElem?_lt xs k s hk
    have hsb := planned_span_bounds W xs hpl k s hk
    unfold pixel_subregion_x_loop
    by_cases hend : pixel_span_iter_end x_iter = true
    · -- the loop is over: the remaining spans lie beyond the rectangle
      rw [if_pos hend]
      have hce := (iter_end_iff xs _ _ k s x_iter hit).1 hend
      refine ⟨_, rfl, rfl, fun h => h, fun _ h => by omega, fun h _ => rfl, ?_⟩
      intro m sm hkm hm i j hi _ hj _
      have hmb := planned_span_bounds W xs hpl m sm hm
      have hge : s.start ≤ sm.start := by
        rcases Nat.eq_or_lt_of_le hkm with heq | hlt
        · subst heq
          rw [hk] at hm
          cases hm
          exact le_refl _
        · have := contig_mono xs 0 hpl.contig hpos k m s sm hlt hk hm
          omega
      have hcl := clamp_bounds sm i ⟨hmb.1, hmb.2.1⟩ hi
      rw [subregion_texel_outside]
      intro hc
      omega
    · rw [if_neg hend]
      have hlt : s.start < dst_x + width := by
        by_contra hc
        exact hend ((iter_end_iff xs _ _ k s x_iter hit).2 (by omega))
      by_cases hint : x_iter.intersects = true
      · -- an intersecting slice
        have hi2 := hit.intersects.1 hint
        have hrs := subregion_slice_spec tex src_x src_y dst_x dst_y width height source_bmp
          y_iter x_iter s y_span v gl (handles.getD (yi * xs.length + k) 0)
          (by rw [hxs, hit.index]; exact span_index_eq xs k s hk)
          (handle_at tex xs handles hxs hhs y_iter x_iter yi k hyidx hit.index)
          ⟨hsb.1, hsb.2.1⟩ hyw hit.pos hyp ⟨hi2.1, hi2.2⟩ hyint
          (hit.intersect_start hint) (hit.intersect_end hint) hys hye
          (fun hw hh => by rw [hsx hw hh hlt, hit.intersect_start hint]) hsy hwidth hheight
        simp only [hint, Bool.not_true, Bool.false_eq_true, if_false]
        generalize pixel_subregion_slice tex src_x src_y dst_x dst_y source_bmp y_iter y_span x_iter
          v gl = r at hrs
        obtain ⟨r1, r2, r3, r4, r5, r6⟩ := hrs
        by_cases hlast : k + 1 = xs.length
        · have hnend := iter_next_end W xs hpl dst_x (dst_x + width) hdw k s x_iter hit hk
            hlast
          rw [subregion_x_loop_end _ _ _ _ _ _ _ _ _ _ _ _ (by omega) hnend]
          refine ⟨_, rfl, ?_, fun _ => r4, fun _ _ => r4, ?_, ?_⟩
          · exact r2.trans rfl
          · intro h hh
            exact r5 h (hh k (le_refl _) hklt)
          · intro m sm hkm hm i j hi hix hj hjy
            have hmlt := getElem?_lt xs m sm hm
            have : m = k := by omega
            subst this
            rw [hk] at hm
            cases hm
            exact r6 i j hi hix hj hjy
        · obtain ⟨s2, hk2⟩ : ∃ s2, xs[k + 1]? = some s2 :=
            ⟨xs[k + 1], List.getElem?_eq_getElem (by omega)⟩
          have hstep := planned_step W xs hpl k s s2 hk hk2
          have hnext := iter_next_at W xs hpl dst_x (dst_x + width) k s s2 x_iter hit hk hk2
          obtain ⟨q, hq, q1, q2, q3, q4, q5⟩ := ih (k + 1) s2 (pixel_span_iter_next x_iter)
            { r.1 with source_x := r.1.source_x + r.1.inter_w } r.2 hk2 hnext
            (by
              intro hw hh h2
              show r.1.source_x + r.1.inter_w = _
              rw [r1, r3, hsx hw hh hlt, hit.intersect_start hint, hit.intersect_end hint]
              omega)
            (by
              intro hw hh
              show r.1.source_y = _
              rw [r2, hsy hw hh])
            (by omega) (by omega)
          refine ⟨q, hq, ?_, fun _ => q2 r4, fun _ _ => q2 r4, ?_, ?_⟩
          · rw [q1]
            exact r2
          · intro h hh
            rw [q4 h (fun m hm1 hm2 => hh m (by omega) hm2)]
            exact r5 h (hh k (le_refl _) hklt)
          · intro m sm hkm hm i j hi hix hj hjy
            have hmlt := getElem?_lt xs m sm hm
            rcases Nat.eq_or_lt_of_le hkm with heq | hlt2
            · subst heq
              rw [hk] at hm
              cases hm
              rw [q4 _ (fun m hm1 hm2 => hne k m hklt hm2 (by omega))]
              exact r6 i j hi hix hj hjy
            · rw [q5 m sm hlt2 hm i j hi hix hj hjy, r5 _ (hne m k hmlt hklt (by omega))]
      · -- a slice left of the rectangle
        have hni : ¬ (dst_x < s.start + (s.size - s.waste) ∧ s.start < dst_x + width) :=
          fun h => hint (hit.intersects.2 h)
        have hnx : s.start + (s.size - s.waste) ≤ dst_x := by omega
        simp only [hint, Bool.not_false, if_true]
        by_cases hlast : k + 1 = xs.length
        · have hnend := iter_next_end W xs hpl dst_x (dst_x + width) hdw k s x_iter hit hk
            hlast
          have hW := planned_last W xs hpl k s hk hlast
          rw [subregion_x_loop_end _ _ _ _ _ _ _ _ _ _ _ _ (by omega) hnend]
          refine ⟨_, rfl, rfl, fun h => h, fun _ _ => by omega, fun _ _ => rfl, ?_⟩
          intro m sm hkm hm i j hi hix hj hjy
          have hmlt := getElem?_lt xs m sm hm
          have : m = k := by omega
          subst this
          rw [hk] at hm
          cases hm
          have hcl := clamp_bounds s i ⟨hsb.1, hsb.2.1⟩ hi
          rw [subregion_texel_outside]
          intro hc
          omega
        · obtain ⟨s2, hk2⟩ : ∃ s2, xs[k + 1]? = some s2 :=
            ⟨xs[k + 1], List.getElem?_eq_getElem (by omega)⟩
          have hstep := planned_step W xs hpl k s s2 hk hk2
          have hnext := iter_next_at W xs hpl dst_x (dst_x + width) k s s2 x_iter hit hk hk2
          obtain ⟨q, hq, q1, q2, q3, q4, q5⟩ := ih (k + 1) s2 (pixel_span_iter_next x_iter)
            { v with inter_w := 0, source_x := v.source_x + 0 } gl hk2 hnext
            (by
              intro hw hh h2
              show v.source_x + 0 = _
              rw [hsx hw hh hlt]
              omega)
            hsy (by omega) (by omega)
          refine ⟨q, hq, q1, q2, fun hw _ => q3 hw (by omega), ?_, ?_⟩
          · intro h hh
            exact q4 h (fun m hm1 hm2 => hh m (by omega) hm2)
          · intro m sm hkm hm i j hi hix hj hjy
            have hmlt := getElem?_lt xs m sm hm
            rcases Nat.eq_or_lt_of_le hkm with heq | hlt2
            · subst heq
              rw [hk] at hm
              cases hm
              rw [q4 _ (fun m hm1 hm2 => hne k m hklt hm2 (by omega))]
              have hcl := clamp_bounds s i ⟨hsb.1, hsb.2.1⟩ hi
              rw [subregion_texel_outside]
              intro hc
              omega
            · exact q5 m sm hlt2 hm i j hi hix hj hjy

/-! ## Sub-region upload in whole pixels: the outer loop -/

theorem subregion_y_loop_end {α : Type} [Inhabited α] (tex : CoglTexture α)
    (src_x src_y dst_x dst_y width : Int) (source_bmp : CoglBitmap α) (fuel_x fuel : Nat)
    (y_iter x_iter : CoglSpanIter) (v : SubregionLocals) (gl : GLState α) (hf : 0 < fuel)
    (he : pixel_span_iter_end y_iter = true) :
    pixel_subregion_y_loop tex src_x src_y dst_x dst_y width source_bmp fuel_x fuel y_iter x_iter v
      gl = some (y_iter, x_iter, v, gl) := by
  obtain ⟨f, rfl⟩ : ∃ f, fuel = f + 1 := ⟨fuel - 1, by omega⟩
  unfold pixel_subregion_y_loop
  rw [if_pos he]

/-- The outer loop from row `k` on: it returns, every slice of the rows from `k` on
follows `subregion_texel`, and no other texture changes. -/
theorem subregion_y_loop_spec {α : Type} [Inhabited α] (tex : CoglTexture α)
    (src_x src_y dst_x dst_y width height : Int) (source_bmp : CoglBitmap α)
    (W H : Int) (xs ys : List CoglSpan) (handles : List GLuint) (fuel_x : Nat)
    (hxs : tex.slice_x_spans = some xs) (hys : tex.slice_y_spans = some ys)
    (hhs : tex.slice_gl_handles = some handles)
    (hplx : Planned W xs) (hply : Planned H ys) (hnodup : handles.Nodup)
    (hgrid : handles.length = xs.length * ys.length)
    (hdx : 0 ≤ dst_x) (hwidth : 0 ≤ width) (hdw : dst_x + width ≤ W)
    (hheight : 0 ≤ height) (hdh : dst_y + height ≤ H)
    (hfx : dst_x + width < (fuel_x : Int)) :
    ∀ (fuel k : Nat) (s : CoglSpan) (y_iter x_iter : CoglSpanIter) (v : SubregionLocals)
      (gl : GLState α),
      ys[k]? = some s → IterAt ys dst_y (dst_y + height) k s y_iter →
      (0 < width → 0 < height → s.start < dst_y + height →
        v.source_y = src_y + (max s.start dst_y - dst_y)) →
      0 < fuel → dst_y + height - s.start < (fuel : Int) →
      ∃ r, pixel_subregion_y_loop tex src_x src_y dst_x dst_y width source_bmp fuel_x fuel y_iter
          x_iter v gl = some r ∧
        (∀ h, (∀ ym xm, k ≤ ym → ym < ys.length → xm < xs.length →
            h ≠ handles.getD (ym * xs.length + xm) 0) →
          r.2.2.2.textures h = gl.textures h) ∧
        ∀ (ym xm : Nat) (sy sx : CoglSpan), k ≤ ym → ys[ym]? = some sy → xs[xm]? = some sx →
          ∀ i j : Int, 0 ≤ i → i < sx.size → 0 ≤ j → j < sy.size →
            (r.2.2.2.textures (handles.getD (ym * xs.length + xm) 0)).texel i j =
              subregion_texel source_bmp src_x src_y dst_x dst_y width height sx sy
                ((gl.textures (handles.getD (ym * xs.length + xm) 0)).texel i j) i j := by
  have hpos : ∀ t ∈ ys, 0 < t.size := fun t ht => by
    have := hply.waste t ht
    omega
  have hne : ∀ (a b c d : Nat), a < ys.length → c < ys.length → b < xs.length →
      d < xs.length → a ≠ c →
      handles.getD (a * xs.length + b) 0 ≠ handles.getD (c * xs.length + d) 0 := by
    intro a b c d ha hc hb hd hac heq
    have := nodup_getD_inj handles hnodup _ _ (by rw [hgrid]; exact grid_lt _ _ _ _ ha hb)
      (by rw [hgrid]; exact grid_lt _ _ _ _ hc hd) heq
    exact hac (grid_index_inj xs.length a b c d hb hd this).1
  have e2 : tex.slice_x_spans.getD [] = xs := by
    rw [hxs]
    rfl
  obtain ⟨s0, hs0, hs0start, _⟩ := iter_begin_at W xs hplx dst_x (dst_x + width) default
  intro fuel
  induction fuel with
  | zero =>
    intro k s y_iter x_iter v gl _ _ _ hf
    omega
  | succ fuel ih =>
    intro k s y_iter x_iter v gl hk hit hsy _ hfuel
    have hklt := getElem?_lt ys k s hk
    have hsb := planned_span_bounds H ys hply k s hk
    unfold pixel_subregion_y_loop
    by_cases hend : pixel_span_iter_end y_iter = true
    · rw [if_pos hend]
      have hce := (iter_end_iff ys _ _ k s y_iter hit).1 hend
      refine ⟨_, rfl, fun h _ => rfl, ?_⟩
      intro ym xm sy sx hkm hm _ i j _ _ hj _
      have hmb := planned_span_bounds H ys hply ym sy hm
      have hge : s.start ≤ sy.start := by
        rcases Nat.eq_or_lt_of_le hkm with heq | hlt
        · subst heq
          rw [hk] at hm
          cases hm
          exact le_refl _
        · have := contig_mono ys 0 hply.contig hpos k ym s sy hlt hk hm
          omega
      have hcl := clamp_bounds sy j ⟨hmb.1, hmb.2.1⟩ hj
      rw [subregion_texel_outside]
      intro hc
      omega
    · rw [if_neg hend]
      have hlt : s.start < dst_y + height := by
        by_contra hc
        exact hend ((iter_end_iff ys _ _ k s y_iter hit).2 (by omega))
      by_cases hint : y_iter.intersects = true
      · -- an intersecting row of slices
        have hi2 := hit.intersects.1 hint
        have e1 : span_index tex.slice_y_spans y_iter.index.toNat = s := by
          rw [hys, hit.index]
          exact span_index_eq ys k s hk
        simp only [hint, Bool.not_true, Bool.false_eq_true, if_false, e1, e2]
        obtain ⟨t0, ht0, _, hbegin⟩ :=
          iter_begin_at W xs hplx dst_x (dst_x + width) x_iter
        rw [hs0] at ht0
        cases ht0
        obtain ⟨r, hr, r1, _, r3, r4, r5⟩ := subregion_x_loop_spec tex src_x src_y dst_x dst_y
          width height source_bmp y_iter s W xs handles ys.length k hxs hhs hplx hnodup hgrid
          hklt hwidth hdw hheight hit.index hit.pos ⟨hsb.1, hsb.2.1⟩ ⟨hi2.1, hi2.2⟩
          (hit.intersect_start hint) (hit.intersect_end hint) fuel_x 0 s0
          (pixel_span_iter_begin x_iter xs 0 dst_x (dst_x + width))
          { v with source_x := src_x } gl hs0 hbegin
          (by
            intro _ _ _
            show src_x = _
            rw [hs0start]
            omega)
          (by
            intro hw hh
            show v.source_y = _
            rw [hsy hw hh hlt, hit.intersect_start hint])
          (by omega) (by omega)
        obtain ⟨rx, rv, rg⟩ := r
        rw [hr]
        simp only
        have r3b := fun hw => r3 hw (by omega)
        simp only at r1 r3b r4 r5
        by_cases hlast : k + 1 = ys.length
        · have hnend := iter_next_end H ys hply dst_y (dst_y + height) hdh k s y_iter hit hk
            hlast
          rw [subregion_y_loop_end _ _ _ _ _ _ _ _ _ _ _ _ _ (by omega) hnend]
          refine ⟨_, rfl, ?_, ?_⟩
          · intro h hh
            exact r4 h (fun m _ hm2 => hh k m (le_refl _) hklt hm2)
          · intro ym xm sy sx hkm hm hxm i j hi hix hj hjy
            have hmlt := getElem?_lt ys ym sy hm
            have : ym = k := by omega
            subst this
            rw [hk] at hm
            cases hm
            exact r5 xm sx (Nat.zero_le _) hxm i j hi hix hj hjy
        · obtain ⟨s2, hk2⟩ : ∃ s2, ys[k + 1]? = some s2 :=
            ⟨ys[k + 1], List.getElem?_eq_getElem (by omega)⟩
          have hstep := planned_step H ys hply k s s2 hk hk2
          have hnext := iter_next_at H ys hply dst_y (dst_y + height) k s s2 y_iter hit hk hk2
          obtain ⟨q, hq, q4, q5⟩ := ih (k + 1) s2 (pixel_span_iter_next y_iter) rx
            { rv with source_y := rv.source_y + rv.inter_h } rg hk2 hnext
            (by
              intro hw hh h2
              show rv.source_y + rv.inter_h = _
              rw [r1, r3b hw, hit.intersect_start hint, hit.intersect_end hint]
              show v.source_y + _ = _
              rw [hsy hw hh hlt]
              omega)
            (by omega) (by omega)
          refine ⟨q, hq, ?_, ?_⟩
          · intro h hh
            rw [q4 h (fun ym xm hm1 hm2 hm3 => hh ym xm (by omega) hm2 hm3)]
            exact r4 h (fun m _ hm2 => hh k m (le_refl _) hklt hm2)
          · intro ym xm sy sx hkm hm hxm i j hi hix hj hjy
            have hmlt := getElem?_lt ys ym sy hm
            have hxlt := getElem?_lt xs xm sx hxm
            rcases Nat.eq_or_lt_of_le hkm with heq | hlt2
            · subst heq
              rw [hk] at hm
              cases hm
              rw [q4 _ (fun ym2 xm2 hm1 hm2 hm3 => hne k xm ym2 xm2 hklt hm2 hxlt hm3 (by omega))]
              exact r5 xm sx (Nat.zero_le _) hxm i j hi hix hj hjy
            · rw [q5 ym xm sy sx hlt2 hm hxm i j hi hix hj hjy,
                r4 _ (fun m _ hm2 => hne ym xm k m hmlt hklt hxlt hm2 (by omega))]
      · -- a row of slices above the rectangle
        have hni : ¬ (dst_y < s.start + (s.size - s.waste) ∧ s.start < dst_y + height) :=
          fun h => hint (hit.intersects.2 h)
        have hnx : s.start + (s.size - s.waste) ≤ dst_y := by omega
        simp only [hint, Bool.not_false, if_true]
        by_cases hlast : k + 1 = ys.length
        · have hnend := iter_next_end H ys hply dst_y (dst_y + height) hdh k s y_iter hit hk
            hlast
          have hH := planned_last H ys hply k s hk hlast
          rw [subregion_y_loop_end _ _ _ _ _ _ _ _ _ _ _ _ _ (by omega) hnend]
          refine ⟨_, rfl, fun _ _ => rfl, ?_⟩
          intro ym xm sy sx hkm hm hxm i j hi hix hj hjy
          have hmlt := getElem?_lt ys ym sy hm
          have : ym = k := by omega
          subst this
          rw [hk] at hm
          cases hm
          have hcl := clamp_bounds s j ⟨hsb.1, hsb.2.1⟩ hj
          rw [subregion_texel_outside]
          intro hc
          omega
        · obtain ⟨s2, hk2⟩ : ∃ s2, ys[k + 1]? = some s2 :=
            ⟨ys[k + 1], List.getElem?_eq_getElem (by omega)⟩
          have hstep := planned_step H ys hply k s s2 hk hk2
          have hnext := iter_next_at H ys hply dst_y (dst_y + height) k s s2 y_iter hit hk hk2
          obtain ⟨q, hq, q4, q5⟩ := ih (k + 1) s2 (pixel_span_iter_next y_iter) x_iter
            { v with inter_h := 0, source_y := v.source_y + 0 } gl hk2 hnext
            (by
              intro hw hh h2
              show v.source_y + 0 = _
              rw [hsy hw hh hlt]
              omega)
            (by omega) (by omega)
          refine ⟨q, hq, ?_, ?_⟩
          · intro h hh
            exact q4 h (fun ym xm hm1 hm2 hm3 => hh ym xm (by omega) hm2 hm3)
          · intro ym xm sy sx hkm hm hxm i j hi hix hj hjy
            have hmlt := getElem?_lt ys ym sy hm
            have hxlt := getElem?_lt xs xm sx hxm
            rcases Nat.eq_or_lt_of_le hkm with heq | hlt2
            · subst heq
              rw [hk] at hm
              cases hm
              rw [q4 _ (fun ym2 xm2 hm1 hm2 hm3 =>
                hne k xm ym2 xm2 hklt hm2 hxlt hm3 (by omega))]
              have hcl := clamp_bounds s j ⟨hsb.1, hsb.2.1⟩ hj
              rw [subregion_texel_outside]
              intro hc
              omega
            · exact q5 ym xm sy sx hlt2 hm hxm i j hi hix hj hjy

/-! ## Sub-region upload in whole pixels: the whole call -/

/-- The steps of the sub-region upload in whole pixels on a planned grid of distinct
handles, for a rectangle inside the logical size: the result is `TRUE`, every slice follows
`subregion_texel`, and no other texture changes. -/
theorem pixel_upload_subregion_spec {α : Type} [Inhabited α] (tex : CoglTexture α)
    (src_x src_y dst_x dst_y width height : Int) (source_bmp : CoglBitmap α) (gl : GLState α)
    (W H : Int) (xs ys : List CoglSpan) (handles : List GLuint)
    (hxs : tex.slice_x_spans = some xs) (hys : tex.slice_y_spans = some ys)
    (hhs : tex.slice_gl_handles = some handles)
    (hplx : Planned W xs) (hply : Planned H ys) (hnodup : handles.Nodup)
    (hgrid : handles.length = xs.length * ys.length)
    (hdx : 0 ≤ dst_x) (hdy : 0 ≤ dst_y) (hwidth : 0 ≤ width) (hheight : 0 ≤ height)
    (hdw : dst_x + width ≤ W) (hdh : dst_y + height ≤ H) :
    ∃ gl_new, pixel_upload_subregion_to_gl tex src_x src_y dst_x dst_y width height
        source_bmp gl = some (true, gl_new) ∧
      (∀ h, (∀ ym xm, ym < ys.length → xm < xs.length →
          h ≠ handles.getD (ym * xs.length + xm) 0) →
        gl_new.textures h = gl.textures h) ∧
      ∀ (ym xm : Nat) (sy sx : CoglSpan), ys[ym]? = some sy → xs[xm]? = some sx →
        ∀ i j : Int, 0 ≤ i → i < sx.size → 0 ≤ j → j < sy.size →
          (gl_new.textures (handles.getD (ym * xs.length + xm) 0)).texel i j =
            subregion_texel source_bmp src_x src_y dst_x dst_y width height sx sy
              ((gl.textures (handles.getD (ym * xs.length + xm) 0)).texel i j) i j := by
  have e1 : tex.slice_y_spans.getD [] = ys := by
    rw [hys]
    rfl
  obtain ⟨s0, hs0, hs0start, hbegin⟩ :=
    iter_begin_at H ys hply dst_y (dst_y + height) default
  obtain ⟨q, hq, q4, q5⟩ := subregion_y_loop_spec tex src_x src_y dst_x dst_y width height
    source_bmp W H xs ys handles ((dst_x + width).toNat + 1) hxs hys hhs hplx hply hnodup
    hgrid hdx hwidth hdw hheight hdh
    (by
      push_cast
      rw [Int.toNat_of_nonneg (by omega)]
      omega)
    ((dst_y + height).toNat + 1) 0 s0
    (pixel_span_iter_begin default ys 0 dst_y (dst_y + height)) default
    { source_x := 0, source_y := src_y, inter_w := 0, inter_h := 0, local_x := 0,
      local_y := 0 } gl hs0 hbegin
    (by
      intro _ _ _
      show src_y = _
      rw [hs0start]
      omega)
    (by omega)
    (by
      push_cast
      rw [Int.toNat_of_nonneg (by omega)]
      omega)
  obtain ⟨qy, qx, qv, qg⟩ := q
  unfold pixel_upload_subregion_to_gl
  simp only [e1]
  rw [hq]
  refine ⟨qg, rfl, ?_, ?_⟩
  · intro h hh
    exact q4 h (fun ym xm _ h2 h3 => hh ym xm h2 h3)
  · intro ym xm sy sx hm hxm i j hi hix hj hjy
    exact q5 ym xm sy sx (Nat.zero_le _) hm hxm i j hi hix hj hjy

/-! ## Coordinate mapping of an unsliced surface -/

/-- C11: for an unsliced `GL_TEXTURE_2D` surface whose first x span has size `s` and waste
`w` with logical width `s - w` (and likewise along y),
`_cogl_texture_2d_sliced_transform_coords_to_gl` (coordinates as exact rationals) maps a
virtual coordinate `c` to `c * (s - w) / s`, and `t` the same way with the y span; so
virtual 1 maps to `(s - w) / s`, which is not 1 whenever `w > 0`. -/
theorem transform_coords_mapping {α : Type} (drv : Driver) (tex_2ds : CoglTexture2DSliced α)
    (x_span y_span : CoglSpan) (c t : ℚ)
    (hunsliced : _cogl_texture_2d_sliced_is_sliced tex_2ds = false)
    (htarget : tex_2ds.gl_target = GL_TEXTURE_2D)
    (hx : span_index tex_2ds.slice_x_spans 0 = x_span)
    (hy : span_index tex_2ds.slice_y_spans 0 = y_span)
    (hwidth : tex_2ds.width = x_span.size - x_span.waste)
    (hheight : tex_2ds.height = y_span.size - y_span.waste) :
    _cogl_texture_2d_sliced_transform_coords_to_gl drv tex_2ds c t =
      some (c * ((x_span.size : ℚ) - (x_span.waste : ℚ)) / (x_span.size : ℚ),
        t * ((y_span.size : ℚ) - (y_span.waste : ℚ)) / (y_span.size : ℚ)) ∧
    (0 < x_span.waste →
      _cogl_texture_2d_sliced_transform_coords_to_gl drv tex_2ds 1 t =
        some (((x_span.size : ℚ) - (x_span.waste : ℚ)) / (x_span.size : ℚ),
          t * ((y_span.size : ℚ) - (y_span.waste : ℚ)) / (y_span.size : ℚ)) ∧
      ((x_span.size : ℚ) - (x_span.waste : ℚ)) / (x_span.size : ℚ) ≠ 1) ∧
    (0 < y_span.waste →
      _cogl_texture_2d_sliced_transform_coords_to_gl drv tex_2ds c 1 =
        some (c * ((x_span.size : ℚ) - (x_span.waste : ℚ)) / (x_span.size : ℚ),
          ((y_span.size : ℚ) - (y_span.waste : ℚ)) / (y_span.size : ℚ)) ∧
      ((y_span.size : ℚ) - (y_span.waste : ℚ)) / (y_span.size : ℚ) ≠ 1) := by
  have hne : ∀ s w : Int, 0 < w → ((s : ℚ) - (w : ℚ)) / (s : ℚ) ≠ 1 := by
    intro s w hw h
    by_cases hs : (s : ℚ) = 0
    · rw [hs] at h
      simp at h
    · rw [div_eq_one_iff_eq hs] at h
      have : (w : ℚ) = 0 := by linarith
      have : w = 0 := by exact_mod_cast this
      omega
  have hgen : ∀ a b : ℚ, _cogl_texture_2d_sliced_transform_coords_to_gl drv tex_2ds a b =
      some (a * ((x_span.size : ℚ) - (x_span.waste : ℚ)) / (x_span.size : ℚ),
        b * ((y_span.size : ℚ) - (y_span.waste : ℚ)) / (y_span.size : ℚ)) := by
    intro a b
    have hrect : ¬ (drv.have_cogl_gl = true ∧ tex_2ds.gl_target = GL_TEXTURE_RECTANGLE_ARB) := by
      rw [htarget]
      intro h
      exact absurd h.2 (by decide)
    unfold _cogl_texture_2d_sliced_transform_coords_to_gl
    simp only [hunsliced, Bool.false_eq_true, if_false, hx, hy, hwidth, hheight, if_neg hrect]
    push_cast
    rw [mul_div_assoc, mul_div_assoc]
  refine ⟨hgen c t, fun hw => ⟨?_, hne _ _ hw⟩, fun hw => ⟨?_, hne _ _ hw⟩⟩
  · rw [hgen 1 t, one_mul]
  · rw [hgen c 1, one_mul]

theorem transform_coords_mapping_witness :
    _cogl_texture_2d_sliced_transform_coords_to_gl example_driver example_foreign 1 1 =
      some ((((8 : Int) : ℚ) - ((2 : Int) : ℚ)) / ((8 : Int) : ℚ),
        (1 : ℚ) * (((4 : Int) : ℚ) - ((1 : Int) : ℚ)) / ((4 : Int) : ℚ)) :=
  ((transform_coords_mapping example_driver example_foreign
    { start := 0, size := 8, waste := 2 } { start := 0, size := 4, waste := 1 } 1 1 rfl rfl
    rfl rfl (by decide) (by decide)).2.1 (by decide)).1

/-! ## One step of the span iterator in whole pixels -/

theorem pixel_span_iter_update_eq (iter : CoglSpanIter) :
    pixel_span_iter_update iter =
      if iter.pos + ((iter.array.getD iter.index.toNat default).size -
          (iter.array.getD iter.index.toNat default).waste) ≤ iter.cover_start ∨
          iter.pos ≥ iter.cover_end then
        { iter with
          span := some (iter.array.getD iter.index.toNat default)
          next_pos := iter.pos + ((iter.array.getD iter.index.toNat default).size -
            (iter.array.getD iter.index.toNat default).waste)
          intersects := false }
      else
        { iter with
          span := some (iter.array.getD iter.index.toNat default)
          next_pos := iter.pos + ((iter.array.getD iter.index.toNat default).size -
            (iter.array.getD iter.index.toNat default).waste)
          intersects := true
          intersect_start := max iter.pos iter.cover_start
          intersect_end := min (iter.pos + ((iter.array.getD iter.index.toNat default).size -
            (iter.array.getD iter.index.toNat default).waste)) iter.cover_end } := by
  unfold pixel_span_iter_update
  simp only
  split
  · rfl
  · by_cases h3 : iter.pos < iter.cover_start <;>
      by_cases h4 : iter.pos + ((iter.array.getD iter.index.toNat default).size -
        (iter.array.getD iter.index.toNat default).waste) > iter.cover_end
    · simp only [h3, h4, if_true]
      rw [max_eq_right (by omega), min_eq_right (by omega)]
    · simp only [h3, h4, if_true, if_false]
      rw [max_eq_right (by omega), min_eq_left (by omega)]
    · simp only [h3, h4, if_true, if_false]
      rw [max_eq_left (by omega), min_eq_right (by omega)]
    · simp only [h3, h4, if_false]
      rw [max_eq_left (by omega), min_eq_left (by omega)]

/-! ## The span iterator in whole pixels does not wrap inside the surface -/

theorem pixel_span_iter_visits_spec (W : Int) (xs : List CoglSpan) (hpl : Planned W xs)
    (cs ce : Int) (hce : ce ≤ W) :
    ∀ (fuel k : Nat) (s : CoglSpan) (it : CoglSpanIter),
      xs[k]? = some s → IterAt xs cs ce k s it → 0 < fuel → ce - s.start < (fuel : Int) →
      ∃ n : Nat, k + n ≤ xs.length ∧
        pixel_span_iter_visits fuel it = some ((List.range' k n).map (fun (i : Nat) => (i : Int))) := by
  intro fuel
  induction fuel with
  | zero =>
    intro k s it _ _ hf
    omega
  | succ fuel ih =>
    intro k s it hk hit _ hfuel
    have hklt := getElem?_lt xs k s hk
    rw [pixel_span_iter_visits]
    by_cases hend : pixel_span_iter_end it = true
    · rw [if_pos hend]
      exact ⟨0, by omega, rfl⟩
    · rw [if_neg hend]
      have hlt : s.start < ce := by
        by_contra hc
        exact hend ((iter_end_iff xs _ _ k s it hit).2 (by omega))
      by_cases hlast : k + 1 = xs.length
      · have hnend := iter_next_end W xs hpl cs ce hce k s it hit hk hlast
        obtain ⟨f, rfl⟩ : ∃ f, fuel = f + 1 := ⟨fuel - 1, by omega⟩
        refine ⟨1, by omega, ?_⟩
        rw [pixel_span_iter_visits, if_pos hnend, hit.index]
        rfl
      · obtain ⟨s2, hk2⟩ : ∃ s2, xs[k + 1]? = some s2 :=
          ⟨xs[k + 1], List.getElem?_eq_getElem (by omega)⟩
        have hstep := planned_step W xs hpl k s s2 hk hk2
        have hsb := planned_span_bounds W xs hpl k s hk
        have hnext := iter_next_at W xs hpl cs ce k s s2 it hit hk hk2
        obtain ⟨n, hn, hv⟩ := ih (k + 1) s2 (pixel_span_iter_next it) hk2 hnext (by omega)
          (by omega)
        refine ⟨n + 1, by omega, ?_⟩
        rw [hv, hit.index]
        rfl

theorem range'_map_cast_nodup (k n : Nat) :
    ((List.range' k n).map (fun (i : Nat) => (i : Int))).Nodup :=
  (List.nodup_range' k n).map (fun a b h => by exact_mod_cast h)

theorem bound_handles_append (a b : List GLCall) :
    bound_handles (a ++ b) = bound_handles a ++ bound_handles b := by
  unfold bound_handles
  rw [List.filterMap_append]

theorem bound_handles_sub {α : Type} (g : GLState α) (xo yo w h : Int) (px : Int → Int → α) :
    bound_handles (glTexSubImage2D g xo yo w h px).log = bound_handles g.log := by
  show bound_handles (g.log ++ [GLCall.texSubImage2D xo yo w h]) = _
  rw [bound_handles_append]
  simp [bound_handles]

theorem bound_handles_bind {α : Type} (g : GLState α) (handle : GLuint) :
    bound_handles (glBindTexture g handle).log = bound_handles g.log ++ [handle] := by
  show bound_handles (g.log ++ [GLCall.bindTexture handle]) = _
  rw [bound_handles_append]
  simp [bound_handles]

theorem subregion_slice_binds {α : Type} [Inhabited α] (tex : CoglTexture α)
    (src_x src_y dst_x dst_y : Int) (source_bmp : CoglBitmap α) (y_iter : CoglSpanIter)
    (y_span : CoglSpan) (x_iter : CoglSpanIter) (v : SubregionLocals) (gl : GLState α) :
    bound_handles
        (pixel_subregion_slice tex src_x src_y dst_x dst_y source_bmp y_iter y_span x_iter v gl).2.log =
      bound_handles gl.log ++
        [handle_index tex.slice_gl_handles
          (y_iter.index * (array_len tex.slice_x_spans : Int) + x_iter.index).toNat] := by
  have hI : ∀ (c : Prop) [Decidable c] (g : GLState α) (xo yo w h : Int)
      (px : Int → Int → α),
      bound_handles (if c then glTexSubImage2D g xo yo w h px else g).log =
        bound_handles g.log := by
    intro c _ g xo yo w h px
    split
    · exact bound_handles_sub g xo yo w h px
    · rfl
  unfold pixel_subregion_slice
  simp only
  rw [hI, hI, bound_handles_sub, bound_handles_bind]

theorem subregion_x_loop_binds {α : Type} [Inhabited α] (tex : CoglTexture α)
    (src_x src_y dst_x dst_y width : Int) (source_bmp : CoglBitmap α)
    (y_iter : CoglSpanIter) (y_span : CoglSpan) (W : Int) (xs : List CoglSpan)
    (handles : List GLuint) (yi : Nat)
    (hxs : tex.slice_x_spans = some xs) (hhs : tex.slice_gl_handles = some handles)
    (hpl : Planned W xs) (hdw : dst_x + width ≤ W) (hyidx : y_iter.index = (yi : Int)) :
    ∀ (fuel k : Nat) (s : CoglSpan) (x_iter : CoglSpanIter) (v : SubregionLocals)
      (gl : GLState α) (r : CoglSpanIter × SubregionLocals × GLState α),
      xs[k]? = some s → IterAt xs dst_x (dst_x + width) k s x_iter →
      pixel_subregion_x_loop tex src_x src_y dst_x dst_y source_bmp y_iter y_span fuel x_iter v gl =
        some r →
      ∃ L : List GLuint, bound_handles r.2.2.log = bound_handles gl.log ++ L ∧
        L.Sublist ((List.range' k (xs.length - k)).map
          (fun x => handles.getD (yi * xs.length + x) 0)) := by
  intro fuel
  induction fuel with
  | zero =>
    intro k s x_iter v gl r _ _ h
    rw [pixel_subregion_x_loop] at h
    cases h
  | succ fuel ih =>
    intro k s x_iter v gl r hk hit h
    have hklt := getElem?_lt xs k s hk
    have hlen : xs.length - k = (xs.length - (k + 1)) + 1 := by omega
    have hrest : ∀ (x_iter2 : CoglSpanIter) (v2 : SubregionLocals) (g2 : GLState α)
        (pre : List GLuint),
        x_iter2 = pixel_span_iter_next x_iter →
        bound_handles g2.log = bound_handles gl.log ++ pre →
        pre.Sublist [handles.getD (yi * xs.length + k) 0] →
        pixel_subregion_x_loop tex src_x src_y dst_x dst_y source_bmp y_iter y_span fuel x_iter2 v2
          g2 = some r →
        ∃ L : List GLuint, bound_handles r.2.2.log = bound_handles gl.log ++ L ∧
          L.Sublist ((List.range' k (xs.length - k)).map
            (fun x => handles.getD (yi * xs.length + x) 0)) := by
      intro x_iter2 v2 g2 pre hx2 hg2 hpre h2
      subst hx2
      rw [hlen, List.range'_succ, List.map_cons]
      by_cases hlast : k + 1 = xs.length
      · have hnend := iter_next_end W xs hpl dst_x (dst_x + width) hdw k s x_iter hit hk hlast
        cases fuel with
        | zero =>
          rw [pixel_subregion_x_loop] at h2
          cases h2
        | succ f =>
          rw [subregion_x_loop_end _ _ _ _ _ _ _ _ _ _ _ _ (by omega) hnend] at h2
          cases h2
          refine ⟨pre, hg2, ?_⟩
          have : xs.length - (k + 1) = 0 := by omega
          rw [this]
          exact hpre
      · obtain ⟨s2, hk2⟩ : ∃ s2, xs[k + 1]? = some s2 :=
          ⟨xs[k + 1], List.getElem?_eq_getElem (by omega)⟩
        have hnext := iter_next_at W xs hpl dst_x (dst_x + width) k s s2 x_iter hit hk hk2
        obtain ⟨L, hL, hsub⟩ := ih (k + 1) s2 _ v2 g2 r hk2 hnext h2
        refine ⟨pre ++ L, by rw [hL, hg2, List.append_assoc], ?_⟩
        exact List.Sublist.append hpre hsub
    rw [pixel_subregion_x_loop] at h
    by_cases hend : pixel_span_iter_end x_iter = true
    · rw [if_pos hend] at h
      cases h
      exact ⟨[], by simp, List.nil_sublist _⟩
    · rw [if_neg hend] at h
      by_cases hint : x_iter.intersects = true
      · simp only [hint, Bool.not_true, Bool.false_eq_true, if_false] at h
        refine hrest _ _ _ [handles.getD (yi * xs.length + k) 0] rfl ?_ (List.Sublist.refl _) h
        rw [subregion_slice_binds,
          handle_at tex xs handles hxs hhs y_iter x_iter yi k hyidx hit.index]
      · simp only [hint, Bool.not_false, if_true] at h
        exact hrest _ _ _ [] rfl (by simp) (List.nil_sublist _) h

theorem subregion_y_loop_binds {α : Type} [Inhabited α] (tex : CoglTexture α)
    (src_x src_y dst_x dst_y width height : Int) (source_bmp : CoglBitmap α)
    (W H : Int) (xs ys : List CoglSpan) (handles : List GLuint) (fuel_x : Nat)
    (hxs : tex.slice_x_spans = some xs)
    (hhs : tex.slice_gl_handles = some handles)
    (hplx : Planned W xs) (hply : Planned H ys)
    (hdw : dst_x + width ≤ W) (hdh : dst_y + height ≤ H) :
    ∀ (fuel k : Nat) (s : CoglSpan) (y_iter x_iter : CoglSpanIter) (v : SubregionLocals)
      (gl : GLState α) (r : CoglSpanIter × CoglSpanIter × SubregionLocals × GLState α),
      ys[k]? = some s → IterAt ys dst_y (dst_y + height) k s y_iter →
      pixel_subregion_y_loop tex src_x src_y dst_x dst_y width source_bmp fuel_x fuel y_iter x_iter
        v gl = some r →
      ∃ L : List GLuint, bound_handles r.2.2.2.log = bound_handles gl.log ++ L ∧
        L.Sublist ((List.range' k (ys.length - k)).flatMap (fun y =>
          (List.range' 0 xs.length).map (fun x => handles.getD (y * xs.length + x) 0))) := by
  have e2 : tex.slice_x_spans.getD [] = xs := by
    rw [hxs]
    rfl
  intro fuel
  induction fuel with
  | zero =>
    intro k s y_iter x_iter v gl r _ _ h
    rw [pixel_subregion_y_loop] at h
    cases h
  | succ fuel ih =>
    intro k s y_iter x_iter v gl r hk hit h
    have hklt := getElem?_lt ys k s hk
    have hlen : ys.length - k = (ys.length - (k + 1)) + 1 := by omega
    have hrest : ∀ (x_iter2 : CoglSpanIter) (v2 : SubregionLocals) (g2 : GLState α)
        (pre : List GLuint),
        bound_handles g2.log = bound_handles gl.log ++ pre →
        pre.Sublist ((List.range' 0 xs.length).map
          (fun x => handles.getD (k * xs.length + x) 0)) →
        pixel_subregion_y_loop tex src_x src_y dst_x dst_y width source_bmp fuel_x fuel
          (pixel_span_iter_next y_iter) x_iter2 v2 g2 = some r →
        ∃ L : List GLuint, bound_handles r.2.2.2.log = bound_handles gl.log ++ L ∧
          L.Sublist ((List.range' k (ys.length - k)).flatMap (fun y =>
            (List.range' 0 xs.length).map
              (fun x => handles.getD (y * xs.length + x) 0))) := by
      intro x_iter2 v2 g2 pre hg2 hpre h2
      rw [hlen, List.range'_succ, List.flatMap_cons]
      by_cases hlast : k + 1 = ys.length
      · have hnend := iter_next_end H ys hply dst_y (dst_y + height) hdh k s y_iter hit hk hlast
        cases fuel with
        | zero =>
          rw [pixel_subregion_y_loop] at h2
          cases h2
        | succ f =>
          rw [subregion_y_loop_end _ _ _ _ _ _ _ _ _ _ _ _ _ (by omega) hnend] at h2
          cases h2
          refine ⟨pre, hg2, ?_⟩
          have : ys.length - (k + 1) = 0 := by omega
          rw [this]
          simpa using hpre
      · obtain ⟨s2, hk2⟩ : ∃ s2, ys[k + 1]? = some s2 :=
          ⟨ys[k + 1], List.getElem?_eq_getElem (by omega)⟩
        have hnext := iter_next_at H ys hply dst_y (dst_y + height) k s s2 y_iter hit hk hk2
        obtain ⟨L, hL, hsub⟩ := ih (k + 1) s2 _ x_iter2 v2 g2 r hk2 hnext h2
        refine ⟨pre ++ L, by rw [hL, hg2, List.append_assoc], ?_⟩
        exact List.Sublist.append hpre hsub
    rw [pixel_subregion_y_loop] at h
    by_cases hend : pixel_span_iter_end y_iter = true
    · rw [if_pos hend] at h
      cases h
      exact ⟨[], by simp, List.nil_sublist _⟩
    · rw [if_neg hend] at h
      by_cases hint : y_iter.intersects = true
      · simp only [hint, Bool.not_true, Bool.false_eq_true, if_false, e2] at h
        obtain ⟨s0, hs0, _, hbegin⟩ := iter_begin_at W xs hplx dst_x (dst_x + width) x_iter
        split at h
        · cases h
        · rename_i qx qv qg hq
          obtain ⟨L, hL, hsub⟩ := subregion_x_loop_binds tex src_x src_y dst_x dst_y width
            source_bmp y_iter _ W xs handles k hxs hhs hplx hdw hit.index fuel_x 0 s0 _ _ gl
            (qx, qv, qg) hs0 hbegin hq
          exact hrest qx _ qg L hL (by simpa using hsub) h
      · simp only [hint, Bool.not_false, if_true] at h
        exact hrest _ _ gl [] (by simp) (List.nil_sublist _) h

theorem grid_handles_nodup (handles : List GLuint) (nx ny : Nat)
    (hgrid : handles.length = nx * ny) (hnodup : handles.Nodup) :
    ((List.range' 0 ny).flatMap (fun y =>
      (List.range' 0 nx).map (fun x => handles.getD (y * nx + x) 0))).Nodup := by
  have h := grid_keys_nodup handles nx ny hgrid hnodup
  rw [List.map_flatMap] at h
  simp only [List.map_map, Function.comp_def, List.range_eq_range'] at h
  exact h

/-! ## The fixed-point span iterator -/

theorem fixed_to_int_scaled (k : Int) : CLUTTER_FIXED_TO_INT (65536 * k) = k := by
  unfold CLUTTER_FIXED_TO_INT
  omega

theorem int_to_fixed_in_range (k : Int) (h1 : -32768 ≤ k) (h2 : k ≤ 32767) :
    CLUTTER_INT_TO_FIXED k = 65536 * k := by
  unfold CLUTTER_INT_TO_FIXED to_gint
  norm_num
  omega

theorem to_gint_in_range (i : Int) (h1 : -2147483648 ≤ i) (h2 : i < 2147483648) :
    to_gint i = i := by
  unfold to_gint
  norm_num
  omega

theorem to_gint_add_int_to_fixed (p d : Int) :
    to_gint (p + CLUTTER_INT_TO_FIXED d) = to_gint (p + 65536 * d) := by
  unfold CLUTTER_INT_TO_FIXED to_gint
  norm_num
  omega

theorem fixed_diff (x y : Int) (h1 : -32768 ≤ x - y) (h2 : x - y ≤ 32767) :
    CLUTTER_FIXED_TO_INT (to_gint (65536 * x - 65536 * y)) = x - y := by
  rw [to_gint_in_range _ (by omega) (by omega)]
  unfold CLUTTER_FIXED_TO_INT
  omega

theorem span_iter_update_eq (iter : CoglSpanIter) :
    _cogl_span_iter_update iter =
      if to_gint (iter.pos + CLUTTER_INT_TO_FIXED
            ((iter.array.getD iter.index.toNat default).size -
              (iter.array.getD iter.index.toNat default).waste)) ≤ iter.cover_start ∨
          iter.pos ≥ iter.cover_end then
        { iter with
          span := some (iter.array.getD iter.index.toNat default)
          next_pos := to_gint (iter.pos + CLUTTER_INT_TO_FIXED
            ((iter.array.getD iter.index.toNat default).size -
              (iter.array.getD iter.index.toNat default).waste))
          intersects := false }
      else
        { iter with
          span := some (iter.array.getD iter.index.toNat default)
          next_pos := to_gint (iter.pos + CLUTTER_INT_TO_FIXED
            ((iter.array.getD iter.index.toNat default).size -
              (iter.array.getD iter.index.toNat default).waste))
          intersects := true
          intersect_start := max iter.pos iter.cover_start
          intersect_end := min (to_gint (iter.pos + CLUTTER_INT_TO_FIXED
            ((iter.array.getD iter.index.toNat default).size -
              (iter.array.getD iter.index.toNat default).waste))) iter.cover_end } := by
  unfold _cogl_span_iter_update
  simp only
  generalize to_gint (iter.pos + CLUTTER_INT_TO_FIXED
    ((iter.array.getD iter.index.toNat default).size -
      (iter.array.getD iter.index.toNat default).waste)) = N
  split
  · rfl
  · by_cases h3 : iter.pos < iter.cover_start <;> by_cases h4 : N > iter.cover_end
    · simp only [h3, h4, if_true]
      rw [max_eq_right (by omega), min_eq_right (by omega)]
    · simp only [h3, h4, if_true, if_false]
      rw [max_eq_right (by omega), min_eq_left (by omega)]
    · simp only [h3, h4, if_true, if_false]
      rw [max_eq_left (by omega), min_eq_right (by omega)]
    · simp only [h3, h4, if_false]
      rw [max_eq_left (by omega), min_eq_left (by omega)]

/-- The fields of an iterator after `_cogl_span_iter_update`. -/
theorem span_iter_update_fields (iter : CoglSpanIter) :
    (_cogl_span_iter_update iter).index = iter.index ∧
    (_cogl_span_iter_update iter).array = iter.array ∧
    (_cogl_span_iter_update iter).pos = iter.pos ∧
    (_cogl_span_iter_update iter).origin = iter.origin ∧
    (_cogl_span_iter_update iter).cover_start = iter.cover_start ∧
    (_cogl_span_iter_update iter).cover_end = iter.cover_end ∧
    (_cogl_span_iter_update iter).span = some (iter.array.getD iter.index.toNat default) ∧
    (_cogl_span_iter_update iter).next_pos =
      to_gint (iter.pos + CLUTTER_INT_TO_FIXED
        ((iter.array.getD iter.index.toNat default).size -
          (iter.array.getD iter.index.toNat default).waste)) ∧
    ((_cogl_span_iter_update iter).intersects = true ↔
      ¬ ((_cogl_span_iter_update iter).next_pos ≤ iter.cover_start ∨
        iter.pos ≥ iter.cover_end)) ∧
    ((_cogl_span_iter_update iter).intersects = true →
      (_cogl_span_iter_update iter).intersect_start = max iter.pos iter.cover_start ∧
      (_cogl_span_iter_update iter).intersect_end =
        min (_cogl_span_iter_update iter).next_pos iter.cover_end) := by
  rw [span_iter_update_eq]
  split
  · rename_i h1
    exact ⟨rfl, rfl, rfl, rfl, rfl, rfl, rfl, rfl, ⟨fun h => (by cases h), fun h => absurd h1 h⟩,
      fun h => (by cases h)⟩
  · rename_i h1
    exact ⟨rfl, rfl, rfl, rfl, rfl, rfl, rfl, rfl, ⟨fun _ => h1, fun _ => rfl⟩,
      fun _ => ⟨rfl, rfl⟩⟩

/-- The fields of an iterator in whole pixels after `pixel_span_iter_update`. -/
theorem pixel_span_iter_update_fields (iter : CoglSpanIter) :
    (pixel_span_iter_update iter).index = iter.index ∧
    (pixel_span_iter_update iter).array = iter.array ∧
    (pixel_span_iter_update iter).pos = iter.pos ∧
    (pixel_span_iter_update iter).cover_start = iter.cover_start ∧
    (pixel_span_iter_update iter).cover_end = iter.cover_end ∧
    (pixel_span_iter_update iter).next_pos =
      iter.pos + ((iter.array.getD iter.index.toNat default).size -
        (iter.array.getD iter.index.toNat default).waste) ∧
    ((pixel_span_iter_update iter).intersects = true ↔
      ¬ ((pixel_span_iter_update iter).next_pos ≤ iter.cover_start ∨
        iter.pos ≥ iter.cover_end)) ∧
    ((pixel_span_iter_update iter).intersects = true →
      (pixel_span_iter_update iter).intersect_start = max iter.pos iter.cover_start ∧
      (pixel_span_iter_update iter).intersect_end =
        min (pixel_span_iter_update iter).next_pos iter.cover_end) := by
  rw [pixel_span_iter_update_eq]
  split
  · rename_i h1
    exact ⟨rfl, rfl, rfl, rfl, rfl, rfl, ⟨fun h => (by cases h), fun h => absurd h1 h⟩,
      fun h => (by cases h)⟩
  · rename_i h1
    exact ⟨rfl, rfl, rfl, rfl, rfl, rfl, ⟨fun _ => h1, fun _ => rfl⟩, fun _ => ⟨rfl, rfl⟩⟩

/-- One update of the fixed-point iterator computes 65536 times what the update in whole
pixels computes, when the pixel positions fit the range of `ClutterFixed`. -/
theorem fixed_update (a b : CoglSpanIter) (h : FixedPre a b)
    (hr : InFixedRange (pixel_span_iter_update a)) :
    FixedOf (pixel_span_iter_update a) (_cogl_span_iter_update b) := by
  obtain ⟨p1, p2, p3, p4, p5, p6, p7, p8⟩ := pixel_span_iter_update_fields a
  obtain ⟨f1, f2, f3, _, f4, f5, _, f6, f7, f8⟩ := span_iter_update_fields b
  have hlo := hr.next_lo
  have hhi := hr.next_hi
  rw [p3, p5, p6] at hlo hhi
  rw [h.index, h.array, h.pos, to_gint_add_int_to_fixed] at f6
  have hnext : a.pos < a.cover_end → (_cogl_span_iter_update b).next_pos =
      65536 * (pixel_span_iter_update a).next_pos := by
    intro hlt
    rw [f6, p6, to_gint_in_range _ (by have := hlo hlt; omega) (by have := hhi hlt; omega)]
    omega
  have hint : (_cogl_span_iter_update b).intersects = true ↔
      (pixel_span_iter_update a).intersects = true := by
    rw [f7, p7, h.cover_start, h.pos, h.cover_end]
    by_cases hlt : a.pos < a.cover_end
    · rw [hnext hlt]
      constructor <;> intro hh <;> omega
    · constructor <;> intro hh <;> omega
  refine ⟨by rw [f1, p1, h.index], by rw [f2, p2, h.array], by rw [f3, p3, h.pos],
    by rw [f4, p4, h.cover_start], by rw [f5, p5, h.cover_end], Bool.eq_iff_iff.2 hint, ?_, ?_,
    fun hlt => hnext (by rw [p3, p5] at hlt; exact hlt)⟩
  · intro hi
    have hlt : a.pos < a.cover_end := by
      have := p7.1 hi
      omega
    rw [(f8 (hint.2 hi)).1, (p8 hi).1, h.pos, h.cover_start]
    omega
  · intro hi
    have hlt : a.pos < a.cover_end := by
      have := p7.1 hi
      omega
    rw [(f8 (hint.2 hi)).2, (p8 hi).2, hnext hlt, h.cover_end]
    omega

theorem fixed_begin (a b : CoglSpanIter) (xs : List CoglSpan) (cs ce : Int)
    (h1 : -32768 ≤ cs) (h2 : cs ≤ 32767) (h3 : -32768 ≤ ce) (h4 : ce ≤ 32767)
    (hr : InFixedRange (pixel_span_iter_begin a xs 0 cs ce)) :
    FixedOf (pixel_span_iter_begin a xs 0 cs ce)
      (_cogl_span_iter_begin b xs 0 (CLUTTER_INT_TO_FIXED cs) (CLUTTER_INT_TO_FIXED ce)) := by
  unfold pixel_span_iter_begin _cogl_span_iter_begin
  unfold pixel_span_iter_begin at hr
  exact fixed_update _ _
    ⟨rfl, rfl, rfl, int_to_fixed_in_range cs h1 h2, int_to_fixed_in_range ce h3 h4⟩ hr

theorem fixed_next (a b : CoglSpanIter) (h : FixedOf a b) (hlt : a.pos < a.cover_end)
    (hr : InFixedRange (pixel_span_iter_next a)) :
    FixedOf (pixel_span_iter_next a) (_cogl_span_iter_next b) := by
  unfold pixel_span_iter_next _cogl_span_iter_next
  unfold pixel_span_iter_next at hr
  refine fixed_update _ _ ⟨?_, h.array, h.next_pos hlt, h.cover_start, h.cover_end⟩ hr
  show (b.index + 1) % (b.array.length : Int) = (a.index + 1) % (a.array.length : Int)
  rw [h.index, h.array]

theorem fixed_end (a b : CoglSpanIter) (h : FixedOf a b) :
    _cogl_span_iter_end b = pixel_span_iter_end a := by
  unfold _cogl_span_iter_end pixel_span_iter_end
  rw [h.pos, h.cover_end]
  apply Bool.eq_iff_iff.2
  simp only [decide_eq_true_eq]
  omega

theorem pixel_end_false (a : CoglSpanIter) (h : ¬ pixel_span_iter_end a = true) :
    a.pos < a.cover_end := by
  unfold pixel_span_iter_end at h
  simp only [decide_eq_true_eq] at h
  omega

theorem run_safe_range (n : Nat) (it : CoglSpanIter) (h : PixelRunSafe n it) :
    InFixedRange it := by
  cases n with
  | zero => exact h
  | succ n => exact h.1

theorem run_safe_of_end (n : Nat) (it : CoglSpanIter) (h : it.pos ≥ it.cover_end) :
    PixelRunSafe n it := by
  have hr : InFixedRange it :=
    ⟨fun h2 => by omega, fun h2 => by omega, fun h2 => by omega, fun h2 => by omega,
      fun h2 => by omega, fun h2 => by omega⟩
  cases n with
  | zero => exact hr
  | succ n => exact ⟨hr, fun h2 => by omega⟩

/-- The loop of the fixed-point iterator meets the span indices that the loop in whole
pixels meets, when the pixel positions fit the range of `ClutterFixed`. -/
theorem fixed_visits (fuel : Nat) :
    ∀ (a b : CoglSpanIter), FixedOf a b → PixelRunSafe fuel a →
      span_iter_visits fuel b = pixel_span_iter_visits fuel a := by
  induction fuel with
  | zero =>
    intro a b _ _
    rfl
  | succ n ih =>
    intro a b h hs
    rw [span_iter_visits, pixel_span_iter_visits, fixed_end a b h]
    by_cases hend : pixel_span_iter_end a = true
    · rw [if_pos hend, if_pos hend]
    · rw [if_neg hend, if_neg hend]
      have hlt := pixel_end_false a hend
      have hs2 := hs.2 hlt
      rw [ih _ _ (fixed_next a b h hlt (run_safe_range n _ hs2)) hs2, h.index]

/-! ## The sub-region upload in fixed point and in whole pixels -/

theorem fixed_slice {α : Type} [Inhabited α] (tex : CoglTexture α)
    (src_x src_y dst_x dst_y : Int) (source_bmp : CoglBitmap α) (py fy : CoglSpanIter)
    (y_span : CoglSpan) (px fx : CoglSpanIter) (v : SubregionLocals) (gl : GLState α)
    (hx : FixedOf px fx) (hy : FixedOf py fy) (hxr : InFixedRange px) (hyr : InFixedRange py)
    (hxl : px.pos < px.cover_end) (hyl : py.pos < py.cover_end)
    (hxi : px.intersects = true) (hyi : py.intersects = true) :
    subregion_slice tex src_x src_y dst_x dst_y source_bmp fy y_span fx v gl =
      pixel_subregion_slice tex src_x src_y dst_x dst_y source_bmp py y_span px v gl := by
  have e1 : CLUTTER_FIXED_TO_INT (to_gint (fx.intersect_end - fx.intersect_start)) =
      px.intersect_end - px.intersect_start := by
    rw [hx.intersect_end hxi, hx.intersect_start hxi]
    exact fixed_diff _ _ (hxr.width_lo hxl hxi) (hxr.width_hi hxl hxi)
  have e2 : CLUTTER_FIXED_TO_INT (to_gint (fy.intersect_end - fy.intersect_start)) =
      py.intersect_end - py.intersect_start := by
    rw [hy.intersect_end hyi, hy.intersect_start hyi]
    exact fixed_diff _ _ (hyr.width_lo hyl hyi) (hyr.width_hi hyl hyi)
  have e3 : CLUTTER_FIXED_TO_INT (to_gint (fx.intersect_start - fx.pos)) =
      px.intersect_start - px.pos := by
    rw [hx.intersect_start hxi, hx.pos]
    exact fixed_diff _ _ (hxr.local_lo hxl hxi) (hxr.local_hi hxl hxi)
  have e4 : CLUTTER_FIXED_TO_INT (to_gint (fy.intersect_start - fy.pos)) =
      py.intersect_start - py.pos := by
    rw [hy.intersect_start hyi, hy.pos]
    exact fixed_diff _ _ (hyr.local_lo hyl hyi) (hyr.local_hi hyl hyi)
  have e5 : CLUTTER_FIXED_TO_INT fx.intersect_start = px.intersect_start := by
    rw [hx.intersect_start hxi]
    exact fixed_to_int_scaled _
  have e6 : CLUTTER_FIXED_TO_INT fy.intersect_start = py.intersect_start := by
    rw [hy.intersect_start hyi]
    exact fixed_to_int_scaled _
  unfold subregion_slice pixel_subregion_slice
  simp only [e1, e2, e3, e4, e5, e6, hx.index, hy.index]

theorem fixed_x_loop {α : Type} [Inhabited α] (tex : CoglTexture α)
    (src_x src_y dst_x dst_y : Int) (source_bmp : CoglBitmap α) (py fy : CoglSpanIter)
    (y_span : CoglSpan) (hy : FixedOf py fy) (hyr : InFixedRange py)
    (hyl : py.pos < py.cover_end) (hyi : py.intersects = true) (fuel : Nat) :
    ∀ (px fx : CoglSpanIter) (v : SubregionLocals) (gl : GLState α),
      FixedOf px fx → PixelRunSafe fuel px →
      (subregion_x_loop tex src_x src_y dst_x dst_y source_bmp fy y_span fuel fx v gl).map
          (fun r => r.2) =
        (pixel_subregion_x_loop tex src_x src_y dst_x dst_y source_bmp py y_span fuel px v
          gl).map (fun r => r.2) := by
  induction fuel with
  | zero =>
    intro px fx v gl _ _
    rfl
  | succ n ih =>
    intro px fx v gl hx hs
    rw [subregion_x_loop, pixel_subregion_x_loop, fixed_end px fx hx, hx.intersects]
    by_cases hend : pixel_span_iter_end px = true
    · rw [if_pos hend, if_pos hend]
      rfl
    · rw [if_neg hend, if_neg hend]
      have hlt := pixel_end_false px hend
      have hs2 := hs.2 hlt
      have hnext := fixed_next px fx hx hlt (run_safe_range n _ hs2)
      by_cases hint : px.intersects = true
      · simp only [hint, Bool.not_true, Bool.false_eq_true, if_false]
        rw [fixed_slice tex src_x src_y dst_x dst_y source_bmp py fy y_span px fx v gl hx hy
          (run_safe_range _ _ hs) hyr hlt hyl hint hyi]
        exact ih _ _ _ _ hnext hs2
      · simp only [hint, Bool.not_false, if_true]
        exact ih _ _ _ _ hnext hs2

theorem fixed_y_loop {α : Type} [Inhabited α] (tex : CoglTexture α)
    (src_x src_y dst_x dst_y width : Int) (source_bmp : CoglBitmap α) (fuel_x : Nat)
    (h1 : -32768 ≤ dst_x) (h2 : dst_x ≤ 32767) (h3 : -32768 ≤ dst_x + width)
    (h4 : dst_x + width ≤ 32767)
    (hxs : ∀ a : CoglSpanIter, PixelRunSafe fuel_x
      (pixel_span_iter_begin a (tex.slice_x_spans.getD []) 0 dst_x (dst_x + width)))
    (fuel : Nat) :
    ∀ (py fy px fx : CoglSpanIter) (v : SubregionLocals) (gl : GLState α),
      FixedOf py fy → PixelRunSafe fuel py →
      (subregion_y_loop tex src_x src_y dst_x dst_y width source_bmp fuel_x fuel fy fx v
          gl).map (fun r => r.2.2.2) =
        (pixel_subregion_y_loop tex src_x src_y dst_x dst_y width source_bmp fuel_x fuel py px
          v gl).map (fun r => r.2.2.2) := by
  induction fuel with
  | zero =>
    intro py fy px fx v gl _ _
    rfl
  | succ n ih =>
    intro py fy px fx v gl hy hs
    rw [subregion_y_loop, pixel_subregion_y_loop, fixed_end py fy hy, hy.intersects, hy.index]
    by_cases hend : pixel_span_iter_end py = true
    · rw [if_pos hend, if_pos hend]
      rfl
    · rw [if_neg hend, if_neg hend]
      have hlt := pixel_end_false py hend
      have hs2 := hs.2 hlt
      have hnext := fixed_next py fy hy hlt (run_safe_range n _ hs2)
      by_cases hint : py.intersects = true
      · simp only [hint, Bool.not_true, Bool.false_eq_true, if_false]
        have hx := fixed_x_loop tex src_x src_y dst_x dst_y source_bmp py fy
          (span_index tex.slice_y_spans py.index.toNat) hy (run_safe_range _ _ hs) hlt hint
          fuel_x
          (pixel_span_iter_begin px (tex.slice_x_spans.getD []) 0 dst_x (dst_x + width))
          (_cogl_span_iter_begin fx (tex.slice_x_spans.getD []) 0
            (CLUTTER_INT_TO_FIXED dst_x) (CLUTTER_INT_TO_FIXED (dst_x + width)))
          { v with source_x := src_x } gl
          (fixed_begin px fx _ dst_x (dst_x + width) h1 h2 h3 h4
            (run_safe_range _ _ (hxs px))) (hxs px)
        generalize subregion_x_loop tex src_x src_y dst_x dst_y source_bmp fy
          (span_index tex.slice_y_spans py.index.toNat) fuel_x
          (_cogl_span_iter_begin fx (tex.slice_x_spans.getD []) 0
            (CLUTTER_INT_TO_FIXED dst_x) (CLUTTER_INT_TO_FIXED (dst_x + width)))
          { v with source_x := src_x } gl = rf at hx ⊢
        generalize pixel_subregion_x_loop tex src_x src_y dst_x dst_y source_bmp py
          (span_index tex.slice_y_spans py.index.toNat) fuel_x
          (pixel_span_iter_begin px (tex.slice_x_spans.getD []) 0 dst_x (dst_x + width))
          { v with source_x := src_x } gl = rp at hx ⊢
        cases rf with
        | none =>
          cases rp with
          | none => rfl
          | some q => cases hx
        | some r =>
          cases rp with
          | none => cases hx
          | some q =>
            obtain ⟨rx, rv, rg⟩ := r
            obtain ⟨qx, qv, qg⟩ := q
            simp only [Option.map_some', Option.some.injEq, Prod.mk.injEq] at hx
            obtain ⟨hv, hg⟩ := hx
            subst hv hg
            exact ih _ _ _ _ _ _ hnext hs2
      · simp only [hint, Bool.not_false, if_true]
        exact ih _ _ _ _ _ _ hnext hs2

/-- The sub-region upload computes what its steps on iterators in whole pixels compute,
when the pixel positions of both iterations fit the range of `ClutterFixed`. -/
theorem upload_subregion_fixed_eq {α : Type} [Inhabited α] (tex : CoglTexture α)
    (src_x src_y dst_x dst_y width height : Int) (source_bmp : CoglBitmap α) (gl : GLState α)
    (h1 : -32768 ≤ dst_x) (h2 : dst_x ≤ 32767) (h3 : -32768 ≤ dst_x + width)
    (h4 : dst_x + width ≤ 32767) (h5 : -32768 ≤ dst_y) (h6 : dst_y ≤ 32767)
    (h7 : -32768 ≤ dst_y + height) (h8 : dst_y + height ≤ 32767)
    (hxs : ∀ a : CoglSpanIter, PixelRunSafe ((dst_x + width).toNat + 1)
      (pixel_span_iter_begin a (tex.slice_x_spans.getD []) 0 dst_x (dst_x + width)))
    (hys : PixelRunSafe ((dst_y + height).toNat + 1)
      (pixel_span_iter_begin default (tex.slice_y_spans.getD []) 0 dst_y (dst_y + height))) :
    _cogl_texture_upload_subregion_to_gl tex src_x src_y dst_x dst_y width height source_bmp
        gl =
      pixel_upload_subregion_to_gl tex src_x src_y dst_x dst_y width height source_bmp gl := by
  have hy := fixed_y_loop tex src_x src_y dst_x dst_y width source_bmp
    ((dst_x + width).toNat + 1) h1 h2 h3 h4 hxs ((dst_y + height).toNat + 1)
    (pixel_span_iter_begin default (tex.slice_y_spans.getD []) 0 dst_y (dst_y + height))
    (_cogl_span_iter_begin default (tex.slice_y_spans.getD []) 0
      (CLUTTER_INT_TO_FIXED dst_y) (CLUTTER_INT_TO_FIXED (dst_y + height)))
    default default
    { source_x := 0, source_y := src_y, inter_w := 0, inter_h := 0, local_x := 0,
      local_y := 0 } gl
    (fixed_begin default default _ dst_y (dst_y + height) h5 h6 h7 h8
      (run_safe_range _ _ hys)) hys
  unfold _cogl_texture_upload_subregion_to_gl pixel_upload_subregion_to_gl
  simp only
  generalize subregion_y_loop tex src_x src_y dst_x dst_y width source_bmp
    ((dst_x + width).toNat + 1) ((dst_y + height).toNat + 1)
    (_cogl_span_iter_begin default (tex.slice_y_spans.getD []) 0
      (CLUTTER_INT_TO_FIXED dst_y) (CLUTTER_INT_TO_FIXED (dst_y + height))) default
    { source_x := 0, source_y := src_y, inter_w := 0, inter_h := 0, local_x := 0,
      local_y := 0 } gl = rf at hy ⊢
  generalize pixel_subregion_y_loop tex src_x src_y dst_x dst_y width source_bmp
    ((dst_x + width).toNat + 1) ((dst_y + height).toNat + 1)
    (pixel_span_iter_begin default (tex.slice_y_spans.getD []) 0 dst_y (dst_y + height))
    default
    { source_x := 0, source_y := src_y, inter_w := 0, inter_h := 0, local_x := 0,
      local_y := 0 } gl = rp at hy ⊢
  cases rf with
  | none =>
    cases rp with
    | none => rfl
    | some q => cases hy
  | some r =>
    cases rp with
    | none => cases hy
    | some q =>
      obtain ⟨ry, rx, rv, rg⟩ := r
      obtain ⟨qy, qx, qv, qg⟩ := q
      simp only [Option.map_some', Option.some.injEq] at hy
      subst hy
      rfl

/-! ## Planned spans of at most 32767 pixels stay in fixed-point range -/

theorem planned_span_end_le (size : Int) (xs : List CoglSpan) (hp : Planned size xs) (k : Nat)
    (a : CoglSpan) (ha : xs[k]? = some a) : a.start + (a.size - a.waste) ≤ size := by
  have hklt := getElem?_lt xs k a ha
  by_cases hlast : k + 1 = xs.length
  · exact le_of_eq (planned_last size xs hp k a ha hlast)
  · obtain ⟨b, hb⟩ : ∃ b, xs[xs.length - 1]? = some b :=
      ⟨xs[xs.length - 1], List.getElem?_eq_getElem (by omega)⟩
    have hl := planned_last size xs hp (xs.length - 1) b hb (by omega)
    have hpos : ∀ s ∈ xs, 0 < s.size := fun s hs => by have := hp.waste s hs; omega
    have hm := contig_mono xs 0 hp.contig hpos k (xs.length - 1) a b (by omega) ha hb
    have hwa := planned_span_bounds size xs hp k a ha
    have hwb := planned_span_bounds size xs hp (xs.length - 1) b hb
    omega

theorem iter_at_in_range (size : Int) (xs : List CoglSpan) (hp : Planned size xs)
    (hsize : size ≤ 32767) (cs ce : Int) (hcs : 0 ≤ cs) (hcse : cs ≤ ce) (hce : ce ≤ size)
    (k : Nat) (s : CoglSpan) (it : CoglSpanIter) (hk : xs[k]? = some s)
    (h : IterAt xs cs ce k s it) : InFixedRange it := by
  have hb := planned_span_bounds size xs hp k s hk
  have he := planned_span_end_le size xs hp k s hk
  refine ⟨fun _ => ?_, fun _ => ?_, fun _ hi => ?_, fun _ hi => ?_, fun _ hi => ?_,
    fun _ hi => ?_⟩
  · rw [h.next_pos]
    omega
  · rw [h.next_pos]
    omega
  · rw [h.intersect_start hi, h.intersect_end hi]
    omega
  · rw [h.intersect_start hi, h.intersect_end hi]
    omega
  · rw [h.intersect_start hi, h.pos]
    omega
  · rw [h.intersect_start hi, h.pos]
    omega

theorem planned_run_safe (size : Int) (xs : List CoglSpan) (hp : Planned size xs)
    (hsize : size ≤ 32767) (cs ce : Int) (hcs : 0 ≤ cs) (hcse : cs ≤ ce) (hce : ce ≤ size)
    (fuel : Nat) :
    ∀ (k : Nat) (s : CoglSpan) (it : CoglSpanIter), xs[k]? = some s →
      IterAt xs cs ce k s it → PixelRunSafe fuel it := by
  induction fuel with
  | zero =>
    intro k s it hk h
    exact iter_at_in_range size xs hp hsize cs ce hcs hcse hce k s it hk h
  | succ n ih =>
    intro k s it hk h
    refine ⟨iter_at_in_range size xs hp hsize cs ce hcs hcse hce k s it hk h, fun hlt => ?_⟩
    have hklt := getElem?_lt xs k s hk
    by_cases hlast : k + 1 = xs.length
    · have hend := iter_next_end size xs hp cs ce hce k s it h hk hlast
      unfold pixel_span_iter_end at hend
      exact run_safe_of_end n _ (of_decide_eq_true hend)
    · obtain ⟨s2, hk2⟩ : ∃ s2, xs[k + 1]? = some s2 :=
        ⟨xs[k + 1], List.getElem?_eq_getElem (by omega)⟩
      exact ih (k + 1) s2 _ hk2 (iter_next_at size xs hp cs ce k s s2 it h hk hk2)

theorem planned_begin_safe (size : Int) (xs : List CoglSpan) (hp : Planned size xs)
    (hsize : size ≤ 32767) (cs ce : Int) (hcs : 0 ≤ cs) (hcse : cs ≤ ce) (hce : ce ≤ size)
    (fuel : Nat) (a : CoglSpanIter) :
    PixelRunSafe fuel (pixel_span_iter_begin a xs 0 cs ce) := by
  obtain ⟨s0, hs0, _, hbegin⟩ := iter_begin_at size xs hp cs ce a
  exact planned_run_safe size xs hp hsize cs ce hcs hcse hce fuel 0 s0 _ hs0 hbegin

/-- The sub-region upload on planned spans of at most 32767 pixels per axis, for a
rectangle inside the logical size, computes what its steps in whole pixels compute. -/
theorem planned_upload_fixed_eq {α : Type} [Inhabited α] (tex : CoglTexture α)
    (src_x src_y dst_x dst_y width height : Int) (source_bmp : CoglBitmap α) (gl : GLState α)
    (W H : Int) (xs ys : List CoglSpan)
    (hxs : tex.slice_x_spans = some xs) (hys : tex.slice_y_spans = some ys)
    (hplx : Planned W xs) (hply : Planned H ys) (hWmax : W ≤ 32767) (hHmax : H ≤ 32767)
    (hdx : 0 ≤ dst_x) (hdy : 0 ≤ dst_y) (hwidth : 0 ≤ width) (hheight : 0 ≤ height)
    (hdw : dst_x + width ≤ W) (hdh : dst_y + height ≤ H) :
    _cogl_texture_upload_subregion_to_gl tex src_x src_y dst_x dst_y width height source_bmp
        gl =
      pixel_upload_subregion_to_gl tex src_x src_y dst_x dst_y width height source_bmp gl := by
  have e1 : tex.slice_x_spans.getD [] = xs := by
    rw [hxs]
    rfl
  have e2 : tex.slice_y_spans.getD [] = ys := by
    rw [hys]
    rfl
  apply upload_subregion_fixed_eq tex src_x src_y dst_x dst_y width height source_bmp gl
    (by omega) (by omega) (by omega) (by omega) (by omega) (by omega) (by omega) (by omega)
  · intro a
    rw [e1]
    exact planned_begin_safe W xs hplx hWmax dst_x (dst_x + width) hdx (by omega) hdw _ a
  · rw [e2]
    exact planned_begin_safe H ys hply hHmax dst_y (dst_y + height) hdy (by omega) hdh _
      default

/-! ## Sub-region upload: logical texels and waste replication -/

/-- C6, as stated, fails: the iterator keeps its positions in 16.16 fixed point, and on a
40000 x 1 texture in the one slice the planner chooses (`example_wide_texture`) the first
`next_pos`, 40000 pixels, wraps to -25536 pixels. The upload of the rectangle
`[0, 100) x [0, 1)` returns `TRUE`, but the logical texel `(0, 0)`, inside the rectangle,
keeps its old value 0 where source pixel `(0, 0)` holds 1, and the logical texel
`(25536, 0)`, outside the rectangle, changes from 0 to 1. -/
theorem upload_subregion_overflow_counterexample :
    plan_slices example_wide_driver example_wide_texture.max_waste
        example_wide_texture.bitmap.width example_wide_texture.bitmap.height =
      some (some (1, 1, [{ start := 0, size := 40000, waste := 0 }],
        [{ start := 0, size := 1, waste := 0 }])) ∧
    (_cogl_span_iter_begin default [{ start := 0, size := 40000, waste := 0 }] 0
        (CLUTTER_INT_TO_FIXED 0) (CLUTTER_INT_TO_FIXED (0 + 100))).next_pos =
      -25536 * 65536 ∧
    (_cogl_texture_upload_subregion_to_gl example_wide_texture 0 0 0 0 100 1
        example_wide_bitmap example_blank_gl).map
      (fun r => (r.1, (r.2.textures 1).texel 0 0, (r.2.textures 1).texel 25536 0)) =
      some (true, 0, 1) ∧
    example_wide_bitmap.pixel (0 + 0 - 0) (0 + 0 - 0) = 1 ∧
    (example_blank_gl.textures 1).texel 25536 0 = 0 := by
  refine ⟨by decide, by decide, by decide, by decide, by decide⟩

/-- C6, amended: for a texture of at most 32767 x 32767 pixels whose spans are those the
slice planner chooses for its bitmap size, with one distinct GL handle per slice, and a
destination rectangle `[dst_x, dst_x + w) x [dst_y, dst_y + h)` with `w, h > 0` inside the
logical size, `_cogl_texture_upload_subregion_to_gl` returns `TRUE`; every logical texel
`(X, Y)` falls in the valid part of some slice, and in whichever slice it falls it holds
source pixel `(src_x + X - dst_x, src_y + Y - dst_y)` when it is inside the rectangle and
its old value when it is outside. -/
theorem upload_subregion_logical_texels {α : Type} [Inhabited α] (drv : Driver)
    (tex : CoglTexture α) (n_x n_y : Int) (xs ys : List CoglSpan) (handles : List GLuint)
    (src_x src_y dst_x dst_y w h : Int) (source_bmp : CoglBitmap α) (gl : GLState α)
    (hW : 1 ≤ tex.bitmap.width) (hH : 1 ≤ tex.bitmap.height)
    (hWmax : tex.bitmap.width ≤ 32767) (hHmax : tex.bitmap.height ≤ 32767)
    (hplan : plan_slices drv tex.max_waste tex.bitmap.width tex.bitmap.height =
      some (some (n_x, n_y, xs, ys)))
    (hxs : tex.slice_x_spans = some xs) (hys : tex.slice_y_spans = some ys)
    (hhs : tex.slice_gl_handles = some handles)
    (hgrid : handles.length = xs.length * ys.length) (hnodup : handles.Nodup)
    (hw : 0 < w) (hh : 0 < h) (hdx : 0 ≤ dst_x) (hdy : 0 ≤ dst_y)
    (hdw : dst_x + w ≤ tex.bitmap.width) (hdh : dst_y + h ≤ tex.bitmap.height) :
    ∃ gl_new,
      _cogl_texture_upload_subregion_to_gl tex src_x src_y dst_x dst_y w h source_bmp gl =
        some (true, gl_new) ∧
      ∀ X Y : Int, 0 ≤ X → X < tex.bitmap.width → 0 ≤ Y → Y < tex.bitmap.height →
        (∃ (yi xi : Nat) (sy sx : CoglSpan), ys[yi]? = some sy ∧ xs[xi]? = some sx ∧
          sx.start ≤ X ∧ X < sx.start + (sx.size - sx.waste) ∧
          sy.start ≤ Y ∧ Y < sy.start + (sy.size - sy.waste)) ∧
        ∀ (yi xi : Nat) (sy sx : CoglSpan), ys[yi]? = some sy → xs[xi]? = some sx →
          sx.start ≤ X → X < sx.start + (sx.size - sx.waste) →
          sy.start ≤ Y → Y < sy.start + (sy.size - sy.waste) →
          (gl_new.textures (handles.getD (yi * xs.length + xi) 0)).texel
              (X - sx.start) (Y - sy.start) =
            if dst_x ≤ X ∧ X < dst_x + w ∧ dst_y ≤ Y ∧ Y < dst_y + h then
              source_bmp.pixel (src_x + X - dst_x) (src_y + Y - dst_y)
            else
              (gl.textures (handles.getD (yi * xs.length + xi) 0)).texel
                (X - sx.start) (Y - sy.start) := by
  obtain ⟨hplx, hply⟩ := plan_slices_planned drv tex.max_waste tex.bitmap.width
    tex.bitmap.height n_x n_y xs ys hW hH hplan
  obtain ⟨gl_new, hcall, _, htex⟩ := pixel_upload_subregion_spec tex src_x src_y dst_x dst_y
    w h source_bmp gl tex.bitmap.width tex.bitmap.height xs ys handles hxs hys hhs hplx hply
    hnodup hgrid hdx hdy (le_of_lt hw) (le_of_lt hh) hdw hdh
  rw [← planned_upload_fixed_eq tex src_x src_y dst_x dst_y w h source_bmp gl
    tex.bitmap.width tex.bitmap.height xs ys hxs hys hplx hply hWmax hHmax hdx hdy
    (le_of_lt hw) (le_of_lt hh) hdw hdh] at hcall
  refine ⟨gl_new, hcall, ?_⟩
  intro X Y hX hXW hY hYH
  constructor
  · obtain ⟨xi, sx, hxi, hx1, hx2⟩ := planned_cover _ xs hplx X hX hXW
    obtain ⟨yi, sy, hyi, hy1, hy2⟩ := planned_cover _ ys hply Y hY hYH
    exact ⟨yi, xi, sy, sx, hyi, hxi, hx1, hx2, hy1, hy2⟩
  · intro yi xi sy sx hyi hxi hx1 hx2 hy1 hy2
    have hbx := planned_span_bounds _ xs hplx xi sx hxi
    have hby := planned_span_bounds _ ys hply yi sy hyi
    rw [htex yi xi sy sx hyi hxi (X - sx.start) (Y - sy.start) (by omega) (by omega)
      (by omega) (by omega)]
    unfold subregion_texel
    have e1 : sx.start + min (X - sx.start) (sx.size - sx.waste - 1) = X := by omega
    have e2 : sy.start + min (Y - sy.start) (sy.size - sy.waste - 1) = Y := by omega
    simp only [e1, e2]

theorem upload_subregion_logical_texels_witness :
    ∃ gl_new,
      _cogl_texture_upload_subregion_to_gl example_subtexture 0 0 2 1 4 2 example_bitmap
        example_created_gl = some (true, gl_new) ∧
      ∀ X Y : Int, 0 ≤ X → X < 7 → 0 ≤ Y → Y < 3 →
        (∃ (yi xi : Nat) (sy sx : CoglSpan),
          [({ start := 0, size := 4, waste := 1 } : CoglSpan)][yi]? = some sy ∧
          [({ start := 0, size := 4, waste := 0 } : CoglSpan),
            { start := 4, size := 4, waste := 1 }][xi]? = some sx ∧
          sx.start ≤ X ∧ X < sx.start + (sx.size - sx.waste) ∧
          sy.start ≤ Y ∧ Y < sy.start + (sy.size - sy.waste)) ∧
        ∀ (yi xi : Nat) (sy sx : CoglSpan),
          [({ start := 0, size := 4, waste := 1 } : CoglSpan)][yi]? = some sy →
          [({ start := 0, size := 4, waste := 0 } : CoglSpan),
            { start := 4, size := 4, waste := 1 }][xi]? = some sx →
          sx.start ≤ X → X < sx.start + (sx.size - sx.waste) →
          sy.start ≤ Y → Y < sy.start + (sy.size - sy.waste) →
          (gl_new.textures ([1, 2].getD (yi * 2 + xi) 0)).texel (X - sx.start)
              (Y - sy.start) =
            if 2 ≤ X ∧ X < 2 + 4 ∧ 1 ≤ Y ∧ Y < 1 + 2 then
              example_bitmap.pixel (0 + X - 2) (0 + Y - 1)
            else
              (example_created_gl.textures ([1, 2].getD (yi * 2 + xi) 0)).texel
                (X - sx.start) (Y - sy.start) :=
  upload_subregion_logical_texels example_driver example_subtexture 2 1
    [{ start := 0, size := 4, waste := 0 }, { start := 4, size := 4, waste := 1 }]
    [{ start := 0, size := 4, waste := 1 }] [1, 2] 0 0 2 1 4 2 example_bitmap
    example_created_gl (by decide) (by decide) (by decide) (by decide) rfl rfl rfl rfl rfl
    (by decide) (by decide) (by decide) (by decide) (by decide) (by decide) (by decide)

/-- C7, as stated, fails: the iterator keeps its positions in 16.16 fixed point, and on a
32771 x 1 texture in the two slices the planner chooses (`example_long_texture`: 32768
texels, then 4 texels with 1 waste) the first `next_pos`, 32768 pixels, wraps to -32768
pixels. Every texture holds 0 before the call, so every waste texel equals its nearest
valid texel. The upload of the in-bounds rectangle `[0, 6) x [0, 1)` returns `TRUE`; its
fourth step stands on the second slice at position 3 and refills the right waste, though
the rectangle does not reach the last valid column 32770: after the call the waste texel
`(3, 0)` of the second slice holds 32771 and its nearest valid texel `(2, 0)` holds 6. -/
theorem upload_subregion_waste_overflow_counterexample :
    plan_slices example_large_driver example_long_texture.max_waste
        example_long_texture.bitmap.width example_long_texture.bitmap.height =
      some (some (2, 1,
        [{ start := 0, size := 32768, waste := 0 }, { start := 32768, size := 4, waste := 1 }],
        [{ start := 0, size := 1, waste := 0 }])) ∧
    WasteReplicated example_blank_gl
      [{ start := 0, size := 32768, waste := 0 }, { start := 32768, size := 4, waste := 1 }]
      [{ start := 0, size := 1, waste := 0 }] [1, 2] ∧
    ∃ gl_new,
      _cogl_texture_upload_subregion_to_gl example_long_texture 0 0 0 0 6 1
        example_long_bitmap example_blank_gl = some (true, gl_new) ∧
      (gl_new.textures 2).texel 3 0 = 32771 ∧ (gl_new.textures 2).texel 2 0 = 6 ∧
      ¬ WasteReplicated gl_new
        [{ start := 0, size := 32768, waste := 0 }, { start := 32768, size := 4, waste := 1 }]
        [{ start := 0, size := 1, waste := 0 }] [1, 2] := by
  refine ⟨by decide, fun _ _ _ _ _ _ _ _ _ _ _ _ => rfl, ?_⟩
  have h : (_cogl_texture_upload_subregion_to_gl example_long_texture 0 0 0 0 6 1
      example_long_bitmap example_blank_gl).map
      (fun r => (r.1, (r.2.textures 2).texel 3 0, (r.2.textures 2).texel 2 0)) =
      some (true, 32771, 6) := by decide
  cases hc : _cogl_texture_upload_subregion_to_gl example_long_texture 0 0 0 0 6 1
      example_long_bitmap example_blank_gl with
  | none =>
    rw [hc] at h
    cases h
  | some r =>
    obtain ⟨b, g⟩ := r
    rw [hc] at h
    simp only [Option.map_some', Option.some.injEq, Prod.mk.injEq] at h
    obtain ⟨hb, h3, h2⟩ := h
    subst hb
    refine ⟨g, rfl, h3, h2, ?_⟩
    intro hrep
    have h4 := hrep 0 1 { start := 0, size := 1, waste := 0 }
      { start := 32768, size := 4, waste := 1 } rfl rfl 3 0 (by decide) (by decide)
      (by decide) (by decide)
    have e : ([1, 2] : List GLuint).getD (0 * [({ start := 0, size := 32768, waste := 0 } :
        CoglSpan), { start := 32768, size := 4, waste := 1 }].length + 1) 0 = 2 := rfl
    rw [e] at h4
    have e2 : min (3 : Int) (4 - 1 - 1) = 2 := by decide
    have e3 : min (0 : Int) (1 - 0 - 1) = 0 := by decide
    simp only [e2, e3] at h4
    rw [h3, h2] at h4
    exact absurd h4 (by decide)

/-- C7, amended: for a texture of at most 32767 x 32767 pixels whose spans are those the
slice planner chooses for its bitmap size, with one distinct GL handle per slice, and any
destination rectangle inside the logical size: if every texel of every slice equals the
nearest valid texel of that slice before `_cogl_texture_upload_subregion_to_gl`, the same
holds after it. A right-waste
texel is rewritten, with the pixel uploaded to the last valid column of its row, exactly
when the rectangle contains that position; a bottom-waste texel, with the pixel uploaded
to the last valid row of its column, exactly when the rectangle contains that position;
a corner texel, with the pixel uploaded to the last valid column of the last valid row,
exactly when the rectangle contains that position; otherwise the texel keeps its value. -/
theorem upload_subregion_waste_replication {α : Type} [Inhabited α] (drv : Driver)
    (tex : CoglTexture α) (n_x n_y : Int) (xs ys : List CoglSpan) (handles : List GLuint)
    (src_x src_y dst_x dst_y w h : Int) (source_bmp : CoglBitmap α) (gl : GLState α)
    (hW : 1 ≤ tex.bitmap.width) (hH : 1 ≤ tex.bitmap.height)
    (hWmax : tex.bitmap.width ≤ 32767) (hHmax : tex.bitmap.height ≤ 32767)
    (hplan : plan_slices drv tex.max_waste tex.bitmap.width tex.bitmap.height =
      some (some (n_x, n_y, xs, ys)))
    (hxs : tex.slice_x_spans = some xs) (hys : tex.slice_y_spans = some ys)
    (hhs : tex.slice_gl_handles = some handles)
    (hgrid : handles.length = xs.length * ys.length) (hnodup : handles.Nodup)
    (hw : 0 ≤ w) (hh : 0 ≤ h) (hdx : 0 ≤ dst_x) (hdy : 0 ≤ dst_y)
    (hdw : dst_x + w ≤ tex.bitmap.width) (hdh : dst_y + h ≤ tex.bitmap.height)
    (hrep : WasteReplicated gl xs ys handles) :
    ∃ gl_new,
      _cogl_texture_upload_subregion_to_gl tex src_x src_y dst_x dst_y w h source_bmp gl =
        some (true, gl_new) ∧
      WasteReplicated gl_new xs ys handles ∧
      ∀ (yi xi : Nat) (sy sx : CoglSpan), ys[yi]? = some sy → xs[xi]? = some sx →
        (∀ i j : Int, sx.size - sx.waste ≤ i → i < sx.size → 0 ≤ j →
          j < sy.size - sy.waste →
          (gl_new.textures (handles.getD (yi * xs.length + xi) 0)).texel i j =
            if dst_x ≤ sx.start + (sx.size - sx.waste - 1) ∧
                sx.start + (sx.size - sx.waste - 1) < dst_x + w ∧
                dst_y ≤ sy.start + j ∧ sy.start + j < dst_y + h then
              source_bmp.pixel (src_x + (sx.start + (sx.size - sx.waste - 1)) - dst_x)
                (src_y + (sy.start + j) - dst_y)
            else (gl.textures (handles.getD (yi * xs.length + xi) 0)).texel i j) ∧
        (∀ i j : Int, 0 ≤ i → i < sx.size - sx.waste → sy.size - sy.waste ≤ j →
          j < sy.size →
          (gl_new.textures (handles.getD (yi * xs.length + xi) 0)).texel i j =
            if dst_x ≤ sx.start + i ∧ sx.start + i < dst_x + w ∧
                dst_y ≤ sy.start + (sy.size - sy.waste - 1) ∧
                sy.start + (sy.size - sy.waste - 1) < dst_y + h then
              source_bmp.pixel (src_x + (sx.start + i) - dst_x)
                (src_y + (sy.start + (sy.size - sy.waste - 1)) - dst_y)
            else (gl.textures (handles.getD (yi * xs.length + xi) 0)).texel i j) ∧
        (∀ i j : Int, sx.size - sx.waste ≤ i → i < sx.size → sy.size - sy.waste ≤ j →
          j < sy.size →
          (gl_new.textures (handles.getD (yi * xs.length + xi) 0)).texel i j =
            if dst_x ≤ sx.start + (sx.size - sx.waste - 1) ∧
                sx.start + (sx.size - sx.waste - 1) < dst_x + w ∧
                dst_y ≤ sy.start + (sy.size - sy.waste - 1) ∧
                sy.start + (sy.size - sy.waste - 1) < dst_y + h then
              source_bmp.pixel (src_x + (sx.start + (sx.size - sx.waste - 1)) - dst_x)
                (src_y + (sy.start + (sy.size - sy.waste - 1)) - dst_y)
            else (gl.textures (handles.getD (yi * xs.length + xi) 0)).texel i j) := by
  obtain ⟨hplx, hply⟩ := plan_slices_planned drv tex.max_waste tex.bitmap.width
    tex.bitmap.height n_x n_y xs ys hW hH hplan
  obtain ⟨gl_new, hcall, _, htex⟩ := pixel_upload_subregion_spec tex src_x src_y dst_x dst_y
    w h source_bmp gl tex.bitmap.width tex.bitmap.height xs ys handles hxs hys hhs hplx hply
    hnodup hgrid hdx hdy hw hh hdw hdh
  rw [← planned_upload_fixed_eq tex src_x src_y dst_x dst_y w h source_bmp gl
    tex.bitmap.width tex.bitmap.height xs ys hxs hys hplx hply hWmax hHmax hdx hdy hw hh hdw
    hdh] at hcall
  refine ⟨gl_new, hcall, ?_, ?_⟩
  · intro yi xi sy sx hyi hxi i j hi hix hj hjy
    have hbx := planned_span_bounds _ xs hplx xi sx hxi
    have hby := planned_span_bounds _ ys hply yi sy hyi
    rw [htex yi xi sy sx hyi hxi i j hi hix hj hjy,
      htex yi xi sy sx hyi hxi (min i (sx.size - sx.waste - 1))
        (min j (sy.size - sy.waste - 1)) (by omega) (by omega) (by omega) (by omega),
      hrep yi xi sy sx hyi hxi i j hi hix hj hjy]
    unfold subregion_texel
    simp only [min_self, min_assoc]
  · intro yi xi sy sx hyi hxi
    have hbx := planned_span_bounds _ xs hplx xi sx hxi
    have hby := planned_span_bounds _ ys hply yi sy hyi
    refine ⟨?_, ?_, ?_⟩
    · intro i j hi hix hj hjy
      rw [htex yi xi sy sx hyi hxi i j (by omega) hix hj (by omega)]
      unfold subregion_texel
      rw [min_eq_right (by omega : sx.size - sx.waste - 1 ≤ i),
        min_eq_left (by omega : j ≤ sy.size - sy.waste - 1)]
    · intro i j hi hix hj hjy
      rw [htex yi xi sy sx hyi hxi i j hi (by omega) (by omega) hjy]
      unfold subregion_texel
      rw [min_eq_left (by omega : i ≤ sx.size - sx.waste - 1),
        min_eq_right (by omega : sy.size - sy.waste - 1 ≤ j)]
    · intro i j hi hix hj hjy
      rw [htex yi xi sy sx hyi hxi i j (by omega) hix (by omega) hjy]
      unfold subregion_texel
      rw [min_eq_right (by omega : sx.size - sx.waste - 1 ≤ i),
        min_eq_right (by omega : sy.size - sy.waste - 1 ≤ j)]

theorem upload_subregion_waste_replication_witness :
    WasteReplicated example_blank_gl
      [{ start := 0, size := 4, waste := 0 }, { start := 4, size := 4, waste := 1 }]
      [{ start := 0, size := 4, waste := 1 }] [1, 2] ∧
    ∃ gl_new,
      _cogl_texture_upload_subregion_to_gl example_subtexture 0 0 5 1 2 2 example_bitmap
        example_blank_gl = some (true, gl_new) ∧
      WasteReplicated gl_new
        [{ start := 0, size := 4, waste := 0 }, { start := 4, size := 4, waste := 1 }]
        [{ start := 0, size := 4, waste := 1 }] [1, 2] :=
  ⟨fun _ _ _ _ _ _ _ _ _ _ _ _ => rfl,
    (upload_subregion_waste_replication example_driver example_subtexture 2 1
      [{ start := 0, size := 4, waste := 0 }, { start := 4, size := 4, waste := 1 }]
      [{ start := 0, size := 4, waste := 1 }] [1, 2] 0 0 5 1 2 2 example_bitmap
      example_blank_gl (by decide) (by decide) (by decide) (by decide) rfl rfl rfl rfl rfl
      (by decide) (by decide) (by decide) (by decide) (by decide) (by decide) (by decide)
      (fun _ _ _ _ _ _ _ _ _ _ _ _ => rfl)).imp (fun _ hg => ⟨hg.1, hg.2.1⟩)⟩

/-! ## One step of the span iterator -/

theorem span_iter_update_step (iter : CoglSpanIter) :
    SpanIterStep (_cogl_span_iter_update iter) ∧
    (_cogl_span_iter_update iter).index = iter.index ∧
    (_cogl_span_iter_update iter).array = iter.array ∧
    (_cogl_span_iter_update iter).pos = iter.pos ∧
    (_cogl_span_iter_update iter).origin = iter.origin ∧
    (_cogl_span_iter_update iter).cover_start = iter.cover_start ∧
    (_cogl_span_iter_update iter).cover_end = iter.cover_end := by
  obtain ⟨f1, f2, f3, f4, f5, f6, f7, f8, f9, f10⟩ := span_iter_update_fields iter
  refine ⟨⟨?_, ?_, ?_, ?_, ?_, ?_⟩, f1, f2, f3, f4, f5, f6⟩
  · rw [f7, f1, f2]
  · rw [f8, f1, f2, f3]
  · intro hr
    rw [f8, f1, f2, f3, to_gint_add_int_to_fixed]
    rw [f1, f2, f3] at hr
    exact to_gint_in_range _ (by have := hr.1; norm_num at this; omega)
      (by have := hr.2; norm_num at this; omega)
  · rw [f3, f5, f6]
    exact f9
  · rw [f3, f5, f6]
    exact f10
  · unfold _cogl_span_iter_end
    exact decide_eq_true_iff

/-- C12, as stated, fails: positions are 32-bit 16.16 fixed-point values, so `next_pos` is
`pos` plus `size - waste` converted to fixed point, and the sum wraps. On the one span
`(0, 40000, 0)`, `_cogl_span_iter_begin` at origin 0 leaves `pos = 0` and
`next_pos = -25536 * 65536`, which is below `pos` and is neither `pos + (size - waste)`
nor 65536 times it. -/
theorem span_iter_next_pos_counterexample :
    (_cogl_span_iter_begin default [{ start := 0, size := 40000, waste := 0 }] 0 0
      (CLUTTER_INT_TO_FIXED 100)).pos = 0 ∧
    (_cogl_span_iter_begin default [{ start := 0, size := 40000, waste := 0 }] 0 0
      (CLUTTER_INT_TO_FIXED 100)).next_pos = -25536 * 65536 ∧
    (_cogl_span_iter_begin default [{ start := 0, size := 40000, waste := 0 }] 0 0
      (CLUTTER_INT_TO_FIXED 100)).next_pos ≠ 0 + (40000 - 0) ∧
    (_cogl_span_iter_begin default [{ start := 0, size := 40000, waste := 0 }] 0 0
      (CLUTTER_INT_TO_FIXED 100)).next_pos ≠ 0 + 65536 * (40000 - 0) := by
  refine ⟨by decide, by decide, by decide, by decide⟩

/-- C12, amended: after `_cogl_span_iter_begin` and after every `_cogl_span_iter_next`,
the iterator has for the span at its index `next_pos = pos + (span.size - span.waste)` in
32-bit 16.16 fixed point: the 32-bit sum of `pos` and
`CLUTTER_INT_TO_FIXED (size - waste)`, which is `pos + 65536 * (size - waste)` whenever
that number lies in `[-2^31, 2^31)`. `intersects` holds exactly when not
(`next_pos <= cover_start` or `pos >= cover_end`), and then
`intersect_start = max (pos, cover_start)` and `intersect_end = min (next_pos,
cover_end)`; `_cogl_span_iter_end` holds exactly when `pos >= cover_end`. `begin` stands at
index 0 and `pos = origin`; `next` moves `pos` to the old `next_pos` and the index to the
next one modulo the number of spans, and keeps the cover. -/
theorem span_iter_step_spec :
    (∀ (iter : CoglSpanIter) (array : List CoglSpan) (origin cover_start cover_end : Int),
      SpanIterStep (_cogl_span_iter_begin iter array origin cover_start cover_end) ∧
      (_cogl_span_iter_begin iter array origin cover_start cover_end).index = 0 ∧
      (_cogl_span_iter_begin iter array origin cover_start cover_end).array = array ∧
      (_cogl_span_iter_begin iter array origin cover_start cover_end).pos = origin ∧
      (_cogl_span_iter_begin iter array origin cover_start cover_end).cover_start =
        cover_start ∧
      (_cogl_span_iter_begin iter array origin cover_start cover_end).cover_end =
        cover_end) ∧
    (∀ iter : CoglSpanIter,
      SpanIterStep (_cogl_span_iter_next iter) ∧
      (_cogl_span_iter_next iter).index = (iter.index + 1) % (iter.array.length : Int) ∧
      (_cogl_span_iter_next iter).array = iter.array ∧
      (_cogl_span_iter_next iter).pos = iter.next_pos ∧
      (_cogl_span_iter_next iter).cover_start = iter.cover_start ∧
      (_cogl_span_iter_next iter).cover_end = iter.cover_end) := by
  constructor
  · intro iter array origin cover_start cover_end
    unfold _cogl_span_iter_begin
    obtain ⟨h0, h1, h2, h3, _, h5, h6⟩ := span_iter_update_step
      { iter with
        index := 0
        array := array
        span := none
        origin := origin
        cover_start := cover_start
        cover_end := cover_end
        pos := origin }
    exact ⟨h0, h1, h2, h3, h5, h6⟩
  · intro iter
    unfold _cogl_span_iter_next
    obtain ⟨h0, h1, h2, h3, _, h5, h6⟩ := span_iter_update_step
      { iter with
        pos := iter.next_pos
        index := (iter.index + 1) % (iter.array.length : Int) }
    exact ⟨h0, h1, h2, h3, h5, h6⟩

theorem span_iter_step_spec_witness :
    (_cogl_span_iter_begin default
      [{ start := 0, size := 4, waste := 0 }, { start := 4, size := 4, waste := 1 }] 0
      (CLUTTER_INT_TO_FIXED 2) (CLUTTER_INT_TO_FIXED 6)).next_pos = 0 + 65536 * (4 - 0) ∧
    (_cogl_span_iter_next (_cogl_span_iter_begin default
      [{ start := 0, size := 4, waste := 0 }, { start := 4, size := 4, waste := 1 }] 0
      (CLUTTER_INT_TO_FIXED 2) (CLUTTER_INT_TO_FIXED 6))).next_pos =
      65536 * 4 + 65536 * (4 - 1) :=
  ⟨(span_iter_step_spec.1 default
      [{ start := 0, size := 4, waste := 0 }, { start := 4, size := 4, waste := 1 }] 0
      (CLUTTER_INT_TO_FIXED 2) (CLUTTER_INT_TO_FIXED 6)).1.2.2.1 (by decide),
    (span_iter_step_spec.2 (_cogl_span_iter_begin default
      [{ start := 0, size := 4, waste := 0 }, { start := 4, size := 4, waste := 1 }] 0
      (CLUTTER_INT_TO_FIXED 2) (CLUTTER_INT_TO_FIXED 6))).1.2.2.1 (by decide)⟩

/-! ## The span iterator does not wrap in a surface of at most 32767 pixels -/

/-- C13, as stated, fails. The iterator keeps its positions in 16.16 fixed point: on the
one span `(0, 40000, 0)` of the 40000 x 1 texture `example_wide_texture`, `next_pos` wraps
at 32768 pixels, the in-bounds destination range `[0, 0 + 20000)` makes the iteration
visit the span index 0 four times, and the sub-region upload of the 20000 x 1 rectangle
binds the handle 1 twice. And `_cogl_span_iter_next` wraps the index: on the spans
`(0, 4, 0), (4, 4, 1)` of a 7 pixel wide surface, the destination range `[0, 0 + 9)` makes
the iteration visit the span indices 0, 1, 0, and the sub-region upload of a 9 x 3
rectangle to the 7 x 3 texture `example_subtexture` binds the handles 1, 2, 1. -/
theorem span_iter_wraps_counterexample :
    span_iter_visits ((0 + 20000 : Int).toNat + 1)
        (_cogl_span_iter_begin default [{ start := 0, size := 40000, waste := 0 }] 0
          (CLUTTER_INT_TO_FIXED 0) (CLUTTER_INT_TO_FIXED (0 + 20000))) =
      some [0, 0, 0, 0] ∧
    ¬ ([0, 0, 0, 0] : List Int).Nodup ∧
    (_cogl_texture_upload_subregion_to_gl example_wide_texture 0 0 0 0 20000 1
        example_wide_bitmap example_blank_gl).map (fun r => bound_handles r.2.log) =
      some [1, 1] ∧
    ¬ ([1, 1] : List GLuint).Nodup ∧
    span_iter_visits ((0 + 9 : Int).toNat + 1)
        (_cogl_span_iter_begin default
          [{ start := 0, size := 4, waste := 0 }, { start := 4, size := 4, waste := 1 }] 0
          (CLUTTER_INT_TO_FIXED 0) (CLUTTER_INT_TO_FIXED (0 + 9))) = some [0, 1, 0] ∧
    ¬ ([0, 1, 0] : List Int).Nodup ∧
    (_cogl_texture_upload_subregion_to_gl example_subtexture 0 0 0 0 9 3 example_bitmap
        example_blank_gl).map (fun r => bound_handles r.2.log) = some [1, 2, 1] ∧
    ¬ ([1, 2, 1] : List GLuint).Nodup := by
  refine ⟨by decide, by decide, by decide, by decide, by decide, by decide, by decide,
    by decide⟩

/-- C13, amended: for a texture of at most 32767 x 32767 pixels whose spans are those the
slice planner chooses for its bitmap size, with one distinct GL handle per slice, and a
destination rectangle with `w, h > 0` that does not reach beyond the logical size, the
span iterator does not wrap in `_cogl_texture_upload_subregion_to_gl`: the iteration of
each axis ends and visits consecutive span indices from 0, none twice, and the call binds
no slice handle more than once. -/
theorem upload_subregion_no_wrap {α : Type} [Inhabited α] (drv : Driver)
    (tex : CoglTexture α) (n_x n_y : Int) (xs ys : List CoglSpan) (handles : List GLuint)
    (src_x src_y dst_x dst_y w h : Int) (source_bmp : CoglBitmap α) (gl : GLState α)
    (hW : 1 ≤ tex.bitmap.width) (hH : 1 ≤ tex.bitmap.height)
    (hWmax : tex.bitmap.width ≤ 32767) (hHmax : tex.bitmap.height ≤ 32767)
    (hplan : plan_slices drv tex.max_waste tex.bitmap.width tex.bitmap.height =
      some (some (n_x, n_y, xs, ys)))
    (hxs : tex.slice_x_spans = some xs) (hys : tex.slice_y_spans = some ys)
    (hhs : tex.slice_gl_handles = some handles)
    (hgrid : handles.length = xs.length * ys.length) (hnodup : handles.Nodup)
    (hw : 0 < w) (hh : 0 < h) (hdx : 0 ≤ dst_x) (hdy : 0 ≤ dst_y)
    (hdw : dst_x + w ≤ tex.bitmap.width) (hdh : dst_y + h ≤ tex.bitmap.height) :
    (∀ iter : CoglSpanIter, ∃ n : Nat, n ≤ xs.length ∧
      span_iter_visits ((dst_x + w).toNat + 1)
          (_cogl_span_iter_begin iter xs 0 (CLUTTER_INT_TO_FIXED dst_x)
            (CLUTTER_INT_TO_FIXED (dst_x + w))) =
        some ((List.range' 0 n).map (fun (i : Nat) => (i : Int))) ∧
      ((List.range' 0 n).map (fun (i : Nat) => (i : Int))).Nodup) ∧
    (∀ iter : CoglSpanIter, ∃ n : Nat, n ≤ ys.length ∧
      span_iter_visits ((dst_y + h).toNat + 1)
          (_cogl_span_iter_begin iter ys 0 (CLUTTER_INT_TO_FIXED dst_y)
            (CLUTTER_INT_TO_FIXED (dst_y + h))) =
        some ((List.range' 0 n).map (fun (i : Nat) => (i : Int))) ∧
      ((List.range' 0 n).map (fun (i : Nat) => (i : Int))).Nodup) ∧
    ∃ (gl_new : GLState α) (bound : List GLuint),
      _cogl_texture_upload_subregion_to_gl tex src_x src_y dst_x dst_y w h source_bmp gl =
        some (true, gl_new) ∧
      bound_handles gl_new.log = bound_handles gl.log ++ bound ∧ bound.Nodup := by
  obtain ⟨hplx, hply⟩ := plan_slices_planned drv tex.max_waste tex.bitmap.width
    tex.bitmap.height n_x n_y xs ys hW hH hplan
  have hvis : ∀ (W : Int) (zs : List CoglSpan), Planned W zs → W ≤ 32767 → ∀ (d l : Int),
      0 ≤ d → 0 < l → d + l ≤ W → ∀ iter : CoglSpanIter, ∃ n : Nat, n ≤ zs.length ∧
        span_iter_visits ((d + l).toNat + 1)
            (_cogl_span_iter_begin iter zs 0 (CLUTTER_INT_TO_FIXED d)
              (CLUTTER_INT_TO_FIXED (d + l))) =
          some ((List.range' 0 n).map (fun (i : Nat) => (i : Int))) ∧
        ((List.range' 0 n).map (fun (i : Nat) => (i : Int))).Nodup := by
    intro W zs hp hWle d l hd hl hdl iter
    obtain ⟨s0, hs0, hs0start, hbegin⟩ := iter_begin_at W zs hp d (d + l) iter
    obtain ⟨n, hn, hv⟩ := pixel_span_iter_visits_spec W zs hp d (d + l) hdl
      ((d + l).toNat + 1) 0 s0 _ hs0 hbegin (by omega) (by
        push_cast
        rw [Int.toNat_of_nonneg (by omega)]
        omega)
    have hsafe := planned_begin_safe W zs hp hWle d (d + l) hd (by omega) hdl
      ((d + l).toNat + 1) iter
    rw [← fixed_visits _ _ _ (fixed_begin iter iter zs d (d + l) (by omega) (by omega)
      (by omega) (by omega) (run_safe_range _ _ hsafe)) hsafe] at hv
    exact ⟨n, by omega, hv, range'_map_cast_nodup 0 n⟩
  refine ⟨hvis _ xs hplx hWmax dst_x w hdx hw hdw, hvis _ ys hply hHmax dst_y h hdy hh hdh,
    ?_⟩
  obtain ⟨gl_new, hcall, _, _⟩ := pixel_upload_subregion_spec tex src_x src_y dst_x dst_y w h
    source_bmp gl tex.bitmap.width tex.bitmap.height xs ys handles hxs hys hhs hplx hply
    hnodup hgrid hdx hdy (le_of_lt hw) (le_of_lt hh) hdw hdh
  have hfix := planned_upload_fixed_eq tex src_x src_y dst_x dst_y w h source_bmp gl
    tex.bitmap.width tex.bitmap.height xs ys hxs hys hplx hply hWmax hHmax hdx hdy
    (le_of_lt hw) (le_of_lt hh) hdw hdh
  have e1 : tex.slice_y_spans.getD [] = ys := by
    rw [hys]
    rfl
  have hcall2 := hcall
  unfold pixel_upload_subregion_to_gl at hcall2
  simp only [e1] at hcall2
  split at hcall2
  · cases hcall2
  · rename_i qy qx qv qg hq
    cases hcall2
    obtain ⟨s0, hs0, _, hbegin⟩ := iter_begin_at tex.bitmap.height ys hply dst_y (dst_y + h)
      default
    rw [← hfix] at hcall
    obtain ⟨L, hL, hsub⟩ := subregion_y_loop_binds tex src_x src_y dst_x dst_y w h source_bmp
      tex.bitmap.width tex.bitmap.height xs ys handles _ hxs hhs hplx hply hdw hdh _ 0 s0 _ _
      _ gl (qy, qx, qv, gl_new) hs0 hbegin hq
    refine ⟨gl_new, L, hcall, hL, ?_⟩
    exact List.Sublist.nodup (by simpa using hsub)
      (grid_handles_nodup handles xs.length ys.length hgrid hnodup)

theorem upload_subregion_no_wrap_witness :
    ∃ (gl_new : GLState Nat) (bound : List GLuint),
      _cogl_texture_upload_subregion_to_gl example_subtexture 0 0 2 1 4 2 example_bitmap
        example_created_gl = some (true, gl_new) ∧
      bound_handles gl_new.log = bound_handles example_created_gl.log ++ bound ∧
      bound.Nodup :=
  (upload_subregion_no_wrap example_driver example_subtexture 2 1
    [{ start := 0, size := 4, waste := 0 }, { start := 4, size := 4, waste := 1 }]
    [{ start := 0, size := 4, waste := 1 }] [1, 2] 0 0 2 1 4 2 example_bitmap
    example_created_gl (by decide) (by decide) (by decide) (by decide) rfl rfl rfl rfl rfl
    (by decide) (by decide) (by decide) (by decide) (by decide) (by decide) (by decide)).2.2

/-! ## The shrink loop of slice creation -/

theorem shrink_loop_returns (size_supported : Int → Int → Bool) (fuel : Nat)
    (max_width max_height : Int) (hf : max_width.natAbs + max_height.natAbs < fuel) :
    ∃ r, shrink_loop size_supported fuel max_width max_height = some r := by
  induction fuel generalizing max_width max_height with
  | zero => omega
  | succ fuel ih =>
    unfold shrink_loop
    by_cases hs : size_supported max_width max_height = true
    · simp [hs]
    · simp only [hs, Bool.not_false, if_true]
      by_cases hgt : max_width > max_height
      · simp only [hgt, if_true]
        by_cases hz : Int.tdiv max_width 2 = 0 ∨ max_height = 0
        · rw [if_pos hz]
          exact ⟨_, rfl⟩
        · rw [if_neg hz]
          apply ih
          have h1 := Int.natAbs_tdiv max_width 2
          have h2 : (Int.tdiv max_width 2).natAbs ≠ 0 := fun h => hz (Or.inl (Int.natAbs_eq_zero.1 h))
          have h3 : (max_width.natAbs).div (2 : Int).natAbs = max_width.natAbs / 2 := rfl
          rw [h3] at h1
          omega
      · simp only [hgt, if_false]
        by_cases hz : max_width = 0 ∨ Int.tdiv max_height 2 = 0
        · rw [if_pos hz]
          exact ⟨_, rfl⟩
        · rw [if_neg hz]
          apply ih
          have h1 := Int.natAbs_tdiv max_height 2
          have h2 : (Int.tdiv max_height 2).natAbs ≠ 0 := fun h => hz (Or.inr (Int.natAbs_eq_zero.1 h))
          have h3 : (max_height.natAbs).div (2 : Int).natAbs = max_height.natAbs / 2 := rfl
          rw [h3] at h1
          omega

theorem shrink_loop_halve (size_supported : Int → Int → Bool) (fuel : Nat) (p : Int × Int)
    (h1 : 1 ≤ p.1) (h2 : 1 ≤ p.2) (hs : size_supported p.1 p.2 = false) :
    (((halve_larger p).1 = 0 ∨ (halve_larger p).2 = 0) →
      shrink_loop size_supported (fuel + 1) p.1 p.2 = some none) ∧
    (¬ ((halve_larger p).1 = 0 ∨ (halve_larger p).2 = 0) →
      shrink_loop size_supported (fuel + 1) p.1 p.2 =
        shrink_loop size_supported fuel (halve_larger p).1 (halve_larger p).2 ∧
      1 ≤ (halve_larger p).1 ∧ 1 ≤ (halve_larger p).2 ∧
      (halve_larger p).1 + (halve_larger p).2 < p.1 + p.2) := by
  have e : (if p.1 > p.2 then (Int.tdiv p.1 2, p.2) else (p.1, Int.tdiv p.2 2)) =
      halve_larger p := by
    unfold halve_larger
    rw [Int.tdiv_eq_ediv (by omega) (by decide), Int.tdiv_eq_ediv (by omega) (by decide)]
  have hun : shrink_loop size_supported (fuel + 1) p.1 p.2 =
      if (halve_larger p).1 = 0 ∨ (halve_larger p).2 = 0 then some none
      else shrink_loop size_supported fuel (halve_larger p).1 (halve_larger p).2 := by
    rw [shrink_loop]
    simp only [hs, Bool.not_false, if_true, e]
  constructor
  · intro hz
    rw [hun, if_pos hz]
  · intro hz
    rw [hun, if_neg hz]
    refine ⟨rfl, ?_⟩
    by_cases hgt : p.1 > p.2
    · simp only [halve_larger, hgt, if_true] at hz ⊢
      omega
    · simp only [halve_larger, hgt, if_false] at hz ⊢
      omega

/-- The shrink loop against the halving sequence: it either returns `FALSE`, and then the
sequence reaches a zero size with no supported pair before it, or it leaves the loop with
the first supported pair of the sequence. -/
theorem shrink_loop_sequence (size_supported : Int → Int → Bool) (fuel : Nat) (p : Int × Int)
    (h1 : 1 ≤ p.1) (h2 : 1 ≤ p.2) (hf : p.1 + p.2 < (fuel : Int)) :
    (shrink_loop size_supported fuel p.1 p.2 = some none ∧
      ∃ n : Nat, (∀ m ≤ n, size_supported (halve_larger^[m] p).1 (halve_larger^[m] p).2 = false) ∧
        ((halve_larger^[n + 1] p).1 = 0 ∨ (halve_larger^[n + 1] p).2 = 0) ∧
        ∀ m ≤ n, 1 ≤ (halve_larger^[m] p).1 ∧ 1 ≤ (halve_larger^[m] p).2) ∨
    (∃ n : Nat, shrink_loop size_supported fuel p.1 p.2 = some (some (halve_larger^[n] p)) ∧
      size_supported (halve_larger^[n] p).1 (halve_larger^[n] p).2 = true ∧
      (∀ m < n, size_supported (halve_larger^[m] p).1 (halve_larger^[m] p).2 = false) ∧
      ∀ m ≤ n, 1 ≤ (halve_larger^[m] p).1 ∧ 1 ≤ (halve_larger^[m] p).2) := by
  induction fuel generalizing p with
  | zero => omega
  | succ fuel ih =>
    by_cases hs : size_supported p.1 p.2 = true
    · right
      refine ⟨0, ?_, hs, fun m hm => absurd hm (Nat.not_lt_zero m), ?_⟩
      · unfold shrink_loop
        simp [hs]
      · intro m hm
        obtain rfl : m = 0 := by omega
        exact ⟨h1, h2⟩
    · have hs2 : size_supported p.1 p.2 = false := by simpa using hs
      obtain ⟨hz1, hz2⟩ := shrink_loop_halve size_supported fuel p h1 h2 hs2
      by_cases hz : (halve_larger p).1 = 0 ∨ (halve_larger p).2 = 0
      · left
        refine ⟨hz1 hz, 0, ?_, hz, ?_⟩
        · intro m hm
          obtain rfl : m = 0 := by omega
          exact hs2
        · intro m hm
          obtain rfl : m = 0 := by omega
          exact ⟨h1, h2⟩
      · obtain ⟨e, g1, g2, g3⟩ := hz2 hz
        have hall : ∀ (Q : Int × Int → Prop) (n : Nat), Q p →
            (∀ m ≤ n, Q (halve_larger^[m] (halve_larger p))) →
            ∀ m ≤ n + 1, Q (halve_larger^[m] p) := by
          intro Q n h0 hn m hm
          cases m with
          | zero => exact h0
          | succ m =>
            rw [Function.iterate_succ_apply]
            exact hn m (by omega)
        rcases ih (halve_larger p) g1 g2 (by omega) with ⟨hr, n, a1, a2, a3⟩ | ⟨n, hr, a1, a2, a3⟩
        · left
          refine ⟨by rw [e, hr], n + 1, ?_, ?_, ?_⟩
          · exact hall (fun q => size_supported q.1 q.2 = false) n hs2 a1
          · rw [Function.iterate_succ_apply]
            exact a2
          · exact hall (fun q => 1 ≤ q.1 ∧ 1 ≤ q.2) n ⟨h1, h2⟩ a3
        · right
          refine ⟨n + 1, ?_, ?_, ?_, ?_⟩
          · rw [e, hr, Function.iterate_succ_apply]
          · rw [Function.iterate_succ_apply]
            exact a1
          · intro m hm
            cases m with
            | zero => exact hs2
            | succ m =>
              rw [Function.iterate_succ_apply]
              exact a2 m (by omega)
          · exact hall (fun q => 1 ≤ q.1 ∧ 1 ≤ q.2) n ⟨h1, h2⟩ a3

/-! ## Slice creation: no-slicing mode and the shrink loop -/

theorem slices_for_size_returns (npot : Bool) (size_to_fill max_span_size max_waste : Int)
    (hfill : 1 ≤ size_to_fill) (hmax : 1 ≤ max_span_size) :
    ∃ spans : List CoglSpan,
      (if npot then _cogl_rect_slices_for_size else _cogl_pot_slices_for_size) size_to_fill
        max_span_size max_waste (some []) = some ((spans.length : Int), some spans) ∧
      (if npot then _cogl_rect_slices_for_size else _cogl_pot_slices_for_size) size_to_fill
        max_span_size max_waste none = some ((spans.length : Int), none) := by
  cases npot
  · obtain ⟨spans, h, _⟩ := pot_slices_spec size_to_fill max_span_size max_waste [] hfill hmax
    refine ⟨spans, by simpa using h, ?_⟩
    simp only [Bool.false_eq_true, if_false]
    rw [pot_slices_null size_to_fill max_span_size max_waste [], h]
    rfl
  · obtain ⟨spans, h, _⟩ := rect_slices_spec size_to_fill max_span_size max_waste [] hfill hmax
    refine ⟨spans, by simpa using h, ?_⟩
    simp only [if_true]
    rw [rect_slices_null size_to_fill max_span_size max_waste [], h]
    rfl

theorem plan_slices_no_slicing (drv : Driver) (max_waste width height : Int)
    (hmw : max_waste ≤ -1) :
    plan_slices drv max_waste width height =
      if drv.size_supported
          (if drv.feature_texture_npot then width else _cogl_util_next_p2 width)
          (if drv.feature_texture_npot then height else _cogl_util_next_p2 height) then
        some (some (1, 1,
          [{ start := 0
             size := if drv.feature_texture_npot then width else _cogl_util_next_p2 width
             waste :=
               (if drv.feature_texture_npot then width else _cogl_util_next_p2 width) - width }],
          [{ start := 0
             size := if drv.feature_texture_npot then height else _cogl_util_next_p2 height
             waste :=
               (if drv.feature_texture_npot then height else _cogl_util_next_p2 height) -
                 height }]))
      else some none := by
  unfold plan_slices
  simp only [if_pos hmw]
  cases drv.size_supported
      (if drv.feature_texture_npot then width else _cogl_util_next_p2 width)
      (if drv.feature_texture_npot then height else _cogl_util_next_p2 height) <;> simp

/-- C14: with `max_waste <= -1`, `_cogl_texture_2d_sliced_slices_create` never slices. If
the full size (`width x height` with NPOT support, else the next power of two of each) is
not supported it returns `FALSE` with the GL state untouched, and its answer depends on
the size query only at that one size, so no smaller size is tried. Otherwise it returns
`TRUE` with exactly one span per axis, `(0, full size, full size - logical size)`, and
exactly one handle. -/
theorem slices_create_no_slicing {α : Type} (drv : Driver) (tex_2ds : CoglTexture2DSliced α)
    (width height : Int) (gl : GLState α) (hmw : tex_2ds.max_waste ≤ -1) :
    (drv.size_supported
        (if drv.feature_texture_npot then width else _cogl_util_next_p2 width)
        (if drv.feature_texture_npot then height else _cogl_util_next_p2 height) = false →
      _cogl_texture_2d_sliced_slices_create drv tex_2ds width height gl =
        some (false, { tex_2ds with gl_target := GL_TEXTURE_2D }, gl)) ∧
    (drv.size_supported
        (if drv.feature_texture_npot then width else _cogl_util_next_p2 width)
        (if drv.feature_texture_npot then height else _cogl_util_next_p2 height) = true →
      ∃ (tex_new : CoglTexture2DSliced α) (gl_new : GLState α) (handle : GLuint),
        _cogl_texture_2d_sliced_slices_create drv tex_2ds width height gl =
          some (true, tex_new, gl_new) ∧
        tex_new.slice_x_spans = some
          [{ start := 0
             size := if drv.feature_texture_npot then width else _cogl_util_next_p2 width
             waste :=
               (if drv.feature_texture_npot then width else _cogl_util_next_p2 width) -
                 width }] ∧
        tex_new.slice_y_spans = some
          [{ start := 0
             size := if drv.feature_texture_npot then height else _cogl_util_next_p2 height
             waste :=
               (if drv.feature_texture_npot then height else _cogl_util_next_p2 height) -
                 height }] ∧
        tex_new.slice_gl_handles = some [handle]) ∧
    (∀ drv2 : Driver, drv2.feature_texture_npot = drv.feature_texture_npot →
      drv2.feature_offscreen = drv.feature_offscreen →
      drv2.size_supported
          (if drv.feature_texture_npot then width else _cogl_util_next_p2 width)
          (if drv.feature_texture_npot then height else _cogl_util_next_p2 height) =
        drv.size_supported
          (if drv.feature_texture_npot then width else _cogl_util_next_p2 width)
          (if drv.feature_texture_npot then height else _cogl_util_next_p2 height) →
      _cogl_texture_2d_sliced_slices_create drv2 tex_2ds width height gl =
        _cogl_texture_2d_sliced_slices_create drv tex_2ds width height gl) := by
  have hp := plan_slices_no_slicing drv tex_2ds.max_waste width height hmw
  refine ⟨?_, ?_, ?_⟩
  · intro hs
    unfold _cogl_texture_2d_sliced_slices_create
    simp only [hp, hs, Bool.false_eq_true, if_false]
  · intro hs
    unfold _cogl_texture_2d_sliced_slices_create
    simp only [hp, hs, if_true]
    exact ⟨_, _, gl.next_name + 0, rfl, rfl, rfl, rfl⟩
  · intro drv2 h1 h2 h3
    have hp2 := plan_slices_no_slicing drv2 tex_2ds.max_waste width height hmw
    rw [h1, h3] at hp2
    unfold _cogl_texture_2d_sliced_slices_create
    simp only [hp, hp2, h2]

theorem slices_create_no_slicing_witness :
    ∃ (tex_new : CoglTexture2DSliced Nat) (gl_new : GLState Nat) (handle : GLuint),
      _cogl_texture_2d_sliced_slices_create example_driver
          { example_texture with max_waste := -1 } 3 3 example_gl =
        some (true, tex_new, gl_new) ∧
      tex_new.slice_x_spans = some [{ start := 0, size := 4, waste := 1 }] ∧
      tex_new.slice_y_spans = some [{ start := 0, size := 4, waste := 1 }] ∧
      tex_new.slice_gl_handles = some [handle] :=
  (slices_create_no_slicing example_driver { example_texture with max_waste := -1 } 3 3
    example_gl (by decide)).2.1 rfl

theorem plan_slices_slicing (drv : Driver) (max_waste width height : Int)
    (hmw : 0 ≤ max_waste) :
    plan_slices drv max_waste width height =
      match shrink_loop drv.size_supported
          ((if drv.feature_texture_npot then width else _cogl_util_next_p2 width).natAbs +
            (if drv.feature_texture_npot then height else _cogl_util_next_p2 height).natAbs + 1)
          (if drv.feature_texture_npot then width else _cogl_util_next_p2 width)
          (if drv.feature_texture_npot then height else _cogl_util_next_p2 height) with
      | none => none
      | some none => some none
      | some (some (max_width, max_height)) =>
        ((if drv.feature_texture_npot then _cogl_rect_slices_for_size
          else _cogl_pot_slices_for_size) width max_width max_waste none).bind fun rx =>
        ((if drv.feature_texture_npot then _cogl_rect_slices_for_size
          else _cogl_pot_slices_for_size) height max_height max_waste none).bind fun ry =>
        ((if drv.feature_texture_npot then _cogl_rect_slices_for_size
          else _cogl_pot_slices_for_size) width max_width max_waste (some [])).bind fun ax =>
        ((if drv.feature_texture_npot then _cogl_rect_slices_for_size
          else _cogl_pot_slices_for_size) height max_height max_waste (some [])).bind fun ay =>
        some (some (rx.1, ry.1, ax.2.getD [], ay.2.getD [])) := by
  unfold plan_slices
  simp only [if_neg (show ¬ max_waste ≤ -1 by omega)]

/-- C15, as stated, fails: for a surface 0 pixels wide, on a driver without NPOT support
that accepts 1 x 1 textures and with `max_waste = 0`, the shrink loop ends at once on the
supported pair (1, 1), but creation neither returns `FALSE` nor plans the slices:
`_cogl_pot_slices_for_size` halves the span size to 0 and stops at its
`g_assert (span.size > 0)`, so the call does not return. -/
theorem slices_create_empty_counterexample :
    (0 : Int) ≤ ({ example_texture with max_waste := 0 } : CoglTexture2DSliced Nat).max_waste ∧
    shrink_loop example_driver.size_supported
        ((_cogl_util_next_p2 0).natAbs + (_cogl_util_next_p2 1).natAbs + 1)
        (_cogl_util_next_p2 0) (_cogl_util_next_p2 1) = some (some (1, 1)) ∧
    _cogl_pot_slices_for_size 0 1 0 (some []) = none ∧
    _cogl_texture_2d_sliced_slices_create example_driver
        { example_texture with max_waste := 0 } 0 1 example_gl = none := by
  refine ⟨by decide, by decide, by decide, rfl⟩

/-- C15, amended: for every size-support predicate the shrink loop of slice creation terminates.
For `max_waste >= 0` and a surface of at least 1 x 1 pixels,
`_cogl_texture_2d_sliced_slices_create` returns; it returns `FALSE` exactly when the
halving sequence (the strictly larger of `max_width` and `max_height` is halved after each
unsupported probe, the height on ties) reaches a zero size with no supported pair before
it; otherwise it returns `TRUE` and both axes are planned with the first supported pair of
that sequence. -/
theorem slices_create_shrink {α : Type} (drv : Driver) (tex_2ds : CoglTexture2DSliced α)
    (width height : Int) (gl : GLState α) (hmw : 0 ≤ tex_2ds.max_waste) (hw : 1 ≤ width)
    (hh : 1 ≤ height) :
    (∀ (size_supported : Int → Int → Bool) (max_width max_height : Int),
      ∃ r, shrink_loop size_supported (max_width.natAbs + max_height.natAbs + 1) max_width
        max_height = some r) ∧
    (∃ (r : Bool) (tex_new : CoglTexture2DSliced α) (gl_new : GLState α),
      _cogl_texture_2d_sliced_slices_create drv tex_2ds width height gl =
        some (r, tex_new, gl_new)) ∧
    ((∃ (tex_new : CoglTexture2DSliced α) (gl_new : GLState α),
        _cogl_texture_2d_sliced_slices_create drv tex_2ds width height gl =
          some (false, tex_new, gl_new)) ↔
      ∃ n : Nat,
        (∀ m ≤ n, drv.size_supported
          (halving_sequence
            (if drv.feature_texture_npot then width else _cogl_util_next_p2 width)
            (if drv.feature_texture_npot then height else _cogl_util_next_p2 height) m).1
          (halving_sequence
            (if drv.feature_texture_npot then width else _cogl_util_next_p2 width)
            (if drv.feature_texture_npot then height else _cogl_util_next_p2 height) m).2 =
            false) ∧
        ((halving_sequence
            (if drv.feature_texture_npot then width else _cogl_util_next_p2 width)
            (if drv.feature_texture_npot then height else _cogl_util_next_p2 height)
            (n + 1)).1 = 0 ∨
          (halving_sequence
            (if drv.feature_texture_npot then width else _cogl_util_next_p2 width)
            (if drv.feature_texture_npot then height else _cogl_util_next_p2 height)
            (n + 1)).2 = 0)) ∧
    ((¬ ∃ (tex_new : CoglTexture2DSliced α) (gl_new : GLState α),
        _cogl_texture_2d_sliced_slices_create drv tex_2ds width height gl =
          some (false, tex_new, gl_new)) →
      ∃ (n : Nat) (xs ys : List CoglSpan) (tex_new : CoglTexture2DSliced α)
          (gl_new : GLState α),
        drv.size_supported
          (halving_sequence
            (if drv.feature_texture_npot then width else _cogl_util_next_p2 width)
            (if drv.feature_texture_npot then height else _cogl_util_next_p2 height) n).1
          (halving_sequence
            (if drv.feature_texture_npot then width else _cogl_util_next_p2 width)
            (if drv.feature_texture_npot then height else _cogl_util_next_p2 height) n).2 =
            true ∧
        (∀ m < n, drv.size_supported
          (halving_sequence
            (if drv.feature_texture_npot then width else _cogl_util_next_p2 width)
            (if drv.feature_texture_npot then height else _cogl_util_next_p2 height) m).1
          (halving_sequence
            (if drv.feature_texture_npot then width else _cogl_util_next_p2 width)
            (if drv.feature_texture_npot then height else _cogl_util_next_p2 height) m).2 =
            false) ∧
        (if drv.feature_texture_npot then _cogl_rect_slices_for_size
          else _cogl_pot_slices_for_size) width
          (halving_sequence
            (if drv.feature_texture_npot then width else _cogl_util_next_p2 width)
            (if drv.feature_texture_npot then height else _cogl_util_next_p2 height) n).1
          tex_2ds.max_waste (some []) = some ((xs.length : Int), some xs) ∧
        (if drv.feature_texture_npot then _cogl_rect_slices_for_size
          else _cogl_pot_slices_for_size) height
          (halving_sequence
            (if drv.feature_texture_npot then width else _cogl_util_next_p2 width)
            (if drv.feature_texture_npot then height else _cogl_util_next_p2 height) n).2
          tex_2ds.max_waste (some []) = some ((ys.length : Int), some ys) ∧
        _cogl_texture_2d_sliced_slices_create drv tex_2ds width height gl =
          some (true, tex_new, gl_new) ∧
        tex_new.slice_x_spans = some xs ∧ tex_new.slice_y_spans = some ys) := by
  have hW : 1 ≤ (if drv.feature_texture_npot then width else _cogl_util_next_p2 width) := by
    split
    · exact hw
    · exact (next_p2_ge width).2
  have hH : 1 ≤ (if drv.feature_texture_npot then height else _cogl_util_next_p2 height) := by
    split
    · exact hh
    · exact (next_p2_ge height).2
  have hp := plan_slices_slicing drv tex_2ds.max_waste width height hmw
  generalize (if drv.feature_texture_npot then width else _cogl_util_next_p2 width) = W0
    at hW hp ⊢
  generalize (if drv.feature_texture_npot then height else _cogl_util_next_p2 height) = H0
    at hH hp ⊢
  have hseq := shrink_loop_sequence drv.size_supported (W0.natAbs + H0.natAbs + 1) (W0, H0)
    hW hH (by
      show W0 + H0 < _
      omega)
  have hcreate : _cogl_texture_2d_sliced_slices_create drv tex_2ds width height gl =
      match plan_slices drv tex_2ds.max_waste width height with
      | none => none
      | some none => some (false, { tex_2ds with gl_target := GL_TEXTURE_2D }, gl)
      | some (some (n_x_slices, n_y_slices, x_spans, y_spans)) =>
        some (true,
          { tex_2ds with
            gl_target := GL_TEXTURE_2D
            slice_x_spans := some x_spans
            slice_y_spans := some y_spans
            slice_gl_handles := some (glGenTextures gl (n_x_slices * n_y_slices).toNat).1
            first_pixels :=
              if drv.feature_offscreen then none
              else some (List.replicate (n_x_slices * n_y_slices).toNat
                { gl_format := 0, gl_type := 0, data := none })
            wrap_mode_s := GL_FALSE
            wrap_mode_t := GL_FALSE },
          init_slice_textures (some x_spans) (some y_spans)
            (some (glGenTextures gl (n_x_slices * n_y_slices).toNat).1) n_x_slices n_y_slices
            (glGenTextures gl (n_x_slices * n_y_slices).toNat).2) := rfl
  refine ⟨fun P a b => shrink_loop_returns P _ a b (by omega), ?_⟩
  unfold halving_sequence
  rcases hseq with ⟨hr, n, a1, a2, a3⟩ | ⟨n, hr, a1, a2, a3⟩
  · -- the loop gives up
    have hfalse : _cogl_texture_2d_sliced_slices_create drv tex_2ds width height gl =
        some (false, { tex_2ds with gl_target := GL_TEXTURE_2D }, gl) := by
      rw [hcreate, hp, hr]
    refine ⟨⟨_, _, _, hfalse⟩, ⟨fun _ => ⟨n, a1, a2⟩, fun _ => ⟨_, _, hfalse⟩⟩, ?_⟩
    intro hno
    exact absurd ⟨_, _, hfalse⟩ hno
  · -- the loop finds a supported pair
    obtain ⟨b1, b2⟩ := a3 n (le_refl _)
    obtain ⟨xs, hx1, hx2⟩ := slices_for_size_returns drv.feature_texture_npot width
      (halve_larger^[n] (W0, H0)).1 tex_2ds.max_waste hw b1
    obtain ⟨ys, hy1, hy2⟩ := slices_for_size_returns drv.feature_texture_npot height
      (halve_larger^[n] (W0, H0)).2 tex_2ds.max_waste hh b2
    have hplan : plan_slices drv tex_2ds.max_waste width height =
        some (some ((xs.length : Int), (ys.length : Int), xs, ys)) := by
      rw [hp, hr]
      simp only [hx1, hx2, hy1, hy2, Option.some_bind, Option.getD_some]
    have htrue : ∃ (tex_new : CoglTexture2DSliced α) (gl_new : GLState α),
        _cogl_texture_2d_sliced_slices_create drv tex_2ds width height gl =
          some (true, tex_new, gl_new) ∧
        tex_new.slice_x_spans = some xs ∧ tex_new.slice_y_spans = some ys := by
      rw [hcreate, hplan]
      exact ⟨_, _, rfl, rfl, rfl⟩
    obtain ⟨tex_new, gl_new, hc, hc1, hc2⟩ := htrue
    have hnf : ¬ ∃ (t : CoglTexture2DSliced α) (g : GLState α),
        _cogl_texture_2d_sliced_slices_create drv tex_2ds width height gl =
          some (false, t, g) := by
      rintro ⟨t, g, hf⟩
      rw [hc] at hf
      cases hf
    refine ⟨⟨_, _, _, hc⟩, ⟨fun hf => absurd hf hnf, ?_⟩, ?_⟩
    · rintro ⟨k, k1, k2⟩
      exfalso
      rcases Nat.lt_or_ge k n with hlt | hge
      · have := a3 (k + 1) (by omega)
        omega
      · have := k1 n hge
        rw [a1] at this
        cases this
    · intro _
      exact ⟨n, xs, ys, tex_new, gl_new, a1, a2, hx1, hy1, hc, hc1, hc2⟩

theorem slices_create_shrink_witness :
    ∃ (r : Bool) (tex_new : CoglTexture2DSliced Nat) (gl_new : GLState Nat),
      _cogl_texture_2d_sliced_slices_create example_driver example_texture 7 3 example_gl =
        some (r, tex_new, gl_new) :=
  (slices_create_shrink example_driver example_texture 7 3 example_gl (by decide) (by decide)
    (by decide)).2.1

/-! ## Boundary cases of the slice planner -/

/-- C16: `_cogl_pot_slices_for_size` with `size_to_fill = 300`, `max_span_size = 256` and
`max_waste = 16` returns 3 and appends exactly the spans `(0, 256, 0)`, `(256, 32, 0)`
and `(288, 16, 4)`; with `out_spans = NULL` it returns 3 as well. -/
theorem pot_slices_300_256_16 :
    _cogl_pot_slices_for_size 300 256 16 (some []) =
      some (3, some [{ start := 0, size := 256, waste := 0 },
        { start := 256, size := 32, waste := 0 }, { start := 288, size := 16, waste := 4 }]) ∧
    _cogl_pot_slices_for_size 300 256 16 none = some (3, none) := by
  constructor <;> decide

theorem rect_slices_exact (m max_waste : Int) (out : List CoglSpan) (hm : 1 ≤ m) :
    _cogl_rect_slices_for_size m m max_waste (some out) =
      some (1, some (out ++ [{ start := 0, size := m, waste := 0 }])) := by
  obtain ⟨k, hk⟩ : ∃ k, m.toNat + 1 = k + 2 := ⟨m.toNat - 1, by omega⟩
  unfold _cogl_rect_slices_for_size
  rw [hk]
  simp only [rect_loop, ge_iff_le, le_refl, if_true, sub_self, append_span]
  rw [if_neg (by omega)]
  simp

theorem pot_slices_exact (m max_waste : Int) (out : List CoglSpan) :
    _cogl_pot_slices_for_size m m max_waste (some out) =
      some (1, some (out ++ [{ start := 0, size := m, waste := 0 }])) := by
  unfold _cogl_pot_slices_for_size
  simp only [pot_loop, gt_iff_lt, lt_irrefl, if_false, sub_self, append_span]
  rw [if_pos (by split <;> omega)]
  simp

/-- C17: for every `max_span_size >= 1` and every `max_waste`, planning
`size_to_fill = max_span_size` returns 1 and appends exactly the span
`(0, max_span_size, 0)`, under the rectangular and under the power-of-two policy. -/
theorem slices_for_exact_size (max_span_size max_waste : Int) (h : 1 ≤ max_span_size) :
    _cogl_rect_slices_for_size max_span_size max_span_size max_waste (some []) =
      some (1, some [{ start := 0, size := max_span_size, waste := 0 }]) ∧
    _cogl_pot_slices_for_size max_span_size max_span_size max_waste (some []) =
      some (1, some [{ start := 0, size := max_span_size, waste := 0 }]) :=
  ⟨rect_slices_exact max_span_size max_waste [] h, pot_slices_exact max_span_size max_waste []⟩

theorem slices_for_exact_size_witness :
    _cogl_rect_slices_for_size 4 4 1 (some []) =
      some (1, some [{ start := 0, size := 4, waste := 0 }]) ∧
    _cogl_pot_slices_for_size 4 4 1 (some []) =
      some (1, some [{ start := 0, size := 4, waste := 0 }]) :=
  slices_for_exact_size 4 1 (by decide)

theorem rect_slices_one_more (m max_waste : Int) (hm : 1 ≤ m) :
    _cogl_rect_slices_for_size (m + 1) m max_waste (some []) =
      some (2, some [{ start := 0, size := m, waste := 0 },
        { start := m, size := 1, waste := 0 }]) := by
  obtain ⟨k, hk⟩ : ∃ k, (m + 1).toNat + 1 = k + 3 := ⟨(m + 1).toNat - 2, by omega⟩
  unfold _cogl_rect_slices_for_size
  rw [hk]
  by_cases h1 : m = 1
  · subst h1
    simp [rect_loop, append_span]
  · have h2 : ¬ (m + 1 - m ≥ m) := by omega
    simp only [rect_loop, append_span, if_pos (show m + 1 ≥ m by omega), if_neg h2]
    rw [if_pos (by omega)]
    simp

theorem pot_loop_more (fuel : Nat) (size_to_fill : Int) (span : CoglSpan)
    (max_waste n_spans : Int) (out : Option (List CoglSpan))
    (h : size_to_fill > span.size) :
    pot_loop (fuel + 1) size_to_fill span max_waste n_spans out =
      pot_loop fuel (size_to_fill - span.size)
        { span with start := span.start + span.size } max_waste (n_spans + 1)
        (append_span out span) := by
  rw [pot_loop, if_pos h]

theorem pot_loop_done (fuel : Nat) (size_to_fill : Int) (span : CoglSpan)
    (max_waste n_spans : Int) (out : Option (List CoglSpan))
    (h1 : ¬ size_to_fill > span.size) (h2 : span.size - size_to_fill ≤ max_waste) :
    pot_loop (fuel + 1) size_to_fill span max_waste n_spans out =
      some (n_spans + 1,
        append_span out { span with waste := span.size - size_to_fill }) := by
  rw [pot_loop, if_neg h1, if_pos h2]

theorem pot_loop_shrink (fuel : Nat) (size_to_fill : Int) (span : CoglSpan)
    (max_waste n_spans : Int) (out : Option (List CoglSpan)) (r : Int)
    (h1 : ¬ size_to_fill > span.size) (h2 : ¬ span.size - size_to_fill ≤ max_waste)
    (hr : pot_shrink (span.size.toNat + 1) span.size size_to_fill max_waste = some r) :
    pot_loop (fuel + 1) size_to_fill span max_waste n_spans out =
      pot_loop fuel size_to_fill { span with size := r } max_waste n_spans out := by
  rw [pot_loop, if_neg h1, if_neg h2, hr]

theorem pot_slices_one_more (m max_waste : Int) (hm : 1 ≤ m) :
    ∃ size : Int, 1 ≤ size ∧ size ≤ m ∧
      _cogl_pot_slices_for_size (m + 1) m max_waste (some []) =
        some (2, some [{ start := 0, size := m, waste := 0 },
          { start := m, size := size, waste := size - 1 }]) := by
  obtain ⟨k, hk⟩ : ∃ k, (m + 1).natAbs + m.natAbs + 2 = k + 3 :=
    ⟨(m + 1).natAbs + m.natAbs - 1, by omega⟩
  unfold _cogl_pot_slices_for_size
  simp only
  generalize hmw : (if max_waste < 0 then 0 else max_waste) = mw
  have hmw0 : 0 ≤ mw := by
    rw [← hmw]
    split <;> omega
  rw [hk, pot_loop_more _ _ _ _ _ _ (by show m + 1 > m; omega)]
  have h4 : m + 1 - m = 1 := by omega
  simp only [h4, append_span, List.nil_append, zero_add]
  by_cases h1 : m - 1 ≤ mw
  · refine ⟨m, hm, le_refl _, ?_⟩
    rw [pot_loop_done _ _ _ _ _ _ (by show ¬ 1 > m; omega) (by show m - 1 ≤ mw; exact h1)]
    simp [append_span]
  · obtain ⟨r, hr, hr1, hr2, hr3, _, _⟩ := pot_shrink_spec (m.toNat + 1) m 1 mw hm
      (le_refl _) hmw0 (by omega)
    refine ⟨r, hr1, hr2, ?_⟩
    rw [pot_loop_shrink _ _ _ _ _ _ r (by show ¬ 1 > m; omega) (by show ¬ m - 1 ≤ mw; exact h1)
      hr]
    rw [pot_loop_done _ _ _ _ _ _ (by show ¬ 1 > r; omega) (by show r - 1 ≤ mw; exact hr3)]
    simp [append_span]

/-- C18: for every `max_span_size >= 1` and every `max_waste`, planning
`size_to_fill = max_span_size + 1` returns 2; the rectangular policy appends exactly
`(0, max_span_size, 0)` and `(max_span_size, 1, 0)`, and the power-of-two policy appends
exactly `(0, max_span_size, 0)` and a span that starts at `max_span_size` and whose waste
is its size minus 1. -/
theorem slices_for_one_more (max_span_size max_waste : Int) (h : 1 ≤ max_span_size) :
    _cogl_rect_slices_for_size (max_span_size + 1) max_span_size max_waste (some []) =
      some (2, some [{ start := 0, size := max_span_size, waste := 0 },
        { start := max_span_size, size := 1, waste := 0 }]) ∧
    ∃ size : Int, 1 ≤ size ∧ size ≤ max_span_size ∧
      _cogl_pot_slices_for_size (max_span_size + 1) max_span_size max_waste (some []) =
        some (2, some [{ start := 0, size := max_span_size, waste := 0 },
          { start := max_span_size, size := size, waste := size - 1 }]) :=
  ⟨rect_slices_one_more max_span_size max_waste h, pot_slices_one_more max_span_size max_waste h⟩

theorem slices_for_one_more_witness :
    _cogl_rect_slices_for_size (4 + 1) 4 1 (some []) =
      some (2, some [{ start := 0, size := 4, waste := 0 },
        { start := 4, size := 1, waste := 0 }]) ∧
    ∃ size : Int, 1 ≤ size ∧ size ≤ 4 ∧
      _cogl_pot_slices_for_size (4 + 1) 4 1 (some []) =
        some (2, some [{ start := 0, size := 4, waste := 0 },
          { start := 4, size := size, waste := size - 1 }]) :=
  slices_for_one_more 4 1 (by decide)

/-! ## Cached filters and wrap modes -/

theorem foldl_range_getD {S β : Type} (f : S → β → S) (d : β) (l : List β) (s : S) :
    (List.range l.length).foldl (fun s i => f s (l.getD i d)) s = l.foldl f s := by
  induction l generalizing s with
  | nil => rfl
  | cons a tl ih =>
    rw [List.length_cons, List.range_succ_eq_map, List.foldl_cons, List.foldl_map]
    simp only [List.getD_cons_zero, List.getD_cons_succ, List.foldl_cons]
    exact ih (f s a)

theorem foldl_log {α : Type} (step : GLState α → GLuint → GLState α)
    (calls : GLuint → List GLCall)
    (hstep : ∀ gl h, (step gl h).log = gl.log ++ calls h ∧
      (step gl h).next_name = gl.next_name)
    (l : List GLuint) (gl : GLState α) :
    (l.foldl step gl).log = gl.log ++ l.flatMap calls ∧
      (l.foldl step gl).next_name = gl.next_name := by
  induction l generalizing gl with
  | nil => simp
  | cons a tl ih =>
    rw [List.foldl_cons]
    obtain ⟨h1, h2⟩ := ih (step gl a)
    rw [h1, h2, (hstep gl a).1, (hstep gl a).2]
    simp

theorem set_filters_same {α : Type} (tex_2ds : CoglTexture2DSliced α)
    (min_filter mag_filter : GLenum) (gl : GLState α)
    (hc : min_filter = tex_2ds.min_filter ∧ mag_filter = tex_2ds.mag_filter) :
    _cogl_texture_2d_sliced_set_filters tex_2ds min_filter mag_filter gl = (tex_2ds, gl) := by
  unfold _cogl_texture_2d_sliced_set_filters
  cases tex_2ds.slice_gl_handles with
  | none => rfl
  | some handles =>
    simp only
    rw [if_pos hc]

theorem set_filters_change {α : Type} (tex_2ds : CoglTexture2DSliced α)
    (min_filter mag_filter : GLenum) (gl : GLState α) (handles : List GLuint)
    (hh : tex_2ds.slice_gl_handles = some handles)
    (hc : ¬ (min_filter = tex_2ds.min_filter ∧ mag_filter = tex_2ds.mag_filter)) :
    _cogl_texture_2d_sliced_set_filters tex_2ds min_filter mag_filter gl =
      ({ tex_2ds with min_filter := min_filter, mag_filter := mag_filter },
        handles.foldl (fun (gl : GLState α) h =>
          glTexParameteri (glTexParameteri (glBindTexture gl h) GL_TEXTURE_MAG_FILTER
            mag_filter) GL_TEXTURE_MIN_FILTER min_filter) gl) := by
  rw [← foldl_range_getD (fun (gl : GLState α) h =>
    glTexParameteri (glTexParameteri (glBindTexture gl h) GL_TEXTURE_MAG_FILTER
      mag_filter) GL_TEXTURE_MIN_FILTER min_filter) 0 handles gl]
  unfold _cogl_texture_2d_sliced_set_filters
  rw [hh]
  simp only
  rw [if_neg hc]
  rfl

theorem set_wrap_same {α : Type} (tex_2ds : CoglTexture2DSliced α)
    (wrap_mode_s wrap_mode_t wrap_mode_p : GLenum) (gl : GLState α)
    (hc : ¬ (tex_2ds.wrap_mode_s ≠ wrap_mode_s ∨ tex_2ds.wrap_mode_t ≠ wrap_mode_t)) :
    _cogl_texture_2d_sliced_set_wrap_mode_parameters tex_2ds wrap_mode_s wrap_mode_t
      wrap_mode_p gl = some (tex_2ds, gl) := by
  unfold _cogl_texture_2d_sliced_set_wrap_mode_parameters
  rw [if_neg hc]

theorem set_wrap_change {α : Type} (tex_2ds : CoglTexture2DSliced α)
    (wrap_mode_s wrap_mode_t wrap_mode_p : GLenum) (gl : GLState α) (handles : List GLuint)
    (hh : tex_2ds.slice_gl_handles = some handles)
    (hc : tex_2ds.wrap_mode_s ≠ wrap_mode_s ∨ tex_2ds.wrap_mode_t ≠ wrap_mode_t) :
    _cogl_texture_2d_sliced_set_wrap_mode_parameters tex_2ds wrap_mode_s wrap_mode_t
      wrap_mode_p gl =
      some ({ tex_2ds with wrap_mode_s := wrap_mode_s, wrap_mode_t := wrap_mode_t },
        handles.foldl (fun (gl : GLState α) h =>
          glTexParameteri (glTexParameteri (glBindTexture gl h) GL_TEXTURE_WRAP_S
            wrap_mode_s) GL_TEXTURE_WRAP_T wrap_mode_t) gl) := by
  rw [← foldl_range_getD (fun (gl : GLState α) h =>
    glTexParameteri (glTexParameteri (glBindTexture gl h) GL_TEXTURE_WRAP_S
      wrap_mode_s) GL_TEXTURE_WRAP_T wrap_mode_t) 0 handles gl]
  unfold _cogl_texture_2d_sliced_set_wrap_mode_parameters
  rw [if_pos hc, hh]
  rfl

/-- C19: two consecutive calls of `_cogl_texture_2d_sliced_set_filters` with the same
arguments make the second a no-op (same texture record, same GL state, so no driver call),
and likewise for `_cogl_texture_2d_sliced_set_wrap_mode_parameters`; on a surface with
slice handles, a call that changes the cached value sets the cache to the arguments and
issues, for every slice handle in order, a bind and the two `glTexParameteri` calls with
the new values. -/
theorem set_filters_wrap_idempotent {α : Type} (tex_2ds : CoglTexture2DSliced α)
    (gl : GLState α) (handles : List GLuint) (hh : tex_2ds.slice_gl_handles = some handles) :
    (∀ min_filter mag_filter : GLenum,
      _cogl_texture_2d_sliced_set_filters
          (_cogl_texture_2d_sliced_set_filters tex_2ds min_filter mag_filter gl).1
          min_filter mag_filter
          (_cogl_texture_2d_sliced_set_filters tex_2ds min_filter mag_filter gl).2 =
        _cogl_texture_2d_sliced_set_filters tex_2ds min_filter mag_filter gl) ∧
    (∀ wrap_mode_s wrap_mode_t wrap_mode_p : GLenum,
      ∃ r, _cogl_texture_2d_sliced_set_wrap_mode_parameters tex_2ds wrap_mode_s wrap_mode_t
          wrap_mode_p gl = some r ∧
        _cogl_texture_2d_sliced_set_wrap_mode_parameters r.1 wrap_mode_s wrap_mode_t
          wrap_mode_p r.2 = some r) ∧
    (∀ min_filter mag_filter : GLenum,
      ¬ (min_filter = tex_2ds.min_filter ∧ mag_filter = tex_2ds.mag_filter) →
      (_cogl_texture_2d_sliced_set_filters tex_2ds min_filter mag_filter gl).1 =
        { tex_2ds with min_filter := min_filter, mag_filter := mag_filter } ∧
      (_cogl_texture_2d_sliced_set_filters tex_2ds min_filter mag_filter gl).2.log =
        gl.log ++ handles.flatMap (fun h =>
          [GLCall.bindTexture h, GLCall.texParameteri GL_TEXTURE_MAG_FILTER mag_filter,
            GLCall.texParameteri GL_TEXTURE_MIN_FILTER min_filter])) ∧
    (∀ wrap_mode_s wrap_mode_t wrap_mode_p : GLenum,
      (tex_2ds.wrap_mode_s ≠ wrap_mode_s ∨ tex_2ds.wrap_mode_t ≠ wrap_mode_t) →
      ∃ gl_new, _cogl_texture_2d_sliced_set_wrap_mode_parameters tex_2ds wrap_mode_s
          wrap_mode_t wrap_mode_p gl =
          some ({ tex_2ds with wrap_mode_s := wrap_mode_s, wrap_mode_t := wrap_mode_t },
            gl_new) ∧
        gl_new.log = gl.log ++ handles.flatMap (fun h =>
          [GLCall.bindTexture h, GLCall.texParameteri GL_TEXTURE_WRAP_S wrap_mode_s,
            GLCall.texParameteri GL_TEXTURE_WRAP_T wrap_mode_t])) := by
  refine ⟨?_, ?_, ?_, ?_⟩
  · intro min_filter mag_filter
    by_cases hc : min_filter = tex_2ds.min_filter ∧ mag_filter = tex_2ds.mag_filter
    · rw [set_filters_same tex_2ds min_filter mag_filter gl hc]
      exact set_filters_same tex_2ds min_filter mag_filter gl hc
    · rw [set_filters_change tex_2ds min_filter mag_filter gl handles hh hc]
      exact set_filters_same _ min_filter mag_filter _ ⟨rfl, rfl⟩
  · intro s t p
    by_cases hc : tex_2ds.wrap_mode_s ≠ s ∨ tex_2ds.wrap_mode_t ≠ t
    · refine ⟨_, set_wrap_change tex_2ds s t p gl handles hh hc, ?_⟩
      exact set_wrap_same _ s t p _ (fun h => h.elim (fun h => h rfl) (fun h => h rfl))
    · exact ⟨_, set_wrap_same tex_2ds s t p gl hc, set_wrap_same tex_2ds s t p gl hc⟩
  · intro min_filter mag_filter hc
    rw [set_filters_change tex_2ds min_filter mag_filter gl handles hh hc]
    exact ⟨rfl, (foldl_log
      (fun (gl : GLState α) h =>
        glTexParameteri (glTexParameteri (glBindTexture gl h) GL_TEXTURE_MAG_FILTER
          mag_filter) GL_TEXTURE_MIN_FILTER min_filter)
      (fun h => [GLCall.bindTexture h, GLCall.texParameteri GL_TEXTURE_MAG_FILTER mag_filter,
        GLCall.texParameteri GL_TEXTURE_MIN_FILTER min_filter])
      (fun g h => ⟨by simp [glTexParameteri, glBindTexture], rfl⟩) handles gl).1⟩
  · intro s t p hc
    exact ⟨_, set_wrap_change tex_2ds s t p gl handles hh hc, (foldl_log
      (fun (gl : GLState α) h =>
        glTexParameteri (glTexParameteri (glBindTexture gl h) GL_TEXTURE_WRAP_S s)
          GL_TEXTURE_WRAP_T t)
      (fun h => [GLCall.bindTexture h, GLCall.texParameteri GL_TEXTURE_WRAP_S s,
        GLCall.texParameteri GL_TEXTURE_WRAP_T t])
      (fun g h => ⟨by simp [glTexParameteri, glBindTexture], rfl⟩) handles gl).1⟩

theorem set_filters_wrap_idempotent_witness :
    _cogl_texture_2d_sliced_set_filters
        (_cogl_texture_2d_sliced_set_filters example_created GL_FALSE GL_LINEAR
          example_created_gl).1 GL_FALSE GL_LINEAR
        (_cogl_texture_2d_sliced_set_filters example_created GL_FALSE GL_LINEAR
          example_created_gl).2 =
      _cogl_texture_2d_sliced_set_filters example_created GL_FALSE GL_LINEAR
        example_created_gl :=
  (set_filters_wrap_idempotent example_created example_created_gl [1, 2] rfl).1 GL_FALSE
    GL_LINEAR

/-! ## Mipmap regeneration -/

theorem flatMap_range_getD {β γ : Type} (c : β → List γ) (d : β) (l : List β) :
    (List.range l.length).flatMap (fun i => c (l.getD i d)) = l.flatMap c := by
  induction l with
  | nil => rfl
  | cons a tl ih =>
    rw [List.length_cons, List.range_succ_eq_map, List.flatMap_cons, List.flatMap_cons]
    simp only [List.getD_cons_zero]
    congr 1
    rw [← ih]
    simp [List.flatMap, List.map_map, Function.comp_def]

theorem foldl_log_index {α β : Type} (step : GLState α → β → GLState α)
    (calls : β → List GLCall) (hstep : ∀ gl i, (step gl i).log = gl.log ++ calls i)
    (l : List β) (gl : GLState α) :
    (l.foldl step gl).log = gl.log ++ l.flatMap calls := by
  induction l generalizing gl with
  | nil => simp
  | cons a tl ih =>
    rw [List.foldl_cons, ih (step gl a), hstep gl a]
    simp

/-- The driver calls that `_cogl_texture_2d_sliced_pre_paint` issues for one slice after
binding it. -/
theorem regenerate_slice_log {α : Type} [Inhabited α] (drv : Driver)
    (tex_2ds : CoglTexture2DSliced α) (gl : GLState α) (i : Nat) :
    (regenerate_slice_mipmaps drv tex_2ds gl i).log =
      gl.log ++ (GLCall.bindTexture (handle_index tex_2ds.slice_gl_handles i) ::
        (if drv.feature_offscreen then [GLCall.generateMipmap]
        else if tex_2ds.first_pixels.isSome then
          [GLCall.texParameteri GL_GENERATE_MIPMAP GL_TRUE, GLCall.texSubImage2D 0 0 1 1,
            GLCall.texParameteri GL_GENERATE_MIPMAP GL_FALSE]
        else [])) := by
  unfold regenerate_slice_mipmaps
  cases drv.feature_offscreen
  · cases tex_2ds.first_pixels <;>
      simp [glBindTexture, glTexParameteri, glTexSubImage2D, GLState.set_texture]
  · simp [glBindTexture]

theorem pre_paint_skip {α : Type} [Inhabited α] (drv : Driver)
    (COGL_TEXTURE_NEEDS_MIPMAP : Nat) (tex_2ds : CoglTexture2DSliced α) (flags : Nat)
    (gl : GLState α)
    (h : ¬ (tex_2ds.auto_mipmap = true ∧ tex_2ds.mipmaps_dirty = true ∧
      tex_2ds.slice_gl_handles.isSome = true)) :
    _cogl_texture_2d_sliced_pre_paint drv COGL_TEXTURE_NEEDS_MIPMAP tex_2ds flags gl =
      (tex_2ds, gl) := by
  unfold _cogl_texture_2d_sliced_pre_paint
  split
  · rfl
  · split
    · rfl
    · rename_i h2
      cases hh : tex_2ds.slice_gl_handles with
      | none => rfl
      | some handles =>
        exfalso
        apply h
        rw [hh]
        simp only [Bool.not_eq_true', not_or, Bool.not_eq_false] at h2
        exact ⟨h2.1, h2.2, rfl⟩

theorem pre_paint_regenerate {α : Type} [Inhabited α] (drv : Driver)
    (COGL_TEXTURE_NEEDS_MIPMAP : Nat) (tex_2ds : CoglTexture2DSliced α) (flags : Nat)
    (gl : GLState α) (handles : List GLuint)
    (hflag : flags &&& COGL_TEXTURE_NEEDS_MIPMAP ≠ 0) (ha : tex_2ds.auto_mipmap = true)
    (hd : tex_2ds.mipmaps_dirty = true) (hh : tex_2ds.slice_gl_handles = some handles) :
    (_cogl_texture_2d_sliced_pre_paint drv COGL_TEXTURE_NEEDS_MIPMAP tex_2ds flags gl).1 =
      { tex_2ds with mipmaps_dirty := false } ∧
    (_cogl_texture_2d_sliced_pre_paint drv COGL_TEXTURE_NEEDS_MIPMAP tex_2ds flags gl).2.log =
      gl.log ++ handles.flatMap (fun h =>
        GLCall.bindTexture h ::
          (if drv.feature_offscreen then [GLCall.generateMipmap]
          else if tex_2ds.first_pixels.isSome then
            [GLCall.texParameteri GL_GENERATE_MIPMAP GL_TRUE, GLCall.texSubImage2D 0 0 1 1,
              GLCall.texParameteri GL_GENERATE_MIPMAP GL_FALSE]
          else [])) := by
  have e : _cogl_texture_2d_sliced_pre_paint drv COGL_TEXTURE_NEEDS_MIPMAP tex_2ds flags gl =
      ({ tex_2ds with mipmaps_dirty := false },
        (List.range handles.length).foldl (regenerate_slice_mipmaps drv tex_2ds) gl) := by
    unfold _cogl_texture_2d_sliced_pre_paint
    rw [if_neg hflag, if_neg (by simp [ha, hd]), hh]
  rw [e]
  refine ⟨rfl, ?_⟩
  show ((List.range handles.length).foldl (regenerate_slice_mipmaps drv tex_2ds) gl).log = _
  rw [foldl_log_index (regenerate_slice_mipmaps drv tex_2ds) _
    (fun g i => regenerate_slice_log drv tex_2ds g i)]
  congr 1
  rw [← flatMap_range_getD _ 0 handles]
  simp only [hh, handle_index, Option.getD_some]

theorem sliced_subregion_x_loop_returns {α : Type} [Inhabited α] (fns : SpanIterFns)
    (tex_2ds : CoglTexture2DSliced α) (src_x src_y dst_x dst_y : Int)
    (source_bmp : CoglBitmap α) (source_gl_format source_gl_type : GLenum)
    (y_iter : CoglSpanIter) (y_span : CoglSpan) (n : Nat) :
    ∀ (fuel : Nat) (x_iter : CoglSpanIter) (v : SubregionLocals)
      (st : Option (List (CoglTexturePixel α)) × GLState α),
      fns.iter_end (fns.iter_next^[n] x_iter) = true → n < fuel →
      ∃ r, sliced_subregion_x_loop fns tex_2ds src_x src_y dst_x dst_y source_bmp
        source_gl_format source_gl_type y_iter y_span fuel x_iter v st = some r := by
  induction n with
  | zero =>
    intro fuel x_iter v st he hf
    obtain ⟨f, rfl⟩ : ∃ f, fuel = f + 1 := ⟨fuel - 1, by omega⟩
    rw [Function.iterate_zero_apply] at he
    rw [sliced_subregion_x_loop, if_pos he]
    exact ⟨_, rfl⟩
  | succ n ih =>
    intro fuel x_iter v st he hf
    obtain ⟨f, rfl⟩ : ∃ f, fuel = f + 1 := ⟨fuel - 1, by omega⟩
    rw [Function.iterate_succ_apply] at he
    rw [sliced_subregion_x_loop]
    split
    · exact ⟨_, rfl⟩
    · split
      · exact ih f _ _ _ he (by omega)
      · exact ih f _ _ _ he (by omega)

theorem sliced_subregion_y_loop_returns {α : Type} [Inhabited α] (fns : SpanIterFns)
    (tex_2ds : CoglTexture2DSliced α) (src_x src_y dst_x dst_y width : Int)
    (source_bmp : CoglBitmap α) (source_gl_format source_gl_type : GLenum) (fuel_x : Nat)
    (hx : ∀ it0 : CoglSpanIter, ∃ n, n < fuel_x ∧
      fns.iter_end (fns.iter_next^[n]
        (fns.iter_begin it0 (tex_2ds.slice_x_spans.getD []) tex_2ds.width dst_x
          (dst_x + width))) = true)
    (n : Nat) :
    ∀ (fuel : Nat) (y_iter x_iter : CoglSpanIter) (v : SubregionLocals)
      (st : Option (List (CoglTexturePixel α)) × GLState α),
      fns.iter_end (fns.iter_next^[n] y_iter) = true → n < fuel →
      ∃ r, sliced_subregion_y_loop fns tex_2ds src_x src_y dst_x dst_y width source_bmp
        source_gl_format source_gl_type fuel_x fuel y_iter x_iter v st = some r := by
  induction n with
  | zero =>
    intro fuel y_iter x_iter v st he hf
    obtain ⟨f, rfl⟩ : ∃ f, fuel = f + 1 := ⟨fuel - 1, by omega⟩
    rw [Function.iterate_zero_apply] at he
    rw [sliced_subregion_y_loop, if_pos he]
    exact ⟨_, rfl⟩
  | succ n ih =>
    intro fuel y_iter x_iter v st he hf
    obtain ⟨f, rfl⟩ : ∃ f, fuel = f + 1 := ⟨fuel - 1, by omega⟩
    rw [Function.iterate_succ_apply] at he
    rw [sliced_subregion_y_loop]
    split
    · exact ⟨_, rfl⟩
    · split
      · exact ih f _ _ _ _ he (by omega)
      · obtain ⟨k, hk, hke⟩ := hx x_iter
        obtain ⟨r, hr⟩ := sliced_subregion_x_loop_returns fns tex_2ds src_x src_y dst_x dst_y
          source_bmp source_gl_format source_gl_type y_iter
          (span_index tex_2ds.slice_y_spans y_iter.index.toNat) k fuel_x
          (fns.iter_begin x_iter (tex_2ds.slice_x_spans.getD []) tex_2ds.width dst_x
            (dst_x + width))
          { v with source_x := src_x } st hke hk
        obtain ⟨rx, rv, rst⟩ := r
        simp only [hr]
        exact ih f _ _ _ _ he (by omega)

/-- C20: `_cogl_texture_2d_sliced_pre_paint` called with the `NEEDS_MIPMAP` flag. When
`auto_mipmap` and `mipmaps_dirty` are set and the slice handles exist it clears
`mipmaps_dirty` and issues, for every slice handle in order, a bind followed by the
regeneration calls; otherwise it changes nothing and issues no call; so driver calls are
issued exactly when both flags are set and there is at least one slice. A call repeated
at once changes nothing. The full upload sets `mipmaps_dirty`, and so does the sub-region
upload, which returns whenever its two span iterations end within the given bounds. -/
theorem pre_paint_mipmaps {α : Type} [Inhabited α] (drv : Driver)
    (COGL_TEXTURE_NEEDS_MIPMAP : Nat) (tex_2ds : CoglTexture2DSliced α) (flags : Nat)
    (gl : GLState α) (hflag : flags &&& COGL_TEXTURE_NEEDS_MIPMAP ≠ 0) :
    (∀ handles : List GLuint, tex_2ds.auto_mipmap = true → tex_2ds.mipmaps_dirty = true →
      tex_2ds.slice_gl_handles = some handles →
      (_cogl_texture_2d_sliced_pre_paint drv COGL_TEXTURE_NEEDS_MIPMAP tex_2ds flags gl).1 =
        { tex_2ds with mipmaps_dirty := false } ∧
      (_cogl_texture_2d_sliced_pre_paint drv COGL_TEXTURE_NEEDS_MIPMAP tex_2ds flags
          gl).2.log =
        gl.log ++ handles.flatMap (fun h =>
          GLCall.bindTexture h ::
            (if drv.feature_offscreen then [GLCall.generateMipmap]
            else if tex_2ds.first_pixels.isSome then
              [GLCall.texParameteri GL_GENERATE_MIPMAP GL_TRUE,
                GLCall.texSubImage2D 0 0 1 1,
                GLCall.texParameteri GL_GENERATE_MIPMAP GL_FALSE]
            else []))) ∧
    (¬ (tex_2ds.auto_mipmap = true ∧ tex_2ds.mipmaps_dirty = true ∧
        tex_2ds.slice_gl_handles.isSome = true) →
      _cogl_texture_2d_sliced_pre_paint drv COGL_TEXTURE_NEEDS_MIPMAP tex_2ds flags gl =
        (tex_2ds, gl)) ∧
    ((_cogl_texture_2d_sliced_pre_paint drv COGL_TEXTURE_NEEDS_MIPMAP tex_2ds flags
        gl).2.log ≠ gl.log ↔
      tex_2ds.auto_mipmap = true ∧ tex_2ds.mipmaps_dirty = true ∧
        ∃ handles, tex_2ds.slice_gl_handles = some handles ∧ handles ≠ []) ∧
    (_cogl_texture_2d_sliced_pre_paint drv COGL_TEXTURE_NEEDS_MIPMAP
        (_cogl_texture_2d_sliced_pre_paint drv COGL_TEXTURE_NEEDS_MIPMAP tex_2ds flags gl).1
        flags
        (_cogl_texture_2d_sliced_pre_paint drv COGL_TEXTURE_NEEDS_MIPMAP tex_2ds flags gl).2 =
      _cogl_texture_2d_sliced_pre_paint drv COGL_TEXTURE_NEEDS_MIPMAP tex_2ds flags gl) ∧
    (∀ (bmp : CoglBitmap α) (gl_format gl_type : GLenum) (gl0 : GLState α),
      (_cogl_texture_2d_sliced_upload_to_gl tex_2ds bmp gl_format gl_type
        gl0).2.1.mipmaps_dirty = true) ∧
    (∀ (fns : SpanIterFns) (fuel_y fuel_x : Nat) (src_x src_y dst_x dst_y width height : Int)
        (source_bmp : CoglBitmap α) (source_gl_format source_gl_type : GLenum)
        (gl0 : GLState α),
      (∀ it0 : CoglSpanIter, ∃ n, n < fuel_x ∧
        fns.iter_end (fns.iter_next^[n]
          (fns.iter_begin it0 (tex_2ds.slice_x_spans.getD []) tex_2ds.width dst_x
            (dst_x + width))) = true) →
      (∃ n, n < fuel_y ∧
        fns.iter_end (fns.iter_next^[n]
          (fns.iter_begin default (tex_2ds.slice_y_spans.getD []) tex_2ds.height dst_y
            (dst_y + height))) = true) →
      ∃ (tex_new : CoglTexture2DSliced α) (gl_new : GLState α),
        _cogl_texture_2d_sliced_upload_subregion_to_gl fns fuel_y fuel_x tex_2ds src_x src_y
          dst_x dst_y width height source_bmp source_gl_format source_gl_type gl0 =
          some (true, tex_new, gl_new) ∧
        tex_new.mipmaps_dirty = true) := by
  refine ⟨fun handles ha hd hh =>
      pre_paint_regenerate drv COGL_TEXTURE_NEEDS_MIPMAP tex_2ds flags gl handles hflag ha hd
        hh,
    pre_paint_skip drv COGL_TEXTURE_NEEDS_MIPMAP tex_2ds flags gl, ?_, ?_, fun _ _ _ _ => rfl,
    ?_⟩
  · by_cases hc : tex_2ds.auto_mipmap = true ∧ tex_2ds.mipmaps_dirty = true ∧
        tex_2ds.slice_gl_handles.isSome = true
    · obtain ⟨ha, hd, hs⟩ := hc
      obtain ⟨handles, hh⟩ := Option.isSome_iff_exists.1 hs
      rw [(pre_paint_regenerate drv COGL_TEXTURE_NEEDS_MIPMAP tex_2ds flags gl handles hflag
        ha hd hh).2]
      constructor
      · intro hne
        refine ⟨ha, hd, handles, hh, ?_⟩
        rintro rfl
        simp at hne
      · rintro ⟨_, _, hs2, hh2, hne⟩
        rw [hh] at hh2
        cases hh2
        obtain ⟨a, tl, rfl⟩ := List.exists_cons_of_ne_nil hne
        simp
    · rw [pre_paint_skip drv COGL_TEXTURE_NEEDS_MIPMAP tex_2ds flags gl hc]
      constructor
      · intro h
        exact absurd rfl h
      · rintro ⟨ha, hd, handles, hh, _⟩
        exact absurd ⟨ha, hd, by rw [hh]; rfl⟩ hc
  · by_cases hc : tex_2ds.auto_mipmap = true ∧ tex_2ds.mipmaps_dirty = true ∧
        tex_2ds.slice_gl_handles.isSome = true
    · obtain ⟨ha, hd, hs⟩ := hc
      obtain ⟨handles, hh⟩ := Option.isSome_iff_exists.1 hs
      apply pre_paint_skip
      rw [(pre_paint_regenerate drv COGL_TEXTURE_NEEDS_MIPMAP tex_2ds flags gl handles hflag
        ha hd hh).1]
      rintro ⟨_, h2, _⟩
      cases h2
    · rw [pre_paint_skip drv COGL_TEXTURE_NEEDS_MIPMAP tex_2ds flags gl hc]
      exact pre_paint_skip drv COGL_TEXTURE_NEEDS_MIPMAP tex_2ds flags gl hc
  · intro fns fuel_y fuel_x src_x src_y dst_x dst_y width height source_bmp fmt typ gl0 hx hy
    obtain ⟨n, hn, hne⟩ := hy
    obtain ⟨r, hr⟩ := sliced_subregion_y_loop_returns fns tex_2ds src_x src_y dst_x dst_y
      width source_bmp fmt typ fuel_x hx n fuel_y
      (fns.iter_begin default (tex_2ds.slice_y_spans.getD []) tex_2ds.height dst_y
        (dst_y + height)) default
      { source_x := 0, source_y := src_y, inter_w := 0, inter_h := 0, local_x := 0,
        local_y := 0 } (tex_2ds.first_pixels, gl0) hne hn
    obtain ⟨ry, rx, rv, rfp, rgl⟩ := r
    unfold _cogl_texture_2d_sliced_upload_subregion_to_gl
    simp only [hr]
    exact ⟨_, _, rfl, rfl⟩

theorem example_iter_x_ends (it0 : CoglSpanIter) :
    example_iter_fns.iter_end (example_iter_fns.iter_next^[2]
      (example_iter_fns.iter_begin it0 (example_created.slice_x_spans.getD [])
        example_created.width 2 (2 + 4))) = true := by
  simp [example_iter_fns, example_created, pixel_span_iter_end, pixel_span_iter_next,
    pixel_span_iter_update, pixel_span_iter_begin]

theorem example_iter_y_ends (it0 : CoglSpanIter) :
    example_iter_fns.iter_end (example_iter_fns.iter_next^[1]
      (example_iter_fns.iter_begin it0 (example_created.slice_y_spans.getD [])
        example_created.height 1 (1 + 2))) = true := by
  simp [example_iter_fns, example_created, pixel_span_iter_end, pixel_span_iter_next,
    pixel_span_iter_update, pixel_span_iter_begin]

theorem pre_paint_mipmaps_witness :
    ∃ (tex_new : CoglTexture2DSliced Nat) (gl_new : GLState Nat),
      _cogl_texture_2d_sliced_upload_subregion_to_gl example_iter_fns 3 3 example_created 0 0
        2 1 4 2 example_bitmap 0 0 example_created_gl = some (true, tex_new, gl_new) ∧
      tex_new.mipmaps_dirty = true :=
  (pre_paint_mipmaps example_driver 1 example_created 1 example_created_gl
    (by decide)).2.2.2.2.2 example_iter_fns 3 3 0 0 2 1 4 2 example_bitmap 0 0
    example_created_gl (fun it0 => ⟨2, by decide, example_iter_x_ends it0⟩)
    ⟨1, by decide, example_iter_y_ends default⟩

/-! ## Termination of the power-of-two policy -/

/-- C26: for every `size_to_fill >= 1`, `max_span_size >= 1`, `max_waste` and `out_spans`
(`NULL` or an array), `_cogl_pot_slices_for_size` returns a count: the loops end and
`g_assert (span.size > 0)` never fails (the model yields `none` exactly when the
assertion fails or a loop does not end), and the halving loop, entered with any size of
at least 1, leaves a size greater than 0. -/
theorem pot_slices_terminates (size_to_fill max_span_size max_waste : Int)
    (out_spans : Option (List CoglSpan)) (hfill : 1 ≤ size_to_fill)
    (hmax : 1 ≤ max_span_size) :
    (∃ r, _cogl_pot_slices_for_size size_to_fill max_span_size max_waste out_spans =
      some r) ∧
    ∀ span_size : Int, 1 ≤ span_size →
      ∃ r : Int, pot_shrink (span_size.toNat + 1) span_size size_to_fill (max max_waste 0) =
        some r ∧ 0 < r := by
  constructor
  · cases out_spans with
    | none =>
      obtain ⟨spans, heq, _⟩ := pot_slices_spec size_to_fill max_span_size max_waste
        [] hfill hmax
      rw [pot_slices_null _ _ _ [], heq]
      exact ⟨_, rfl⟩
    | some out =>
      obtain ⟨spans, heq, _⟩ := pot_slices_spec size_to_fill max_span_size max_waste
        out hfill hmax
      exact ⟨_, heq⟩
  · intro span_size hs
    obtain ⟨r, hr, h1, _⟩ :=
      pot_shrink_spec (span_size.toNat + 1) span_size size_to_fill (max max_waste 0) hs hfill
        (le_max_right _ _) (Nat.lt_succ_self _)
    exact ⟨r, hr, by omega⟩

theorem pot_slices_terminates_witness :
    (∃ r, _cogl_pot_slices_for_size 300 256 16 none = some r) ∧
    ∀ span_size : Int, 1 ≤ span_size →
      ∃ r : Int, pot_shrink (span_size.toNat + 1) span_size 300 (max 16 0) = some r ∧ 0 < r :=
  pot_slices_terminates 300 256 16 none (by decide) (by decide)

/-! ## Foreign textures -/

theorem foreign_size_facts (a b : Int) (ha0 : 0 ≤ a) (hb0 : 0 ≤ b) (ha : a < 2 ^ 32)
    (hb : b < 2 ^ 32)
    (h1 : ¬ to_gint (to_guint (a + b)) ≤ 0)
    (h2 : ¬ b ≥ to_guint (to_gint (to_guint (a + b)))) :
    0 < a ∧ a + b < 2 ^ 31 ∧ to_gint (to_guint (a + b)) = a + b ∧ to_gint b = b ∧
      to_gint (to_guint (to_guint (to_gint (to_guint (a + b))) - b)) = a := by
  simp only [to_gint, to_guint] at h1 h2 ⊢
  norm_num at ha hb h1 h2 ⊢
  omega

/-- A foreign texture is accepted only when the sums `width + x_pot_waste` and
`height + y_pot_waste` fit a `GLint` and the logical size is not zero; the record made
then is the one of the single slice. -/
theorem new_from_foreign_some {α : Type} (drv : Driver) (q : ForeignQuery)
    (gl_handle : GLuint) (gl_target : GLenum) (width height x_pot_waste y_pot_waste : Nat)
    (hw : (width : Int) < 2 ^ 32) (hh : (height : Int) < 2 ^ 32)
    (hx : (x_pot_waste : Int) < 2 ^ 32) (hy : (y_pot_waste : Int) < 2 ^ 32)
    (tex : CoglTexture2DSliced α)
    (h : _cogl_texture_2d_sliced_new_from_foreign drv q gl_handle gl_target width height
      x_pot_waste y_pot_waste = some tex) :
    (0 : Int) < width ∧ (0 : Int) < height ∧
    tex.slice_gl_handles = some [gl_handle] ∧ tex.is_foreign = true ∧
    tex.width = width ∧ tex.height = height ∧
    tex.slice_x_spans =
      some [{ start := 0, size := (width : Int) + x_pot_waste, waste := x_pot_waste }] ∧
    tex.slice_y_spans =
      some [{ start := 0, size := (height : Int) + y_pot_waste, waste := y_pot_waste }] := by
  unfold _cogl_texture_2d_sliced_new_from_foreign at h
  simp only at h
  generalize hgw : to_gint (to_guint ((width : Int) + x_pot_waste)) = gw at h
  generalize hgh : to_gint (to_guint ((height : Int) + y_pot_waste)) = gh at h
  generalize (if drv.have_cogl_gl = true then q.gl_compressed else GL_FALSE) = gc at h
  generalize (if drv.have_cogl_gl = true then q.gl_int_format else 0) = gf at h
  generalize (if q.gl_gen_mipmap = GL_TRUE then true else false) = gm at h
  split at h
  · cases h
  split at h
  · cases h
  split at h
  · cases h
  split at h
  · cases h
  split at h
  · cases h
  rename_i hpos
  split at h
  · cases h
  rename_i hwaste
  split at h
  · cases h
  split at h
  · cases h
  simp only [Option.some.injEq] at h
  subst h
  subst hgw hgh
  obtain ⟨a1, a2, a3, a4, a5⟩ :=
    foreign_size_facts width x_pot_waste (Int.ofNat_nonneg _) (Int.ofNat_nonneg _) hw hx
      (fun hc => hpos (Or.inl hc)) (fun hc => hwaste (Or.inl hc))
  obtain ⟨b1, b2, b3, b4, b5⟩ :=
    foreign_size_facts height y_pot_waste (Int.ofNat_nonneg _) (Int.ofNat_nonneg _) hh hy
      (fun hc => hpos (Or.inr hc)) (fun hc => hwaste (Or.inr hc))
  refine ⟨a1, b1, rfl, rfl, ?_, ?_, ?_, ?_⟩
  · simp only
    rw [a5]
  · simp only
    rw [b5]
  · simp only
    rw [a3, a4]
  · simp only
    rw [b3, b4]

/-- C23: for `GLuint` arguments, when `_cogl_texture_2d_sliced_new_from_foreign` returns a
texture for `(gl_handle, width, height, x_pot_waste, y_pot_waste)`, the texture is not
sliced, its only handle is `gl_handle`, it is marked foreign, its logical size is
`width x height`, its x span is `(0, width + x_pot_waste, x_pot_waste)` and its y span is
`(0, height + y_pot_waste, y_pot_waste)`, each with `0 <= waste < size`; and the function
returns `COGL_INVALID_HANDLE` whenever `width` or `height` is 0. -/
theorem new_from_foreign_spec {α : Type} (drv : Driver) (q : ForeignQuery)
    (gl_handle : GLuint) (gl_target : GLenum) (width height x_pot_waste y_pot_waste : Nat)
    (hw : (width : Int) < 2 ^ 32) (hh : (height : Int) < 2 ^ 32)
    (hx : (x_pot_waste : Int) < 2 ^ 32) (hy : (y_pot_waste : Int) < 2 ^ 32) :
    (∀ tex : CoglTexture2DSliced α,
      _cogl_texture_2d_sliced_new_from_foreign drv q gl_handle gl_target width height
        x_pot_waste y_pot_waste = some tex →
      _cogl_texture_2d_sliced_is_sliced tex = false ∧
      tex.slice_gl_handles = some [gl_handle] ∧ tex.is_foreign = true ∧
      tex.width = width ∧ tex.height = height ∧
      (∃ x_span y_span : CoglSpan,
        tex.slice_x_spans = some [x_span] ∧ tex.slice_y_spans = some [y_span] ∧
        x_span = { start := 0, size := (width : Int) + x_pot_waste, waste := x_pot_waste } ∧
        y_span = { start := 0, size := (height : Int) + y_pot_waste, waste := y_pot_waste } ∧
        0 ≤ x_span.waste ∧ x_span.waste < x_span.size ∧
        0 ≤ y_span.waste ∧ y_span.waste < y_span.size)) ∧
    (width = 0 ∨ height = 0 →
      (_cogl_texture_2d_sliced_new_from_foreign drv q gl_handle gl_target width height
        x_pot_waste y_pot_waste : Option (CoglTexture2DSliced α)) = none) := by
  constructor
  · intro tex h
    obtain ⟨h1, h2, h3, h4, h5, h6, h7, h8⟩ :=
      new_from_foreign_some drv q gl_handle gl_target width height x_pot_waste y_pot_waste
        hw hh hx hy tex h
    refine ⟨?_, h3, h4, h5, h6, _, _, h7, h8, rfl, rfl, ?_, ?_, ?_, ?_⟩
    · simp [_cogl_texture_2d_sliced_is_sliced, h3]
    · exact Int.ofNat_nonneg _
    · simp only; omega
    · exact Int.ofNat_nonneg _
    · simp only; omega
  · intro h0
    cases hres : (_cogl_texture_2d_sliced_new_from_foreign drv q gl_handle gl_target width
      height x_pot_waste y_pot_waste : Option (CoglTexture2DSliced α)) with
    | none => rfl
    | some tex =>
      obtain ⟨h1, h2, _⟩ :=
        new_from_foreign_some drv q gl_handle gl_target width height x_pot_waste y_pot_waste
          hw hh hx hy tex hres
      omega

theorem new_from_foreign_spec_witness :
    (_cogl_texture_2d_sliced_new_from_foreign example_driver example_query 5 GL_TEXTURE_2D
      6 3 2 1 = some example_foreign) ∧
    (_cogl_texture_2d_sliced_is_sliced example_foreign = false ∧
      example_foreign.slice_gl_handles = some [5] ∧ example_foreign.is_foreign = true ∧
      example_foreign.width = ((6 : Nat) : Int) ∧ example_foreign.height = ((3 : Nat) : Int) ∧
      (∃ x_span y_span : CoglSpan,
        example_foreign.slice_x_spans = some [x_span] ∧
        example_foreign.slice_y_spans = some [y_span] ∧
        x_span = { start := 0, size := ((6 : Nat) : Int) + (2 : Nat), waste := (2 : Nat) } ∧
        y_span = { start := 0, size := ((3 : Nat) : Int) + (1 : Nat), waste := (1 : Nat) } ∧
        0 ≤ x_span.waste ∧ x_span.waste < x_span.size ∧
        0 ≤ y_span.waste ∧ y_span.waste < y_span.size)) :=
  ⟨rfl, (new_from_foreign_spec example_driver example_query 5 GL_TEXTURE_2D 6 3 2 1
    (by decide) (by decide) (by decide) (by decide)).1 example_foreign rfl⟩

/-! ## The iterator of the manual repeat -/

theorem ceil_of_not_int (x : ℚ) (h : x - (⌈x⌉ : ℚ) ≠ 0) : (⌈x⌉ : ℚ) = (⌊x⌋ : ℚ) + 1 := by
  have hne : (⌊x⌋ : ℚ) ≠ x := by
    intro he
    apply h
    rw [← he, Int.ceil_intCast]
    ring
  have hlt : (⌊x⌋ : ℚ) < x := lt_of_le_of_ne (Int.floor_le x) hne
  have hc : ⌈x⌉ = ⌊x⌋ + 1 := by
    rw [Int.ceil_eq_iff]
    push_cast
    constructor
    · linarith
    · exact (Int.lt_floor_add_one x).le
  rw [hc]
  push_cast
  rfl

theorem ceil_of_int (x : ℚ) (h : x - (⌈x⌉ : ℚ) = 0) : (⌈x⌉ : ℚ) = (⌊x⌋ : ℚ) := by
  have he : x = (⌈x⌉ : ℚ) := by linarith
  rw [he, Int.floor_intCast, Int.ceil_intCast]

/-- The update of the iterator in closed form: `next_pos` is `floor (pos) + 1`, and the
pair is `pos` and the smaller of `next_pos` and `end`, swapped when flipped. -/
theorem texture_iter_update_eq (iter : CoglTextureIter) :
    _cogl_texture_iter_update iter =
      { iter with
        next_pos := (⌊iter.pos⌋ : ℚ) + 1
        t_1 := if iter.flipped then min ((⌊iter.pos⌋ : ℚ) + 1) iter.end_ else iter.pos
        t_2 := if iter.flipped then iter.pos else min ((⌊iter.pos⌋ : ℚ) + 1) iter.end_ } := by
  have hnext : (if iter.pos ≥ 0 ∨ (modff iter.pos).1 = 0 then (modff iter.pos).2 + 1
      else (modff iter.pos).2) = (⌊iter.pos⌋ : ℚ) + 1 := by
    unfold modff
    simp only
    by_cases h0 : 0 ≤ iter.pos
    · simp only [h0, ge_iff_le, true_or, if_true]
    · simp only [h0, ge_iff_le, false_or, if_false]
      by_cases hf : iter.pos - (⌈iter.pos⌉ : ℚ) = 0
      · rw [if_pos hf, ceil_of_int _ hf]
      · rw [if_neg hf, ceil_of_not_int _ hf]
  have hmin : ∀ a b : ℚ, (if a > b then b else a) = min a b := by
    intro a b
    by_cases h : a > b
    · rw [if_pos h, min_eq_right h.le]
    · rw [if_neg h, min_eq_left (not_lt.1 h)]
  unfold _cogl_texture_iter_update
  simp only
  by_cases hc : iter.pos ≥ 0 ∨ (modff iter.pos).1 = 0
  · rw [if_pos hc] at hnext
    simp only [hc, if_true, hmin, hnext]
    cases iter.flipped <;> simp
  · rw [if_neg hc] at hnext
    simp only [hc, if_false, hmin, hnext]
    cases iter.flipped <;> simp

/-- The loop over one axis, started on an updated iterator: it ends, and the pairs it
emits, ordered, form a chain from `pos` to `end`, each inside a unit interval and
ordered as the flag `flipped` tells. -/
theorem texture_iter_loop_spec (fuel : Nat) (i0 : CoglTextureIter)
    (hfuel : (⌈i0.end_⌉ - ⌊i0.pos⌋).toNat < fuel) :
    ∃ l : List (ℚ × ℚ),
      texture_iter_loop fuel (_cogl_texture_iter_update i0) = some l ∧
      (i0.end_ ≤ i0.pos → l = []) ∧
      ChainFrom (min i0.pos i0.end_) i0.end_
        (l.map (fun p => (min p.1 p.2, max p.1 p.2))) ∧
      (∀ p ∈ l, (∃ n : Int, (n : ℚ) ≤ min p.1 p.2 ∧ max p.1 p.2 ≤ (n : ℚ) + 1) ∧
        (if i0.flipped then p.2 < p.1 else p.1 < p.2)) := by
  induction fuel generalizing i0 with
  | zero => omega
  | succ k ih =>
    unfold texture_iter_loop
    by_cases hend : i0.pos ≥ i0.end_
    · have he : _cogl_texture_iter_end (_cogl_texture_iter_update i0) = true := by
        rw [texture_iter_update_eq]
        simpa [_cogl_texture_iter_end] using hend
      rw [if_pos he]
      refine ⟨[], rfl, fun _ => rfl, ?_, by simp⟩
      simp only [List.map_nil, ChainFrom]
      exact min_eq_right hend
    · have hlt : i0.pos < i0.end_ := not_le.1 hend
      have he : ¬ _cogl_texture_iter_end (_cogl_texture_iter_update i0) = true := by
        rw [texture_iter_update_eq]
        simpa [_cogl_texture_iter_end] using hlt
      rw [if_neg he]
      have hfl : (⌊i0.pos⌋ : ℚ) ≤ i0.pos := Int.floor_le _
      have hfl2 : i0.pos < (⌊i0.pos⌋ : ℚ) + 1 := Int.lt_floor_add_one _
      have hce : i0.end_ ≤ (⌈i0.end_⌉ : ℚ) := Int.le_ceil _
      have hfc : ⌊i0.pos⌋ < ⌈i0.end_⌉ := by
        have : (⌊i0.pos⌋ : ℚ) < (⌈i0.end_⌉ : ℚ) := by linarith
        exact_mod_cast this
      have hnext : _cogl_texture_iter_next (_cogl_texture_iter_update i0) =
          _cogl_texture_iter_update
            { _cogl_texture_iter_update i0 with pos := (⌊i0.pos⌋ : ℚ) + 1 } := by
        unfold _cogl_texture_iter_next
        rw [texture_iter_update_eq i0]
      rw [hnext]
      obtain ⟨l, hl, hnil, hchain, hall⟩ :=
        ih { _cogl_texture_iter_update i0 with pos := (⌊i0.pos⌋ : ℚ) + 1 } (by
          rw [texture_iter_update_eq]
          simp only
          have : ⌊(⌊i0.pos⌋ : ℚ) + 1⌋ = ⌊i0.pos⌋ + 1 := by
            rw [Int.floor_add_one, Int.floor_intCast]
          rw [this]
          omega)
      rw [texture_iter_update_eq i0] at hl hnil hchain hall ⊢
      simp only at hl hnil hchain hall ⊢
      rw [hl]
      have hm : i0.pos < min ((⌊i0.pos⌋ : ℚ) + 1) i0.end_ := lt_min hfl2 hlt
      have hpair : (min (if i0.flipped = true then min ((⌊i0.pos⌋ : ℚ) + 1) i0.end_
            else i0.pos)
          (if i0.flipped = true then i0.pos else min ((⌊i0.pos⌋ : ℚ) + 1) i0.end_) = i0.pos) ∧
          (max (if i0.flipped = true then min ((⌊i0.pos⌋ : ℚ) + 1) i0.end_ else i0.pos)
          (if i0.flipped = true then i0.pos else min ((⌊i0.pos⌋ : ℚ) + 1) i0.end_) =
            min ((⌊i0.pos⌋ : ℚ) + 1) i0.end_) := by
        cases i0.flipped
        · simp only [Bool.false_eq_true, if_false]
          exact ⟨min_eq_left hm.le, max_eq_right hm.le⟩
        · simp only [if_true]
          exact ⟨min_eq_right hm.le, max_eq_left hm.le⟩
      refine ⟨_, rfl, fun h => absurd h hend, ?_, ?_⟩
      · simp only [List.map_cons, ChainFrom, hpair.1, hpair.2]
        exact ⟨(min_eq_left hlt.le).symm, by rw [min_eq_left hlt.le]; exact hm, hchain⟩
      · intro p hp
        rcases List.mem_cons.1 hp with rfl | hp
        · refine ⟨⟨⌊i0.pos⌋, ?_, ?_⟩, ?_⟩
          · simp only [hpair.1]
            exact hfl
          · simp only [hpair.2]
            exact min_le_left _ _
          · cases i0.flipped
            · simpa using hm
            · simpa using hm
        · exact hall p hp

/-- The sub-ranges of one axis: the loop ends and the pairs form a chain from the smaller
to the larger coordinate. -/
theorem texture_iter_ranges_spec (t_1 t_2 : ℚ) :
    ∃ l : List (ℚ × ℚ),
      texture_iter_ranges t_1 t_2 = some l ∧
      (t_1 = t_2 → l = []) ∧
      ChainFrom (min t_1 t_2) (max t_1 t_2) (l.map (fun p => (min p.1 p.2, max p.1 p.2))) ∧
      (∀ p ∈ l, (∃ n : Int, (n : ℚ) ≤ min p.1 p.2 ∧ max p.1 p.2 ≤ (n : ℚ) + 1) ∧
        (t_1 < t_2 → p.1 < p.2) ∧ (t_2 < t_1 → p.2 < p.1)) := by
  unfold texture_iter_ranges _cogl_texture_iter_begin
  simp only
  by_cases h : t_1 ≤ t_2
  · rw [if_pos h]
    obtain ⟨l, hl, hnil, hchain, hall⟩ :=
      texture_iter_loop_spec
        (texture_iter_fuel (_cogl_texture_iter_update
          { (default : CoglTextureIter) with pos := t_1, end_ := t_2, flipped := false }))
        { (default : CoglTextureIter) with pos := t_1, end_ := t_2, flipped := false }
        (by rw [texture_iter_update_eq]; simp only [texture_iter_fuel]; omega)
    simp only at hl hnil hchain hall
    refine ⟨l, hl, fun he => hnil (by rw [he]), ?_, ?_⟩
    · rw [min_eq_left h, max_eq_right h]
      rw [min_eq_left h] at hchain
      exact hchain
    · intro p hp
      obtain ⟨hn, ho⟩ := hall p hp
      simp only [Bool.false_eq_true, if_false] at ho
      exact ⟨hn, fun _ => ho, fun hc => absurd h (not_le.2 hc)⟩
  · rw [if_neg h]
    have h' : t_2 ≤ t_1 := (not_le.1 h).le
    obtain ⟨l, hl, hnil, hchain, hall⟩ :=
      texture_iter_loop_spec
        (texture_iter_fuel (_cogl_texture_iter_update
          { (default : CoglTextureIter) with pos := t_2, end_ := t_1, flipped := true }))
        { (default : CoglTextureIter) with pos := t_2, end_ := t_1, flipped := true }
        (by rw [texture_iter_update_eq]; simp only [texture_iter_fuel]; omega)
    simp only at hl hnil hchain hall
    refine ⟨l, hl, fun he => hnil (by rw [he]), ?_, ?_⟩
    · rw [min_eq_right h', max_eq_left h']
      rw [min_eq_left h'] at hchain
      exact hchain
    · intro p hp
      obtain ⟨hn, ho⟩ := hall p hp
      simp only [if_true] at ho
      exact ⟨hn, fun hc => absurd hc.le h, fun _ => ho⟩

/-- C30: for the per-axis `CoglTextureIter` over exact rationals, `next_pos` is
`floor (pos) + 1` after every update; for all `t_1`, `t_2` the iteration ends; the pairs
emitted lie each inside one unit interval `[n, n + 1]`, laid end to end (none empty) from
`min (t_1, t_2)` to `max (t_1, t_2)`, each ordered like the input (`t_1 > t_2` in every
pair when the input is flipped); for `t_1 = t_2` nothing is emitted, and for
`t_1 != t_2` something is. -/
theorem texture_iter_spec (t_1 t_2 : ℚ) :
    (∀ iter : CoglTextureIter,
      (_cogl_texture_iter_update iter).next_pos = (⌊iter.pos⌋ : ℚ) + 1) ∧
    ∃ l : List (ℚ × ℚ),
      texture_iter_ranges t_1 t_2 = some l ∧
      (t_1 = t_2 → l = []) ∧ (t_1 ≠ t_2 → l ≠ []) ∧
      ChainFrom (min t_1 t_2) (max t_1 t_2) (l.map (fun p => (min p.1 p.2, max p.1 p.2))) ∧
      (∀ p ∈ l, (∃ n : Int, (n : ℚ) ≤ min p.1 p.2 ∧ max p.1 p.2 ≤ (n : ℚ) + 1) ∧
        (t_1 < t_2 → p.1 < p.2) ∧ (t_2 < t_1 → p.2 < p.1)) := by
  refine ⟨fun iter => by rw [texture_iter_update_eq], ?_⟩
  obtain ⟨l, hl, hnil, hchain, hall⟩ := texture_iter_ranges_spec t_1 t_2
  refine ⟨l, hl, hnil, ?_, hchain, hall⟩
  intro hne hl0
  rw [hl0] at hchain
  simp only [List.map_nil, ChainFrom] at hchain
  rcases le_total t_1 t_2 with h | h
  · rw [min_eq_left h, max_eq_right h] at hchain
    exact hne hchain
  · rw [min_eq_right h, max_eq_left h] at hchain
    exact hne hchain.symm

theorem texture_iter_ranges_0_2 : texture_iter_ranges 0 2 = some [(0, 1), (1, 2)] := by
  have f2 : ⌊(2 : ℚ)⌋ = 2 := Int.floor_ofNat 2
  have c2 : ⌈(2 : ℚ)⌉ = 2 := Int.ceil_ofNat 2
  simp [texture_iter_ranges, texture_iter_fuel, _cogl_texture_iter_begin,
    texture_iter_update_eq, texture_iter_loop, _cogl_texture_iter_end,
    _cogl_texture_iter_next, f2, c2]
  norm_num

theorem texture_iter_ranges_0_1 : texture_iter_ranges 0 1 = some [(0, 1)] := by
  simp [texture_iter_ranges, texture_iter_fuel, _cogl_texture_iter_begin,
    texture_iter_update_eq, texture_iter_loop, _cogl_texture_iter_end,
    _cogl_texture_iter_next]

/-- C24, evaluated: for the coordinates `(0, 0)` to `(2, 1)` the callback of
`_cogl_texture_iterate_manual_repeats` is called twice, and the second array,
`{ 1, 0, 2, 1 }`, holds the coordinate 2, outside the range [0,1]: the arrays hold the
virtual coordinates of each tile, not coordinates local to the tile. -/
theorem manual_repeats_emits_virtual_coords :
    _cogl_texture_iterate_manual_repeats 0 0 2 1 = some [[0, 0, 1, 1], [1, 0, 2, 1]] ∧
    ∃ coords ∈ [[(0 : ℚ), 0, 1, 1], [1, 0, 2, 1]], ∃ c ∈ coords, ¬ (0 ≤ c ∧ c ≤ 1) := by
  constructor
  · unfold _cogl_texture_iterate_manual_repeats
    rw [texture_iter_ranges_0_1, texture_iter_ranges_0_2]
    rfl
  · exact ⟨[1, 0, 2, 1], by simp, 2, by simp, by norm_num⟩

/-! ## The span iterator on any span list -/

theorem chain_from_sum (l : List (Int × Int)) (a e : Int) (h : ChainFrom a e l) :
    (l.map (fun p => p.2 - p.1)).sum = e - a := by
  induction l generalizing a with
  | nil =>
    simp only [ChainFrom] at h
    simp [h]
  | cons p rest ih =>
    obtain ⟨h1, _, h3⟩ := h
    simp only [List.map_cons, List.sum_cons, ih _ h3]
    omega

/-- The loop of the span iterator, started on an updated iterator whose index is in range
and whose positions stay within 32 bits: it ends, and the intersections form a chain from
the cover start (or the position, when it is further) to the cover end. -/
theorem span_iter_intersections_spec (fuel : Nat) (i0 : CoglSpanIter)
    (hne : i0.array ≠ [])
    (hpos : ∀ s ∈ i0.array, s.size - s.waste > 0)
    (hrange : ∀ s ∈ i0.array, i0.cover_end + 65536 * (s.size - s.waste) ≤ 2147483648)
    (hlo : -2147483648 ≤ i0.pos)
    (hidx : 0 ≤ i0.index ∧ i0.index < i0.array.length)
    (hcov : i0.cover_start < i0.cover_end)
    (hfuel : (i0.cover_end - i0.pos).toNat < fuel) :
    ∃ l : List (Int × Int),
      span_iter_intersections fuel (_cogl_span_iter_update i0) = some l ∧
      ChainFrom (min (max i0.pos i0.cover_start) i0.cover_end) i0.cover_end l := by
  induction fuel generalizing i0 with
  | zero => omega
  | succ k ih =>
    have hlen : 0 < i0.array.length := List.length_pos.2 hne
    have hmem : i0.array.getD i0.index.toNat default ∈ i0.array := by
      have hlt : i0.index.toNat < i0.array.length := by omega
      rw [List.getD_eq_getElem _ _ hlt]
      exact List.getElem_mem _
    have hd := hpos _ hmem
    have hr := hrange _ hmem
    obtain ⟨f1, f2, f3, f4, f5, f6, f7, f8, f9, f10⟩ := span_iter_update_fields i0
    unfold span_iter_intersections
    by_cases hend : i0.pos ≥ i0.cover_end
    · have he : _cogl_span_iter_end (_cogl_span_iter_update i0) = true := by
        unfold _cogl_span_iter_end
        rw [f3, f6]
        exact decide_eq_true hend
      rw [if_pos he]
      refine ⟨[], rfl, ?_⟩
      simp only [ChainFrom]
      omega
    · have he : ¬ _cogl_span_iter_end (_cogl_span_iter_update i0) = true := by
        unfold _cogl_span_iter_end
        rw [f3, f6]
        simpa using hend
      rw [if_neg he]
      have hN : (_cogl_span_iter_update i0).next_pos =
          i0.pos + 65536 * ((i0.array.getD i0.index.toNat default).size -
            (i0.array.getD i0.index.toNat default).waste) := by
        rw [f8, to_gint_add_int_to_fixed]
        exact to_gint_in_range _ (by omega) (by omega)
      generalize (i0.array.getD i0.index.toNat default).size -
        (i0.array.getD i0.index.toNat default).waste = d at hd hr hN
      unfold _cogl_span_iter_next
      obtain ⟨l, hl, hchain⟩ :=
        ih { _cogl_span_iter_update i0 with
              pos := (_cogl_span_iter_update i0).next_pos
              index := ((_cogl_span_iter_update i0).index + 1) %
                ((_cogl_span_iter_update i0).array.length : Int) }
          (by simp only [f2]; exact hne)
          (by simp only [f2]; exact hpos)
          (by simp only [f2, f6]; exact hrange)
          (by simp only [hN]; omega)
          (by
            simp only [f2]
            exact ⟨Int.emod_nonneg _ (by omega), Int.emod_lt_of_pos _ (by omega)⟩)
          (by simp only [f5, f6]; exact hcov)
          (by simp only [f6, hN]; omega)
      simp only [f5, f6, hN] at hchain
      rw [hl]
      refine ⟨_, rfl, ?_⟩
      rw [hN] at f9 f10
      by_cases hi : (_cogl_span_iter_update i0).intersects = true
      · have hc := f9.1 hi
        obtain ⟨hs, he2⟩ := f10 hi
        simp only [hi, if_true, hs, he2, ChainFrom]
        refine ⟨by omega, by omega, ?_⟩
        have e1 : min (i0.pos + 65536 * d) i0.cover_end =
            min (max (i0.pos + 65536 * d) i0.cover_start) i0.cover_end := by omega
        rw [e1]
        exact hchain
      · have hc : i0.pos + 65536 * d ≤ i0.cover_start := by
          by_contra hcon
          exact hi (f9.2 (by omega))
        have hi2 : (_cogl_span_iter_update i0).intersects = false := by simpa using hi
        simp only [hi2, Bool.false_eq_true, if_false]
        have e1 : min (max i0.pos i0.cover_start) i0.cover_end =
            min (max (i0.pos + 65536 * d) i0.cover_start) i0.cover_end := by omega
        rw [e1]
        exact hchain

/-- C27, as stated, fails: positions are 32-bit 16.16 fixed-point values and `next_pos`
wraps. On the one span `(0, 40000, 0)`, with origin 0 and the cover from 0 to 20000
pixels, the loop ends after five tests, and the steps flagged `intersects` give the
intervals from 0 to 14464 pixels and from 0 to 20000 pixels: the second does not begin
where the first ends, and the lengths sum to 34464 pixels, not 20000. -/
theorem span_iter_overflow_counterexample :
    ([{ start := 0, size := 40000, waste := 0 }] : List CoglSpan) ≠ [] ∧
    (∀ s ∈ ([{ start := 0, size := 40000, waste := 0 }] : List CoglSpan),
      s.size - s.waste > 0) ∧
    (0 : Int) ≤ 0 ∧ (0 : Int) < 20000 * 65536 ∧
    span_iter_intersections 5
        (_cogl_span_iter_begin default [{ start := 0, size := 40000, waste := 0 }] 0 0
          (20000 * 65536)) =
      some [(0, 14464 * 65536), (0, 20000 * 65536)] ∧
    ¬ ChainFrom (0 : Int) (20000 * 65536) [(0, 14464 * 65536), (0, 20000 * 65536)] ∧
    (([(0, 14464 * 65536), (0, 20000 * 65536)] : List (Int × Int)).map
      (fun p => p.2 - p.1)).sum ≠ 20000 * 65536 - 0 := by
  refine ⟨by decide, by decide, by decide, by decide, by decide, ?_, by decide⟩
  intro h
  exact absurd h.2.2.1 (by decide)

/-- C27, amended: for a non-empty span list in which every span has `size - waste > 0`
and for 32-bit 16.16 fixed-point positions `origin <= cover_start < cover_end` such that
`cover_end + 65536 * (size - waste)` does not exceed `2^31` for any span (no `next_pos`
overflows), the loop `_cogl_span_iter_begin` / `_cogl_span_iter_next` until
`_cogl_span_iter_end` ends (within `cover_end - origin + 1` tests), and the intervals
`[intersect_start, intersect_end)` of the steps flagged `intersects` are non-empty and
laid end to end in visiting order from `cover_start` to `cover_end`, so that their
lengths sum to `cover_end - cover_start`. -/
theorem span_iter_covers (iter : CoglSpanIter) (array : List CoglSpan)
    (origin cover_start cover_end : Int) (hne : array ≠ [])
    (hpos : ∀ s ∈ array, s.size - s.waste > 0) (horigin : origin ≤ cover_start)
    (hcov : cover_start < cover_end) (hlo : -(2 ^ 31) ≤ origin)
    (hrange : ∀ s ∈ array, cover_end + 65536 * (s.size - s.waste) ≤ 2 ^ 31) :
    ∃ l : List (Int × Int),
      span_iter_intersections ((cover_end - origin).toNat + 1)
        (_cogl_span_iter_begin iter array origin cover_start cover_end) = some l ∧
      ChainFrom cover_start cover_end l ∧
      (l.map (fun p => p.2 - p.1)).sum = cover_end - cover_start := by
  unfold _cogl_span_iter_begin
  obtain ⟨l, hl, hchain⟩ :=
    span_iter_intersections_spec ((cover_end - origin).toNat + 1)
      { iter with
        index := 0
        array := array
        span := none
        origin := origin
        cover_start := cover_start
        cover_end := cover_end
        pos := origin }
      hne hpos (fun s hs => by have := hrange s hs; norm_num at this; exact this)
      (by norm_num at hlo; exact hlo)
      ⟨le_refl _, by simpa using List.length_pos.2 hne⟩ hcov (Nat.lt_succ_self _)
  simp only at hchain
  have e : min (max origin cover_start) cover_end = cover_start := by omega
  rw [e] at hchain
  exact ⟨l, hl, hchain, chain_from_sum l _ _ hchain⟩

theorem span_iter_covers_witness :
    ∃ l : List (Int × Int),
      span_iter_intersections ((9 * 65536 - 0 : Int).toNat + 1)
        (_cogl_span_iter_begin default
          [{ start := 0, size := 4, waste := 0 }, { start := 4, size := 4, waste := 1 }]
          0 (2 * 65536) (9 * 65536)) = some l ∧
      ChainFrom (2 * 65536) (9 * 65536) l ∧
      (l.map (fun p => p.2 - p.1)).sum = 9 * 65536 - 2 * 65536 :=
  span_iter_covers default
    [{ start := 0, size := 4, waste := 0 }, { start := 4, size := 4, waste := 1 }] 0
    (2 * 65536) (9 * 65536) (by simp) (by simp) (by decide) (by decide) (by decide)
    (by decide)

/-! ## Batching of quads -/

theorem draw_calls_append (l1 l2 : List BatchCall) :
    draw_calls (l1 ++ l2) = draw_calls l1 ++ draw_calls l2 := by
  simp [draw_calls, List.filterMap_append]

theorem set_wrap_mode_parameter_draws {α : Type} (tex : CoglTexture α) (wrap_mode : GLenum)
    (log : List BatchCall) :
    draw_calls (_cogl_texture_set_wrap_mode_parameter tex wrap_mode log).2 =
      draw_calls log := by
  unfold _cogl_texture_set_wrap_mode_parameter
  by_cases h : tex.wrap_mode ≠ wrap_mode
  · rw [if_pos h]
    simp only
    generalize List.range (array_len tex.slice_gl_handles) = is
    induction is generalizing log with
    | nil => rfl
    | cons i rest ih =>
      rw [List.foldl_cons, ih, draw_calls_append]
      simp [draw_calls]
  · rw [if_neg h]

theorem flush_vertices_empty (st : CoglContext × List BatchCall)
    (h : st.1.texture_vertices = []) : _cogl_texture_flush_vertices st = st := by
  unfold _cogl_texture_flush_vertices
  simp [h]

theorem flush_vertices_draws (st : CoglContext × List BatchCall)
    (h : st.1.texture_vertices.length > 0) :
    (_cogl_texture_flush_vertices st).1.texture_vertices = [] ∧
    draw_calls (_cogl_texture_flush_vertices st).2 =
      draw_calls st.2 ++
        [(0, (st.1.texture_vertices.length : Int) - 1,
          ((st.1.texture_vertices.length / 4 * 6 : Nat) : Int))] := by
  unfold _cogl_texture_flush_vertices
  simp only
  rw [if_pos h]
  refine ⟨rfl, ?_⟩
  simp only [draw_calls_append]
  by_cases hn : st.1.texture_vertices.length / 4 * 6 > st.1.texture_indices.length
  · simp [hn, draw_calls]
  · simp [hn, draw_calls]

theorem add_quad_vertices_length (x1 y1 x2 y2 tx1 ty1 tx2 ty2 : ℚ) (ctx : CoglContext) :
    (_cogl_texture_add_quad_vertices x1 y1 x2 y2 tx1 ty1 tx2 ty2 ctx).texture_vertices.length =
      to_gushort ctx.texture_vertices.length + 4 := by
  simp only [_cogl_texture_add_quad_vertices, to_gushort, List.length_append,
    List.length_take, List.length_cons, List.length_nil]
  have := Nat.mod_le ctx.texture_vertices.length (2 ^ 16)
  omega

/-- A quad queued by `_cogl_texture_quad_hw` behind a batch that is empty or has its
handle and wrap mode joins the batch: nothing is drawn. -/
theorem quad_hw_keep {α : Type} (CFX_ONE : Int) (f : Int → ℚ) (tex : CoglTexture α)
    (x1 y1 x2 y2 tx1 ty1 tx2 ty2 : Int) (st : CoglContext × List BatchCall)
    (h : st.1.texture_vertices.length = 0 ∨
      (handle_index tex.slice_gl_handles 0 = st.1.texture_current ∧
        st.1.texture_wrap_mode = quad_hw_wrap_mode CFX_ONE tx1 ty1 tx2 ty2)) :
    (_cogl_texture_quad_hw CFX_ONE f tex x1 y1 x2 y2 tx1 ty1 tx2 ty2
        st).2.1.texture_vertices.length = to_gushort st.1.texture_vertices.length + 4 ∧
    draw_calls (_cogl_texture_quad_hw CFX_ONE f tex x1 y1 x2 y2 tx1 ty1 tx2 ty2 st).2.2 =
      draw_calls st.2 ∧
    (_cogl_texture_quad_hw CFX_ONE f tex x1 y1 x2 y2 tx1 ty1 tx2 ty2 st).2.1.texture_current =
      handle_index tex.slice_gl_handles 0 ∧
    (_cogl_texture_quad_hw CFX_ONE f tex x1 y1 x2 y2 tx1 ty1 tx2 ty2
        st).2.1.texture_wrap_mode = quad_hw_wrap_mode CFX_ONE tx1 ty1 tx2 ty2 := by
  have hc : ¬ (st.1.texture_vertices.length > 0 ∧
      (handle_index tex.slice_gl_handles 0 ≠ st.1.texture_current ∨
        st.1.texture_wrap_mode ≠ quad_hw_wrap_mode CFX_ONE tx1 ty1 tx2 ty2)) := by
    rintro ⟨h1, h2⟩
    rcases h with h | ⟨h3, h4⟩
    · omega
    · rcases h2 with h2 | h2
      · exact h2 h3
      · exact h2 h4
  unfold _cogl_texture_quad_hw
  simp only
  rw [if_neg hc]
  refine ⟨?_, set_wrap_mode_parameter_draws _ _ _, ?_, ?_⟩
  · rw [add_quad_vertices_length]
  · rfl
  · rfl

/-- A quad queued by `_cogl_texture_quad_hw` behind a batch of another handle or wrap
mode: the batch is drawn first, and the quad starts a new one. -/
theorem quad_hw_flush {α : Type} (CFX_ONE : Int) (f : Int → ℚ) (tex : CoglTexture α)
    (x1 y1 x2 y2 tx1 ty1 tx2 ty2 : Int) (st : CoglContext × List BatchCall)
    (h : st.1.texture_vertices.length > 0 ∧
      (handle_index tex.slice_gl_handles 0 ≠ st.1.texture_current ∨
        st.1.texture_wrap_mode ≠ quad_hw_wrap_mode CFX_ONE tx1 ty1 tx2 ty2)) :
    (_cogl_texture_quad_hw CFX_ONE f tex x1 y1 x2 y2 tx1 ty1 tx2 ty2
        st).2.1.texture_vertices.length = 4 ∧
    draw_calls (_cogl_texture_quad_hw CFX_ONE f tex x1 y1 x2 y2 tx1 ty1 tx2 ty2 st).2.2 =
      draw_calls st.2 ++
        [(0, (st.1.texture_vertices.length : Int) - 1,
          ((st.1.texture_vertices.length / 4 * 6 : Nat) : Int))] := by
  obtain ⟨hf1, hf2⟩ := flush_vertices_draws st h.1
  unfold _cogl_texture_quad_hw
  simp only
  rw [if_pos h]
  refine ⟨?_, ?_⟩
  · rw [add_quad_vertices_length]
    simp only [hf1]
    rfl
  · rw [set_wrap_mode_parameter_draws, hf2]

/-- C21: from an empty vertex batch, two quads queued through `_cogl_texture_quad_hw` and
then `_cogl_texture_flush_vertices`: when both quads have the same GL handle and the same
wrap mode, nothing is drawn while they are queued and the flush submits exactly one
indexed draw call, of vertices 0 to 7 and 12 indices; when the second quad has a different
GL handle, one draw call (vertices 0 to 3, 6 indices) is submitted before the second quad
is queued and one more at the flush; in every case the vertex batch has length 0
afterwards; and flushing an empty batch leaves the context and the log as they are. -/
theorem batch_two_quads {α : Type} (CFX_ONE : Int) (CLUTTER_FIXED_TO_FLOAT : Int → ℚ)
    (tex_a tex_b : CoglTexture α) (ax1 ay1 ax2 ay2 atx1 aty1 atx2 aty2 : Int)
    (bx1 by1 bx2 by2 btx1 bty1 btx2 bty2 : Int) (ctx : CoglContext) (log : List BatchCall)
    (hv : ctx.texture_vertices = []) :
    let r1 := _cogl_texture_quad_hw CFX_ONE CLUTTER_FIXED_TO_FLOAT tex_a ax1 ay1 ax2 ay2
      atx1 aty1 atx2 aty2 (ctx, log)
    let r2 := _cogl_texture_quad_hw CFX_ONE CLUTTER_FIXED_TO_FLOAT tex_b bx1 by1 bx2 by2
      btx1 bty1 btx2 bty2 r1.2
    let r3 := _cogl_texture_flush_vertices r2.2
    (handle_index tex_a.slice_gl_handles 0 = handle_index tex_b.slice_gl_handles 0 →
      quad_hw_wrap_mode CFX_ONE atx1 aty1 atx2 aty2 =
        quad_hw_wrap_mode CFX_ONE btx1 bty1 btx2 bty2 →
      draw_calls r2.2.2 = draw_calls log ∧
      draw_calls r3.2 = draw_calls log ++ [(0, 7, 12)]) ∧
    (handle_index tex_a.slice_gl_handles 0 ≠ handle_index tex_b.slice_gl_handles 0 →
      draw_calls r1.2.2 = draw_calls log ∧
      draw_calls r2.2.2 = draw_calls log ++ [(0, 3, 6)] ∧
      draw_calls r3.2 = draw_calls log ++ [(0, 3, 6), (0, 3, 6)]) ∧
    r3.1.texture_vertices = [] ∧
    (∀ st : CoglContext × List BatchCall, st.1.texture_vertices = [] →
      _cogl_texture_flush_vertices st = st) := by
  intro r1 r2 r3
  obtain ⟨h1len, h1draw, h1cur, h1wrap⟩ :=
    quad_hw_keep CFX_ONE CLUTTER_FIXED_TO_FLOAT tex_a ax1 ay1 ax2 ay2 atx1 aty1 atx2 aty2
      (ctx, log) (Or.inl (by simp [hv]))
  simp only [hv, List.length_nil] at h1len
  have h1len4 : r1.2.1.texture_vertices.length = 4 := h1len
  have hr2pos : r2.2.1.texture_vertices.length > 0 := by
    by_cases hc : r1.2.1.texture_vertices.length > 0 ∧
      (handle_index tex_b.slice_gl_handles 0 ≠ r1.2.1.texture_current ∨
        r1.2.1.texture_wrap_mode ≠ quad_hw_wrap_mode CFX_ONE btx1 bty1 btx2 bty2)
    · have := (quad_hw_flush CFX_ONE CLUTTER_FIXED_TO_FLOAT tex_b bx1 by1 bx2 by2 btx1 bty1
        btx2 bty2 r1.2 hc).1
      show (_cogl_texture_quad_hw CFX_ONE CLUTTER_FIXED_TO_FLOAT tex_b bx1 by1 bx2 by2 btx1
        bty1 btx2 bty2 r1.2).2.1.texture_vertices.length > 0
      omega
    · have hk : r1.2.1.texture_vertices.length = 0 ∨
          (handle_index tex_b.slice_gl_handles 0 = r1.2.1.texture_current ∧
            r1.2.1.texture_wrap_mode = quad_hw_wrap_mode CFX_ONE btx1 bty1 btx2 bty2) := by
        by_contra hn
        apply hc
        push_neg at hn
        refine ⟨by omega, ?_⟩
        by_cases he : handle_index tex_b.slice_gl_handles 0 = r1.2.1.texture_current
        · exact Or.inr (hn.2 he)
        · exact Or.inl he
      have := (quad_hw_keep CFX_ONE CLUTTER_FIXED_TO_FLOAT tex_b bx1 by1 bx2 by2 btx1 bty1
        btx2 bty2 r1.2 hk).1
      show (_cogl_texture_quad_hw CFX_ONE CLUTTER_FIXED_TO_FLOAT tex_b bx1 by1 bx2 by2 btx1
        bty1 btx2 bty2 r1.2).2.1.texture_vertices.length > 0
      omega
  obtain ⟨hf1, hf2⟩ := flush_vertices_draws r2.2 hr2pos
  refine ⟨?_, ?_, ?_, ?_⟩
  · intro hh hw
    obtain ⟨h2len, h2draw, _, _⟩ :=
      quad_hw_keep CFX_ONE CLUTTER_FIXED_TO_FLOAT tex_b bx1 by1 bx2 by2 btx1 bty1 btx2 bty2
        r1.2 (Or.inr ⟨by rw [h1cur, hh], by rw [h1wrap, hw]⟩)
    have h2len8 : r2.2.1.texture_vertices.length = 8 := by
      show (_cogl_texture_quad_hw CFX_ONE CLUTTER_FIXED_TO_FLOAT tex_b bx1 by1 bx2 by2 btx1
        bty1 btx2 bty2 r1.2).2.1.texture_vertices.length = 8
      rw [h2len, h1len4]
      rfl
    have h2d : draw_calls r2.2.2 = draw_calls log := by
      show draw_calls (_cogl_texture_quad_hw CFX_ONE CLUTTER_FIXED_TO_FLOAT tex_b bx1 by1 bx2
        by2 btx1 bty1 btx2 bty2 r1.2).2.2 = draw_calls log
      rw [h2draw]
      exact h1draw
    refine ⟨h2d, ?_⟩
    show draw_calls (_cogl_texture_flush_vertices r2.2).2 = _
    rw [hf2, h2d, h2len8]
    rfl
  · intro hh
    obtain ⟨h2len, h2draw⟩ :=
      quad_hw_flush CFX_ONE CLUTTER_FIXED_TO_FLOAT tex_b bx1 by1 bx2 by2 btx1 bty1 btx2 bty2
        r1.2 ⟨by omega, Or.inl (by rw [h1cur]; exact fun he => hh he.symm)⟩
    have h2d : draw_calls r2.2.2 = draw_calls log ++ [(0, 3, 6)] := by
      show draw_calls (_cogl_texture_quad_hw CFX_ONE CLUTTER_FIXED_TO_FLOAT tex_b bx1 by1 bx2
        by2 btx1 bty1 btx2 bty2 r1.2).2.2 = _
      rw [h2draw, h1len4]
      have : draw_calls r1.2.2 = draw_calls log := h1draw
      rw [this]
      rfl
    have h2len4 : r2.2.1.texture_vertices.length = 4 := h2len
    refine ⟨h1draw, h2d, ?_⟩
    show draw_calls (_cogl_texture_flush_vertices r2.2).2 = _
    rw [hf2, h2d, h2len4]
    simp
  · have hr3 : r3 = _cogl_texture_flush_vertices r2.2 := rfl
    rw [hr3]
    exact hf1
  · intro st hst
    exact flush_vertices_empty st hst

theorem batch_two_quads_witness :
    (draw_calls (_cogl_texture_quad_hw 65536 example_fixed_to_float example_subtexture
        1 0 2 1 0 0 65536 65536
        (_cogl_texture_quad_hw 65536 example_fixed_to_float example_subtexture
          0 0 1 1 0 0 65536 65536 (example_context, [])).2).2.2 = draw_calls [] ∧
      draw_calls (_cogl_texture_flush_vertices
        (_cogl_texture_quad_hw 65536 example_fixed_to_float example_subtexture
          1 0 2 1 0 0 65536 65536
          (_cogl_texture_quad_hw 65536 example_fixed_to_float example_subtexture
            0 0 1 1 0 0 65536 65536 (example_context, [])).2).2).2 =
        draw_calls [] ++ [(0, 7, 12)]) ∧
    (draw_calls (_cogl_texture_quad_hw 65536 example_fixed_to_float example_subtexture
        0 0 1 1 0 0 65536 65536 (example_context, [])).2.2 = draw_calls [] ∧
      draw_calls (_cogl_texture_quad_hw 65536 example_fixed_to_float example_gl_foreign
        1 0 2 1 0 0 65536 65536
        (_cogl_texture_quad_hw 65536 example_fixed_to_float example_subtexture
          0 0 1 1 0 0 65536 65536 (example_context, [])).2).2.2 =
        draw_calls [] ++ [(0, 3, 6)] ∧
      draw_calls (_cogl_texture_flush_vertices
        (_cogl_texture_quad_hw 65536 example_fixed_to_float example_gl_foreign
          1 0 2 1 0 0 65536 65536
          (_cogl_texture_quad_hw 65536 example_fixed_to_float example_subtexture
            0 0 1 1 0 0 65536 65536 (example_context, [])).2).2).2 =
        draw_calls [] ++ [(0, 3, 6), (0, 3, 6)]) :=
  ⟨(batch_two_quads 65536 example_fixed_to_float example_subtexture example_subtexture
      0 0 1 1 0 0 65536 65536 1 0 2 1 0 0 65536 65536 example_context [] rfl).1 rfl rfl,
    (batch_two_quads 65536 example_fixed_to_float example_subtexture example_gl_foreign
      0 0 1 1 0 0 65536 65536 1 0 2 1 0 0 65536 65536 example_context [] rfl).2.1
      (by decide)⟩

/-! ## The index buffer of the batcher -/

/-- C29, evaluated: on a driver with NPOT support, `cogl_texture_new_from_foreign` accepts
a `GL_TEXTURE_2D` texture of 128 x 128 texels with the internal format `GL_RGBA` and a
waste of 28 on both axes, and
`cogl_texture_multiple_rectangles` sends a rectangle with the texture coordinates
`(0, 0)` to `(2, 1)` (in units of `CFX_ONE = 65536`) to the hardware path, whatever the
software path is: the wrap mode is set to `GL_REPEAT` and the quad is drawn as one batch,
though the single x span and the single y span have waste 28. -/
theorem hw_repeat_with_waste
    (quad_sw : CoglTexture Nat → Int → Int → Int → Int → Int → Int → Int → Int →
      CoglContext × List BatchCall → CoglTexture Nat × CoglContext × List BatchCall) :
    cogl_texture_new_from_foreign example_gl_query 7 GL_TEXTURE_2D 100 100 28 28 =
      some example_gl_foreign ∧
    rectangle_uses_hw example_npot_driver 65536 example_gl_foreign 0 0 131072 65536 = true ∧
    quad_hw_wrap_mode 65536 0 0 131072 65536 = GL_REPEAT ∧
    (cogl_texture_multiple_rectangles example_npot_driver 65536 example_fixed_to_float
        quad_sw example_gl_foreign [0, 0, 100, 100, 0, 0, 131072, 65536] 1
        (example_context, [])).2.2 =
      [BatchCall.bindTexture GL_TEXTURE_2D 7,
        BatchCall.texParameteri GL_TEXTURE_2D GL_TEXTURE_WRAP_S GL_REPEAT,
        BatchCall.texParameteri GL_TEXTURE_2D GL_TEXTURE_WRAP_T GL_REPEAT,
        BatchCall.bindTexture GL_TEXTURE_2D 7,
        BatchCall.drawRangeElements GL_TRIANGLES 0 3 6 GL_UNSIGNED_SHORT] ∧
    (span_index example_gl_foreign.slice_x_spans 0).waste = 28 ∧
    (span_index example_gl_foreign.slice_y_spans 0).waste = 28 := by
  refine ⟨rfl, by decide, by decide, ?_, rfl, rfl⟩
  simp [cogl_texture_multiple_rectangles, example_gl_foreign, rectangle_uses_hw,
    example_npot_driver, array_len, _cogl_texture_quad_hw, quad_hw_wrap_mode,
    _cogl_texture_set_wrap_mode_parameter, example_context, handle_index,
    _cogl_texture_add_quad_vertices, _cogl_texture_flush_vertices, to_gushort,
    List.range_succ, GL_TEXTURE_2D, GL_REPEAT, GL_FALSE, GL_CLAMP_TO_EDGE]

/-- C25, evaluated: for a texture of 2 x 1 pixels, a requested format of 4 bytes per
pixel that has the premultiplication bit (so that the closest format differs), a row
stride of 8 and a successful conversion to the bytes 1, ..., 8, `cogl_texture_get_data`
returns 8 and leaves 1, 2, 0, 0, 0, 0, 0, 0 in the user buffer: `memcpy` copies
`new_bmp.width = 2` bytes of the row, not `width * bpp = 8`. -/
theorem get_data_copies_width_bytes :
    _cogl_pixel_format_to_gl example_get_data_env 131 ≠ 131 ∧
    cogl_texture_get_data example_get_data_env example_small_texture 3 131 8
        (some [0, 0, 0, 0, 0, 0, 0, 0]) =
      (8, some [1, 2, 0, 0, 0, 0, 0, 0]) ∧
    ([1, 2, 0, 0, 0, 0, 0, 0] : List Nat).take (2 * 4) ≠ [1, 2, 3, 4, 5, 6, 7, 8] := by
  refine ⟨by decide, ?_, by decide⟩
  rfl

/-! ## The first span is the largest -/

theorem first_largest_single (s : CoglSpan) : FirstLargest [s] := by
  intro t ht
  simp at ht
  subst ht
  simp

theorem first_largest_cons (s : CoglSpan) (rest : List CoglSpan)
    (h : ∀ t ∈ rest, t.size ≤ s.size) : FirstLargest (s :: rest) := by
  intro t ht
  rcases List.mem_cons.1 ht with rfl | ht
  · simp
  · simpa using h t ht

theorem rect_slices_first (size_to_fill max_span_size max_waste : Int)
    (r : Int × Option (List CoglSpan)) (hfill : 1 ≤ size_to_fill) (hmax : 1 ≤ max_span_size)
    (h : _cogl_rect_slices_for_size size_to_fill max_span_size max_waste (some []) = some r) :
    FirstLargest (r.2.getD []) := by
  obtain ⟨spans, rest, heq, h0, h1, h2, h3, h4⟩ :=
    rect_loop_spec (size_to_fill.toNat + 1) size_to_fill
      { start := 0, size := max_span_size, waste := 0 } 0 [] (by simpa using hmax)
      (by omega) (Nat.lt_succ_self _)
  simp only at heq h1 h2 h3
  unfold _cogl_rect_slices_for_size at h
  rw [heq] at h
  have hfl : ∀ last : CoglSpan, last.size ≤ max_span_size → FirstLargest (spans ++ [last]) := by
    intro last hl
    cases spans with
    | nil => exact first_largest_single _
    | cons s rest2 =>
      have hs := (h3 s (List.mem_cons_self _ _)).1
      apply first_largest_cons
      intro t ht
      rcases List.mem_append.1 ht with ht | ht
      · rw [(h3 t (List.mem_cons_of_mem _ ht)).1, hs]
      · simp at ht
        subst ht
        rw [hs]
        exact hl
  by_cases hr : rest > 0
  · simp only [hr, if_true, append_span, Option.some.injEq] at h
    subst h
    simp only [List.nil_append, Option.getD_some]
    exact hfl _ (by simp only; omega)
  · simp only [hr, if_false, Option.some.injEq] at h
    subst h
    simp only [List.nil_append, Option.getD_some]
    intro t ht
    cases spans with
    | nil => simp at ht
    | cons s rest2 =>
      have hs := (h3 s (List.mem_cons_self _ _)).1
      have := (h3 t ht).1
      simp only [List.getD_cons_zero]
      omega

theorem pot_loop_first (fuel : Nat) (size_to_fill : Int) (span : CoglSpan)
    (max_waste n_spans : Int) (out : List CoglSpan)
    (hfill : 1 ≤ size_to_fill) (hsize : 1 ≤ span.size) (hw : 0 ≤ max_waste)
    (hwaste : span.waste = 0) (hfuel : (size_to_fill + span.size).toNat < fuel) :
    ∃ spans : List CoglSpan,
      pot_loop fuel size_to_fill span max_waste n_spans (some out) =
        some (n_spans + spans.length, some (out ++ spans)) ∧
      FirstLargest spans := by
  induction fuel generalizing size_to_fill span n_spans out with
  | zero => omega
  | succ k ih =>
    unfold pot_loop
    by_cases hc : size_to_fill > span.size
    · rw [if_pos hc]
      obtain ⟨spans, heq, _, _, hall, _, _⟩ :=
        pot_loop_spec k (size_to_fill - span.size)
          { span with start := span.start + span.size } max_waste (n_spans + 1)
          (out ++ [span]) (by omega) hsize hw hwaste (by simp only; omega)
      refine ⟨span :: spans, ?_, first_largest_cons _ _ (fun t ht => (hall t ht).2.1)⟩
      simp only [append_span, heq]
      simp
      ring
    · rw [if_neg hc]
      by_cases hc2 : span.size - size_to_fill ≤ max_waste
      · rw [if_pos hc2]
        exact ⟨[{ span with waste := span.size - size_to_fill }], by simp [append_span],
          first_largest_single _⟩
      · rw [if_neg hc2]
        obtain ⟨r, hr, h1, h2, h3, h4, h5⟩ :=
          pot_shrink_spec (span.size.toNat + 1) span.size size_to_fill max_waste hsize hfill hw
            (Nat.lt_succ_self _)
        have hlt : r < span.size := h4 (by omega)
        rw [hr]
        exact ih size_to_fill { span with size := r } n_spans out hfill h1 hwaste
          (by simp only; omega)

theorem pot_slices_first (size_to_fill max_span_size max_waste : Int)
    (r : Int × Option (List CoglSpan)) (hfill : 1 ≤ size_to_fill) (hmax : 1 ≤ max_span_size)
    (h : _cogl_pot_slices_for_size size_to_fill max_span_size max_waste (some []) = some r) :
    FirstLargest (r.2.getD []) := by
  unfold _cogl_pot_slices_for_size at h
  obtain ⟨spans, heq, hfl⟩ :=
    pot_loop_first (size_to_fill.natAbs + max_span_size.natAbs + 2) size_to_fill
      { start := 0, size := max_span_size, waste := 0 }
      (if max_waste < 0 then 0 else max_waste) 0 [] hfill hmax (by split <;> omega) rfl
      (by simp only; omega)
  simp only at h
  rw [heq] at h
  cases h
  simpa using hfl

/-- In the spans chosen by slice creation the first span of each axis is the largest. -/
theorem plan_slices_first (drv : Driver) (max_waste width height : Int)
    (n_x n_y : Int) (xs ys : List CoglSpan) (hw : 1 ≤ width) (hh : 1 ≤ height)
    (h : plan_slices drv max_waste width height = some (some (n_x, n_y, xs, ys))) :
    FirstLargest xs ∧ FirstLargest ys := by
  have fin : ∀ (f : Int → Int → Int → Option (List CoglSpan) →
        Option (Int × Option (List CoglSpan))) (w0 h0 : Int),
      (∀ a b c r, 1 ≤ a → 1 ≤ b → f a b c (some []) = some r → FirstLargest (r.2.getD [])) →
      1 ≤ w0 → 1 ≤ h0 →
      (if max_waste ≤ -1 then
        if (!drv.size_supported w0 h0) = true then some none
        else
          some (some ((1 : Int), (1 : Int),
            [({ start := 0, size := w0, waste := w0 - width } : CoglSpan)],
            [({ start := 0, size := h0, waste := h0 - height } : CoglSpan)]))
      else
        match shrink_loop drv.size_supported (w0.natAbs + h0.natAbs + 1) w0 h0 with
        | none => none
        | some none => some none
        | some (some (max_width, max_height)) =>
          (f width max_width max_waste none).bind fun rx =>
          (f height max_height max_waste none).bind fun ry =>
          (f width max_width max_waste (some [])).bind fun ax =>
          (f height max_height max_waste (some [])).bind fun ay =>
          some (some (rx.1, ry.1, ax.2.getD [], ay.2.getD []))) =
        some (some (n_x, n_y, xs, ys)) →
      FirstLargest xs ∧ FirstLargest ys := by
    intro f w0 h0 hplan hw1 hh1 h
    by_cases hmw : max_waste ≤ -1
    · rw [if_pos hmw] at h
      by_cases hs : (!drv.size_supported w0 h0) = true
      · rw [if_pos hs] at h
        cases h
      · rw [if_neg hs] at h
        simp only [Option.some.injEq, Prod.mk.injEq] at h
        obtain ⟨-, -, rfl, rfl⟩ := h
        exact ⟨first_largest_single _, first_largest_single _⟩
    · rw [if_neg hmw] at h
      split at h
      · cases h
      · cases h
      · rename_i mw mh hsl
        obtain ⟨hmw1, hmh1⟩ := shrink_loop_pos _ _ _ _ _ _ hw1 hh1 hsl
        cases hx0 : f width mw max_waste none with
        | none => simp [hx0] at h
        | some rx =>
          cases hy0 : f height mh max_waste none with
          | none => simp [hx0, hy0] at h
          | some ry =>
            cases hx : f width mw max_waste (some []) with
            | none => simp [hx0, hy0, hx] at h
            | some ax =>
              cases hy : f height mh max_waste (some []) with
              | none => simp [hx0, hy0, hx, hy] at h
              | some ay =>
                simp [hx0, hy0, hx, hy] at h
                obtain ⟨-, -, rfl, rfl⟩ := h
                exact ⟨hplan _ _ _ _ hw hmw1 hx, hplan _ _ _ _ hh hmh1 hy⟩
  unfold plan_slices at h
  by_cases hn : drv.feature_texture_npot = true
  · simp only [hn, if_true] at h
    exact fin _ _ _ rect_slices_first hw hh h
  · have hn2 : drv.feature_texture_npot = false := by simpa using hn
    simp only [hn2, Bool.false_eq_true, if_false] at h
    exact fin _ _ _ pot_slices_first (next_p2_ge width).2 (next_p2_ge height).2 h

theorem fill_bottom_waste_length_any {α : Type} [Inhabited α] (bmp : CoglBitmap α)
    (src_x src_y : Int) (n extra rows : Nat) :
    (fill_bottom_waste bmp src_x src_y n extra rows).length = rows * (n + extra) := by
  unfold fill_bottom_waste
  induction rows with
  | zero => simp
  | succ k ih =>
    rw [List.range_succ, List.foldl_append]
    simp only [List.foldl_cons, List.foldl_nil]
    rw [foldl_push_last]
    simp only [List.length_append, List.length_map, List.length_range, List.length_replicate]
    rw [ih]
    ring

theorem waste_plan_of_planned (wx wy : Int) (xs ys : List CoglSpan) (hx : Planned wx xs)
    (hy : Planned wy ys) (hfx : FirstLargest xs) (hfy : FirstLargest ys) :
    WastePlan xs ys :=
  { x_ne := hx.ne
    y_ne := hy.ne
    x_waste := hx.waste
    y_waste := hy.waste
    x_inner := hx.inner
    y_inner := hy.inner
    x_first := hfx
    y_first := hfy }

theorem axis_span_facts (xs : List CoglSpan)
    (hw : ∀ s ∈ xs, 0 ≤ s.waste ∧ s.waste < s.size) (hin : ∀ s ∈ xs.dropLast, s.waste = 0)
    (hf : FirstLargest xs) (i : Nat) (hi : i < xs.length) :
    0 ≤ (xs.getD i default).waste ∧
    (xs.getD i default).waste ≤ (xs.getD (xs.length - 1) default).waste ∧
    (xs.getD i default).waste < (xs.getD i default).size ∧
    (xs.getD i default).size ≤ (xs.getD 0 default).size := by
  have hmem : xs.getD i default ∈ xs := by
    rw [List.getD_eq_getElem _ _ hi]
    exact List.getElem_mem _
  have hlast : xs.getD (xs.length - 1) default ∈ xs := by
    rw [List.getD_eq_getElem _ _ (by omega)]
    exact List.getElem_mem _
  refine ⟨(hw _ hmem).1, ?_, (hw _ hmem).2, hf _ hmem⟩
  by_cases hil : i + 1 < xs.length
  · have h0 : (xs.getD i default).waste = 0 := by
      apply hin
      apply mem_dropLast_of_succ xs i _ (xs.getD (i + 1) default)
      · rw [List.getD_eq_getElem _ _ hi, List.getElem?_eq_getElem hi]
      · rw [List.getD_eq_getElem _ _ hil, List.getElem?_eq_getElem hil]
    rw [h0]
    exact (hw _ hlast).1
  · have : i = xs.length - 1 := by omega
    rw [this]

theorem nat_mul_le_int (r c : Nat) (R C : Int) (hr : (r : Int) ≤ R) (hc : (c : Int) ≤ C) :
    ((r * c : Nat) : Int) ≤ R * C := by
  push_cast
  exact mul_le_mul hr hc (Int.ofNat_nonneg _) (le_trans (Int.ofNat_nonneg _) hr)

/-- A fill of at most `MAX (right_size, bottom_size)` pixels made when a last span has
waste fits the buffer of the allocator, when the byte count does not overflow. -/
theorem fits_waste_buffer_of_le {α : Type} (bpp : Nat → Int)
    (tex_2ds : CoglTexture2DSliced α) (format : Nat) (xs ys : List CoglSpan)
    (hxs : tex_2ds.slice_x_spans = some xs) (hys : tex_2ds.slice_y_spans = some ys)
    (hp : WastePlan xs ys) (hbpp : 0 < bpp format)
    (hfit : max ((ys.getD 0 default).size * (xs.getD (xs.length - 1) default).waste)
      ((xs.getD 0 default).size * (ys.getD (ys.length - 1) default).waste) * bpp format <
        2 ^ 32)
    (buf : List α)
    (hlast : (xs.getD (xs.length - 1) default).waste > 0 ∨
      (ys.getD (ys.length - 1) default).waste > 0)
    (hle : (buf.length : Int) ≤
      max ((ys.getD 0 default).size * (xs.getD (xs.length - 1) default).waste)
        ((xs.getD 0 default).size * (ys.getD (ys.length - 1) default).waste)) :
    FitsWasteBuffer bpp tex_2ds format buf := by
  have hxl : 0 < xs.length := List.length_pos.2 hp.x_ne
  have hyl : 0 < ys.length := List.length_pos.2 hp.y_ne
  obtain ⟨_, _, _, _⟩ := axis_span_facts xs hp.x_waste hp.x_inner hp.x_first 0 hxl
  obtain ⟨_, _, _, _⟩ := axis_span_facts ys hp.y_waste hp.y_inner hp.y_first 0 hyl
  obtain ⟨hlx0, _, _, _⟩ :=
    axis_span_facts xs hp.x_waste hp.x_inner hp.x_first (xs.length - 1) (by omega)
  obtain ⟨hly0, _, _, _⟩ :=
    axis_span_facts ys hp.y_waste hp.y_inner hp.y_first (ys.length - 1) (by omega)
  have hA : 0 ≤ (ys.getD 0 default).size * (xs.getD (xs.length - 1) default).waste :=
    mul_nonneg (by omega) hlx0
  have hB : 0 ≤ (xs.getD 0 default).size * (ys.getD (ys.length - 1) default).waste :=
    mul_nonneg (by omega) hly0
  generalize hAe : (ys.getD 0 default).size * (xs.getD (xs.length - 1) default).waste = A
    at hfit hle hA
  generalize hBe : (xs.getD 0 default).size * (ys.getD (ys.length - 1) default).waste = B
    at hfit hle hB
  have hM : max A B ≤ max A B * bpp format := le_mul_of_one_le_right (by omega) (by omega)
  have hA32 : A < 2 ^ 32 := by omega
  have hB32 : B < 2 ^ 32 := by omega
  unfold FitsWasteBuffer _cogl_texture_2d_sliced_allocate_waste_buffer
  simp only [hxs, hys, span_index, array_len, Option.getD_some, hAe, hBe]
  refine ⟨hle, ?_⟩
  rw [if_pos hlast]
  refine ⟨_, rfl, ?_⟩
  have e1 : to_guint A = A := Int.emod_eq_of_lt hA hA32
  have e2 : to_guint B = B := Int.emod_eq_of_lt hB hB32
  rw [e1, e2]
  have e3 : to_guint (max A B * bpp format) = max A B * bpp format :=
    Int.emod_eq_of_lt (by omega) hfit
  rw [e3]
  exact mul_le_mul_of_nonneg_right hle (by omega)

theorem upload_fills_le {α : Type} [Inhabited α] (xs ys : List CoglSpan)
    (hp : WastePlan xs ys) (bmp : CoglBitmap α) (x y : Nat) (hx : x < xs.length)
    (hy : y < ys.length) (buf : List α)
    (hbuf : buf ∈ upload_slice_waste_fills (xs.getD x default) (ys.getD y default) bmp) :
    ((xs.getD (xs.length - 1) default).waste > 0 ∨
      (ys.getD (ys.length - 1) default).waste > 0) ∧
    (buf.length : Int) ≤
      max ((ys.getD 0 default).size * (xs.getD (xs.length - 1) default).waste)
        ((xs.getD 0 default).size * (ys.getD (ys.length - 1) default).waste) := by
  obtain ⟨hx0, hx1, hx2, hx3⟩ := axis_span_facts xs hp.x_waste hp.x_inner hp.x_first x hx
  obtain ⟨hy0, hy1, hy2, hy3⟩ := axis_span_facts ys hp.y_waste hp.y_inner hp.y_first y hy
  unfold upload_slice_waste_fills at hbuf
  rcases List.mem_append.1 hbuf with hb | hb
  · by_cases hw : (xs.getD x default).waste > 0
    · rw [if_pos hw] at hb
      simp only [List.mem_singleton] at hb
      subst hb
      rw [fill_right_waste_length]
      refine ⟨Or.inl (by omega), le_trans ?_ (le_max_left _ _)⟩
      exact nat_mul_le_int _ _ _ _ (by omega) (by omega)
    · rw [if_neg hw] at hb
      simp at hb
  · by_cases hw : (ys.getD y default).waste > 0
    · rw [if_pos hw] at hb
      simp only [List.mem_singleton] at hb
      subst hb
      rw [fill_bottom_waste_length_any]
      refine ⟨Or.inr (by omega), le_trans ?_ (le_max_right _ _)⟩
      rw [Nat.mul_comm]
      exact nat_mul_le_int _ _ _ _ (by omega) (by omega)
    · rw [if_neg hw] at hb
      simp at hb

theorem subregion_fills_le {α : Type} [Inhabited α] (tex_2ds : CoglTexture2DSliced α)
    (xs ys : List CoglSpan) (hxs : tex_2ds.slice_x_spans = some xs)
    (hp : WastePlan xs ys) (src_x src_y dst_x dst_y : Int) (source_bmp : CoglBitmap α)
    (x_iter y_iter : CoglSpanIter) (hx : IterInBounds xs x_iter)
    (hy : IterInBounds ys y_iter) (buf : List α)
    (hbuf : buf ∈ sliced_subregion_waste_fills tex_2ds src_x src_y dst_x dst_y source_bmp
      y_iter (ys.getD y_iter.index.toNat default) x_iter) :
    ((xs.getD (xs.length - 1) default).waste > 0 ∨
      (ys.getD (ys.length - 1) default).waste > 0) ∧
    (buf.length : Int) ≤
      max ((ys.getD 0 default).size * (xs.getD (xs.length - 1) default).waste)
        ((xs.getD 0 default).size * (ys.getD (ys.length - 1) default).waste) := by
  have hxi : x_iter.index.toNat < xs.length := by
    have := hx.index_nonneg
    have := hx.index_lt
    omega
  have hyi : y_iter.index.toNat < ys.length := by
    have := hy.index_nonneg
    have := hy.index_lt
    omega
  obtain ⟨hx0, hx1, hx2, hx3⟩ :=
    axis_span_facts xs hp.x_waste hp.x_inner hp.x_first x_iter.index.toNat hxi
  obtain ⟨hy0, hy1, hy2, hy3⟩ :=
    axis_span_facts ys hp.y_waste hp.y_inner hp.y_first y_iter.index.toNat hyi
  have a1 := hx.start_ge
  have a2 := hx.start_le
  have a3 := hx.end_le
  have b1 := hy.start_ge
  have b2 := hy.start_le
  have b3 := hy.end_le
  unfold sliced_subregion_waste_fills at hbuf
  simp only [hxs, span_index, Option.getD_some] at hbuf
  rcases List.mem_append.1 hbuf with hb | hb
  · split at hb
    · rename_i hc
      simp only [List.mem_singleton] at hb
      subst hb
      rw [fill_right_waste_length]
      refine ⟨Or.inl (by omega), le_trans ?_ (le_max_left _ _)⟩
      exact nat_mul_le_int _ _ _ _ (by omega) (by omega)
    · simp at hb
  · split at hb
    · rename_i hc
      simp only [List.mem_singleton] at hb
      subst hb
      rw [fill_bottom_waste_length_any]
      refine ⟨Or.inr (by omega), le_trans ?_ (le_max_right _ _)⟩
      rw [Nat.mul_comm]
      refine nat_mul_le_int _ _ _ _ ?_ (by omega)
      split <;> omega
    · simp at hb

theorem slices_planned_waste_plan {α : Type} (tex_2ds : CoglTexture2DSliced α)
    (xs ys : List CoglSpan) (h : SlicesPlanned tex_2ds xs ys) : WastePlan xs ys := by
  obtain ⟨hxs, hys, hsrc⟩ := h
  rcases hsrc with ⟨drv, max_waste, width, height, n_x, n_y, hw, hh, hplan⟩ |
    ⟨drv, q, gl_handle, gl_target, width, height, xw, yw, hw, hh, hx, hy, hf⟩
  · obtain ⟨hpx, hpy⟩ := plan_slices_planned drv max_waste width height n_x n_y xs ys hw hh hplan
    obtain ⟨hfx, hfy⟩ := plan_slices_first drv max_waste width height n_x n_y xs ys hw hh hplan
    exact waste_plan_of_planned _ _ _ _ hpx hpy hfx hfy
  · obtain ⟨h1, h2, _, _, _, _, h7, h8⟩ :=
      new_from_foreign_some drv q gl_handle gl_target width height xw yw hw hh hx hy tex_2ds hf
    rw [hxs] at h7
    rw [hys] at h8
    simp only [Option.some.injEq] at h7 h8
    subst h7 h8
    exact
      { x_ne := by simp
        y_ne := by simp
        x_waste := by
          intro s hs
          simp at hs
          subst hs
          simp only
          omega
        y_waste := by
          intro s hs
          simp at hs
          subst hs
          simp only
          omega
        x_inner := by simp
        y_inner := by simp
        x_first := first_largest_single _
        y_first := first_largest_single _ }

/-- The waste fills fit the buffer as long as its size in bytes does not overflow: for a
texture whose span lists come from the slice planner (either policy, the single spans of
the no-slicing case, or a foreign texture), with a positive number of bytes per pixel and
a buffer size that does not overflow `unsigned int`: every right-edge
or bottom-edge fill of the full upload (any slice `(x, y)`) and of a sub-region upload
(any slice met by iterator steps within bounds) writes at most
`MAX (first_y_span.size * last_x_span.waste, first_x_span.size * last_y_span.waste)`
pixels, and the allocator has returned a buffer of at least that many pixels: a fill only
happens when a last span has waste. -/
theorem waste_fills_fit {α : Type} [Inhabited α] (_cogl_get_format_bpp : Nat → Int)
    (tex_2ds : CoglTexture2DSliced α) (format : Nat) (xs ys : List CoglSpan)
    (hplan : SlicesPlanned tex_2ds xs ys) (hbpp : 0 < _cogl_get_format_bpp format)
    (hfit :
      max ((span_index tex_2ds.slice_y_spans 0).size *
          (span_index tex_2ds.slice_x_spans (array_len tex_2ds.slice_x_spans - 1)).waste)
        ((span_index tex_2ds.slice_x_spans 0).size *
          (span_index tex_2ds.slice_y_spans (array_len tex_2ds.slice_y_spans - 1)).waste) *
        _cogl_get_format_bpp format < 2 ^ 32) :
    (∀ (bmp : CoglBitmap α) (x y : Nat), x < xs.length → y < ys.length →
      ∀ buf ∈ upload_slice_waste_fills (span_index tex_2ds.slice_x_spans x)
          (span_index tex_2ds.slice_y_spans y) bmp,
        FitsWasteBuffer _cogl_get_format_bpp tex_2ds format buf) ∧
    (∀ (src_x src_y dst_x dst_y : Int) (source_bmp : CoglBitmap α)
        (x_iter y_iter : CoglSpanIter),
      IterInBounds xs x_iter → IterInBounds ys y_iter →
      ∀ buf ∈ sliced_subregion_waste_fills tex_2ds src_x src_y dst_x dst_y source_bmp y_iter
          (span_index tex_2ds.slice_y_spans y_iter.index.toNat) x_iter,
        FitsWasteBuffer _cogl_get_format_bpp tex_2ds format buf) := by
  have hp := slices_planned_waste_plan tex_2ds xs ys hplan
  obtain ⟨hxs, hys, _⟩ := hplan
  simp only [hxs, hys, span_index, array_len, Option.getD_some] at hfit
  constructor
  · intro bmp x y hx hy buf hbuf
    simp only [hxs, hys, span_index, Option.getD_some] at hbuf
    obtain ⟨h1, h2⟩ := upload_fills_le xs ys hp bmp x y hx hy buf hbuf
    exact fits_waste_buffer_of_le _ tex_2ds format xs ys hxs hys hp hbpp hfit buf h1 h2
  · intro src_x src_y dst_x dst_y source_bmp x_iter y_iter hx hy buf hbuf
    simp only [hys, span_index, Option.getD_some] at hbuf
    obtain ⟨h1, h2⟩ :=
      subregion_fills_le tex_2ds xs ys hxs hp src_x src_y dst_x dst_y source_bmp x_iter y_iter
        hx hy buf hbuf
    exact fits_waste_buffer_of_le _ tex_2ds format xs ys hxs hys hp hbpp hfit buf h1 h2

theorem waste_fills_fit_witness :
    [6, 16, 26] ∈ upload_slice_waste_fills (span_index example_created.slice_x_spans 1)
      (span_index example_created.slice_y_spans 0) example_bitmap ∧
    FitsWasteBuffer (fun _ => 4) example_created 0 [6, 16, 26] :=
  ⟨by decide,
    (waste_fills_fit (fun _ => 4) example_created 0
      [{ start := 0, size := 4, waste := 0 }, { start := 4, size := 4, waste := 1 }]
      [{ start := 0, size := 4, waste := 1 }]
      ⟨rfl, rfl, Or.inl ⟨example_driver, 1, 7, 3, 2, 1, by decide, by decide, rfl⟩⟩
      (by decide) (by decide)).1 example_bitmap 1 0 (by decide) (by decide) [6, 16, 26]
      (by decide)⟩

/-! ## The waste buffer when its size overflows -/

/-- C28, evaluated: `_cogl_texture_2d_sliced_new_from_foreign` makes of a 49151 x 65536
surface with an x waste of 16385 a texture with the spans `(0, 65536, 16385)` and
`(0, 65536, 0)`. With 4 bytes per pixel the allocator computes
`MAX (65536 * 16385, 0) * 4` in `unsigned int`, which wraps to 262144 bytes. A sub-region
upload of the 10 x 10 rectangle at column 49141 reaches the last valid column; its
iterator steps are within bounds, and its right-edge fill writes 10 * 16385 pixels,
655400 bytes, into that buffer. -/
theorem waste_buffer_overflow :
    _cogl_texture_2d_sliced_new_from_foreign example_driver example_query 7 GL_TEXTURE_2D
        49151 65536 16385 0 = some example_huge_foreign ∧
    _cogl_texture_2d_sliced_allocate_waste_buffer (fun _ => 4) example_huge_foreign 0 =
      some 262144 ∧
    IterInBounds [{ start := 0, size := 65536, waste := 16385 }] example_huge_x_iter ∧
    IterInBounds [{ start := 0, size := 65536, waste := 0 }] example_huge_y_iter ∧
    ∃ buf ∈ sliced_subregion_waste_fills example_huge_foreign 0 0 49141 0 example_bitmap
        example_huge_y_iter (span_index example_huge_foreign.slice_y_spans 0)
        example_huge_x_iter,
      buf.length = 163850 ∧ (262144 : Int) < (buf.length : Int) * 4 ∧
      ¬ FitsWasteBuffer (fun _ => 4) example_huge_foreign 0 buf := by
  have halloc : _cogl_texture_2d_sliced_allocate_waste_buffer (fun _ => 4)
      example_huge_foreign 0 = some 262144 := by decide
  have hlen : (fill_right_waste example_bitmap (0 + 0 + 65536 - 16385 - 49141 - 1)
      (0 + 0 - 0) 10 16385).length = 163850 := by
    rw [fill_right_waste_length]
  refine ⟨rfl, halloc, ⟨by decide, by decide, by decide, by decide, by decide⟩,
    ⟨by decide, by decide, by decide, by decide, by decide⟩,
    fill_right_waste example_bitmap (0 + 0 + 65536 - 16385 - 49141 - 1) (0 + 0 - 0) 10 16385,
    ?_, hlen, ?_, ?_⟩
  · exact List.mem_append_left _ (List.mem_singleton_self _)
  · rw [hlen]
    decide
  · rintro ⟨_, size, hsize, hle⟩
    rw [halloc] at hsize
    cases hsize
    rw [hlen] at hle
    exact absurd hle (by decide)

end Cogl
